import Mathlib

/-!
# QAT engine, `qat_ec.c`: ECDH / ECDSA offload

A shallow embedding of `src/qat_ec.c` (ECDH compute-key, ECDSA sign, ECDSA
verify) together with the properties established for it.

Conventions of the embedding

* A `BIGNUM` is an integer (sign and magnitude).  Byte strings are lists of
  `Fin 256`.
* C `int` arithmetic is 32-bit two's complement (`wrapInt32`), unsigned
  32-bit arithmetic is taken modulo `2^32`, `size_t` modulo `2^64`.
* Every call into a collaborator that the source checks for failure
  (allocation, OpenSSL library call) is resolved by an oracle
  `Env.ok : Site → Bool`; calls that happen inside a loop are resolved by
  oracles indexed by the iteration number.
* Everything a builder does to the outside world is recorded, in program
  order, in a trace of `Ev` events.
* The two loops of each builder (submission, completion wait) need not
  terminate; they are run with a fuel argument and give `none` when the
  fuel runs out.
* Logging (`DEBUG`, `QATerr`, `CRYPTO_QAT_LOG`) and the handling of the
  `BN_CTX` are left out.  `initOpDone` is represented by `Env.job`, and
  `cleanupOpDone` by nothing: the source reads `op_done.verifyResult` after it
  (lines 1091 and 1444), so it is taken to leave that field alone.
-/

namespace QatEc

/-! ## Machine integers -/

/-- A byte. -/
abbrev Byte := Fin 256

/-- Value of a C `int` expression: reduction into `[-2^31, 2^31)`. -/
def wrapInt32 (x : Int) : Int := (x + 2147483648) % 4294967296 - 2147483648

/-- Conversion to a 32-bit unsigned value (`Cpa32U`, `useconds_t`). -/
def toUInt32 (x : Int) : Nat := (x % 4294967296).toNat

/-- Conversion to `size_t` (64 bit). -/
def toSizeT (x : Int) : Nat := (x % 18446744073709551616).toNat

/-! ## Big integers (OpenSSL `BN_*`, by their documented behaviour) -/

/-- OpenSSL `BIGNUM`: an integer with sign and magnitude. -/
abbrev BIGNUM := Int

/-- `BN_is_zero`. -/
def BN_is_zero (a : BIGNUM) : Bool := decide (a = 0)

/-- `BN_is_negative`. -/
def BN_is_negative (a : BIGNUM) : Bool := decide (a < 0)

/-- `BN_ucmp`: comparison of the magnitudes, as -1, 0 or 1. -/
def BN_ucmp (a b : BIGNUM) : Int :=
  if a.natAbs < b.natAbs then -1 else if a.natAbs = b.natAbs then 0 else 1

/-- `BN_cmp`: signed comparison, as -1, 0 or 1. -/
def BN_cmp (a b : BIGNUM) : Int :=
  if a < b then -1 else if a = b then 0 else 1

/-- Bit length of a natural number, by halving (the first argument bounds
the number of halvings). -/
def numBitsAux : Nat → Nat → Nat
  | 0, _ => 0
  | fuel + 1, n => if n = 0 then 0 else numBitsAux fuel (n / 2) + 1

/-- `BN_num_bits`: number of significant bits of the magnitude. -/
def BN_num_bits (a : BIGNUM) : Nat := numBitsAux a.natAbs a.natAbs

/-- `BN_bin2bn`: the non-negative integer a big-endian byte string denotes. -/
def BN_bin2bn (s : List Byte) : BIGNUM :=
  Int.ofNat (s.foldl (fun acc b => acc * 256 + b.val) 0)

/-- `BN_rshift`: shift of the magnitude to the right, the sign is kept. -/
def BN_rshift (a : BIGNUM) (n : Nat) : BIGNUM :=
  a.sign * Int.ofNat (a.natAbs >>> n)

/-- Big-endian bytes of a natural number, most significant first, no leading
zero byte (the first argument bounds the number of bytes). -/
def bytesBEAux : Nat → Nat → List Byte
  | 0, _ => []
  | fuel + 1, n =>
    if n = 0 then [] else bytesBEAux fuel (n / 256) ++ [Fin.ofNat (n % 256)]

/-- `BN_bn2bin`: minimal big-endian encoding of the magnitude. -/
def BN_bn2bin (a : BIGNUM) : List Byte := bytesBEAux a.natAbs a.natAbs

/-! ## Collaborator calls that may fail -/

/-- Accelerator-visible buffers, named after the descriptor field or result
variable that holds them. -/
inductive Buf
  | k | d | m | n | r | s | xg | yg | a | b | q | xp | yp
  | resX | resY | resR | resS
  deriving DecidableEq, Repr

/-- Call sites whose failure the source checks for. -/
inductive Site
  | malloc_opData
  | BN_CTX_new
  | ctx_p | ctx_a | ctx_b | ctx_xg | ctx_yg | ctx_xp | ctx_yp
  | ctx_m | ctx_k | ctx_r | ctx_order
  | malloc_res1 | malloc_res2
  | qae (buf : Buf)
  | qae_a_zero
  | get_order
  | BN_bin2bn | BN_rshift
  | get_curve | get_affine_g | get_affine_pub
  | async_setup
  | zalloc_outX | zalloc_outY
  | ECDSA_SIG_new | ECDSA_SIG_set0
  | gen_order_new | gen_ctx_new | gen_priv_new | gen_get_order | gen_set_private_key
  | gen_point_new | gen_x_new | gen_y_new | gen_tx_new | gen_ty_new
  | gen_set_affine | gen_get_affine | gen_set_public_key
  deriving DecidableEq, Repr

/-! ## Digest truncation -/

/-- Digest to message integer in `qat_ecdsa_do_sign` (lines 893-910):
`none` stands for `goto err`. -/
def qat_ecdsa_do_sign_digest (ok : Site → Bool) (dgst : List Byte)
    (dgst_len : Int) (order : BIGNUM) : Option BIGNUM :=
  let i : Nat := BN_num_bits order
  let dgst_len1 : Int :=
    if wrapInt32 (8 * dgst_len) > (i : Int) then
      Int.tdiv (wrapInt32 ((i : Int) + 7)) 8
    else dgst_len
  if !ok Site.BN_bin2bn then none
  else
    let m := BN_bin2bn (dgst.take dgst_len1.toNat)
    if wrapInt32 (8 * dgst_len1) > (i : Int) then
      if !ok Site.BN_rshift then none
      else some (BN_rshift m (8 - (i &&& 0x7)))
    else some m

/-- Digest to message integer in `qat_ecdsa_do_verify` (lines 1273-1288):
`none` stands for `goto err`. -/
def qat_ecdsa_do_verify_digest (ok : Site → Bool) (dgst : List Byte)
    (dgst_len : Int) (order : BIGNUM) : Option BIGNUM :=
  let i : Nat := BN_num_bits order
  let dgst_len1 : Int :=
    if wrapInt32 (8 * dgst_len) > (i : Int) then
      Int.tdiv (wrapInt32 ((i : Int) + 7)) 8
    else dgst_len
  if !ok Site.BN_bin2bn then none
  else
    let m := BN_bin2bn (dgst.take dgst_len1.toNat)
    if wrapInt32 (8 * dgst_len1) > (i : Int) then
      if !ok Site.BN_rshift then none
      else some (BN_rshift m (8 - (i &&& 0x7)))
    else some m

/-! ## Curves, keys, signatures (OpenSSL `EC_*`, as far as the builders
look into them) -/

/-- An `EC_POINT`, by the affine coordinates the library reports for it. -/
structure EC_POINT where
  x : BIGNUM
  y : BIGNUM
  deriving DecidableEq, Repr

/-- An `EC_GROUP`, by what the getters used in `qat_ec.c` return. -/
structure EC_GROUP where
  curve_name : Int
  field_type : Int
  degree : Int
  p : BIGNUM
  a : BIGNUM
  b : BIGNUM
  order : BIGNUM
  generator : Option EC_POINT
  deriving DecidableEq, Repr

/-- An `EC_KEY`; `none` in a field is a NULL pointer. -/
structure EC_KEY where
  group : Option EC_GROUP
  priv_key : Option BIGNUM
  pub_key : Option EC_POINT
  deriving DecidableEq, Repr

/-- An `ECDSA_SIG`. -/
structure ECDSA_SIG where
  r : BIGNUM
  s : BIGNUM
  deriving DecidableEq, Repr

/-- OpenSSL `NID_X25519` (obj_mac.h). -/
def NID_X25519 : Int := 1034

/-- OpenSSL `NID_X9_62_prime_field` (obj_mac.h). -/
def NID_X9_62_prime_field : Int := 406

/-- OpenSSL `NID_X9_62_characteristic_two_field` (obj_mac.h). -/
def NID_X9_62_characteristic_two_field : Int := 407

/-! ## Accelerator interface -/

/-- `CpaStatus` (cpa.h). -/
inductive CpaStatus
  | SUCCESS | FAIL | RETRY | RESOURCE | INVALID_PARAM | FATAL | UNSUPPORTED
  deriving DecidableEq, Repr

/-- `CpaCyEcFieldType`. -/
inductive CpaCyEcFieldType
  | PRIME | BINARY
  deriving DecidableEq, Repr

/-- `CpaFlatBuffer`: `pData` is `none` for a NULL pointer. -/
structure CpaFlatBuffer where
  pData : Option (List Byte)
  dataLenInBytes : Nat
  deriving DecidableEq, Repr

/-- A flat buffer with NULL data and length zero. -/
def nullFB : CpaFlatBuffer := { pData := none, dataLenInBytes := 0 }

/-- What a builder does to the outside world, in program order. -/
inductive Ev
  | qaeAlloc (buf : Buf) (len : Nat)
  | qaeFree (buf : Buf)
  | qaeCleanseFree (buf : Buf)
  | get_next_inst (got : Bool)
  | submit (status : CpaStatus)
  | usleep (us : Nat)
  | wake (okay : Bool)
  | pause (okay : Bool)
  | yield
  | flag (done : Bool)
  | readResult (buf : Buf)
  | sw_fallback
  | call_do_verify
  deriving DecidableEq, Repr

/-- Value returned by the software `compute_key` method. -/
structure SwComputeResult where
  ret : Int
  outX : Option (Option (List Byte))
  outlenX : Nat

/-- Everything outside `qat_ec.c` that a run depends on. -/
structure Env where
  /-- does the fallible call at this site succeed -/
  ok : Site → Bool
  /-- `initOpDone`: is there a current fiber job (`op_done.job` not NULL) -/
  job : Bool
  /-- `getQatPollInterval()`, a `useconds_t` -/
  ulPollInterval : Nat
  /-- `getQatMsgRetryCount()`, an `int` -/
  iMsgRetry : Int
  /-- the constant `QAT_INFINITE_MAX_NUM_RETRIES` (e_qat.h, not among the sources) -/
  QAT_INFINITE_MAX_NUM_RETRIES : Int
  /-- the constant `QAT_RETRY_BACKOFF_MODULO_DIVISOR` (e_qat.h, not among the sources) -/
  QAT_RETRY_BACKOFF_MODULO_DIVISOR : Int
  /-- does the k-th call of `get_next_inst()` yield an instance -/
  inst : Nat → Bool
  /-- status the accelerator returns to the k-th submission -/
  resp : Nat → CpaStatus
  /-- does `qat_wake_job` succeed in the k-th round of the submit loop -/
  wake : Nat → Bool
  /-- does `qat_pause_job` succeed in the k-th round of the submit loop -/
  pause : Nat → Bool
  /-- does `qat_pause_job` succeed in the j-th round of the completion wait -/
  waitPause : Nat → Bool
  /-- value of `op_done.flag` read at the end of the j-th round of the wait -/
  flag : Nat → Bool
  /-- `op_done.verifyResult == CPA_TRUE` when read after the wait -/
  verifyResult : Bool
  /-- bytes found in a result buffer once completion has been observed -/
  resultBytes : Buf → List Byte
  /-- `dataLenInBytes` of a result buffer once completion has been observed -/
  resultLen : Buf → Nat
  /-- the j-th `BN_rand_range` draw, `none` when the call fails -/
  rand : Nat → Option BIGNUM
  /-- `compute_key` of `EC_KEY_OpenSSL()`, `none` when the table has none -/
  sw_compute_key : Option (Option (Option (List Byte)) → Nat → EC_POINT → EC_KEY → SwComputeResult)
  /-- `d2i_ECDSA_SIG` on a buffer and a length, `none` when parsing fails -/
  d2i_ECDSA_SIG : List Byte → Int → Option ECDSA_SIG
  /-- `i2d_ECDSA_SIG`: returned length and the encoding written -/
  i2d_ECDSA_SIG : ECDSA_SIG → Int × List Byte
  /-- `keygen` of `EC_KEY_OpenSSL()`, `none` when the table has none: the value
  returned and the key as the method leaves it -/
  sw_generate_key : Option (EC_KEY → Int × EC_KEY)
  /-- the point as the library holds it after a successful
  `EC_POINT_set_affine_coordinates_GFp` or `_GF2m` with these coordinates -/
  set_affine : EC_GROUP → BIGNUM → BIGNUM → EC_POINT

/-- Outcome of `qat_BN_to_FB`. -/
structure FBResult where
  ok : Bool
  fb : CpaFlatBuffer
  evs : List Ev

/-- Modelled from the spec: `qat_BN_to_FB` lives in `qat_asym_common.c`, which
is not among the sources.  Section 4.1: the encoder turns the integer into its
minimal big-endian byte string in accelerator memory; the natural encoding of
zero is a null buffer of length zero; the encoder fails when the allocation
fails. -/
def qat_BN_to_FB (allocOk : Bool) (buf : Buf) (bn : BIGNUM) : FBResult :=
  if (BN_bn2bin bn).length = 0 then { ok := true, fb := nullFB, evs := [] }
  else if allocOk then
    { ok := true
      fb := { pData := some (BN_bn2bin bn), dataLenInBytes := (BN_bn2bin bn).length }
      evs := [Ev.qaeAlloc buf (BN_bn2bin bn).length] }
  else { ok := false, fb := nullFB, evs := [] }

/-- Modelled from the spec: the macro `QAT_CHK_QMFREE_FLATBUFF` (header not
among the sources); sections 3 and 7: a buffer that was allocated is released
through the plain path. -/
def QAT_CHK_QMFREE_FLATBUFF (buf : Buf) (fb : CpaFlatBuffer) : List Ev :=
  if fb.pData.isSome then [Ev.qaeFree buf] else []

/-- Modelled from the spec: the macro `QAT_CHK_CLNSE_QMFREE_FLATBUFF` (header
not among the sources); sections 3 and 7: a buffer that was allocated is
cleared and then released. -/
def QAT_CHK_CLNSE_QMFREE_FLATBUFF (buf : Buf) (fb : CpaFlatBuffer) : List Ev :=
  if fb.pData.isSome then [Ev.qaeCleanseFree buf] else []

/-! ## The submit loop and the completion wait -/

/-- How the submit loop was left. -/
inductive LoopExit
  /-- `get_next_inst()` gave NULL: `cleanupOpDone`, `goto err` -/
  | noInstance
  /-- the loop ended, by `break` or by its condition, with this `status` -/
  | status (s : CpaStatus)
  deriving DecidableEq, Repr

/-- The submit loop, lines 422-456 (`cpaCyEcPointMultiply`), 1029-1063
(`cpaCyEcdsaSignRS`) and 1384-1416 (`cpaCyEcdsaVerify`): the same text three
times.  Arguments: fuel, number `k` of the round, `qatPerformOpRetries`. -/
def submitLoop (env : Env) : Nat → Nat → Int → Option (LoopExit × List Ev)
  | 0, _, _ => none
  | fuel + 1, k, qatPerformOpRetries =>
    if !env.inst k then some (LoopExit.noInstance, [Ev.get_next_inst false])
    else
      let status := env.resp k
      if status = CpaStatus.RETRY then
        if !env.job then
          let us := toUInt32 ((env.ulPollInterval : Int)
            + Int.tmod qatPerformOpRetries env.QAT_RETRY_BACKOFF_MODULO_DIVISOR)
          let retries1 := wrapInt32 (qatPerformOpRetries + 1)
          if env.iMsgRetry ≠ env.QAT_INFINITE_MAX_NUM_RETRIES ∧ retries1 ≥ env.iMsgRetry then
            some (LoopExit.status CpaStatus.RETRY,
              [Ev.get_next_inst true, Ev.submit status, Ev.usleep us])
          else
            match submitLoop env fuel (k + 1) retries1 with
            | none => none
            | some (e, evs) =>
              some (e, [Ev.get_next_inst true, Ev.submit status, Ev.usleep us] ++ evs)
        else
          if !env.wake k then
            some (LoopExit.status CpaStatus.FAIL,
              [Ev.get_next_inst true, Ev.submit status, Ev.wake false])
          else if !env.pause k then
            some (LoopExit.status CpaStatus.FAIL,
              [Ev.get_next_inst true, Ev.submit status, Ev.wake true, Ev.pause false])
          else
            match submitLoop env fuel (k + 1) qatPerformOpRetries with
            | none => none
            | some (e, evs) =>
              some (e, [Ev.get_next_inst true, Ev.submit status, Ev.wake true,
                Ev.pause true] ++ evs)
      else some (LoopExit.status status, [Ev.get_next_inst true, Ev.submit status])

/-- The completion wait, lines 464-480, 1071-1087 and 1424-1440 (the same
text three times).  Arguments: fuel and number `j` of the round. -/
def waitLoop (env : Env) : Nat → Nat → Option (List Ev)
  | 0, _ => none
  | fuel + 1, j =>
    let evs : List Ev :=
      if env.job then
        (if !env.waitPause j then [Ev.pause false, Ev.yield] else [Ev.pause true])
      else [Ev.yield]
    if env.flag j then some (evs ++ [Ev.flag true])
    else
      match waitLoop env fuel (j + 1) with
      | none => none
      | some rest => some (evs ++ [Ev.flag false] ++ rest)

/-- Number of submissions in a trace. -/
def submissions : List Ev → Nat
  | [] => 0
  | Ev.submit _ :: t => submissions t + 1
  | _ :: t => submissions t

/-- Number of calls of `get_next_inst` in a trace. -/
def acquisitions : List Ev → Nat
  | [] => 0
  | Ev.get_next_inst _ :: t => acquisitions t + 1
  | _ :: t => acquisitions t

/-- The sleeps requested in a trace, in order. -/
def sleeps : List Ev → List Nat
  | [] => []
  | Ev.usleep us :: t => us :: sleeps t
  | _ :: t => sleeps t

/-- Has the completion wait been entered (a round of it reads the flag). -/
def enteredWait (tr : List Ev) : Bool :=
  tr.any (fun e => match e with
    | Ev.flag _ => true
    | _ => false)

/-! ## Locals of a builder and the steps builders are made of -/

/-- Locals of a builder that its `err` label looks at: the descriptor
`opData`, the two result buffers (`pResultX`, `pResultY` in ECDH, `pResultR`,
`pResultS` in sign, unused in verify; `none` is a NULL pointer), the variable
`ret` (verify), the events so far, and whether control is still falling
through (`ok = true`) or has taken `goto err` (`ok = false`). -/
structure Locals (Op : Type) where
  opData : Op
  pResult1 : Option CpaFlatBuffer
  pResult2 : Option CpaFlatBuffer
  ret : Int
  evs : List Ev
  ok : Bool

/-- A call that can fail, `if (!call) goto err`, with no other effect on the
locals; `c` tells whether the call succeeds. -/
def Locals.check {Op : Type} (c : Bool) (s : Locals Op) : Locals Op :=
  if s.ok && !c then { s with ok := false } else s

/-- The statement `if (qat_BN_to_FB(&opData->field, bn) != 1) goto err`; `set` stores the
flat buffer into the field. -/
def Locals.encode {Op : Type} (allocOk : Bool) (buf : Buf) (bn : BIGNUM)
    (set : Op → CpaFlatBuffer → Op) (s : Locals Op) : Locals Op :=
  if !s.ok then s
  else
    { s with
      opData := set s.opData (qat_BN_to_FB allocOk buf bn).fb
      evs := s.evs ++ (qat_BN_to_FB allocOk buf bn).evs
      ok := (qat_BN_to_FB allocOk buf bn).ok }

/-- Allocation of the first result buffer (lines 332-342, 995-1005):
`OPENSSL_malloc` of the `CpaFlatBuffer`, `qaeCryptoMemAlloc(buflen)` for its
data, `dataLenInBytes = (Cpa32U) buflen`. -/
def Locals.allocResult1 {Op : Type} (mallocOk qaeOk : Bool) (buf : Buf) (buflen : Nat)
    (s : Locals Op) : Locals Op :=
  if !s.ok then s
  else if !mallocOk then { s with ok := false }
  else if !qaeOk then { s with pResult1 := some nullFB, ok := false }
  else
    { s with
      pResult1 := some { pData := some (List.replicate buflen 0),
                         dataLenInBytes := toUInt32 buflen }
      evs := s.evs ++ [Ev.qaeAlloc buf buflen] }

/-- Allocation of the second result buffer (lines 343-353, 1006-1016). -/
def Locals.allocResult2 {Op : Type} (mallocOk qaeOk : Bool) (buf : Buf) (buflen : Nat)
    (s : Locals Op) : Locals Op :=
  if !s.ok then s
  else if !mallocOk then { s with ok := false }
  else if !qaeOk then { s with pResult2 := some nullFB, ok := false }
  else
    { s with
      pResult2 := some { pData := some (List.replicate buflen 0),
                         dataLenInBytes := toUInt32 buflen }
      evs := s.evs ++ [Ev.qaeAlloc buf buflen] }

/-- An assignment to the descriptor. -/
def Locals.assign {Op : Type} (f : Op → Op) (s : Locals Op) : Locals Op :=
  if !s.ok then s else { s with opData := f s.opData }

/-- Lines 394-404 (ECDH): a coefficient `a` encoded as a null buffer of length
zero is replaced by one zero byte; a failed allocation leads to `goto err`. -/
def Locals.zeroA_checked {Op : Type} (allocOk : Bool) (get : Op → CpaFlatBuffer)
    (set : Op → CpaFlatBuffer → Op) (s : Locals Op) : Locals Op :=
  if !s.ok then s
  else if (get s.opData).pData.isNone && decide ((get s.opData).dataLenInBytes = 0) then
    if !allocOk then { s with ok := false }
    else
      { s with
        opData := set s.opData { pData := some [0], dataLenInBytes := 1 }
        evs := s.evs ++ [Ev.qaeAlloc Buf.a 1] }
  else s

/-- Lines 956-962 (sign) and 1332-1338 (verify): the same replacement, but the
result of the allocation is not checked: the length is set to 1 in any case
and the byte is written only when the allocation succeeded. -/
def Locals.zeroA_unchecked {Op : Type} (allocOk : Bool) (get : Op → CpaFlatBuffer)
    (set : Op → CpaFlatBuffer → Op) (s : Locals Op) : Locals Op :=
  if !s.ok then s
  else if (get s.opData).pData.isNone && decide ((get s.opData).dataLenInBytes = 0) then
    if !allocOk then
      { s with opData := set s.opData { pData := none, dataLenInBytes := 1 } }
    else
      { s with
        opData := set s.opData { pData := some [0], dataLenInBytes := 1 }
        evs := s.evs ++ [Ev.qaeAlloc Buf.a 1] }
  else s

/-- The field type handed to the accelerator (lines 360-380, 924-941,
1295-1316). -/
def fieldTypeOf (group : EC_GROUP) : CpaCyEcFieldType :=
  if group.field_type = NID_X9_62_prime_field then CpaCyEcFieldType.PRIME
  else CpaCyEcFieldType.BINARY

/-! ## ECDH: `qat_ecdh_compute_key` (lines 237-537) -/

/-- `CpaCyEcPointMultiplyOpData`. -/
structure CpaCyEcPointMultiplyOpData where
  k : CpaFlatBuffer
  xg : CpaFlatBuffer
  yg : CpaFlatBuffer
  a : CpaFlatBuffer
  b : CpaFlatBuffer
  q : CpaFlatBuffer
  h : CpaFlatBuffer
  fieldType : Option CpaCyEcFieldType
  deriving DecidableEq, Repr

/-- Locals of `qat_ecdh_compute_key` after line 301. -/
def qat_ecdh_compute_key_init : Locals CpaCyEcPointMultiplyOpData :=
  { opData := { k := nullFB, xg := nullFB, yg := nullFB, a := nullFB, b := nullFB,
                q := nullFB, h := nullFB, fieldType := none }
    pResult1 := none, pResult2 := none, ret := -1, evs := [], ok := true }

/-- The value of `buflen` at line 331. -/
def qat_ecdh_compute_key_buflen (group : EC_GROUP) : Nat :=
  toSizeT (Int.tdiv (wrapInt32 (group.degree + 7)) 8)

/-- Lines 292-418 of `qat_ecdh_compute_key`: from the initialisation of the
descriptor to `initOpDone` and the set-up of the event notification. -/
def qat_ecdh_compute_key_build (env : Env) (group : EC_GROUP) (priv_key : BIGNUM)
    (pub_key : EC_POINT) : Locals CpaCyEcPointMultiplyOpData :=
  qat_ecdh_compute_key_init
  |>.check (env.ok Site.BN_CTX_new)
  |>.check (env.ok Site.ctx_p)
  |>.check (env.ok Site.ctx_a)
  |>.check (env.ok Site.ctx_b)
  |>.check (env.ok Site.ctx_xg)
  |>.check (env.ok Site.ctx_yg)
  |>.allocResult1 (env.ok Site.malloc_res1) (env.ok (Site.qae Buf.resX)) Buf.resX
      (qat_ecdh_compute_key_buflen group)
  |>.allocResult2 (env.ok Site.malloc_res2) (env.ok (Site.qae Buf.resY)) Buf.resY
      (qat_ecdh_compute_key_buflen group)
  |>.encode (env.ok (Site.qae Buf.k)) Buf.k priv_key (fun op fb => { op with k := fb })
  |>.check (env.ok Site.get_curve)
  |>.check (env.ok Site.get_affine_pub)
  |>.assign (fun op => { op with fieldType := some (fieldTypeOf group) })
  |>.encode (env.ok (Site.qae Buf.xg)) Buf.xg pub_key.x (fun op fb => { op with xg := fb })
  |>.encode (env.ok (Site.qae Buf.yg)) Buf.yg pub_key.y (fun op fb => { op with yg := fb })
  |>.encode (env.ok (Site.qae Buf.a)) Buf.a group.a (fun op fb => { op with a := fb })
  |>.zeroA_checked (env.ok Site.qae_a_zero) (fun op => op.a) (fun op fb => { op with a := fb })
  |>.encode (env.ok (Site.qae Buf.b)) Buf.b group.b (fun op fb => { op with b := fb })
  |>.encode (env.ok (Site.qae Buf.q)) Buf.q group.p (fun op fb => { op with q := fb })
  |>.check (!env.job || env.ok Site.async_setup)

/-- The `err` label of `qat_ecdh_compute_key`, lines 515-531: release of the
result buffers and of the descriptor fields. -/
def qat_ecdh_compute_key_err (pResultX pResultY : Option CpaFlatBuffer)
    (opData : CpaCyEcPointMultiplyOpData) : List Ev :=
  (match pResultX with
    | none => []
    | some fb => QAT_CHK_CLNSE_QMFREE_FLATBUFF Buf.resX fb)
  ++ (match pResultY with
    | none => []
    | some fb => QAT_CHK_CLNSE_QMFREE_FLATBUFF Buf.resY fb)
  ++ QAT_CHK_CLNSE_QMFREE_FLATBUFF Buf.k opData.k
  ++ QAT_CHK_QMFREE_FLATBUFF Buf.xg opData.xg
  ++ QAT_CHK_QMFREE_FLATBUFF Buf.yg opData.yg
  ++ QAT_CHK_QMFREE_FLATBUFF Buf.a opData.a
  ++ QAT_CHK_QMFREE_FLATBUFF Buf.b opData.b
  ++ QAT_CHK_QMFREE_FLATBUFF Buf.q opData.q

/-- The caller's output cells of `qat_ecdh_compute_key`.  For `outX` and
`outY`, `none` is a NULL pointer and `some v` a pointer to a cell holding `v`
(`v = none`: the cell holds NULL).  `outlenX` and `outlenY` are the values of
`*outlenX` and `*outlenY`. -/
structure OutParams where
  outX : Option (Option (List Byte))
  outlenX : Nat
  outY : Option (Option (List Byte))
  outlenY : Nat
  deriving DecidableEq, Repr

/-- Outcome of the copy-out step. -/
structure CopyOut where
  ok : Bool
  out : OutParams
  evs : List Ev

/-- A `memcpy` of `n` bytes out of a flat buffer. -/
def memcpyFrom (src : Option (List Byte)) (n : Nat) : List Byte :=
  (src.getD []).take n

/-- Lines 491-499 of `qat_ecdh_compute_key`: copy-out of X. -/
def qat_ecdh_compute_key_copy_outX (env : Env) (o : OutParams)
    (pResultX : CpaFlatBuffer) : CopyOut :=
  match o.outX with
  | none => { ok := true, out := o, evs := [] }
  | some _ =>
    if !env.ok Site.zalloc_outX then
      { ok := false
        out := { o with outlenX := pResultX.dataLenInBytes, outX := some none }
        evs := [] }
    else
      { ok := true
        out := { o with
                 outlenX := pResultX.dataLenInBytes
                 outX := some (some (memcpyFrom pResultX.pData pResultX.dataLenInBytes)) }
        evs := [Ev.readResult Buf.resX] }

/-- Lines 490-512 of `qat_ecdh_compute_key`: copy of the result buffers into
the caller's outputs (`ok = false`: `goto err`). -/
def qat_ecdh_compute_key_copy_out (env : Env) (o : OutParams)
    (pResultX pResultY : CpaFlatBuffer) : CopyOut :=
  let sX := qat_ecdh_compute_key_copy_outX env o pResultX
  if !sX.ok then sX
  else
    match sX.out.outY with
    | none => sX
    | some _ =>
      if sX.out.outlenY ≠ pResultY.dataLenInBytes then { sX with ok := false }
      else if !env.ok Site.zalloc_outY then
        { ok := false, out := { sX.out with outY := some none }, evs := sX.evs }
      else
        { ok := true
          out := { sX.out with
                   outY := some (some (memcpyFrom pResultY.pData pResultY.dataLenInBytes)) }
          evs := sX.evs ++ [Ev.readResult Buf.resY] }

/-- A result buffer as found once completion has been observed. -/
def resultBuffer (env : Env) (buf : Buf) : CpaFlatBuffer :=
  { pData := some (env.resultBytes buf), dataLenInBytes := env.resultLen buf }

/-- What a call of `qat_ecdh_compute_key` leaves behind. -/
structure EcdhOut where
  ret : Int
  out : OutParams
  trace : List Ev
  /-- the locals when the submit loop was entered, `none` if it never was -/
  submitted : Option (Locals CpaCyEcPointMultiplyOpData)

/-- Lines 464-537 of `qat_ecdh_compute_key`: completion wait, copy-out and
the `err` label, after a submit loop that was left with status success and
emitted the events `evs1`. -/
def qat_ecdh_compute_key_complete (env : Env) (fuel : Nat) (o : OutParams)
    (l : Locals CpaCyEcPointMultiplyOpData) (evs1 : List Ev) : Option EcdhOut :=
  match waitLoop env fuel 0 with
  | none => none
  | some evs2 =>
    if !env.verifyResult then
      some { ret := -1, out := o, submitted := some l,
             trace := l.evs ++ evs1 ++ evs2
               ++ qat_ecdh_compute_key_err (some (resultBuffer env Buf.resX))
                    (some (resultBuffer env Buf.resY)) l.opData }
    else
      some { ret := if (qat_ecdh_compute_key_copy_out env o (resultBuffer env Buf.resX)
                      (resultBuffer env Buf.resY)).ok
                    then wrapInt32 (qat_ecdh_compute_key_copy_out env o
                      (resultBuffer env Buf.resX) (resultBuffer env Buf.resY)).out.outlenX
                    else -1
             out := (qat_ecdh_compute_key_copy_out env o (resultBuffer env Buf.resX)
                      (resultBuffer env Buf.resY)).out
             submitted := some l
             trace := l.evs ++ evs1 ++ evs2
               ++ (qat_ecdh_compute_key_copy_out env o (resultBuffer env Buf.resX)
                      (resultBuffer env Buf.resY)).evs
               ++ qat_ecdh_compute_key_err (some (resultBuffer env Buf.resX))
                    (some (resultBuffer env Buf.resY)) l.opData }

/-- Lines 422-537 of `qat_ecdh_compute_key`: submit loop, then either the
`err` label or the completion wait and what follows it, from the locals `l`
built before. -/
def qat_ecdh_compute_key_run (env : Env) (fuel : Nat) (o : OutParams)
    (l : Locals CpaCyEcPointMultiplyOpData) : Option EcdhOut :=
  match submitLoop env fuel 0 0 with
  | none => none
  | some (e, evs1) =>
    if e ≠ LoopExit.status CpaStatus.SUCCESS then
      some { ret := -1, out := o, submitted := some l,
             trace := l.evs ++ evs1
               ++ qat_ecdh_compute_key_err l.pResult1 l.pResult2 l.opData }
    else qat_ecdh_compute_key_complete env fuel o l evs1

/-- The function `qat_ecdh_compute_key` (lines 237-537).  `none`: the fuel ran
out in one of the two loops. -/
def qat_ecdh_compute_key (env : Env) (fuel : Nat) (o : OutParams)
    (pub_key : EC_POINT) (ecdh : Option EC_KEY) : Option EcdhOut :=
  match ecdh with
  | none => some { ret := -1, out := o, trace := [], submitted := none }
  | some key =>
    match key.priv_key with
    | none => some { ret := -1, out := o, trace := [], submitted := none }
    | some priv_key =>
      match key.group with
      | none => some { ret := -1, out := o, trace := [], submitted := none }
      | some group =>
        if group.curve_name = NID_X25519 then
          match env.sw_compute_key with
          | none => some { ret := -1, out := o, trace := [], submitted := none }
          | some f =>
            some { ret := (f o.outX o.outlenX pub_key key).ret
                   out := { o with outX := (f o.outX o.outlenX pub_key key).outX
                                   outlenX := (f o.outX o.outlenX pub_key key).outlenX }
                   trace := [Ev.sw_fallback], submitted := none }
        else if !env.ok Site.malloc_opData then
          some { ret := -1, out := o, trace := [], submitted := none }
        else if !(qat_ecdh_compute_key_build env group priv_key pub_key).ok then
          some { ret := -1, out := o, submitted := none,
                 trace := (qat_ecdh_compute_key_build env group priv_key pub_key).evs
                   ++ qat_ecdh_compute_key_err
                        (qat_ecdh_compute_key_build env group priv_key pub_key).pResult1
                        (qat_ecdh_compute_key_build env group priv_key pub_key).pResult2
                        (qat_ecdh_compute_key_build env group priv_key pub_key).opData }
        else
          qat_ecdh_compute_key_run env fuel o
            (qat_ecdh_compute_key_build env group priv_key pub_key)

/-! ## ECDH key generation: `qat_ecdh_generate_key` (lines 547-737)

The function is modelled as compiled without `OPENSSL_FIPS`. -/

/-- What a call of `qat_ecdh_generate_key` leaves behind: the value returned,
the key as the call leaves it (`none`: the pointer passed was NULL) and the
events. -/
structure GenOut where
  ret : Int
  key : Option EC_KEY
  trace : List Ev
  deriving DecidableEq, Repr

/-- The loop `do BN_rand_range(priv_key, order) while BN_is_zero(priv_key)` of
lines 603-608.  Arguments: fuel, number of the draw, and the value held by the
BIGNUM `priv_key`, which every successful draw overwrites (a failing call is
taken to leave it as it was).  `none`: out of fuel; `(false, v)`:
`BN_rand_range` failed (`goto err`); `(true, v)`: the loop was left with `v`. -/
def qat_ecdh_generate_key_draw (env : Env) : Nat → Nat → BIGNUM → Option (Bool × BIGNUM)
  | 0, _, _ => none
  | fuel + 1, j, cur =>
    match env.rand j with
    | none => some (false, cur)
    | some v =>
      if BN_is_zero v then qat_ecdh_generate_key_draw env fuel (j + 1) v else some (true, v)

/-- Lines 655-713 of `qat_ecdh_generate_key`: the coordinates are set on the
point `pub_key`, read back and compared, and the point is installed in the
key.  The two branches (prime field, characteristic two) differ only in the
library functions called.  When the key already has a public key, `pub_key`
is that very point (line 617), so setting the coordinates changes it in
place (a failing call is taken to leave it as it was).  Result: the value of
`ok` and the key at the `err` label. -/
def qat_ecdh_generate_key_install (env : Env) (group : EC_GROUP) (key : EC_KEY)
    (x_bn y_bn : BIGNUM) : Int × EC_KEY :=
  if group.field_type = NID_X9_62_prime_field
      ∨ group.field_type = NID_X9_62_characteristic_two_field then
    if !env.ok Site.gen_set_affine then (0, key)
    else if !env.ok Site.gen_get_affine
        ∨ BN_cmp x_bn (env.set_affine group x_bn y_bn).x ≠ 0
        ∨ BN_cmp y_bn (env.set_affine group x_bn y_bn).y ≠ 0
        ∨ !env.ok Site.gen_set_public_key then
      (0, if key.pub_key.isSome
          then { key with pub_key := some (env.set_affine group x_bn y_bn) } else key)
    else (1, { key with pub_key := some (env.set_affine group x_bn y_bn) })
  else (0, key)

/-- The value of `temp_xfield_size` and `temp_yfield_size` at line 632. -/
def qat_ecdh_generate_key_field_len (group : EC_GROUP) : Nat :=
  toSizeT (Int.tdiv (wrapInt32 (group.degree + 7)) 8)

/-- Lines 617-737 of `qat_ecdh_generate_key`, with `key` the key once it
carries the scalar drawn.  `none`: the fuel ran out, or the group has no
generator (the source then hands a NULL point to `qat_ecdh_compute_key` and
on to the library, which is outside this model). -/
def qat_ecdh_generate_key_public (env : Env) (fuel : Nat) (group : EC_GROUP)
    (key : EC_KEY) : Option GenOut :=
  if key.pub_key.isNone && !env.ok Site.gen_point_new then
    some { ret := 0, key := some key, trace := [] }
  else if group.degree ≤ 0 then some { ret := 0, key := some key, trace := [] }
  else
    match group.generator with
    | none => none
    | some gen =>
      match qat_ecdh_compute_key env fuel
          { outX := some none, outlenX := qat_ecdh_generate_key_field_len group
            outY := some none, outlenY := qat_ecdh_generate_key_field_len group }
          gen (some key) with
      | none => none
      | some r =>
        if r.ret ≤ 0 then some { ret := 0, key := some key, trace := r.trace }
        else if !env.ok Site.gen_x_new || !env.ok Site.gen_y_new
            || !env.ok Site.gen_tx_new || !env.ok Site.gen_ty_new then
          some { ret := 0, key := some key, trace := r.trace }
        else
          some { ret := (qat_ecdh_generate_key_install env group key
                   (BN_bin2bn (memcpyFrom r.out.outX.join r.out.outlenX))
                   (BN_bin2bn (memcpyFrom r.out.outY.join r.out.outlenY))).1
                 key := some (qat_ecdh_generate_key_install env group key
                   (BN_bin2bn (memcpyFrom r.out.outX.join r.out.outlenX))
                   (BN_bin2bn (memcpyFrom r.out.outY.join r.out.outlenY))).2
                 trace := r.trace }

/-- The function `qat_ecdh_generate_key` (lines 547-737).  When the key
already has a private key, `priv_key` is that very BIGNUM (line 590) and the
draws overwrite it in place; otherwise the scalar drawn is installed by
`EC_KEY_set_private_key` (line 611). -/
def qat_ecdh_generate_key (env : Env) (fuel : Nat) (ecdh : Option EC_KEY) : Option GenOut :=
  match ecdh with
  | none => some { ret := 0, key := none, trace := [] }
  | some key =>
    match key.group with
    | none => some { ret := 0, key := some key, trace := [] }
    | some group =>
      if group.curve_name = NID_X25519 then
        match env.sw_generate_key with
        | none => some { ret := 0, key := some key, trace := [] }
        | some f => some { ret := (f key).1, key := some (f key).2, trace := [Ev.sw_fallback] }
      else if !env.ok Site.gen_order_new || !env.ok Site.gen_ctx_new then
        some { ret := 0, key := some key, trace := [] }
      else if key.priv_key.isNone && !env.ok Site.gen_priv_new then
        some { ret := 0, key := some key, trace := [] }
      else if !env.ok Site.gen_get_order then
        some { ret := 0, key := some key, trace := [] }
      else
        match qat_ecdh_generate_key_draw env fuel 0 (key.priv_key.getD 0) with
        | none => none
        | some d =>
          if !d.1 then
            some { ret := 0, trace := []
                   key := some (if key.priv_key.isSome then { key with priv_key := some d.2 }
                                else key) }
          else if key.priv_key.isNone && !env.ok Site.gen_set_private_key then
            some { ret := 0, key := some key, trace := [] }
          else qat_ecdh_generate_key_public env fuel group { key with priv_key := some d.2 }

/-! ## ECDSA sign: `qat_ecdsa_do_sign` (lines 775-1135) -/

/-- `CpaCyEcdsaSignRSOpData`. -/
structure CpaCyEcdsaSignRSOpData where
  n : CpaFlatBuffer
  m : CpaFlatBuffer
  xg : CpaFlatBuffer
  yg : CpaFlatBuffer
  a : CpaFlatBuffer
  b : CpaFlatBuffer
  q : CpaFlatBuffer
  k : CpaFlatBuffer
  d : CpaFlatBuffer
  fieldType : Option CpaCyEcFieldType
  deriving DecidableEq, Repr

/-- Locals of `qat_ecdsa_do_sign` after the `memset` of line 826. -/
def qat_ecdsa_do_sign_init : Locals CpaCyEcdsaSignRSOpData :=
  { opData := { n := nullFB, m := nullFB, xg := nullFB, yg := nullFB, a := nullFB,
                b := nullFB, q := nullFB, k := nullFB, d := nullFB, fieldType := none }
    pResult1 := none, pResult2 := none, ret := -1, evs := [], ok := true }

/-- The loop `do BN_rand_range while BN_is_zero` (lines 917-922, and 603-608
in `qat_ecdh_generate_key`).  Arguments: fuel and number of the draw.  Outer
`none`: out of fuel; inner `none`: `BN_rand_range` failed (`goto err`). -/
def drawNonzero (env : Env) : Nat → Nat → Option (Option BIGNUM)
  | 0, _ => none
  | fuel + 1, j =>
    match env.rand j with
    | none => some none
    | some v => if BN_is_zero v then drawNonzero env fuel (j + 1) else some (some v)

/-- Lines 893-915 of `qat_ecdsa_do_sign`: the message integer and its
encoding into the field `m`. -/
def qat_ecdsa_do_sign_m (env : Env) (dgst : List Byte) (dgst_len : Int) (order : BIGNUM)
    (s : Locals CpaCyEcdsaSignRSOpData) : Locals CpaCyEcdsaSignRSOpData :=
  match qat_ecdsa_do_sign_digest env.ok dgst dgst_len order with
  | none => s.check false
  | some m => s.encode (env.ok (Site.qae Buf.m)) Buf.m m (fun op fb => { op with m := fb })

/-- Lines 828-915 of `qat_ecdsa_do_sign`: from `ECDSA_SIG_new` to the
encoding of the message integer. -/
def qat_ecdsa_do_sign_build1 (env : Env) (group : EC_GROUP) (priv_key : BIGNUM)
    (dgst : List Byte) (dgst_len : Int) : Locals CpaCyEcdsaSignRSOpData :=
  qat_ecdsa_do_sign_init
  |>.check (env.ok Site.ECDSA_SIG_new)
  |>.check (env.ok Site.ECDSA_SIG_set0)
  |>.check (env.ok Site.BN_CTX_new)
  |>.check (env.ok Site.ctx_p)
  |>.check (env.ok Site.ctx_a)
  |>.check (env.ok Site.ctx_b)
  |>.check (env.ok Site.ctx_xg)
  |>.check (env.ok Site.ctx_yg)
  |>.check (env.ok Site.ctx_m)
  |>.check (env.ok Site.ctx_k)
  |>.check (env.ok Site.ctx_r)
  |>.check (env.ok Site.ctx_order)
  |>.encode (env.ok (Site.qae Buf.d)) Buf.d priv_key (fun op fb => { op with d := fb })
  |>.check (env.ok Site.get_order)
  |> qat_ecdsa_do_sign_m env dgst dgst_len group.order

/-- The integer encoded into the field `k` (lines 970-992). -/
def qat_ecdsa_do_sign_kSrc (in_kinv in_r : Option BIGNUM) (k : BIGNUM) : BIGNUM :=
  match in_kinv, in_r with
  | some kinv, some _ => kinv
  | _, _ => k

/-- The integer encoded into the field `n` (lines 970-992). -/
def qat_ecdsa_do_sign_nSrc (in_kinv in_r : Option BIGNUM) (order : BIGNUM) : BIGNUM :=
  match in_kinv, in_r with
  | some _, some r => r
  | _, _ => order

/-- The value of `buflen` at line 994. -/
def qat_ecdsa_do_sign_buflen (group : EC_GROUP) : Nat := toSizeT group.degree

/-- Lines 924-1026 of `qat_ecdsa_do_sign`: from the curve parameters to
`initOpDone` and the set-up of the event notification; `k` is the nonce drawn
at lines 917-922 and `s` the locals at that point. -/
def qat_ecdsa_do_sign_build2 (env : Env) (group : EC_GROUP) (generator : EC_POINT)
    (in_kinv in_r : Option BIGNUM) (k : BIGNUM) (s : Locals CpaCyEcdsaSignRSOpData) :
    Locals CpaCyEcdsaSignRSOpData :=
  s
  |>.check (env.ok Site.get_curve)
  |>.check (env.ok Site.get_affine_g)
  |>.assign (fun op => { op with fieldType := some (fieldTypeOf group) })
  |>.encode (env.ok (Site.qae Buf.xg)) Buf.xg generator.x (fun op fb => { op with xg := fb })
  |>.encode (env.ok (Site.qae Buf.yg)) Buf.yg generator.y (fun op fb => { op with yg := fb })
  |>.encode (env.ok (Site.qae Buf.a)) Buf.a group.a (fun op fb => { op with a := fb })
  |>.zeroA_unchecked (env.ok Site.qae_a_zero) (fun op => op.a)
      (fun op fb => { op with a := fb })
  |>.encode (env.ok (Site.qae Buf.b)) Buf.b group.b (fun op fb => { op with b := fb })
  |>.encode (env.ok (Site.qae Buf.q)) Buf.q group.p (fun op fb => { op with q := fb })
  |>.encode (env.ok (Site.qae Buf.k)) Buf.k (qat_ecdsa_do_sign_kSrc in_kinv in_r k)
      (fun op fb => { op with k := fb })
  |>.encode (env.ok (Site.qae Buf.n)) Buf.n (qat_ecdsa_do_sign_nSrc in_kinv in_r group.order)
      (fun op fb => { op with n := fb })
  |>.allocResult1 (env.ok Site.malloc_res1) (env.ok (Site.qae Buf.resR)) Buf.resR
      (qat_ecdsa_do_sign_buflen group)
  |>.allocResult2 (env.ok Site.malloc_res2) (env.ok (Site.qae Buf.resS)) Buf.resS
      (qat_ecdsa_do_sign_buflen group)
  |>.check (!env.job || env.ok Site.async_setup)

/-- The `err` label of `qat_ecdsa_do_sign`, lines 1108-1128: release of the
result buffers and of the descriptor fields. -/
def qat_ecdsa_do_sign_err (pResultR pResultS : Option CpaFlatBuffer)
    (opData : CpaCyEcdsaSignRSOpData) : List Ev :=
  (match pResultR with
    | none => []
    | some fb => QAT_CHK_QMFREE_FLATBUFF Buf.resR fb)
  ++ (match pResultS with
    | none => []
    | some fb => QAT_CHK_QMFREE_FLATBUFF Buf.resS fb)
  ++ QAT_CHK_QMFREE_FLATBUFF Buf.n opData.n
  ++ QAT_CHK_QMFREE_FLATBUFF Buf.m opData.m
  ++ QAT_CHK_QMFREE_FLATBUFF Buf.xg opData.xg
  ++ QAT_CHK_QMFREE_FLATBUFF Buf.yg opData.yg
  ++ QAT_CHK_QMFREE_FLATBUFF Buf.a opData.a
  ++ QAT_CHK_QMFREE_FLATBUFF Buf.b opData.b
  ++ QAT_CHK_QMFREE_FLATBUFF Buf.q opData.q
  ++ QAT_CHK_CLNSE_QMFREE_FLATBUFF Buf.k opData.k
  ++ QAT_CHK_CLNSE_QMFREE_FLATBUFF Buf.d opData.d

/-- What a call of `qat_ecdsa_do_sign` leaves behind; `ret = none` is NULL. -/
structure SignOut where
  ret : Option ECDSA_SIG
  trace : List Ev
  /-- the locals when the submit loop was entered, `none` if it never was -/
  submitted : Option (Locals CpaCyEcdsaSignRSOpData)

/-- Lines 1071-1135 of `qat_ecdsa_do_sign`: completion wait, decoding of R
and S and the `err` label, after a submit loop that was left with status
success and emitted the events `evs1`. -/
def qat_ecdsa_do_sign_complete (env : Env) (fuel : Nat)
    (l : Locals CpaCyEcdsaSignRSOpData) (evs1 : List Ev) : Option SignOut :=
  match waitLoop env fuel 0 with
  | none => none
  | some evs2 =>
    if !env.verifyResult then
      some { ret := none, submitted := some l,
             trace := l.evs ++ evs1 ++ evs2
               ++ qat_ecdsa_do_sign_err (some (resultBuffer env Buf.resR))
                    (some (resultBuffer env Buf.resS)) l.opData }
    else
      some { ret := some
               { r := BN_bin2bn (memcpyFrom (resultBuffer env Buf.resR).pData
                        (resultBuffer env Buf.resR).dataLenInBytes)
                 s := BN_bin2bn (memcpyFrom (resultBuffer env Buf.resS).pData
                        (resultBuffer env Buf.resS).dataLenInBytes) }
             submitted := some l
             trace := l.evs ++ evs1 ++ evs2
               ++ [Ev.readResult Buf.resR, Ev.readResult Buf.resS]
               ++ qat_ecdsa_do_sign_err (some (resultBuffer env Buf.resR))
                    (some (resultBuffer env Buf.resS)) l.opData }

/-- Lines 1029-1135 of `qat_ecdsa_do_sign`: submit loop, then either the
`err` label or the completion wait and what follows it, from the locals `l`
built before. -/
def qat_ecdsa_do_sign_run (env : Env) (fuel : Nat)
    (l : Locals CpaCyEcdsaSignRSOpData) : Option SignOut :=
  match submitLoop env fuel 0 0 with
  | none => none
  | some (e, evs1) =>
    if e ≠ LoopExit.status CpaStatus.SUCCESS then
      some { ret := none, submitted := some l,
             trace := l.evs ++ evs1 ++ qat_ecdsa_do_sign_err l.pResult1 l.pResult2 l.opData }
    else qat_ecdsa_do_sign_complete env fuel l evs1

/-- Lines 917-1135 of `qat_ecdsa_do_sign`, from the locals `l1` at line 916. -/
def qat_ecdsa_do_sign_from_draw (env : Env) (fuel : Nat) (group : EC_GROUP)
    (ec_point : EC_POINT) (in_kinv in_r : Option BIGNUM)
    (l1 : Locals CpaCyEcdsaSignRSOpData) : Option SignOut :=
  match drawNonzero env fuel 0 with
  | none => none
  | some none =>
    some { ret := none, submitted := none,
           trace := l1.evs ++ qat_ecdsa_do_sign_err l1.pResult1 l1.pResult2 l1.opData }
  | some (some k) =>
    if !(qat_ecdsa_do_sign_build2 env group ec_point in_kinv in_r k l1).ok then
      some { ret := none, submitted := none,
             trace := (qat_ecdsa_do_sign_build2 env group ec_point in_kinv in_r k l1).evs
               ++ qat_ecdsa_do_sign_err
                    (qat_ecdsa_do_sign_build2 env group ec_point in_kinv in_r k l1).pResult1
                    (qat_ecdsa_do_sign_build2 env group ec_point in_kinv in_r k l1).pResult2
                    (qat_ecdsa_do_sign_build2 env group ec_point in_kinv in_r k l1).opData }
    else
      qat_ecdsa_do_sign_run env fuel
        (qat_ecdsa_do_sign_build2 env group ec_point in_kinv in_r k l1)

/-- The function `qat_ecdsa_do_sign` (lines 775-1135).  `none`: the fuel ran
out in one of the loops. -/
def qat_ecdsa_do_sign (env : Env) (fuel : Nat) (dgst : List Byte) (dgst_len : Int)
    (in_kinv in_r : Option BIGNUM) (eckey : EC_KEY) : Option SignOut :=
  match eckey.group with
  | none => some { ret := none, trace := [], submitted := none }
  | some group =>
    match eckey.priv_key with
    | none => some { ret := none, trace := [], submitted := none }
    | some priv_key =>
      match eckey.pub_key with
      | none => some { ret := none, trace := [], submitted := none }
      | some _ =>
        match group.generator with
        | none => some { ret := none, trace := [], submitted := none }
        | some ec_point =>
          if !env.ok Site.malloc_opData then
            some { ret := none, trace := [], submitted := none }
          else if !(qat_ecdsa_do_sign_build1 env group priv_key dgst dgst_len).ok then
            some { ret := none, submitted := none,
                   trace := (qat_ecdsa_do_sign_build1 env group priv_key dgst dgst_len).evs
                     ++ qat_ecdsa_do_sign_err
                          (qat_ecdsa_do_sign_build1 env group priv_key dgst dgst_len).pResult1
                          (qat_ecdsa_do_sign_build1 env group priv_key dgst dgst_len).pResult2
                          (qat_ecdsa_do_sign_build1 env group priv_key dgst dgst_len).opData }
          else
            qat_ecdsa_do_sign_from_draw env fuel group ec_point in_kinv in_r
              (qat_ecdsa_do_sign_build1 env group priv_key dgst dgst_len)

/-! ## ECDSA verify: `qat_ecdsa_do_verify` (lines 1170-1468) and
`qat_ecdsa_verify` (lines 1144-1167) -/

/-- `CpaCyEcdsaVerifyOpData`. -/
structure CpaCyEcdsaVerifyOpData where
  r : CpaFlatBuffer
  s : CpaFlatBuffer
  n : CpaFlatBuffer
  m : CpaFlatBuffer
  xg : CpaFlatBuffer
  yg : CpaFlatBuffer
  a : CpaFlatBuffer
  b : CpaFlatBuffer
  q : CpaFlatBuffer
  xp : CpaFlatBuffer
  yp : CpaFlatBuffer
  fieldType : Option CpaCyEcFieldType
  deriving DecidableEq, Repr

/-- Locals of `qat_ecdsa_do_verify` after the `memset` of line 1213. -/
def qat_ecdsa_do_verify_init : Locals CpaCyEcdsaVerifyOpData :=
  { opData := { r := nullFB, s := nullFB, n := nullFB, m := nullFB, xg := nullFB,
                yg := nullFB, a := nullFB, b := nullFB, q := nullFB, xp := nullFB,
                yp := nullFB, fieldType := none }
    pResult1 := none, pResult2 := none, ret := -1, evs := [], ok := true }

/-- The condition of lines 1265-1267 on the signature components. -/
def qat_ecdsa_do_verify_sig_invalid (sig_r sig_s order : BIGNUM) : Bool :=
  BN_is_zero sig_r || BN_is_negative sig_r || decide (BN_ucmp sig_r order ≥ 0)
    || BN_is_zero sig_s || BN_is_negative sig_s || decide (BN_ucmp sig_s order ≥ 0)

/-- Lines 1264-1271 of `qat_ecdsa_do_verify`: an out-of-range signature sets
`ret = 0` and leads to `goto err`. -/
def qat_ecdsa_do_verify_range_check (sig : ECDSA_SIG) (order : BIGNUM)
    (s : Locals CpaCyEcdsaVerifyOpData) : Locals CpaCyEcdsaVerifyOpData :=
  if s.ok && qat_ecdsa_do_verify_sig_invalid sig.r sig.s order then
    { s with ret := 0, ok := false }
  else s

/-- Lines 1273-1293 of `qat_ecdsa_do_verify`: the message integer and its
encoding into the field `m`. -/
def qat_ecdsa_do_verify_m (env : Env) (dgst : List Byte) (dgst_len : Int) (order : BIGNUM)
    (s : Locals CpaCyEcdsaVerifyOpData) : Locals CpaCyEcdsaVerifyOpData :=
  match qat_ecdsa_do_verify_digest env.ok dgst dgst_len order with
  | none => s.check false
  | some m => s.encode (env.ok (Site.qae Buf.m)) Buf.m m (fun op fb => { op with m := fb })

/-- Lines 1215-1262 of `qat_ecdsa_do_verify`: `BN_CTX_new`, the nine
`BN_CTX_get` and `EC_GROUP_get_order`. -/
def qat_ecdsa_do_verify_preamble (env : Env) : Locals CpaCyEcdsaVerifyOpData :=
  qat_ecdsa_do_verify_init
  |>.check (env.ok Site.BN_CTX_new)
  |>.check (env.ok Site.ctx_p)
  |>.check (env.ok Site.ctx_a)
  |>.check (env.ok Site.ctx_b)
  |>.check (env.ok Site.ctx_xg)
  |>.check (env.ok Site.ctx_yg)
  |>.check (env.ok Site.ctx_xp)
  |>.check (env.ok Site.ctx_yp)
  |>.check (env.ok Site.ctx_m)
  |>.check (env.ok Site.ctx_order)
  |>.check (env.ok Site.get_order)

/-- Lines 1273-1381 of `qat_ecdsa_do_verify`: from the message integer to
`initOpDone` and the set-up of the event notification, starting from the
locals `s`. -/
def qat_ecdsa_do_verify_descriptor (env : Env) (group : EC_GROUP)
    (pub_key ec_point : EC_POINT) (dgst : List Byte) (dgst_len : Int) (sig : ECDSA_SIG)
    (s : Locals CpaCyEcdsaVerifyOpData) : Locals CpaCyEcdsaVerifyOpData :=
  s
  |> qat_ecdsa_do_verify_m env dgst dgst_len group.order
  |>.check (env.ok Site.get_curve)
  |>.check (env.ok Site.get_affine_g)
  |>.check (env.ok Site.get_affine_pub)
  |>.assign (fun op => { op with fieldType := some (fieldTypeOf group) })
  |>.encode (env.ok (Site.qae Buf.xg)) Buf.xg ec_point.x (fun op fb => { op with xg := fb })
  |>.encode (env.ok (Site.qae Buf.yg)) Buf.yg ec_point.y (fun op fb => { op with yg := fb })
  |>.encode (env.ok (Site.qae Buf.a)) Buf.a group.a (fun op fb => { op with a := fb })
  |>.zeroA_unchecked (env.ok Site.qae_a_zero) (fun op => op.a)
      (fun op fb => { op with a := fb })
  |>.encode (env.ok (Site.qae Buf.b)) Buf.b group.b (fun op fb => { op with b := fb })
  |>.encode (env.ok (Site.qae Buf.q)) Buf.q group.p (fun op fb => { op with q := fb })
  |>.encode (env.ok (Site.qae Buf.n)) Buf.n group.order (fun op fb => { op with n := fb })
  |>.encode (env.ok (Site.qae Buf.r)) Buf.r sig.r (fun op fb => { op with r := fb })
  |>.encode (env.ok (Site.qae Buf.s)) Buf.s sig.s (fun op fb => { op with s := fb })
  |>.encode (env.ok (Site.qae Buf.xp)) Buf.xp pub_key.x (fun op fb => { op with xp := fb })
  |>.encode (env.ok (Site.qae Buf.yp)) Buf.yp pub_key.y (fun op fb => { op with yp := fb })
  |>.check (!env.job || env.ok Site.async_setup)

/-- Lines 1215-1381 of `qat_ecdsa_do_verify`: from `BN_CTX_new` to
`initOpDone` and the set-up of the event notification. -/
def qat_ecdsa_do_verify_build (env : Env) (group : EC_GROUP) (pub_key ec_point : EC_POINT)
    (dgst : List Byte) (dgst_len : Int) (sig : ECDSA_SIG) :
    Locals CpaCyEcdsaVerifyOpData :=
  qat_ecdsa_do_verify_preamble env
  |> qat_ecdsa_do_verify_range_check sig group.order
  |> qat_ecdsa_do_verify_descriptor env group pub_key ec_point dgst dgst_len sig

/-- The `err` label of `qat_ecdsa_do_verify`, lines 1448-1461. -/
def qat_ecdsa_do_verify_err (opData : CpaCyEcdsaVerifyOpData) : List Ev :=
  QAT_CHK_QMFREE_FLATBUFF Buf.r opData.r
  ++ QAT_CHK_QMFREE_FLATBUFF Buf.s opData.s
  ++ QAT_CHK_QMFREE_FLATBUFF Buf.n opData.n
  ++ QAT_CHK_QMFREE_FLATBUFF Buf.m opData.m
  ++ QAT_CHK_QMFREE_FLATBUFF Buf.xg opData.xg
  ++ QAT_CHK_QMFREE_FLATBUFF Buf.yg opData.yg
  ++ QAT_CHK_QMFREE_FLATBUFF Buf.a opData.a
  ++ QAT_CHK_QMFREE_FLATBUFF Buf.b opData.b
  ++ QAT_CHK_QMFREE_FLATBUFF Buf.q opData.q
  ++ QAT_CHK_QMFREE_FLATBUFF Buf.xp opData.xp
  ++ QAT_CHK_QMFREE_FLATBUFF Buf.yp opData.yp

/-- What a call of `qat_ecdsa_do_verify` or `qat_ecdsa_verify` leaves behind. -/
structure VerifyOut where
  ret : Int
  trace : List Ev
  /-- the locals when the submit loop was entered, `none` if it never was -/
  submitted : Option (Locals CpaCyEcdsaVerifyOpData)

/-- Lines 1424-1468 of `qat_ecdsa_do_verify`: completion wait, the result
and the `err` label, after a submit loop that was left with status success and
emitted the events `evs1`. -/
def qat_ecdsa_do_verify_complete (env : Env) (fuel : Nat)
    (l : Locals CpaCyEcdsaVerifyOpData) (evs1 : List Ev) : Option VerifyOut :=
  match waitLoop env fuel 0 with
  | none => none
  | some evs2 =>
    -- lines 1444-1445: `if (op_done.verifyResult == CPA_TRUE) ret = 1;`
    some { ret := if env.verifyResult then 1 else l.ret
           submitted := some l
           trace := l.evs ++ evs1 ++ evs2 ++ qat_ecdsa_do_verify_err l.opData }

/-- Lines 1384-1468 of `qat_ecdsa_do_verify`: submit loop, then either the
`err` label or the completion wait and what follows it, from the locals `l`
built before. -/
def qat_ecdsa_do_verify_run (env : Env) (fuel : Nat)
    (l : Locals CpaCyEcdsaVerifyOpData) : Option VerifyOut :=
  match submitLoop env fuel 0 0 with
  | none => none
  | some (e, evs1) =>
    if e ≠ LoopExit.status CpaStatus.SUCCESS then
      some { ret := l.ret, submitted := some l,
             trace := l.evs ++ evs1 ++ qat_ecdsa_do_verify_err l.opData }
    else qat_ecdsa_do_verify_complete env fuel l evs1

/-- The function `qat_ecdsa_do_verify` (lines 1170-1468).  `none`: the fuel
ran out in one of the two loops. -/
def qat_ecdsa_do_verify (env : Env) (fuel : Nat) (dgst : List Byte) (dgst_len : Int)
    (sig : Option ECDSA_SIG) (eckey : Option EC_KEY) : Option VerifyOut :=
  match eckey with
  | none => some { ret := -1, trace := [], submitted := none }
  | some key =>
    match key.group with
    | none => some { ret := -1, trace := [], submitted := none }
    | some group =>
      match key.pub_key with
      | none => some { ret := -1, trace := [], submitted := none }
      | some pub_key =>
        match sig with
        | none => some { ret := -1, trace := [], submitted := none }
        | some sg =>
          match group.generator with
          | none => some { ret := -1, trace := [], submitted := none }
          | some ec_point =>
            if !env.ok Site.malloc_opData then
              some { ret := -1, trace := [], submitted := none }
            else if !(qat_ecdsa_do_verify_build env group pub_key ec_point dgst dgst_len sg).ok
            then
              some { ret := (qat_ecdsa_do_verify_build env group pub_key ec_point dgst
                       dgst_len sg).ret
                     submitted := none
                     trace := (qat_ecdsa_do_verify_build env group pub_key ec_point dgst
                         dgst_len sg).evs
                       ++ qat_ecdsa_do_verify_err (qat_ecdsa_do_verify_build env group pub_key
                            ec_point dgst dgst_len sg).opData }
            else
              qat_ecdsa_do_verify_run env fuel
                (qat_ecdsa_do_verify_build env group pub_key ec_point dgst dgst_len sg)

/-- The function `qat_ecdsa_verify` (lines 1144-1167). -/
def qat_ecdsa_verify (env : Env) (fuel : Nat) (dgst : List Byte) (dgst_len : Int)
    (sigbuf : List Byte) (sig_len : Int) (eckey : Option EC_KEY) : Option VerifyOut :=
  if !env.ok Site.ECDSA_SIG_new then some { ret := -1, trace := [], submitted := none }
  else
    match env.d2i_ECDSA_SIG sigbuf sig_len with
    | none => some { ret := -1, trace := [], submitted := none }
    | some s =>
      if (env.i2d_ECDSA_SIG s).1 ≠ sig_len
          ∨ sigbuf.take (toSizeT (env.i2d_ECDSA_SIG s).1)
              ≠ (env.i2d_ECDSA_SIG s).2.take (toSizeT (env.i2d_ECDSA_SIG s).1) then
        some { ret := -1, trace := [], submitted := none }
      else
        match qat_ecdsa_do_verify env fuel dgst dgst_len (some s) eckey with
        | none => none
        | some v => some { v with trace := Ev.call_do_verify :: v.trace }

/-! ## Classes of events -/

/-- Events of accelerator memory: allocation and the two ways of release. -/
def Ev.isMem : Ev → Bool
  | Ev.qaeAlloc _ _ => true
  | Ev.qaeFree _ => true
  | Ev.qaeCleanseFree _ => true
  | _ => false

/-- Events of the submit loop. -/
def Ev.isSubmitLoop : Ev → Bool
  | Ev.get_next_inst _ => true
  | Ev.submit _ => true
  | Ev.usleep _ => true
  | Ev.wake _ => true
  | Ev.pause _ => true
  | _ => false

/-- Events of the completion wait. -/
def Ev.isWait : Ev → Bool
  | Ev.pause _ => true
  | Ev.yield => true
  | Ev.flag _ => true
  | _ => false

/-- Reads of a result buffer. -/
def Ev.isReadResult : Ev → Bool
  | Ev.readResult _ => true
  | _ => false

/-- Events that can follow the completion wait: reads of a result buffer and
releases of accelerator memory. -/
def Ev.isTail (e : Ev) : Bool := e.isMem || e.isReadResult

/-- Events that can precede the completion wait: accelerator memory, the
submit loop, the call of the software method. -/
def Ev.isEarly : Ev → Bool
  | Ev.sw_fallback => true
  | e => e.isMem || e.isSubmitLoop


/-! ## Conditions on a run -/

/-- The calls of `qat_ecdsa_do_verify` that precede the range check of the
signature succeed: the allocation of the descriptor, `BN_CTX_new`, the nine
`BN_CTX_get` and `EC_GROUP_get_order`. -/
def verifyPreambleOk (env : Env) : Prop :=
  env.ok Site.malloc_opData = true ∧ env.ok Site.BN_CTX_new = true
  ∧ env.ok Site.ctx_p = true ∧ env.ok Site.ctx_a = true ∧ env.ok Site.ctx_b = true
  ∧ env.ok Site.ctx_xg = true ∧ env.ok Site.ctx_yg = true ∧ env.ok Site.ctx_xp = true
  ∧ env.ok Site.ctx_yp = true ∧ env.ok Site.ctx_m = true ∧ env.ok Site.ctx_order = true
  ∧ env.ok Site.get_order = true

/-- The call of `qat_ecdh_compute_key` on these arguments reaches its submit
loop (line 422), with the locals `l`: the inputs are present, the curve is
not X25519, and the descriptor is built without a failure. -/
def ecdhReachesSubmit (env : Env) (pub_key : EC_POINT) (ecdh : Option EC_KEY)
    (l : Locals CpaCyEcPointMultiplyOpData) : Prop :=
  ∃ key priv_key group, ecdh = some key ∧ key.priv_key = some priv_key
    ∧ key.group = some group ∧ group.curve_name ≠ NID_X25519
    ∧ env.ok Site.malloc_opData = true
    ∧ l = qat_ecdh_compute_key_build env group priv_key pub_key ∧ l.ok = true

/-- The call of `qat_ecdsa_do_sign` on these arguments reaches its submit loop
(line 1029), with the locals `l`. -/
def signReachesSubmit (env : Env) (fuel : Nat) (dgst : List Byte) (dgst_len : Int)
    (in_kinv in_r : Option BIGNUM) (eckey : EC_KEY)
    (l : Locals CpaCyEcdsaSignRSOpData) : Prop :=
  ∃ group priv_key pub_key ec_point k, eckey.group = some group
    ∧ eckey.priv_key = some priv_key ∧ eckey.pub_key = some pub_key
    ∧ group.generator = some ec_point ∧ env.ok Site.malloc_opData = true
    ∧ (qat_ecdsa_do_sign_build1 env group priv_key dgst dgst_len).ok = true
    ∧ drawNonzero env fuel 0 = some (some k)
    ∧ l = qat_ecdsa_do_sign_build2 env group ec_point in_kinv in_r k
          (qat_ecdsa_do_sign_build1 env group priv_key dgst dgst_len)
    ∧ l.ok = true

/-- The call of `qat_ecdsa_do_verify` on these arguments reaches its submit
loop (line 1384), with the locals `l`. -/
def verifyReachesSubmit (env : Env) (dgst : List Byte) (dgst_len : Int)
    (sig : Option ECDSA_SIG) (eckey : Option EC_KEY)
    (l : Locals CpaCyEcdsaVerifyOpData) : Prop :=
  ∃ key group pub_key sg ec_point, eckey = some key ∧ key.group = some group
    ∧ key.pub_key = some pub_key ∧ sig = some sg ∧ group.generator = some ec_point
    ∧ env.ok Site.malloc_opData = true
    ∧ l = qat_ecdsa_do_verify_build env group pub_key ec_point dgst dgst_len sg
    ∧ l.ok = true

/-! ## Concrete inputs, used to instantiate the theorems -/

/-- A blocking-mode environment in which every fallible call succeeds, the
accelerator accepts the first submission and completion is observed in the
first round of the wait; `v` is the verified flag of the completion. -/
def envAccept (v : Bool) : Env :=
  { ok := fun _ => true
    job := false
    ulPollInterval := 10
    iMsgRetry := 5
    QAT_INFINITE_MAX_NUM_RETRIES := -1
    QAT_RETRY_BACKOFF_MODULO_DIVISOR := 8
    inst := fun _ => true
    resp := fun _ => CpaStatus.SUCCESS
    wake := fun _ => true
    pause := fun _ => true
    waitPause := fun _ => true
    flag := fun _ => true
    verifyResult := v
    resultBytes := fun _ => [7]
    resultLen := fun _ => 1
    rand := fun _ => some 3
    sw_compute_key := none
    d2i_ECDSA_SIG := fun _ _ => none
    i2d_ECDSA_SIG := fun _ => (0, [])
    sw_generate_key := none
    set_affine := fun _ x y => { x := x, y := y } }

/-- A small prime-field group: degree 8, order 11. -/
def sampleGroup : EC_GROUP :=
  { curve_name := 415, field_type := 406, degree := 8, p := 251, a := 1, b := 2,
    order := 11, generator := some { x := 2, y := 3 } }

/-- A key on `sampleGroup`. -/
def sampleKey : EC_KEY :=
  { group := some sampleGroup, priv_key := some 5, pub_key := some { x := 4, y := 6 } }

/-- A blocking-mode environment like `envAccept true`, but the accelerator
answers busy to the first `n` submissions (and accepts every later one) and
the retry ceiling is `m`. -/
def envBusy (n : Nat) (m : Int) : Env :=
  { envAccept true with
    resp := fun k => if k < n then CpaStatus.RETRY else CpaStatus.SUCCESS
    iMsgRetry := m }

/-- The peer point used with `sampleKey`. -/
def samplePub : EC_POINT := { x := 4, y := 6 }

/-- Output cells: `outX` requested and holding NULL, `outY` not requested. -/
def sampleOut : OutParams := { outX := some none, outlenX := 0, outY := none, outlenY := 0 }

/-- Output cells with both `outX` and `outY` requested, and a `*outlenY`
that differs from the length of the Y result buffer of `envAccept`. -/
def outBoth : OutParams := { outX := some none, outlenX := 0, outY := some none, outlenY := 5 }

/-- An environment like `envAccept true` whose parser accepts every buffer
as the signature (3, 5) and whose encoder writes the two bytes 3, 5. -/
def envDer : Env :=
  { envAccept true with
    d2i_ECDSA_SIG := fun _ _ => some { r := 3, s := 5 }
    i2d_ECDSA_SIG := fun _ => (2, [3, 5]) }

/-- An environment like `envAccept true` in which every draw of the random
source is 10, the largest value below the order of `sampleGroup`. -/
def envDrawLast : Env := { envAccept true with rand := fun _ => some 10 }

/-- The call of `qat_ecdh_generate_key` on `key` reaches line 655 with the
big integers `x` and `y` decoded from the buffers that `qat_ecdh_compute_key`
filled: the curve is not X25519, every fallible call before that line
succeeds, a scalar is drawn, and `qat_ecdh_compute_key` on the generator
returns a positive value. -/
def generateKeyReachesInstall (env : Env) (fuel : Nat) (key : EC_KEY) (group : EC_GROUP)
    (x y : BIGNUM) : Prop :=
  ∃ d gen r, key.group = some group ∧ group.curve_name ≠ NID_X25519
    ∧ env.ok Site.gen_order_new = true ∧ env.ok Site.gen_ctx_new = true
    ∧ (key.priv_key = none → env.ok Site.gen_priv_new = true)
    ∧ env.ok Site.gen_get_order = true
    ∧ qat_ecdh_generate_key_draw env fuel 0 (key.priv_key.getD 0) = some (true, d)
    ∧ (key.priv_key = none → env.ok Site.gen_set_private_key = true)
    ∧ (key.pub_key = none → env.ok Site.gen_point_new = true)
    ∧ 0 < group.degree ∧ group.generator = some gen
    ∧ qat_ecdh_compute_key env fuel
        { outX := some none, outlenX := qat_ecdh_generate_key_field_len group
          outY := some none, outlenY := qat_ecdh_generate_key_field_len group }
        gen (some { key with priv_key := some d }) = some r
    ∧ 0 < r.ret
    ∧ env.ok Site.gen_x_new = true ∧ env.ok Site.gen_y_new = true
    ∧ env.ok Site.gen_tx_new = true ∧ env.ok Site.gen_ty_new = true
    ∧ x = BN_bin2bn (memcpyFrom r.out.outX.join r.out.outlenX)
    ∧ y = BN_bin2bn (memcpyFrom r.out.outY.join r.out.outlenY)

/-- An environment like `envAccept true` in which the accelerator returns the
byte 252 for each coordinate, above the field prime 251 of `sampleGroup`, and
the library stores coordinates reduced modulo the field prime. -/
def envOutOfRange : Env :=
  { envAccept true with
    resultBytes := fun _ => [252]
    set_affine := fun g x y => { x := x % g.p, y := y % g.p } }

/-- The locals with which `qat_ecdsa_do_sign` enters its submit loop on
`sampleKey`, a one-byte digest and the nonce 3 drawn in `envAccept true`. -/
def sampleSignLocals (in_kinv in_r : Option BIGNUM) : Locals CpaCyEcdsaSignRSOpData :=
  qat_ecdsa_do_sign_build2 (envAccept true) sampleGroup { x := 2, y := 3 } in_kinv in_r 3
    (qat_ecdsa_do_sign_build1 (envAccept true) sampleGroup 5 [1] 1)

/-- What the field `a` of a submitted descriptor holds for the coefficient
`a` of the curve: one byte 0x00 for zero, the encoding of `a` otherwise. -/
def fieldAFor (a : BIGNUM) (fb : CpaFlatBuffer) : Prop :=
  (a = 0 → fb = { pData := some [0], dataLenInBytes := 1 })
  ∧ (a ≠ 0 → fb = (qat_BN_to_FB true Buf.a a).fb
      ∧ fb = { pData := some (BN_bn2bin a), dataLenInBytes := (BN_bn2bin a).length }
      ∧ 1 ≤ (BN_bn2bin a).length)

/-- A key like `sampleKey` on a curve whose coefficient `a` is zero. -/
def sampleKeyA0 : EC_KEY :=
  { sampleKey with group := some { sampleGroup with a := 0 } }

/-! ## Accounting of accelerator memory -/

/-- Allocation of the buffer named `bf`. -/
def Ev.isAllocOf (bf : Buf) : Ev → Bool
  | Ev.qaeAlloc b1 _ => decide (b1 = bf)
  | _ => false

/-- Release of the buffer named `bf` through the plain path. -/
def Ev.isFreeOf (bf : Buf) : Ev → Bool
  | Ev.qaeFree b1 => decide (b1 = bf)
  | _ => false

/-- Release of the buffer named `bf` through the clearing path. -/
def Ev.isCleanseFreeOf (bf : Buf) : Ev → Bool
  | Ev.qaeCleanseFree b1 => decide (b1 = bf)
  | _ => false

/-- Number of allocations of the buffer named `bf` in a trace. -/
def allocsOf (bf : Buf) (tr : List Ev) : Nat := tr.countP (Ev.isAllocOf bf)

/-- Number of releases of the buffer named `bf` through the plain path. -/
def freesOf (bf : Buf) (tr : List Ev) : Nat := tr.countP (Ev.isFreeOf bf)

/-- Number of releases of the buffer named `bf` through the clearing path. -/
def cleanseFreesOf (bf : Buf) (tr : List Ev) : Nat := tr.countP (Ev.isCleanseFreeOf bf)

/-- Number of releases of the buffer named `bf`, by either path. -/
def releasesOf (bf : Buf) (tr : List Ev) : Nat := freesOf bf tr + cleanseFreesOf bf tr

/-- Is the data pointer of a result buffer set. -/
def resultHeld (p : Option CpaFlatBuffer) : Bool :=
  match p with
  | none => false
  | some fb => fb.pData.isSome

/-- The buffers the `err` label of `qat_ecdh_compute_key` would release, given
the descriptor and the two result buffers. -/
def ecdhHeld : Buf → CpaCyEcPointMultiplyOpData → Option CpaFlatBuffer
    → Option CpaFlatBuffer → Bool
  | Buf.resX, _, p1, _ => resultHeld p1
  | Buf.resY, _, _, p2 => resultHeld p2
  | Buf.k, op, _, _ => op.k.pData.isSome
  | Buf.xg, op, _, _ => op.xg.pData.isSome
  | Buf.yg, op, _, _ => op.yg.pData.isSome
  | Buf.a, op, _, _ => op.a.pData.isSome
  | Buf.b, op, _, _ => op.b.pData.isSome
  | Buf.q, op, _, _ => op.q.pData.isSome
  | _, _, _, _ => false

/-- The buffers the `err` label of `qat_ecdsa_do_sign` would release. -/
def signHeld : Buf → CpaCyEcdsaSignRSOpData → Option CpaFlatBuffer
    → Option CpaFlatBuffer → Bool
  | Buf.resR, _, p1, _ => resultHeld p1
  | Buf.resS, _, _, p2 => resultHeld p2
  | Buf.n, op, _, _ => op.n.pData.isSome
  | Buf.m, op, _, _ => op.m.pData.isSome
  | Buf.xg, op, _, _ => op.xg.pData.isSome
  | Buf.yg, op, _, _ => op.yg.pData.isSome
  | Buf.a, op, _, _ => op.a.pData.isSome
  | Buf.b, op, _, _ => op.b.pData.isSome
  | Buf.q, op, _, _ => op.q.pData.isSome
  | Buf.k, op, _, _ => op.k.pData.isSome
  | Buf.d, op, _, _ => op.d.pData.isSome
  | _, _, _, _ => false

/-- The buffers the `err` label of `qat_ecdsa_do_verify` would release. -/
def verifyHeld : Buf → CpaCyEcdsaVerifyOpData → Option CpaFlatBuffer
    → Option CpaFlatBuffer → Bool
  | Buf.r, op, _, _ => op.r.pData.isSome
  | Buf.s, op, _, _ => op.s.pData.isSome
  | Buf.n, op, _, _ => op.n.pData.isSome
  | Buf.m, op, _, _ => op.m.pData.isSome
  | Buf.xg, op, _, _ => op.xg.pData.isSome
  | Buf.yg, op, _, _ => op.yg.pData.isSome
  | Buf.a, op, _, _ => op.a.pData.isSome
  | Buf.b, op, _, _ => op.b.pData.isSome
  | Buf.q, op, _, _ => op.q.pData.isSome
  | Buf.xp, op, _, _ => op.xp.pData.isSome
  | Buf.yp, op, _, _ => op.yp.pData.isSome
  | _, _, _, _ => false

/-- The events so far are allocations only, one for each buffer that is held
and none for the others; buffers outside `done` are not held. -/
def Balanced {Op : Type}
    (held : Buf → Op → Option CpaFlatBuffer → Option CpaFlatBuffer → Bool)
    (done : List Buf) (s : Locals Op) : Prop :=
  (∀ bf, allocsOf bf s.evs = if held bf s.opData s.pResult1 s.pResult2 then 1 else 0)
  ∧ (∀ bf, bf ∉ done → held bf s.opData s.pResult1 s.pResult2 = false)
  ∧ (∀ bf, releasesOf bf s.evs = 0)

/-- The `err` label of `qat_ecdsa_do_verify` as a function of the same
arguments as the other two: it has no result buffers to look at. -/
def qat_ecdsa_do_verify_err3 (_ _ : Option CpaFlatBuffer)
    (opData : CpaCyEcdsaVerifyOpData) : List Ev :=
  qat_ecdsa_do_verify_err opData

/-- The ways in which a builder returns, by the trace it leaves: before the
descriptor exists, with an empty trace or after the call of the software
method; from the `err` label after a failure while the descriptor is built,
with the locals `s`; from the `err` label after a submit loop left without an
accepted submission (then `failed` holds); or after an accepted submission,
the completion wait, reads of the result buffers and the `err` label.  `G`
tells which locals the build can produce and `R` which of them the submit loop
can be entered with, `err` is the `err` label, `r1` and `r2` name the result
buffers. -/
def ExitShape {Op : Type} (env : Env) (fuel : Nat) (G R : Locals Op → Prop)
    (err : Option CpaFlatBuffer → Option CpaFlatBuffer → Op → List Ev) (r1 r2 : Buf)
    (failed : Prop) (trace : List Ev) : Prop :=
  trace = [] ∨ trace = [Ev.sw_fallback]
  ∨ (∃ s, G s ∧ trace = s.evs ++ err s.pResult1 s.pResult2 s.opData)
  ∨ (∃ l e evs1, G l ∧ R l ∧ l.ok = true ∧ submitLoop env fuel 0 0 = some (e, evs1)
      ∧ e ≠ LoopExit.status CpaStatus.SUCCESS ∧ failed
      ∧ trace = l.evs ++ evs1 ++ err l.pResult1 l.pResult2 l.opData)
  ∨ (∃ l evs1 evs2 mid, G l ∧ R l ∧ l.ok = true
      ∧ submitLoop env fuel 0 0 = some (LoopExit.status CpaStatus.SUCCESS, evs1)
      ∧ waitLoop env fuel 0 = some evs2 ∧ mid.all Ev.isReadResult = true
      ∧ trace = l.evs ++ evs1 ++ evs2 ++ mid
          ++ err (some (resultBuffer env r1)) (some (resultBuffer env r2)) l.opData)

/-- The locals `qat_ecdh_compute_key` can reach its `err` label or its submit
loop with. -/
def ecdhBuilt (env : Env) (s : Locals CpaCyEcPointMultiplyOpData) : Prop :=
  ∃ group priv_key pub_key, s = qat_ecdh_compute_key_build env group priv_key pub_key

/-- The locals `qat_ecdsa_do_sign` can reach its `err` label or its submit
loop with. -/
def signBuilt (env : Env) (s : Locals CpaCyEcdsaSignRSOpData) : Prop :=
  ∃ group priv_key dgst dgst_len,
    s = qat_ecdsa_do_sign_build1 env group priv_key dgst dgst_len
    ∨ ∃ g in_kinv in_r k, s = qat_ecdsa_do_sign_build2 env group g in_kinv in_r k
          (qat_ecdsa_do_sign_build1 env group priv_key dgst dgst_len)

/-- The locals `qat_ecdsa_do_sign` can enter its submit loop with: those for
which lines 924-1026 have been run. -/
def signSubmits (env : Env) (s : Locals CpaCyEcdsaSignRSOpData) : Prop :=
  ∃ group g in_kinv in_r k s1, s = qat_ecdsa_do_sign_build2 env group g in_kinv in_r k s1

/-- The locals `qat_ecdsa_do_verify` can reach its `err` label or its submit
loop with. -/
def verifyBuilt (env : Env) (s : Locals CpaCyEcdsaVerifyOpData) : Prop :=
  ∃ group pub_key ec_point dgst dgst_len sig,
    s = qat_ecdsa_do_verify_build env group pub_key ec_point dgst dgst_len sig

/-- Number of allocations of accelerator memory in a trace. -/
def allocations (tr : List Ev) : Nat :=
  tr.countP (fun e => match e with
    | Ev.qaeAlloc _ _ => true
    | _ => false)

/-- Number of releases of accelerator memory in a trace, by either path. -/
def releases (tr : List Ev) : Nat :=
  tr.countP (fun e => match e with
    | Ev.qaeFree _ => true
    | Ev.qaeCleanseFree _ => true
    | _ => false)

/-- All the names of accelerator buffers. -/
def allBufs : List Buf :=
  [Buf.k, Buf.d, Buf.m, Buf.n, Buf.r, Buf.s, Buf.xg, Buf.yg, Buf.a, Buf.b, Buf.q, Buf.xp,
   Buf.yp, Buf.resX, Buf.resY, Buf.resR, Buf.resS]

/-! ## Rounds of the submit loop in fiber mode -/

/-- The events of a round of the submit loop in fiber mode that meets a busy
accelerator and goes on: acquisition, submission, wake, pause. -/
def fiberRound : List Ev :=
  [Ev.get_next_inst true, Ev.submit CpaStatus.RETRY, Ev.wake true, Ev.pause true]

/-- The events of `n` such rounds. -/
def fiberRounds : Nat → List Ev
  | 0 => []
  | n + 1 => fiberRound ++ fiberRounds n

/-- The events of the last round of a submit loop in fiber mode that ends on
a busy response because the wake or the pause fails: `wakeOk` tells whether
the wake succeeded. -/
def fiberLastRound (wakeOk : Bool) : List Ev :=
  if wakeOk then
    [Ev.get_next_inst true, Ev.submit CpaStatus.RETRY, Ev.wake true, Ev.pause false]
  else [Ev.get_next_inst true, Ev.submit CpaStatus.RETRY, Ev.wake false]

/-- A fiber environment like `envAccept true` in which the accelerator is
always busy, and the wake succeeds in the first round only. -/
def envFiberWakeFails : Env :=
  { envAccept true with
    job := true
    resp := fun _ => CpaStatus.RETRY
    wake := fun k => decide (k = 0) }

/-! ## The discipline of acquisitions and submissions -/

/-- Where a run stands with respect to instances: `idle`, no instance is
held; `holding`, an instance has been acquired and nothing submitted on it
yet; `abandoned`, an acquisition has yielded no instance. -/
inductive AcqState
  | idle | holding | abandoned
  deriving DecidableEq, Repr

/-- The effect of an event: an acquisition needs `idle`; a submission needs
`holding`, that is one acquisition since the last submission, and uses it up;
after `abandoned` there is no acquisition, no submission and no read of the
completion flag.  `none`: the event breaks the discipline. -/
def acqStep : AcqState → Ev → Option AcqState
  | AcqState.idle, Ev.get_next_inst true => some AcqState.holding
  | AcqState.idle, Ev.get_next_inst false => some AcqState.abandoned
  | _, Ev.get_next_inst _ => none
  | AcqState.holding, Ev.submit _ => some AcqState.idle
  | _, Ev.submit _ => none
  | AcqState.abandoned, Ev.flag _ => none
  | s, _ => some s

/-- The state after a trace, `none` if an event of it breaks the discipline. -/
def acqRun : AcqState → List Ev → Option AcqState
  | s, [] => some s
  | s, e :: t =>
    match acqStep s e with
    | none => none
    | some s1 => acqRun s1 t

/-- The state in which a submit loop leaves the discipline. -/
def acqAfter (e : LoopExit) : AcqState :=
  match e with
  | LoopExit.noInstance => AcqState.abandoned
  | LoopExit.status _ => AcqState.idle

/-- A blocking environment like `envAccept true` in which the accelerator is
always busy, the retry ceiling is infinite, and the third acquisition yields
no instance. -/
def envNoInstance : Env :=
  { envAccept true with
    resp := fun _ => CpaStatus.RETRY
    iMsgRetry := -1
    inst := fun k => decide (k < 2) }

/-! ## Requests in flight -/

/-- The effect of an event on whether a request is in flight (`true`): an
accepted submission puts one in flight, a read of the completion flag that
finds it set ends the flight; while a request is in flight no accelerator
buffer may be released (`none`: the event breaks this). -/
def flightStep : Bool → Ev → Option Bool
  | _, Ev.submit CpaStatus.SUCCESS => some true
  | true, Ev.flag true => some false
  | true, Ev.qaeFree _ => none
  | true, Ev.qaeCleanseFree _ => none
  | s, _ => some s

/-- Whether a request is in flight after a trace; `none` if a buffer was
released while one was. -/
def flightRun : Bool → List Ev → Option Bool
  | s, [] => some s
  | s, e :: t =>
    match flightStep s e with
    | none => none
    | some s1 => flightRun s1 t

/-- The values of the completion flag read in a trace, in order. -/
def flagReads : List Ev → List Bool
  | [] => []
  | Ev.flag d :: t => d :: flagReads t
  | _ :: t => flagReads t

/-- A fiber environment like `envAccept true` in which completion is observed
in the third round of the wait and every pause of the wait fails. -/
def envFiberSlow : Env :=
  { envAccept true with
    job := true
    flag := fun j => decide (2 ≤ j)
    waitPause := fun _ => false }

/-- An environment like `envAccept v` in which the allocation of the one-byte
buffer for a zero coefficient `a` fails and every other call succeeds. -/
def envAZeroFails (v : Bool) : Env :=
  { envAccept v with ok := fun s => decide (s ≠ Site.qae_a_zero) }

/-- The delegation of `qat_ecdh_compute_key` in the words of the
specification: the fallback table is asked for the function; without one the
operation fails with -1; with one, the outcome is that of the function called
with the caller's arguments, and nothing is built, acquired or submitted. -/
def spec_delegate_compute_key (env : Env) (o : OutParams) (pub_key : EC_POINT)
    (key : EC_KEY) : EcdhOut :=
  match env.sw_compute_key with
  | none => { ret := -1, out := o, trace := [], submitted := none }
  | some f =>
    { ret := (f o.outX o.outlenX pub_key key).ret
      out := { outX := (f o.outX o.outlenX pub_key key).outX
               outlenX := (f o.outX o.outlenX pub_key key).outlenX
               outY := o.outY, outlenY := o.outlenY }
      trace := [Ev.sw_fallback], submitted := none }

/-- The delegation of `qat_ecdh_generate_key` in the words of the
specification: without a fallback function the operation fails with 0; with
one, the outcome is that of the function called with the caller's key. -/
def spec_delegate_generate_key (env : Env) (key : EC_KEY) : GenOut :=
  match env.sw_generate_key with
  | none => { ret := 0, key := some key, trace := [] }
  | some f => { ret := (f key).1, key := some (f key).2, trace := [Ev.sw_fallback] }

/-- A group whose curve is X25519. -/
def sampleGroupX25519 : EC_GROUP :=
  { curve_name := 1034, field_type := 406, degree := 8, p := 251, a := 1, b := 2,
    order := 11, generator := some { x := 2, y := 3 } }

/-- A key on `sampleGroupX25519`. -/
def sampleKeyX25519 : EC_KEY :=
  { group := some sampleGroupX25519, priv_key := some 5, pub_key := some { x := 4, y := 6 } }

/-- A key on `sampleGroupX25519` without a private scalar. -/
def sampleKeyX25519NoPriv : EC_KEY :=
  { group := some sampleGroupX25519, priv_key := none, pub_key := some { x := 4, y := 6 } }

/-- An environment like `envAccept true` whose fallback table has both
functions: `compute_key` returns 32 and writes the byte 9, `keygen` returns 1
and sets the private scalar 9 and the public point (9, 9); every fallible
call of `qat_ec.c` itself would fail. -/
def envFallback : Env :=
  { envAccept true with
    ok := fun _ => false
    sw_compute_key := some (fun _ _ _ _ => { ret := 32, outX := some (some [9]), outlenX := 1 })
    sw_generate_key :=
      some (fun key => (1, { key with priv_key := some 9, pub_key := some { x := 9, y := 9 } })) }

/-- A fiber-mode environment like `envAccept true`, but the accelerator
answers busy to the first `n` submissions (and accepts every later one) and
the retry ceiling is `m`. -/
def envFiberBusy (n : Nat) (m : Int) : Env :=
  { envAccept true with
    job := true
    resp := fun k => if k < n then CpaStatus.RETRY else CpaStatus.SUCCESS
    iMsgRetry := m }

/-- The call of `qat_ecdh_generate_key` on `key` gets past line 615 with the
scalar `x` drawn: the allocations of lines 586-600 and the order succeed, the
loop of lines 603-608 is left with `x`, and a scalar drawn for a key that had
none is installed by `EC_KEY_set_private_key`. -/
def generateKeyScalarDrawn (env : Env) (fuel : Nat) (key : EC_KEY) (x : BIGNUM) : Prop :=
  env.ok Site.gen_order_new = true ∧ env.ok Site.gen_ctx_new = true
    ∧ (key.priv_key = none → env.ok Site.gen_priv_new = true)
    ∧ env.ok Site.gen_get_order = true
    ∧ qat_ecdh_generate_key_draw env fuel 0 (key.priv_key.getD 0) = some (true, x)
    ∧ (key.priv_key = none → env.ok Site.gen_set_private_key = true)

/-- An environment like `envAccept true` in which the accelerator answers
every submission with a hard failure. -/
def envAccelFails : Env :=
  { envAccept true with resp := fun _ => CpaStatus.FAIL }

/-! # Theorems -/

/-! ## Arithmetic helpers -/

theorem wrapInt32_of_range {x : Int} (h0 : -2147483648 ≤ x) (h1 : x < 2147483648) :
    wrapInt32 x = x := by
  unfold wrapInt32
  omega

theorem bin2bn_foldl_eq (t : List Byte) (z : Nat) :
    t.foldl (fun acc b => acc * 256 + b.val) z
      = z * 256 ^ t.length + t.foldl (fun acc b => acc * 256 + b.val) 0 := by
  induction t generalizing z with
  | nil => simp
  | cons b t ih =>
    simp only [List.foldl_cons, List.length_cons]
    rw [ih (z * 256 + b.val), ih (0 * 256 + b.val)]
    ring

theorem bin2bn_foldl_lt (t : List Byte) :
    t.foldl (fun acc b => acc * 256 + b.val) 0 < 256 ^ t.length := by
  induction t using List.reverseRecOn with
  | nil => simp
  | append_singleton t b ih =>
    rw [List.foldl_append]
    simp only [List.foldl_cons, List.foldl_nil, List.length_append, List.length_singleton]
    have hb : b.val < 256 := b.isLt
    rw [pow_succ]
    nlinarith

/-- The value of the first bytes of a big-endian string is the value of the
whole string divided by 256 to the number of bytes dropped. -/
theorem bin2bn_take (s : List Byte) (n : Nat) (hn : n ≤ s.length) :
    (s.take n).foldl (fun acc b => acc * 256 + b.val) 0
      = s.foldl (fun acc b => acc * 256 + b.val) 0 / 256 ^ (s.length - n) := by
  conv_rhs => rw [← List.take_append_drop n s]
  rw [List.foldl_append, bin2bn_foldl_eq (s.drop n)]
  have hlen : (s.drop n).length = s.length - n := by simp
  have hlt := bin2bn_foldl_lt (s.drop n)
  rw [hlen] at hlt ⊢
  have hpos : 0 < 256 ^ (s.length - n) := by positivity
  rw [List.length_append, List.length_take, List.length_drop, Nat.min_eq_left hn,
    Nat.add_sub_cancel_left]
  rw [Nat.add_comm, Nat.add_mul_div_right _ _ hpos, Nat.div_eq_of_lt hlt, Nat.zero_add]

theorem BN_rshift_ofNat (x n : Nat) :
    BN_rshift (Int.ofNat x) n = Int.ofNat (x / 2 ^ n) := by
  unfold BN_rshift
  rcases Nat.eq_zero_or_pos x with h | h
  · subst h
    simp
  · have hs : (Int.ofNat x).sign = 1 := by
      apply Int.sign_eq_one_of_pos
      show (0 : Int) < ((x : Nat) : Int)
      exact_mod_cast h
    rw [hs, Nat.shiftRight_eq_div_pow]
    simp

theorem digest_core (f : Site → Bool) (dgst : List Byte) (order : BIGNUM)
    (hbin : f Site.BN_bin2bn = true) (hsh : f Site.BN_rshift = true)
    (hi2 : BN_num_bits order + 7 < 2147483648)
    (hL : 8 * dgst.length < 2147483648) :
    qat_ecdsa_do_sign_digest f dgst dgst.length order
      = some (Int.ofNat (dgst.foldl (fun acc b => acc * 256 + b.val) 0
          / 2 ^ (8 * dgst.length - BN_num_bits order))) := by
  have hw1 : wrapInt32 (8 * (dgst.length : Int)) = 8 * (dgst.length : Int) :=
    wrapInt32_of_range (by omega) (by omega)
  have hw2 : wrapInt32 ((BN_num_bits order : Int) + 7) = ((BN_num_bits order + 7 : Nat) : Int) := by
    rw [wrapInt32_of_range (by omega) (by omega)]
    push_cast
    ring
  have htd : Int.tdiv ((BN_num_bits order + 7 : Nat) : Int) 8
      = (((BN_num_bits order + 7) / 8 : Nat) : Int) := by
    rw [Int.tdiv_eq_ediv (by omega) (by omega)]
    omega
  unfold qat_ecdsa_do_sign_digest
  simp only [hbin, hsh, Bool.not_true, Bool.false_eq_true, if_false, hw1, hw2, htd]
  generalize hi : BN_num_bits order = i at *
  have hand : i &&& 7 = i % 8 := Nat.and_pow_two_sub_one_eq_mod i 3
  have h256 : ∀ e : Nat, (256 : Nat) ^ e = 2 ^ (8 * e) := by
    intro e
    rw [pow_mul]
    norm_num
  by_cases h : 8 * (dgst.length : Int) > (i : Int)
  · simp only [h, if_true]
    have hw3 : wrapInt32 (8 * (((i + 7) / 8 : Nat) : Int)) = 8 * (((i + 7) / 8 : Nat) : Int) :=
      wrapInt32_of_range (by omega) (by omega)
    rw [hw3]
    simp only [Int.toNat_ofNat]
    have hle : (i + 7) / 8 ≤ dgst.length := by omega
    unfold BN_bin2bn
    rw [bin2bn_take _ _ hle, h256]
    by_cases h8 : i % 8 = 0
    · have hn : ¬ (8 * (((i + 7) / 8 : Nat) : Int) > (i : Int)) := by omega
      simp only [hn, if_false]
      have he : 8 * (dgst.length - (i + 7) / 8) = 8 * dgst.length - i := by omega
      rw [he]
    · have hp : 8 * (((i + 7) / 8 : Nat) : Int) > (i : Int) := by omega
      simp only [hp, if_true, BN_rshift_ofNat, hand]
      rw [Nat.div_div_eq_div_mul, ← pow_add]
      have he : 8 * (dgst.length - (i + 7) / 8) + (8 - i % 8) = 8 * dgst.length - i := by omega
      rw [he]
  · simp only [h, if_false]
    have hw3 : ¬ (wrapInt32 (8 * (dgst.length : Int)) > (i : Int)) := by
      rw [hw1]
      exact h
    simp only [hw3, if_false, Int.toNat_ofNat, List.take_length]
    have he : 8 * dgst.length - i = 0 := by omega
    rw [he]
    simp [BN_bin2bn]

/-! ## Frame lemmas: which events each part of a builder can emit -/

theorem qat_BN_to_FB_evs_isMem (f : Bool) (buf : Buf) (bn : BIGNUM) :
    (qat_BN_to_FB f buf bn).evs.all Ev.isMem = true := by
  unfold qat_BN_to_FB
  split_ifs <;> simp [Ev.isMem]

theorem QMFREE_isMem (buf : Buf) (fb : CpaFlatBuffer) :
    (QAT_CHK_QMFREE_FLATBUFF buf fb).all Ev.isMem = true := by
  unfold QAT_CHK_QMFREE_FLATBUFF
  split_ifs <;> simp [Ev.isMem]

theorem CLNSE_QMFREE_isMem (buf : Buf) (fb : CpaFlatBuffer) :
    (QAT_CHK_CLNSE_QMFREE_FLATBUFF buf fb).all Ev.isMem = true := by
  unfold QAT_CHK_CLNSE_QMFREE_FLATBUFF
  split_ifs <;> simp [Ev.isMem]

theorem ecdh_err_isMem (x y : Option CpaFlatBuffer) (op : CpaCyEcPointMultiplyOpData) :
    (qat_ecdh_compute_key_err x y op).all Ev.isMem = true := by
  unfold qat_ecdh_compute_key_err
  cases x <;> cases y <;> simp [QMFREE_isMem, CLNSE_QMFREE_isMem]

/-! ## The steps of a builder -/

section Steps

variable {Op : Type}

@[simp] theorem Locals.check_true (s : Locals Op) : s.check true = s := by
  simp [Locals.check]

@[simp] theorem Locals.check_evs (c : Bool) (s : Locals Op) : (s.check c).evs = s.evs := by
  unfold Locals.check
  split_ifs <;> rfl

@[simp] theorem Locals.check_ret (c : Bool) (s : Locals Op) : (s.check c).ret = s.ret := by
  unfold Locals.check
  split_ifs <;> rfl

@[simp] theorem Locals.check_opData (c : Bool) (s : Locals Op) :
    (s.check c).opData = s.opData := by
  unfold Locals.check
  split_ifs <;> rfl

@[simp] theorem Locals.check_pResult1 (c : Bool) (s : Locals Op) :
    (s.check c).pResult1 = s.pResult1 := by
  unfold Locals.check
  split_ifs <;> rfl

@[simp] theorem Locals.check_pResult2 (c : Bool) (s : Locals Op) :
    (s.check c).pResult2 = s.pResult2 := by
  unfold Locals.check
  split_ifs <;> rfl

@[simp] theorem Locals.check_ok (c : Bool) (s : Locals Op) :
    (s.check c).ok = (s.ok && c) := by
  unfold Locals.check
  cases h : s.ok <;> cases c <;> simp [h]

theorem Locals.check_failed (c : Bool) (s : Locals Op) (h : s.ok = false) :
    s.check c = s := by
  simp [Locals.check, h]

theorem Locals.encode_failed (f : Bool) (buf : Buf) (bn : BIGNUM)
    (set : Op → CpaFlatBuffer → Op) (s : Locals Op) (h : s.ok = false) :
    s.encode f buf bn set = s := by
  simp [Locals.encode, h]

theorem Locals.assign_failed (g : Op → Op) (s : Locals Op) (h : s.ok = false) :
    s.assign g = s := by
  simp [Locals.assign, h]

theorem Locals.allocResult1_failed (f g : Bool) (buf : Buf) (n : Nat) (s : Locals Op)
    (h : s.ok = false) : s.allocResult1 f g buf n = s := by
  simp [Locals.allocResult1, h]

theorem Locals.allocResult2_failed (f g : Bool) (buf : Buf) (n : Nat) (s : Locals Op)
    (h : s.ok = false) : s.allocResult2 f g buf n = s := by
  simp [Locals.allocResult2, h]

theorem Locals.zeroA_checked_failed (f : Bool) (get : Op → CpaFlatBuffer)
    (set : Op → CpaFlatBuffer → Op) (s : Locals Op) (h : s.ok = false) :
    s.zeroA_checked f get set = s := by
  simp [Locals.zeroA_checked, h]

theorem Locals.zeroA_unchecked_failed (f : Bool) (get : Op → CpaFlatBuffer)
    (set : Op → CpaFlatBuffer → Op) (s : Locals Op) (h : s.ok = false) :
    s.zeroA_unchecked f get set = s := by
  simp [Locals.zeroA_unchecked, h]

@[simp] theorem Locals.encode_ret (f : Bool) (buf : Buf) (bn : BIGNUM)
    (set : Op → CpaFlatBuffer → Op) (s : Locals Op) : (s.encode f buf bn set).ret = s.ret := by
  unfold Locals.encode
  split_ifs <;> rfl

@[simp] theorem Locals.encode_pResult1 (f : Bool) (buf : Buf) (bn : BIGNUM)
    (set : Op → CpaFlatBuffer → Op) (s : Locals Op) :
    (s.encode f buf bn set).pResult1 = s.pResult1 := by
  unfold Locals.encode
  split_ifs <;> rfl

@[simp] theorem Locals.encode_pResult2 (f : Bool) (buf : Buf) (bn : BIGNUM)
    (set : Op → CpaFlatBuffer → Op) (s : Locals Op) :
    (s.encode f buf bn set).pResult2 = s.pResult2 := by
  unfold Locals.encode
  split_ifs <;> rfl

@[simp] theorem Locals.encode_evs_isMem (f : Bool) (buf : Buf) (bn : BIGNUM)
    (set : Op → CpaFlatBuffer → Op) (s : Locals Op) :
    (s.encode f buf bn set).evs.all Ev.isMem = s.evs.all Ev.isMem := by
  unfold Locals.encode
  split_ifs
  · rfl
  · simp only [List.all_append, qat_BN_to_FB_evs_isMem, Bool.and_true]

@[simp] theorem Locals.assign_ret (g : Op → Op) (s : Locals Op) :
    (s.assign g).ret = s.ret := by
  unfold Locals.assign
  split_ifs <;> rfl

@[simp] theorem Locals.assign_evs (g : Op → Op) (s : Locals Op) :
    (s.assign g).evs = s.evs := by
  unfold Locals.assign
  split_ifs <;> rfl

@[simp] theorem Locals.assign_pResult1 (g : Op → Op) (s : Locals Op) :
    (s.assign g).pResult1 = s.pResult1 := by
  unfold Locals.assign
  split_ifs <;> rfl

@[simp] theorem Locals.assign_pResult2 (g : Op → Op) (s : Locals Op) :
    (s.assign g).pResult2 = s.pResult2 := by
  unfold Locals.assign
  split_ifs <;> rfl

@[simp] theorem Locals.allocResult1_ret (f g : Bool) (buf : Buf) (n : Nat) (s : Locals Op) :
    (s.allocResult1 f g buf n).ret = s.ret := by
  unfold Locals.allocResult1
  split_ifs <;> rfl

@[simp] theorem Locals.allocResult2_ret (f g : Bool) (buf : Buf) (n : Nat) (s : Locals Op) :
    (s.allocResult2 f g buf n).ret = s.ret := by
  unfold Locals.allocResult2
  split_ifs <;> rfl

@[simp] theorem Locals.allocResult1_evs_isMem (f g : Bool) (buf : Buf) (n : Nat)
    (s : Locals Op) :
    (s.allocResult1 f g buf n).evs.all Ev.isMem = s.evs.all Ev.isMem := by
  unfold Locals.allocResult1
  split_ifs <;> simp [Ev.isMem]

@[simp] theorem Locals.allocResult2_evs_isMem (f g : Bool) (buf : Buf) (n : Nat)
    (s : Locals Op) :
    (s.allocResult2 f g buf n).evs.all Ev.isMem = s.evs.all Ev.isMem := by
  unfold Locals.allocResult2
  split_ifs <;> simp [Ev.isMem]

@[simp] theorem Locals.zeroA_checked_ret (f : Bool) (get : Op → CpaFlatBuffer)
    (set : Op → CpaFlatBuffer → Op) (s : Locals Op) :
    (s.zeroA_checked f get set).ret = s.ret := by
  unfold Locals.zeroA_checked
  split_ifs <;> rfl

@[simp] theorem Locals.zeroA_unchecked_ret (f : Bool) (get : Op → CpaFlatBuffer)
    (set : Op → CpaFlatBuffer → Op) (s : Locals Op) :
    (s.zeroA_unchecked f get set).ret = s.ret := by
  unfold Locals.zeroA_unchecked
  split_ifs <;> rfl

@[simp] theorem Locals.zeroA_checked_evs_isMem (f : Bool) (get : Op → CpaFlatBuffer)
    (set : Op → CpaFlatBuffer → Op) (s : Locals Op) :
    (s.zeroA_checked f get set).evs.all Ev.isMem = s.evs.all Ev.isMem := by
  unfold Locals.zeroA_checked
  split_ifs <;> simp [Ev.isMem]

@[simp] theorem Locals.zeroA_unchecked_evs_isMem (f : Bool) (get : Op → CpaFlatBuffer)
    (set : Op → CpaFlatBuffer → Op) (s : Locals Op) :
    (s.zeroA_unchecked f get set).evs.all Ev.isMem = s.evs.all Ev.isMem := by
  unfold Locals.zeroA_unchecked
  split_ifs <;> simp [Ev.isMem]

end Steps

theorem verify_m_failed (env : Env) (dgst : List Byte) (dgst_len : Int) (order : BIGNUM)
    (s : Locals CpaCyEcdsaVerifyOpData) (h : s.ok = false) :
    qat_ecdsa_do_verify_m env dgst dgst_len order s = s := by
  unfold qat_ecdsa_do_verify_m
  split
  · exact Locals.check_failed _ _ h
  · exact Locals.encode_failed _ _ _ _ _ h

theorem sign_m_failed (env : Env) (dgst : List Byte) (dgst_len : Int) (order : BIGNUM)
    (s : Locals CpaCyEcdsaSignRSOpData) (h : s.ok = false) :
    qat_ecdsa_do_sign_m env dgst dgst_len order s = s := by
  unfold qat_ecdsa_do_sign_m
  split
  · exact Locals.check_failed _ _ h
  · exact Locals.encode_failed _ _ _ _ _ h

/-! ## The range check of the signature components -/

theorem sig_invalid_of_out_of_range (r s n : Int) (hn : 0 ≤ n)
    (hbad : r ≤ 0 ∨ n ≤ r ∨ s ≤ 0 ∨ n ≤ s) :
    qat_ecdsa_do_verify_sig_invalid r s n = true := by
  unfold qat_ecdsa_do_verify_sig_invalid BN_is_zero BN_is_negative BN_ucmp
  simp only [Bool.or_eq_true, decide_eq_true_eq]
  by_cases h1 : r = 0
  · simp [h1]
  by_cases h2 : r < 0
  · simp [h2]
  by_cases h3 : s = 0
  · simp [h3]
  by_cases h4 : s < 0
  · simp [h4]
  rcases hbad with h | h | h | h
  · omega
  · left; left; left; right
    have : ¬ (r.natAbs < n.natAbs) := by omega
    simp only [this, if_false]
    split_ifs <;> decide
  · omega
  · right
    have : ¬ (s.natAbs < n.natAbs) := by omega
    simp only [this, if_false]
    split_ifs <;> decide

theorem verify_descriptor_failed (env : Env) (group : EC_GROUP)
    (pub_key ec_point : EC_POINT) (dgst : List Byte) (dgst_len : Int) (sig : ECDSA_SIG)
    (s : Locals CpaCyEcdsaVerifyOpData) (h : s.ok = false) :
    qat_ecdsa_do_verify_descriptor env group pub_key ec_point dgst dgst_len sig s = s := by
  unfold qat_ecdsa_do_verify_descriptor
  rw [verify_m_failed _ _ _ _ _ h]
  simp [Locals.check_failed, Locals.encode_failed, Locals.assign_failed,
    Locals.zeroA_unchecked_failed, h]

theorem verify_build_rejected (env : Env) (group : EC_GROUP) (pub_key ec_point : EC_POINT)
    (dgst : List Byte) (dgst_len : Int) (sig : ECDSA_SIG)
    (hpre : verifyPreambleOk env)
    (hinv : qat_ecdsa_do_verify_sig_invalid sig.r sig.s group.order = true) :
    qat_ecdsa_do_verify_build env group pub_key ec_point dgst dgst_len sig
      = { qat_ecdsa_do_verify_init with ret := 0, ok := false } := by
  obtain ⟨_, h1, h2, h3, h4, h5, h6, h7, h8, h9, h10, h11⟩ := hpre
  unfold qat_ecdsa_do_verify_build qat_ecdsa_do_verify_preamble
  simp only [h1, h2, h3, h4, h5, h6, h7, h8, h9, h10, h11, Locals.check_true]
  have hr : qat_ecdsa_do_verify_range_check sig group.order qat_ecdsa_do_verify_init
      = { qat_ecdsa_do_verify_init with ret := 0, ok := false } := by
    simp [qat_ecdsa_do_verify_range_check, hinv, qat_ecdsa_do_verify_init]
  rw [hr, verify_descriptor_failed _ _ _ _ _ _ _ _ rfl]

/-- C1. In `qat_ecdsa_do_verify`, once the null checks, the allocations and
`EC_GROUP_get_order` before the range check have succeeded, a signature whose
`r` or `s` is zero, negative, or not below the group order `n` (a group order
is not negative) makes the function return 0, and it does so with an empty
trace: no instance is acquired and nothing is submitted.  This holds for every
fuel, so the function returns without entering a loop. -/
theorem C1_out_of_range_signature_rejected (env : Env) (fuel : Nat) (dgst : List Byte)
    (dgst_len : Int) (sig : ECDSA_SIG) (key : EC_KEY) (group : EC_GROUP)
    (pub_key ec_point : EC_POINT)
    (hgroup : key.group = some group) (hpub : key.pub_key = some pub_key)
    (hgen : group.generator = some ec_point)
    (hpre : verifyPreambleOk env)
    (hn : (0 : Int) ≤ group.order)
    (hbad : sig.r ≤ (0 : Int) ∨ (group.order : Int) ≤ sig.r
      ∨ sig.s ≤ (0 : Int) ∨ (group.order : Int) ≤ sig.s) :
    ∃ out, qat_ecdsa_do_verify env fuel dgst dgst_len (some sig) (some key) = some out
      ∧ out.ret = 0 ∧ out.trace = []
      ∧ acquisitions out.trace = 0 ∧ submissions out.trace = 0 := by
  have hinv := sig_invalid_of_out_of_range sig.r sig.s group.order hn hbad
  have hb := verify_build_rejected env group pub_key ec_point dgst dgst_len sig hpre hinv
  refine ⟨{ ret := 0, trace := [], submitted := none }, ?_, rfl, rfl, rfl, rfl⟩
  unfold qat_ecdsa_do_verify
  simp only [hgroup, hpub, hgen, hpre.1, hb]
  simp [qat_ecdsa_do_verify_init, qat_ecdsa_do_verify_err, QAT_CHK_QMFREE_FLATBUFF, nullFB]

theorem C1_witness :
    verifyPreambleOk (envAccept true) ∧ (0 : Int) ≤ sampleGroup.order
      ∧ (sampleGroup.order : Int) ≤ 11
      ∧ ∃ out, qat_ecdsa_do_verify (envAccept true) 0 [0xAB] 1 (some { r := 11, s := 3 })
          (some sampleKey) = some out
        ∧ out.ret = 0 ∧ out.trace = []
        ∧ acquisitions out.trace = 0 ∧ submissions out.trace = 0 :=
  ⟨by simp [verifyPreambleOk, envAccept], by decide, by decide,
    C1_out_of_range_signature_rejected (envAccept true) 0 [0xAB] 1 { r := 11, s := 3 }
      sampleKey sampleGroup { x := 4, y := 6 } { x := 2, y := 3 } rfl rfl rfl
      (by simp [verifyPreambleOk, envAccept]) (by decide) (by decide)⟩

/-! ## Traces -/

theorem submissions_append (a b : List Ev) :
    submissions (a ++ b) = submissions a + submissions b := by
  induction a with
  | nil => simp [submissions]
  | cons e t ih =>
    cases e <;> simp [submissions, ih]
    omega

theorem acquisitions_append (a b : List Ev) :
    acquisitions (a ++ b) = acquisitions a + acquisitions b := by
  induction a with
  | nil => simp [acquisitions]
  | cons e t ih =>
    cases e <;> simp [acquisitions, ih]
    omega

theorem sleeps_append (a b : List Ev) : sleeps (a ++ b) = sleeps a ++ sleeps b := by
  induction a with
  | nil => simp [sleeps]
  | cons e t ih => cases e <;> simp [sleeps, ih]

theorem enteredWait_append (a b : List Ev) :
    enteredWait (a ++ b) = (enteredWait a || enteredWait b) := by
  simp [enteredWait, List.any_append]

theorem submissions_of_isMem (l : List Ev) (h : l.all Ev.isMem = true) :
    submissions l = 0 := by
  induction l with
  | nil => rfl
  | cons e t ih =>
    simp only [List.all_cons, Bool.and_eq_true] at h
    cases e <;> simp_all [submissions, Ev.isMem]

theorem acquisitions_of_isMem (l : List Ev) (h : l.all Ev.isMem = true) :
    acquisitions l = 0 := by
  induction l with
  | nil => rfl
  | cons e t ih =>
    simp only [List.all_cons, Bool.and_eq_true] at h
    cases e <;> simp_all [acquisitions, Ev.isMem]

theorem sleeps_of_isMem (l : List Ev) (h : l.all Ev.isMem = true) : sleeps l = [] := by
  induction l with
  | nil => rfl
  | cons e t ih =>
    simp only [List.all_cons, Bool.and_eq_true] at h
    cases e <;> simp_all [sleeps, Ev.isMem]

theorem enteredWait_of_isMem (l : List Ev) (h : l.all Ev.isMem = true) :
    enteredWait l = false := by
  induction l with
  | nil => rfl
  | cons e t ih =>
    simp only [List.all_cons, Bool.and_eq_true] at h
    cases e <;> simp_all [enteredWait, Ev.isMem]

/-! ## Frame lemmas for the three builders -/

theorem verify_m_ret (env : Env) (dgst : List Byte) (dgst_len : Int) (order : BIGNUM)
    (s : Locals CpaCyEcdsaVerifyOpData) :
    (qat_ecdsa_do_verify_m env dgst dgst_len order s).ret = s.ret := by
  unfold qat_ecdsa_do_verify_m
  split <;> simp

theorem verify_m_evs_isMem (env : Env) (dgst : List Byte) (dgst_len : Int) (order : BIGNUM)
    (s : Locals CpaCyEcdsaVerifyOpData) :
    (qat_ecdsa_do_verify_m env dgst dgst_len order s).evs.all Ev.isMem
      = s.evs.all Ev.isMem := by
  unfold qat_ecdsa_do_verify_m
  split <;> simp

theorem sign_m_evs_isMem (env : Env) (dgst : List Byte) (dgst_len : Int) (order : BIGNUM)
    (s : Locals CpaCyEcdsaSignRSOpData) :
    (qat_ecdsa_do_sign_m env dgst dgst_len order s).evs.all Ev.isMem
      = s.evs.all Ev.isMem := by
  unfold qat_ecdsa_do_sign_m
  split <;> simp

theorem ecdh_build_evs_isMem (env : Env) (group : EC_GROUP) (priv_key : BIGNUM)
    (pub_key : EC_POINT) :
    (qat_ecdh_compute_key_build env group priv_key pub_key).evs.all Ev.isMem = true := by
  unfold qat_ecdh_compute_key_build
  simp [qat_ecdh_compute_key_init]

theorem sign_build1_evs_isMem (env : Env) (group : EC_GROUP) (priv_key : BIGNUM)
    (dgst : List Byte) (dgst_len : Int) :
    (qat_ecdsa_do_sign_build1 env group priv_key dgst dgst_len).evs.all Ev.isMem = true := by
  unfold qat_ecdsa_do_sign_build1
  simp [qat_ecdsa_do_sign_init, sign_m_evs_isMem]

theorem sign_build2_evs_isMem (env : Env) (group : EC_GROUP) (generator : EC_POINT)
    (in_kinv in_r : Option BIGNUM) (k : BIGNUM) (s : Locals CpaCyEcdsaSignRSOpData) :
    (qat_ecdsa_do_sign_build2 env group generator in_kinv in_r k s).evs.all Ev.isMem
      = s.evs.all Ev.isMem := by
  unfold qat_ecdsa_do_sign_build2
  simp

theorem verify_range_check_evs (sig : ECDSA_SIG) (order : BIGNUM)
    (s : Locals CpaCyEcdsaVerifyOpData) :
    (qat_ecdsa_do_verify_range_check sig order s).evs = s.evs := by
  unfold qat_ecdsa_do_verify_range_check
  split_ifs <;> rfl

theorem verify_build_evs_isMem (env : Env) (group : EC_GROUP) (pub_key ec_point : EC_POINT)
    (dgst : List Byte) (dgst_len : Int) (sig : ECDSA_SIG) :
    (qat_ecdsa_do_verify_build env group pub_key ec_point dgst dgst_len sig).evs.all Ev.isMem
      = true := by
  unfold qat_ecdsa_do_verify_build qat_ecdsa_do_verify_descriptor qat_ecdsa_do_verify_preamble
  simp [qat_ecdsa_do_verify_init, verify_m_evs_isMem, verify_range_check_evs]

theorem sign_err_isMem (x y : Option CpaFlatBuffer) (op : CpaCyEcdsaSignRSOpData) :
    (qat_ecdsa_do_sign_err x y op).all Ev.isMem = true := by
  unfold qat_ecdsa_do_sign_err
  cases x <;> cases y <;> simp [QMFREE_isMem, CLNSE_QMFREE_isMem]

theorem verify_err_isMem (op : CpaCyEcdsaVerifyOpData) :
    (qat_ecdsa_do_verify_err op).all Ev.isMem = true := by
  unfold qat_ecdsa_do_verify_err
  simp [QMFREE_isMem]

/-- In `qat_ecdsa_do_verify` the variable `ret` is -1 whenever the descriptor
has been built: it is set to 0 only together with `goto err`. -/
theorem verify_build_ok_ret (env : Env) (group : EC_GROUP) (pub_key ec_point : EC_POINT)
    (dgst : List Byte) (dgst_len : Int) (sig : ECDSA_SIG)
    (h : (qat_ecdsa_do_verify_build env group pub_key ec_point dgst dgst_len sig).ok = true) :
    (qat_ecdsa_do_verify_build env group pub_key ec_point dgst dgst_len sig).ret = -1 := by
  unfold qat_ecdsa_do_verify_build at h ⊢
  have hret : ∀ s, (qat_ecdsa_do_verify_descriptor env group pub_key ec_point dgst dgst_len
      sig s).ret = s.ret := by
    intro s
    unfold qat_ecdsa_do_verify_descriptor
    simp [verify_m_ret]
  rw [hret]
  by_cases hr : (qat_ecdsa_do_verify_range_check sig group.order
      (qat_ecdsa_do_verify_preamble env)).ok = true
  · unfold qat_ecdsa_do_verify_range_check at hr ⊢
    split_ifs at hr ⊢ with hc
    simp [qat_ecdsa_do_verify_preamble, qat_ecdsa_do_verify_init]
  · rw [verify_descriptor_failed _ _ _ _ _ _ _ _ (by simpa using hr)] at h
    exact absurd h hr

/-! ## C2: the result of a verification that was submitted and completed -/

/-- What `qat_ecdsa_do_verify` returns once the descriptor is built, the
submission accepted and the completion observed: 1 if the completion reports
verified, and otherwise the initial value -1 of `ret`. -/
theorem verify_run_ret (env : Env) (fuel : Nat) (l : Locals CpaCyEcdsaVerifyOpData)
    (evs1 evs2 : List Ev)
    (hs : submitLoop env fuel 0 0 = some (LoopExit.status CpaStatus.SUCCESS, evs1))
    (hw : waitLoop env fuel 0 = some evs2) :
    (qat_ecdsa_do_verify_run env fuel l).map (fun out => out.ret)
      = some (if env.verifyResult then 1 else l.ret) := by
  unfold qat_ecdsa_do_verify_run qat_ecdsa_do_verify_complete
  simp [hs, hw]

/-- C2. The code at a concrete input: the key `sampleKey`, the signature
(3, 5), a one-byte digest, every call succeeding, the first submission
accepted and the completion observed in the first round of the wait.  When the
completion reports not verified, `qat_ecdsa_do_verify` returns -1 (after one
submission and after the wait), not the 0 the claim and the comment of lines
1138-1143 ask for; when it reports verified the result is 1. -/
theorem C2_not_verified_returns_minus_one :
    (qat_ecdsa_do_verify (envAccept false) 1 [0xAB] 1 (some { r := 3, s := 5 })
        (some sampleKey)).map
      (fun out => (out.ret, submissions out.trace, enteredWait out.trace))
      = some (-1, 1, true)
    ∧ (qat_ecdsa_do_verify (envAccept true) 1 [0xAB] 1 (some { r := 3, s := 5 })
        (some sampleKey)).map
      (fun out => (out.ret, submissions out.trace, enteredWait out.trace))
      = some (1, 1, true) := by
  constructor <;> decide

/-! ## C3: the encoding check of `qat_ecdsa_verify` -/

theorem toSizeT_natCast (n : Nat) (h : n < 2147483648) : toSizeT (n : Int) = n := by
  unfold toSizeT
  omega

/-- C3. For every buffer `sigbuf` (its length is passed as `sig_len`, an
`int`): if `sigbuf` does not parse, or the re-encoding of the parsed
signature differs from `sigbuf` in length or in a byte, then
`qat_ecdsa_verify` returns -1 with an empty trace: `qat_ecdsa_do_verify` is
not called, no instance is acquired and nothing is submitted.  (The hypothesis
`hne` covers both cases: it says nothing when the buffer does not parse.) -/
theorem C3_non_canonical_encoding_rejected (env : Env) (fuel : Nat) (dgst : List Byte)
    (dgst_len : Int) (sigbuf : List Byte) (eckey : Option EC_KEY)
    (hlen : sigbuf.length < 2147483648)
    (hne : ∀ sg, env.d2i_ECDSA_SIG sigbuf sigbuf.length = some sg →
      (env.i2d_ECDSA_SIG sg).1 ≠ (sigbuf.length : Int)
        ∨ (env.i2d_ECDSA_SIG sg).2.take sigbuf.length ≠ sigbuf) :
    ∃ out, qat_ecdsa_verify env fuel dgst dgst_len sigbuf sigbuf.length eckey = some out
      ∧ out.ret = -1 ∧ out.trace = [] ∧ Ev.call_do_verify ∉ out.trace
      ∧ acquisitions out.trace = 0 ∧ submissions out.trace = 0 := by
  refine ⟨{ ret := -1, trace := [], submitted := none }, ?_, rfl, rfl, by simp, rfl, rfl⟩
  unfold qat_ecdsa_verify
  split_ifs with h0
  · rfl
  · cases hd : env.d2i_ECDSA_SIG sigbuf sigbuf.length with
    | none => rfl
    | some sg =>
      simp only []
      have hcond : (env.i2d_ECDSA_SIG sg).1 ≠ (sigbuf.length : Int)
          ∨ sigbuf.take (toSizeT (env.i2d_ECDSA_SIG sg).1)
            ≠ (env.i2d_ECDSA_SIG sg).2.take (toSizeT (env.i2d_ECDSA_SIG sg).1) := by
        by_cases hl : (env.i2d_ECDSA_SIG sg).1 = (sigbuf.length : Int)
        · right
          rw [hl, toSizeT_natCast _ hlen, List.take_length]
          rcases hne sg hd with h | h
          · exact absurd hl h
          · exact fun he => h he.symm
        · exact Or.inl hl
      rw [if_pos hcond]

theorem C3_witness :
    (∀ sg, envDer.d2i_ECDSA_SIG [3, 5, 0] ([3, 5, 0] : List Byte).length = some sg →
      (envDer.i2d_ECDSA_SIG sg).1 ≠ (([3, 5, 0] : List Byte).length : Int)
        ∨ (envDer.i2d_ECDSA_SIG sg).2.take ([3, 5, 0] : List Byte).length ≠ [3, 5, 0])
    ∧ ∃ out, qat_ecdsa_verify envDer 1 [0xAB] 1 [3, 5, 0]
          ([3, 5, 0] : List Byte).length (some sampleKey) = some out
        ∧ out.ret = -1 ∧ out.trace = [] ∧ Ev.call_do_verify ∉ out.trace
        ∧ acquisitions out.trace = 0 ∧ submissions out.trace = 0 :=
  ⟨fun _ _ => Or.inl (by simp [envDer]),
    C3_non_canonical_encoding_rejected envDer 1 [0xAB] 1 [3, 5, 0] (some sampleKey)
      (by decide) (fun _ _ => Or.inl (by simp [envDer]))⟩

/-! ## C4: digest truncation -/

theorem verify_digest_eq_sign_digest :
    qat_ecdsa_do_verify_digest = qat_ecdsa_do_sign_digest := rfl

/-- C4. For a digest of `L` bytes with big-endian value `D` and a group order
of any bit length `i` (with the `int` expressions `8 * L` and `i + 7` in range and
`BN_bin2bn`, `BN_rshift` succeeding), `qat_ecdsa_do_sign` and
`qat_ecdsa_do_verify` compute the same message integer
`m = D / 2 ^ (8 * L - i)` (truncated subtraction: the exponent is 0 when
`8 * L ≤ i`, and then `m = D`); `m` is below `2 ^ i`; and when `8 * L > i`,
`m` is the value of the first `(i + 7) / 8` bytes, shifted right by
`8 - i % 8` bits only if `i % 8 ≠ 0`. -/
theorem C4_digest_truncation (f : Site → Bool) (dgst : List Byte) (order : BIGNUM)
    (hbin : f Site.BN_bin2bn = true) (hsh : f Site.BN_rshift = true)
    (hi2 : BN_num_bits order + 7 < 2147483648)
    (hL : 8 * dgst.length < 2147483648) :
    qat_ecdsa_do_sign_digest f dgst dgst.length order
        = some (BN_bin2bn dgst / 2 ^ (8 * dgst.length - BN_num_bits order))
    ∧ qat_ecdsa_do_verify_digest f dgst dgst.length order
        = some (BN_bin2bn dgst / 2 ^ (8 * dgst.length - BN_num_bits order))
    ∧ BN_bin2bn dgst / 2 ^ (8 * dgst.length - BN_num_bits order) < 2 ^ BN_num_bits order
    ∧ (8 * dgst.length ≤ BN_num_bits order →
        BN_bin2bn dgst / 2 ^ (8 * dgst.length - BN_num_bits order) = BN_bin2bn dgst)
    ∧ (8 * dgst.length > BN_num_bits order →
        BN_bin2bn dgst / 2 ^ (8 * dgst.length - BN_num_bits order)
          = BN_bin2bn (dgst.take ((BN_num_bits order + 7) / 8))
              / 2 ^ (if BN_num_bits order % 8 = 0 then 0 else 8 - BN_num_bits order % 8)) := by
  have hcore := digest_core f dgst order hbin hsh hi2 hL
  have hcast : BN_bin2bn dgst / 2 ^ (8 * dgst.length - BN_num_bits order)
      = Int.ofNat (dgst.foldl (fun acc b => acc * 256 + b.val) 0
          / 2 ^ (8 * dgst.length - BN_num_bits order)) := by
    unfold BN_bin2bn
    simp only [Int.ofNat_eq_coe]
    push_cast
    rfl
  have h256 : ∀ e : Nat, (256 : Nat) ^ e = 2 ^ (8 * e) := by
    intro e
    rw [pow_mul]
    norm_num
  refine ⟨?_, ?_, ?_, ?_, ?_⟩
  · rw [hcast]
    exact hcore
  · rw [verify_digest_eq_sign_digest, hcast]
    exact hcore
  · rw [hcast]
    have hlt := bin2bn_foldl_lt dgst
    rw [h256] at hlt
    generalize dgst.foldl (fun acc b => acc * 256 + b.val) 0 = D at hlt
    generalize BN_num_bits order = i at *
    show ((D / 2 ^ (8 * dgst.length - i) : Nat) : Int) < 2 ^ i
    have hnat : D / 2 ^ (8 * dgst.length - i) < 2 ^ i := by
      rw [Nat.div_lt_iff_lt_mul (by positivity), ← pow_add]
      refine lt_of_lt_of_le hlt (Nat.pow_le_pow_right (by norm_num) (by omega))
    exact_mod_cast hnat
  · intro hle
    have he : 8 * dgst.length - BN_num_bits order = 0 := by omega
    rw [he]
    simp
  · intro hgt
    rw [hcast]
    unfold BN_bin2bn
    have hle : (BN_num_bits order + 7) / 8 ≤ dgst.length := by omega
    rw [bin2bn_take _ _ hle, h256]
    generalize dgst.foldl (fun acc b => acc * 256 + b.val) 0 = D
    generalize BN_num_bits order = i at *
    show ((D / 2 ^ (8 * dgst.length - i) : Nat) : Int)
      = ((D / 2 ^ (8 * (dgst.length - (i + 7) / 8)) : Nat) : Int)
          / 2 ^ (if i % 8 = 0 then 0 else 8 - i % 8)
    have hnat : D / 2 ^ (8 * dgst.length - i)
        = D / 2 ^ (8 * (dgst.length - (i + 7) / 8))
            / 2 ^ (if i % 8 = 0 then 0 else 8 - i % 8) := by
      rw [Nat.div_div_eq_div_mul, ← pow_add]
      congr 2
      split_ifs <;> omega
    rw [hnat]
    push_cast
    rfl

theorem C4_witness :
    (1 ≤ BN_num_bits 2049 ∧ 8 * ([0xAB, 0xCD] : List Byte).length > BN_num_bits 2049)
    ∧ (qat_ecdsa_do_sign_digest (fun _ => true) [0xAB, 0xCD]
          ([0xAB, 0xCD] : List Byte).length 2049
        = some (BN_bin2bn [0xAB, 0xCD]
            / 2 ^ (8 * ([0xAB, 0xCD] : List Byte).length - BN_num_bits 2049))
      ∧ qat_ecdsa_do_verify_digest (fun _ => true) [0xAB, 0xCD]
          ([0xAB, 0xCD] : List Byte).length 2049
        = some (BN_bin2bn [0xAB, 0xCD]
            / 2 ^ (8 * ([0xAB, 0xCD] : List Byte).length - BN_num_bits 2049))
      ∧ BN_bin2bn [0xAB, 0xCD]
            / 2 ^ (8 * ([0xAB, 0xCD] : List Byte).length - BN_num_bits 2049)
          < 2 ^ BN_num_bits 2049
      ∧ (8 * ([0xAB, 0xCD] : List Byte).length ≤ BN_num_bits 2049 →
          BN_bin2bn [0xAB, 0xCD]
              / 2 ^ (8 * ([0xAB, 0xCD] : List Byte).length - BN_num_bits 2049)
            = BN_bin2bn [0xAB, 0xCD])
      ∧ (8 * ([0xAB, 0xCD] : List Byte).length > BN_num_bits 2049 →
          BN_bin2bn [0xAB, 0xCD]
              / 2 ^ (8 * ([0xAB, 0xCD] : List Byte).length - BN_num_bits 2049)
            = BN_bin2bn (([0xAB, 0xCD] : List Byte).take ((BN_num_bits 2049 + 7) / 8))
                / 2 ^ (if BN_num_bits 2049 % 8 = 0 then 0
                       else 8 - BN_num_bits 2049 % 8))) :=
  ⟨by decide,
    C4_digest_truncation (fun _ => true) [0xAB, 0xCD] 2049 rfl rfl (by decide) (by decide)⟩

/-! ## The submit loop in blocking mode -/

theorem submissions_of_all (p : Ev → Bool) (hp : ∀ st, p (Ev.submit st) = false)
    (l : List Ev) (h : l.all p = true) : submissions l = 0 := by
  induction l with
  | nil => rfl
  | cons e t ih =>
    simp only [List.all_cons, Bool.and_eq_true] at h
    cases e with
    | submit st =>
      rw [hp st] at h
      exact absurd h.1 (by simp)
    | _ =>
      simp only [submissions]
      exact ih h.2

theorem acquisitions_of_all (p : Ev → Bool) (hp : ∀ g, p (Ev.get_next_inst g) = false)
    (l : List Ev) (h : l.all p = true) : acquisitions l = 0 := by
  induction l with
  | nil => rfl
  | cons e t ih =>
    simp only [List.all_cons, Bool.and_eq_true] at h
    cases e with
    | get_next_inst g =>
      rw [hp g] at h
      exact absurd h.1 (by simp)
    | _ =>
      simp only [acquisitions]
      exact ih h.2

theorem sleeps_of_all (p : Ev → Bool) (hp : ∀ us, p (Ev.usleep us) = false)
    (l : List Ev) (h : l.all p = true) : sleeps l = [] := by
  induction l with
  | nil => rfl
  | cons e t ih =>
    simp only [List.all_cons, Bool.and_eq_true] at h
    cases e with
    | usleep us =>
      rw [hp us] at h
      exact absurd h.1 (by simp)
    | _ =>
      simp only [sleeps]
      exact ih h.2

theorem enteredWait_of_all (p : Ev → Bool) (hp : ∀ d, p (Ev.flag d) = false)
    (l : List Ev) (h : l.all p = true) : enteredWait l = false := by
  induction l with
  | nil => rfl
  | cons e t ih =>
    simp only [List.all_cons, Bool.and_eq_true] at h
    have ht : enteredWait t = false := ih h.2
    cases e with
    | flag d =>
      rw [hp d] at h
      exact absurd h.1 (by simp)
    | _ =>
      simp only [enteredWait, List.any_cons, Bool.false_or] at ht ⊢
      exact ht

/-- The submit loop emits only events of its own kind. -/
theorem submitLoop_evs (env : Env) (fuel k : Nat) (c : Int) (e : LoopExit) (evs : List Ev)
    (h : submitLoop env fuel k c = some (e, evs)) : evs.all Ev.isSubmitLoop = true := by
  induction fuel generalizing k c e evs with
  | zero => simp [submitLoop] at h
  | succ fuel ih =>
    unfold submitLoop at h
    simp only [] at h
    split_ifs at h <;>
      first
        | (simp only [Option.some.injEq, Prod.mk.injEq] at h
           rw [← h.2]
           rfl)
        | (split at h
           · exact absurd h (by simp)
           · rename_i e1 evs1 hr
             simp only [Option.some.injEq, Prod.mk.injEq] at h
             rw [← h.2, List.all_append, ih _ _ _ _ hr]
             rfl)

/-- Blocking mode, an instance always available, busy answers to the next `n`
submissions and then the answer `st`, no retry ceiling in the way: the loop
makes `n + 1` submissions and is left with status `st`. -/
theorem submitLoop_busy_then (env : Env) (st : CpaStatus)
    (hjob : env.job = false) (hinst : ∀ k, env.inst k = true) (hst : st ≠ CpaStatus.RETRY) :
    ∀ (n fuel k : Nat) (c : Int), n < fuel →
      (∀ j, j < n → env.resp (k + j) = CpaStatus.RETRY) → env.resp (k + n) = st →
      (env.iMsgRetry = env.QAT_INFINITE_MAX_NUM_RETRIES
        ∨ (c + n < env.iMsgRetry ∧ -2147483648 ≤ c ∧ env.iMsgRetry ≤ 2147483647)) →
      ∃ evs, submitLoop env fuel k c = some (LoopExit.status st, evs)
        ∧ submissions evs = n + 1 ∧ acquisitions evs = n + 1 := by
  intro n
  induction n with
  | zero =>
    intro fuel k c hf _ hr _
    obtain ⟨fuel, rfl⟩ : ∃ f, fuel = f + 1 := ⟨fuel - 1, by omega⟩
    refine ⟨[Ev.get_next_inst true, Ev.submit st], ?_, rfl, rfl⟩
    unfold submitLoop
    simp only [Nat.add_zero] at hr
    simp [hinst, hr, hst]
  | succ n ih =>
    intro fuel k c hf hbusy hr hceil
    obtain ⟨fuel, rfl⟩ : ∃ f, fuel = f + 1 := ⟨fuel - 1, by omega⟩
    have hb0 : env.resp k = CpaStatus.RETRY := by simpa using hbusy 0 (by omega)
    have hstep : ¬ (env.iMsgRetry ≠ env.QAT_INFINITE_MAX_NUM_RETRIES
        ∧ wrapInt32 (c + 1) ≥ env.iMsgRetry) := by
      rcases hceil with h | ⟨h1, h2, h3⟩
      · exact fun hh => hh.1 h
      · rw [wrapInt32_of_range (by omega) (by omega)]
        intro hh
        have := hh.2
        push_cast at h1
        omega
    obtain ⟨evs, hevs, hs, ha⟩ := ih fuel (k + 1) (wrapInt32 (c + 1)) (by omega)
      (fun j hj => by
        have := hbusy (j + 1) (by omega)
        rwa [show k + (j + 1) = k + 1 + j by omega] at this)
      (by rwa [show k + (n + 1) = k + 1 + n by omega] at hr)
      (by
        rcases hceil with h | ⟨h1, h2, h3⟩
        · exact Or.inl h
        · right
          rw [wrapInt32_of_range (by omega) (by omega)]
          push_cast at h1
          refine ⟨by omega, by omega, h3⟩)
    refine ⟨[Ev.get_next_inst true, Ev.submit CpaStatus.RETRY,
      Ev.usleep (toUInt32 ((env.ulPollInterval : Int)
        + Int.tmod c env.QAT_RETRY_BACKOFF_MODULO_DIVISOR))] ++ evs, ?_, ?_, ?_⟩
    · unfold submitLoop
      simp only [hinst, hb0, hjob, hstep, hevs]
      simp
    · simp [submissions, hs]
    · simp [acquisitions, ha]

/-- Blocking mode, an instance always available, a finite ceiling
`iMsgRetry` and busy answers to the next `n + 1` submissions, where the
counter `c` is `n + 1` below the ceiling: the loop makes exactly `n + 1`
submissions and is left by the `break` of line 444 with status RETRY. -/
theorem submitLoop_exhaust (env : Env)
    (hjob : env.job = false) (hinst : ∀ k, env.inst k = true)
    (hfin : env.iMsgRetry ≠ env.QAT_INFINITE_MAX_NUM_RETRIES)
    (hint : env.iMsgRetry ≤ 2147483647) :
    ∀ (n fuel k : Nat) (c : Int), n < fuel → -2147483648 ≤ c →
      c + (n + 1) = env.iMsgRetry →
      (∀ j, j ≤ n → env.resp (k + j) = CpaStatus.RETRY) →
      ∃ evs, submitLoop env fuel k c = some (LoopExit.status CpaStatus.RETRY, evs)
        ∧ submissions evs = n + 1 ∧ acquisitions evs = n + 1 := by
  intro n
  induction n with
  | zero =>
    intro fuel k c hf hc hM hbusy
    obtain ⟨fuel, rfl⟩ : ∃ f, fuel = f + 1 := ⟨fuel - 1, by omega⟩
    have hb0 : env.resp k = CpaStatus.RETRY := by simpa using hbusy 0 (by omega)
    have hw : wrapInt32 (c + 1) = c + 1 := wrapInt32_of_range (by omega) (by omega)
    have hstop : env.iMsgRetry ≠ env.QAT_INFINITE_MAX_NUM_RETRIES
        ∧ wrapInt32 (c + 1) ≥ env.iMsgRetry := ⟨hfin, by rw [hw]; omega⟩
    refine ⟨[Ev.get_next_inst true, Ev.submit CpaStatus.RETRY,
      Ev.usleep (toUInt32 ((env.ulPollInterval : Int)
        + Int.tmod c env.QAT_RETRY_BACKOFF_MODULO_DIVISOR))], ?_, ?_, ?_⟩
    · unfold submitLoop
      simp [hinst, hb0, hjob, hfin, hstop.2]
    · rfl
    · rfl
  | succ n ih =>
    intro fuel k c hf hc hM hbusy
    obtain ⟨fuel, rfl⟩ : ∃ f, fuel = f + 1 := ⟨fuel - 1, by omega⟩
    have hb0 : env.resp k = CpaStatus.RETRY := by simpa using hbusy 0 (by omega)
    have hw : wrapInt32 (c + 1) = c + 1 := by
      apply wrapInt32_of_range <;> push_cast at hM <;> omega
    have hstep : ¬ (env.iMsgRetry ≠ env.QAT_INFINITE_MAX_NUM_RETRIES
        ∧ wrapInt32 (c + 1) ≥ env.iMsgRetry) := by
      rw [hw]
      intro hh
      have := hh.2
      push_cast at hM
      omega
    obtain ⟨evs, hevs, hs, ha⟩ := ih fuel (k + 1) (wrapInt32 (c + 1)) (by omega)
      (by rw [hw]; omega)
      (by rw [hw]; push_cast at hM ⊢; omega)
      (fun j hj => by
        have := hbusy (j + 1) (by omega)
        rwa [show k + (j + 1) = k + 1 + j by omega] at this)
    refine ⟨[Ev.get_next_inst true, Ev.submit CpaStatus.RETRY,
      Ev.usleep (toUInt32 ((env.ulPollInterval : Int)
        + Int.tmod c env.QAT_RETRY_BACKOFF_MODULO_DIVISOR))] ++ evs, ?_, ?_, ?_⟩
    · unfold submitLoop
      simp only [hinst, hb0, hjob, hstep, hevs]
      simp
    · simp [submissions, hs]
    · simp [acquisitions, ha]

/-! ## The completion wait -/

/-- The completion wait emits only events of its own kind, and when it ends
its last event is a read of the flag that found it set. -/
theorem waitLoop_evs (env : Env) (fuel j : Nat) (evs : List Ev)
    (h : waitLoop env fuel j = some evs) :
    evs.all Ev.isWait = true ∧ Ev.flag true ∈ evs ∧ enteredWait evs = true
      ∧ ∃ d, env.flag (j + d) = true := by
  induction fuel generalizing j evs with
  | zero => simp [waitLoop] at h
  | succ fuel ih =>
    unfold waitLoop at h
    simp only [] at h
    split_ifs at h with hf hjob hp <;>
      first
        | (simp only [Option.some.injEq] at h
           subst h
           exact ⟨by simp [Ev.isWait], by simp, by simp [enteredWait], 0, hf⟩)
        | (split at h
           · exact absurd h (by simp)
           · rename_i rest hr
             simp only [Option.some.injEq] at h
             subst h
             obtain ⟨h1, h2, h3, d, hd⟩ := ih _ _ hr
             refine ⟨by simp [Ev.isWait, h1], by simp [h2], ?_, d + 1, ?_⟩
             · simp only [enteredWait, List.any_append] at h3 ⊢
               simp [h3]
             · rwa [show j + (d + 1) = j + 1 + d by omega])

/-- The completion wait ends as soon as the flag is found set, given fuel
for that many rounds. -/
theorem waitLoop_terminates (env : Env) :
    ∀ (d fuel j : Nat), d < fuel → env.flag (j + d) = true →
      ∃ evs, waitLoop env fuel j = some evs := by
  intro d
  induction d with
  | zero =>
    intro fuel j hf hd
    obtain ⟨fuel, rfl⟩ : ∃ f, fuel = f + 1 := ⟨fuel - 1, by omega⟩
    unfold waitLoop
    simp only [Nat.add_zero] at hd
    simp [hd]
  | succ d ih =>
    intro fuel j hf hd
    obtain ⟨fuel, rfl⟩ : ∃ f, fuel = f + 1 := ⟨fuel - 1, by omega⟩
    obtain ⟨evs, hevs⟩ := ih fuel (j + 1) (by omega)
      (by rwa [show j + (d + 1) = j + 1 + d by omega] at hd)
    unfold waitLoop
    simp only []
    split_ifs <;> first | exact ⟨_, rfl⟩ | (rw [hevs]; exact ⟨_, rfl⟩)

/-! ## From a builder to its submit loop -/

theorem ecdh_of_reaches (env : Env) (fuel : Nat) (o : OutParams) (pub_key : EC_POINT)
    (ecdh : Option EC_KEY) (l : Locals CpaCyEcPointMultiplyOpData)
    (h : ecdhReachesSubmit env pub_key ecdh l) :
    qat_ecdh_compute_key env fuel o pub_key ecdh = qat_ecdh_compute_key_run env fuel o l := by
  obtain ⟨key, priv_key, group, rfl, hp, hg, hc, hm, rfl, hok⟩ := h
  unfold qat_ecdh_compute_key
  simp only [hp, hg, hc, hm, hok, if_false, Bool.not_true, Bool.false_eq_true]

theorem sign_of_reaches (env : Env) (fuel : Nat) (dgst : List Byte) (dgst_len : Int)
    (in_kinv in_r : Option BIGNUM) (eckey : EC_KEY) (l : Locals CpaCyEcdsaSignRSOpData)
    (h : signReachesSubmit env fuel dgst dgst_len in_kinv in_r eckey l) :
    qat_ecdsa_do_sign env fuel dgst dgst_len in_kinv in_r eckey
      = qat_ecdsa_do_sign_run env fuel l := by
  obtain ⟨group, priv_key, pub_key, ec_point, k, hg, hp, hq, hgen, hm, h1, hd, rfl, hok⟩ := h
  unfold qat_ecdsa_do_sign qat_ecdsa_do_sign_from_draw
  simp only [hg, hp, hq, hgen, hm, h1, hd, hok, if_false, Bool.not_true, Bool.false_eq_true]

theorem verify_of_reaches (env : Env) (fuel : Nat) (dgst : List Byte) (dgst_len : Int)
    (sig : Option ECDSA_SIG) (eckey : Option EC_KEY) (l : Locals CpaCyEcdsaVerifyOpData)
    (h : verifyReachesSubmit env dgst dgst_len sig eckey l) :
    qat_ecdsa_do_verify env fuel dgst dgst_len sig eckey
      = qat_ecdsa_do_verify_run env fuel l := by
  obtain ⟨key, group, pub_key, sg, ec_point, rfl, hg, hp, rfl, hgen, hm, rfl, hok⟩ := h
  unfold qat_ecdsa_do_verify
  simp only [hg, hp, hgen, hm, hok, if_false, Bool.not_true, Bool.false_eq_true]

theorem verify_reaches_ret (env : Env) (dgst : List Byte) (dgst_len : Int)
    (sig : Option ECDSA_SIG) (eckey : Option EC_KEY) (l : Locals CpaCyEcdsaVerifyOpData)
    (h : verifyReachesSubmit env dgst dgst_len sig eckey l) : l.ret = -1 := by
  obtain ⟨key, group, pub_key, sg, ec_point, _, _, _, _, _, _, rfl, hok⟩ := h
  exact verify_build_ok_ret _ _ _ _ _ _ _ hok

theorem ecdh_reaches_evs (env : Env) (pub_key : EC_POINT) (ecdh : Option EC_KEY)
    (l : Locals CpaCyEcPointMultiplyOpData) (h : ecdhReachesSubmit env pub_key ecdh l) :
    l.evs.all Ev.isMem = true := by
  obtain ⟨key, priv_key, group, _, _, _, _, _, rfl, _⟩ := h
  exact ecdh_build_evs_isMem _ _ _ _

theorem sign_reaches_evs (env : Env) (fuel : Nat) (dgst : List Byte) (dgst_len : Int)
    (in_kinv in_r : Option BIGNUM) (eckey : EC_KEY) (l : Locals CpaCyEcdsaSignRSOpData)
    (h : signReachesSubmit env fuel dgst dgst_len in_kinv in_r eckey l) :
    l.evs.all Ev.isMem = true := by
  obtain ⟨group, priv_key, pub_key, ec_point, k, _, _, _, _, _, _, _, rfl, _⟩ := h
  rw [sign_build2_evs_isMem]
  exact sign_build1_evs_isMem _ _ _ _ _

theorem verify_reaches_evs (env : Env) (dgst : List Byte) (dgst_len : Int)
    (sig : Option ECDSA_SIG) (eckey : Option EC_KEY) (l : Locals CpaCyEcdsaVerifyOpData)
    (h : verifyReachesSubmit env dgst dgst_len sig eckey l) :
    l.evs.all Ev.isMem = true := by
  obtain ⟨key, group, pub_key, sg, ec_point, _, _, _, _, _, _, rfl, _⟩ := h
  exact verify_build_evs_isMem _ _ _ _ _ _ _

/-! ## The trace of a builder from the submit loop on -/

theorem all_isTail_of_isMem (l : List Ev) (h : l.all Ev.isMem = true) :
    l.all Ev.isTail = true := by
  rw [List.all_eq_true] at h ⊢
  intro e he
  simp [Ev.isTail, h e he]

theorem copy_outX_evs (env : Env) (o : OutParams) (x : CpaFlatBuffer) :
    (qat_ecdh_compute_key_copy_outX env o x).evs.all Ev.isTail = true := by
  unfold qat_ecdh_compute_key_copy_outX
  split
  · rfl
  · split_ifs <;> rfl

theorem copy_out_evs (env : Env) (o : OutParams) (x y : CpaFlatBuffer) :
    (qat_ecdh_compute_key_copy_out env o x y).evs.all Ev.isTail = true := by
  unfold qat_ecdh_compute_key_copy_out
  simp only []
  split_ifs <;> (try split) <;>
    first
      | exact copy_outX_evs env o x
      | (simp only [List.all_append, copy_outX_evs, Bool.true_and]
         rfl)

/-- The trace of `qat_ecdh_compute_key` when the completion wait is entered:
the events of the build, of the submit loop and of the wait, followed only by
reads of result buffers and releases. -/
theorem ecdh_complete_trace (env : Env) (fuel : Nat) (o : OutParams)
    (l : Locals CpaCyEcPointMultiplyOpData) (evs1 : List Ev) (out : EcdhOut)
    (h : qat_ecdh_compute_key_complete env fuel o l evs1 = some out) :
    ∃ evs2 tl, waitLoop env fuel 0 = some evs2
      ∧ out.trace = l.evs ++ evs1 ++ evs2 ++ tl ∧ tl.all Ev.isTail = true := by
  unfold qat_ecdh_compute_key_complete at h
  split at h
  · exact absurd h (by simp)
  · rename_i evs2 hw
    refine ⟨evs2, ?_⟩
    split_ifs at h <;>
      (simp only [Option.some.injEq] at h
       subst h) <;>
      first
        | exact ⟨_, hw, rfl, all_isTail_of_isMem _ (ecdh_err_isMem _ _ _)⟩
        | exact ⟨(qat_ecdh_compute_key_copy_out env o (resultBuffer env Buf.resX)
              (resultBuffer env Buf.resY)).evs
            ++ qat_ecdh_compute_key_err (some (resultBuffer env Buf.resX))
              (some (resultBuffer env Buf.resY)) l.opData,
            hw, by simp only [List.append_assoc], by
              rw [List.all_append, copy_out_evs,
                all_isTail_of_isMem _ (ecdh_err_isMem _ _ _)]
              rfl⟩

theorem sign_complete_trace (env : Env) (fuel : Nat)
    (l : Locals CpaCyEcdsaSignRSOpData) (evs1 : List Ev) (out : SignOut)
    (h : qat_ecdsa_do_sign_complete env fuel l evs1 = some out) :
    ∃ evs2 tl, waitLoop env fuel 0 = some evs2
      ∧ out.trace = l.evs ++ evs1 ++ evs2 ++ tl ∧ tl.all Ev.isTail = true := by
  unfold qat_ecdsa_do_sign_complete at h
  split at h
  · exact absurd h (by simp)
  · rename_i evs2 hw
    refine ⟨evs2, ?_⟩
    split_ifs at h <;>
      (simp only [Option.some.injEq] at h
       subst h) <;>
      first
        | exact ⟨_, hw, rfl, all_isTail_of_isMem _ (sign_err_isMem _ _ _)⟩
        | exact ⟨[Ev.readResult Buf.resR, Ev.readResult Buf.resS]
            ++ qat_ecdsa_do_sign_err (some (resultBuffer env Buf.resR))
              (some (resultBuffer env Buf.resS)) l.opData,
            hw, by simp only [List.append_assoc], by
              rw [List.all_append, all_isTail_of_isMem _ (sign_err_isMem _ _ _)]
              rfl⟩

theorem verify_complete_trace (env : Env) (fuel : Nat)
    (l : Locals CpaCyEcdsaVerifyOpData) (evs1 : List Ev) (out : VerifyOut)
    (h : qat_ecdsa_do_verify_complete env fuel l evs1 = some out) :
    ∃ evs2 tl, waitLoop env fuel 0 = some evs2
      ∧ out.trace = l.evs ++ evs1 ++ evs2 ++ tl ∧ tl.all Ev.isTail = true := by
  unfold qat_ecdsa_do_verify_complete at h
  split at h
  · exact absurd h (by simp)
  · rename_i evs2 hw
    simp only [Option.some.injEq] at h
    subst h
    exact ⟨evs2, _, hw, rfl, all_isTail_of_isMem _ (verify_err_isMem _)⟩

/-- Counting in a trace of the shape found after a completed wait. -/
theorem counts_of_completed (env : Env) (fuel : Nat) (b evs1 evs2 tl : List Ev)
    (hb : b.all Ev.isMem = true) (hw : waitLoop env fuel 0 = some evs2)
    (ht : tl.all Ev.isTail = true) :
    submissions (b ++ evs1 ++ evs2 ++ tl) = submissions evs1
      ∧ acquisitions (b ++ evs1 ++ evs2 ++ tl) = acquisitions evs1
      ∧ sleeps (b ++ evs1 ++ evs2 ++ tl) = sleeps evs1
      ∧ enteredWait (b ++ evs1 ++ evs2 ++ tl) = true := by
  obtain ⟨hw1, _, hw3, _⟩ := waitLoop_evs env fuel 0 evs2 hw
  refine ⟨?_, ?_, ?_, ?_⟩
  · rw [submissions_append, submissions_append, submissions_append,
      submissions_of_isMem b hb, submissions_of_all Ev.isWait (fun _ => rfl) evs2 hw1,
      submissions_of_all Ev.isTail (fun _ => rfl) tl ht]
    omega
  · rw [acquisitions_append, acquisitions_append, acquisitions_append,
      acquisitions_of_isMem b hb, acquisitions_of_all Ev.isWait (fun _ => rfl) evs2 hw1,
      acquisitions_of_all Ev.isTail (fun _ => rfl) tl ht]
    omega
  · rw [sleeps_append, sleeps_append, sleeps_append,
      sleeps_of_isMem b hb, sleeps_of_all Ev.isWait (fun _ => rfl) evs2 hw1,
      sleeps_of_all Ev.isTail (fun _ => rfl) tl ht]
    simp
  · rw [enteredWait_append, enteredWait_append, hw3]
    simp

/-- Counting in a trace of the shape found when the submit loop fails. -/
theorem counts_of_abandoned (env : Env) (fuel k : Nat) (c : Int) (e : LoopExit)
    (b evs1 tl : List Ev)
    (hb : b.all Ev.isMem = true) (hl : submitLoop env fuel k c = some (e, evs1))
    (ht : tl.all Ev.isMem = true) :
    submissions (b ++ evs1 ++ tl) = submissions evs1
      ∧ acquisitions (b ++ evs1 ++ tl) = acquisitions evs1
      ∧ sleeps (b ++ evs1 ++ tl) = sleeps evs1
      ∧ enteredWait (b ++ evs1 ++ tl) = false := by
  have hl1 := submitLoop_evs env fuel k c e evs1 hl
  refine ⟨?_, ?_, ?_, ?_⟩
  · rw [submissions_append, submissions_append, submissions_of_isMem b hb,
      submissions_of_isMem tl ht]
    omega
  · rw [acquisitions_append, acquisitions_append, acquisitions_of_isMem b hb,
      acquisitions_of_isMem tl ht]
    omega
  · rw [sleeps_append, sleeps_append, sleeps_of_isMem b hb, sleeps_of_isMem tl ht]
    simp
  · rw [enteredWait_append, enteredWait_append, enteredWait_of_isMem b hb,
      enteredWait_of_isMem tl ht,
      enteredWait_of_all Ev.isSubmitLoop (fun _ => rfl) evs1 hl1]
    rfl

/-! ## C5 and C6: the retry loop in blocking mode -/

theorem ecdh_complete_returns (env : Env) (fuel : Nat) (o : OutParams)
    (l : Locals CpaCyEcPointMultiplyOpData) (evs1 : List Ev)
    (h : ∃ d, d < fuel ∧ env.flag d = true) :
    ∃ out, qat_ecdh_compute_key_complete env fuel o l evs1 = some out := by
  obtain ⟨d, hd, hflag⟩ := h
  obtain ⟨evs2, hw⟩ := waitLoop_terminates env d fuel 0 hd (by simpa using hflag)
  unfold qat_ecdh_compute_key_complete
  rw [hw]
  simp only []
  split_ifs <;> exact ⟨_, rfl⟩

theorem sign_complete_returns (env : Env) (fuel : Nat)
    (l : Locals CpaCyEcdsaSignRSOpData) (evs1 : List Ev)
    (h : ∃ d, d < fuel ∧ env.flag d = true) :
    ∃ out, qat_ecdsa_do_sign_complete env fuel l evs1 = some out := by
  obtain ⟨d, hd, hflag⟩ := h
  obtain ⟨evs2, hw⟩ := waitLoop_terminates env d fuel 0 hd (by simpa using hflag)
  unfold qat_ecdsa_do_sign_complete
  rw [hw]
  simp only []
  split_ifs <;> exact ⟨_, rfl⟩

theorem verify_complete_returns (env : Env) (fuel : Nat)
    (l : Locals CpaCyEcdsaVerifyOpData) (evs1 : List Ev)
    (h : ∃ d, d < fuel ∧ env.flag d = true) :
    ∃ out, qat_ecdsa_do_verify_complete env fuel l evs1 = some out := by
  obtain ⟨d, hd, hflag⟩ := h
  obtain ⟨evs2, hw⟩ := waitLoop_terminates env d fuel 0 hd (by simpa using hflag)
  unfold qat_ecdsa_do_verify_complete
  rw [hw]
  exact ⟨_, rfl⟩

/-- C5. Blocking mode, an instance always available, busy answers to the
first `N` submissions and success to the next, the retry ceiling infinite or
above `N`, fuel for `N + 1` rounds: the submit loop makes exactly `N + 1`
submissions and is left with status success, and `qat_ecdh_compute_key` and
`qat_ecdsa_do_sign` (on arguments with which they reach the loop) go on to
the completion wait: each equals its continuation from line 464 (1071), it
returns whenever the completion is observed within the fuel, and whenever it
returns its trace holds exactly `N + 1` submissions and the wait. -/
theorem C5_busy_then_success (env : Env) (fuel N : Nat)
    (hjob : env.job = false) (hinst : ∀ k, env.inst k = true)
    (hbusy : ∀ k, k < N → env.resp k = CpaStatus.RETRY)
    (hsucc : env.resp N = CpaStatus.SUCCESS)
    (hceil : env.iMsgRetry = env.QAT_INFINITE_MAX_NUM_RETRIES
      ∨ ((N : Int) < env.iMsgRetry ∧ env.iMsgRetry ≤ 2147483647))
    (hfuel : N < fuel)
    (o : OutParams) (pub_key : EC_POINT) (ecdh : Option EC_KEY)
    (lE : Locals CpaCyEcPointMultiplyOpData) (hE : ecdhReachesSubmit env pub_key ecdh lE)
    (dgst : List Byte) (dgst_len : Int) (in_kinv in_r : Option BIGNUM) (eckey : EC_KEY)
    (lS : Locals CpaCyEcdsaSignRSOpData)
    (hS : signReachesSubmit env fuel dgst dgst_len in_kinv in_r eckey lS) :
    ∃ evs1, submitLoop env fuel 0 0 = some (LoopExit.status CpaStatus.SUCCESS, evs1)
      ∧ submissions evs1 = N + 1
      ∧ qat_ecdh_compute_key env fuel o pub_key ecdh
          = qat_ecdh_compute_key_complete env fuel o lE evs1
      ∧ ((∃ d, d < fuel ∧ env.flag d = true) →
          ∃ out, qat_ecdh_compute_key env fuel o pub_key ecdh = some out)
      ∧ (∀ out, qat_ecdh_compute_key env fuel o pub_key ecdh = some out →
          submissions out.trace = N + 1 ∧ enteredWait out.trace = true)
      ∧ qat_ecdsa_do_sign env fuel dgst dgst_len in_kinv in_r eckey
          = qat_ecdsa_do_sign_complete env fuel lS evs1
      ∧ ((∃ d, d < fuel ∧ env.flag d = true) →
          ∃ out, qat_ecdsa_do_sign env fuel dgst dgst_len in_kinv in_r eckey = some out)
      ∧ (∀ out, qat_ecdsa_do_sign env fuel dgst dgst_len in_kinv in_r eckey = some out →
          submissions out.trace = N + 1 ∧ enteredWait out.trace = true) := by
  obtain ⟨evs1, hloop, hsub, _⟩ := submitLoop_busy_then env CpaStatus.SUCCESS hjob hinst
    (by decide) N fuel 0 0 hfuel (fun j hj => by simpa using hbusy j hj)
    (by simpa using hsucc)
    (by
      rcases hceil with h | ⟨h1, h2⟩
      · exact Or.inl h
      · exact Or.inr ⟨by omega, by omega, h2⟩)
  have hEq : qat_ecdh_compute_key env fuel o pub_key ecdh
      = qat_ecdh_compute_key_complete env fuel o lE evs1 := by
    rw [ecdh_of_reaches env fuel o pub_key ecdh lE hE]
    unfold qat_ecdh_compute_key_run
    simp [hloop]
  have hSq : qat_ecdsa_do_sign env fuel dgst dgst_len in_kinv in_r eckey
      = qat_ecdsa_do_sign_complete env fuel lS evs1 := by
    rw [sign_of_reaches env fuel dgst dgst_len in_kinv in_r eckey lS hS]
    unfold qat_ecdsa_do_sign_run
    simp [hloop]
  refine ⟨evs1, hloop, hsub, hEq, ?_, ?_, hSq, ?_, ?_⟩
  · intro hd
    rw [hEq]
    exact ecdh_complete_returns env fuel o lE evs1 hd
  · intro out hout
    rw [hEq] at hout
    obtain ⟨evs2, tl, hw, htr, htl⟩ := ecdh_complete_trace env fuel o lE evs1 out hout
    obtain ⟨c1, _, _, c4⟩ := counts_of_completed env fuel lE.evs evs1 evs2 tl
      (ecdh_reaches_evs env pub_key ecdh lE hE) hw htl
    rw [htr, c1, c4, hsub]
    exact ⟨rfl, rfl⟩
  · intro hd
    rw [hSq]
    exact sign_complete_returns env fuel lS evs1 hd
  · intro out hout
    rw [hSq] at hout
    obtain ⟨evs2, tl, hw, htr, htl⟩ := sign_complete_trace env fuel lS evs1 out hout
    obtain ⟨c1, _, _, c4⟩ := counts_of_completed env fuel lS.evs evs1 evs2 tl
      (sign_reaches_evs env fuel dgst dgst_len in_kinv in_r eckey lS hS) hw htl
    rw [htr, c1, c4, hsub]
    exact ⟨rfl, rfl⟩

/-- C6. Blocking mode, an instance always available, a finite retry ceiling
`M` with `1 ≤ M < N` (an `int`), busy answers to the first `N` submissions,
fuel for `M` rounds: the submit loop makes exactly `M` submissions and is left
with status RETRY, and each builder (on arguments with which it reaches the
loop) returns its failure value, -1 for `qat_ecdh_compute_key` and
`qat_ecdsa_do_verify`, NULL for `qat_ecdsa_do_sign`, with exactly `M`
submissions in its trace and without entering the completion wait. -/
theorem C6_retry_ceiling_abandons (env : Env) (fuel N M : Nat)
    (hjob : env.job = false) (hinst : ∀ k, env.inst k = true)
    (hM : env.iMsgRetry = (M : Int))
    (hfin : env.iMsgRetry ≠ env.QAT_INFINITE_MAX_NUM_RETRIES)
    (h1 : 1 ≤ M) (hMN : M < N) (hint : M ≤ 2147483647)
    (hbusy : ∀ k, k < N → env.resp k = CpaStatus.RETRY)
    (hfuel : M ≤ fuel)
    (o : OutParams) (pub_key : EC_POINT) (ecdh : Option EC_KEY)
    (lE : Locals CpaCyEcPointMultiplyOpData) (hE : ecdhReachesSubmit env pub_key ecdh lE)
    (dgstV : List Byte) (dgst_lenV : Int) (sig : Option ECDSA_SIG) (eckeyV : Option EC_KEY)
    (lV : Locals CpaCyEcdsaVerifyOpData)
    (hV : verifyReachesSubmit env dgstV dgst_lenV sig eckeyV lV)
    (dgst : List Byte) (dgst_len : Int) (in_kinv in_r : Option BIGNUM) (eckey : EC_KEY)
    (lS : Locals CpaCyEcdsaSignRSOpData)
    (hS : signReachesSubmit env fuel dgst dgst_len in_kinv in_r eckey lS) :
    (∃ evs1, submitLoop env fuel 0 0 = some (LoopExit.status CpaStatus.RETRY, evs1)
      ∧ submissions evs1 = M)
    ∧ (∃ out, qat_ecdh_compute_key env fuel o pub_key ecdh = some out
        ∧ out.ret = -1 ∧ submissions out.trace = M ∧ enteredWait out.trace = false)
    ∧ (∃ out, qat_ecdsa_do_verify env fuel dgstV dgst_lenV sig eckeyV = some out
        ∧ out.ret = -1 ∧ submissions out.trace = M ∧ enteredWait out.trace = false)
    ∧ (∃ out, qat_ecdsa_do_sign env fuel dgst dgst_len in_kinv in_r eckey = some out
        ∧ out.ret = none ∧ submissions out.trace = M ∧ enteredWait out.trace = false) := by
  obtain ⟨evs1, hloop, hsub, _⟩ := submitLoop_exhaust env hjob hinst hfin
    (by rw [hM]; exact_mod_cast hint) (M - 1) fuel 0 0 (by omega) (by omega)
    (by rw [hM]; omega)
    (fun j hj => by simpa using hbusy j (by omega))
  have hsub' : submissions evs1 = M := by omega
  refine ⟨⟨evs1, hloop, hsub'⟩, ?_, ?_, ?_⟩
  · obtain ⟨c1, _, _, c4⟩ := counts_of_abandoned env fuel 0 0 _ lE.evs evs1
      (qat_ecdh_compute_key_err lE.pResult1 lE.pResult2 lE.opData)
      (ecdh_reaches_evs env pub_key ecdh lE hE) hloop (ecdh_err_isMem _ _ _)
    refine ⟨{ ret := -1, out := o, submitted := some lE,
              trace := lE.evs ++ evs1
                ++ qat_ecdh_compute_key_err lE.pResult1 lE.pResult2 lE.opData },
      ?_, rfl, by rw [c1, hsub'], c4⟩
    rw [ecdh_of_reaches env fuel o pub_key ecdh lE hE]
    unfold qat_ecdh_compute_key_run
    simp [hloop]
  · obtain ⟨c1, _, _, c4⟩ := counts_of_abandoned env fuel 0 0 _ lV.evs evs1
      (qat_ecdsa_do_verify_err lV.opData)
      (verify_reaches_evs env dgstV dgst_lenV sig eckeyV lV hV) hloop (verify_err_isMem _)
    refine ⟨{ ret := lV.ret, submitted := some lV,
              trace := lV.evs ++ evs1 ++ qat_ecdsa_do_verify_err lV.opData },
      ?_, verify_reaches_ret env dgstV dgst_lenV sig eckeyV lV hV, by rw [c1, hsub'], c4⟩
    rw [verify_of_reaches env fuel dgstV dgst_lenV sig eckeyV lV hV]
    unfold qat_ecdsa_do_verify_run
    simp [hloop]
  · obtain ⟨c1, _, _, c4⟩ := counts_of_abandoned env fuel 0 0 _ lS.evs evs1
      (qat_ecdsa_do_sign_err lS.pResult1 lS.pResult2 lS.opData)
      (sign_reaches_evs env fuel dgst dgst_len in_kinv in_r eckey lS hS) hloop
      (sign_err_isMem _ _ _)
    refine ⟨{ ret := none, submitted := some lS,
              trace := lS.evs ++ evs1
                ++ qat_ecdsa_do_sign_err lS.pResult1 lS.pResult2 lS.opData },
      ?_, rfl, by rw [c1, hsub'], c4⟩
    rw [sign_of_reaches env fuel dgst dgst_len in_kinv in_r eckey lS hS]
    unfold qat_ecdsa_do_sign_run
    simp [hloop]

theorem C5_witness :
    (∀ k, k < 2 → (envBusy 2 5).resp k = CpaStatus.RETRY)
    ∧ (envBusy 2 5).resp 2 = CpaStatus.SUCCESS
    ∧ ∃ evs1, submitLoop (envBusy 2 5) 3 0 0 = some (LoopExit.status CpaStatus.SUCCESS, evs1)
      ∧ submissions evs1 = 2 + 1
      ∧ qat_ecdh_compute_key (envBusy 2 5) 3 sampleOut samplePub (some sampleKey)
          = qat_ecdh_compute_key_complete (envBusy 2 5) 3 sampleOut
              (qat_ecdh_compute_key_build (envBusy 2 5) sampleGroup 5 samplePub) evs1
      ∧ ((∃ d, d < 3 ∧ (envBusy 2 5).flag d = true) →
          ∃ out, qat_ecdh_compute_key (envBusy 2 5) 3 sampleOut samplePub (some sampleKey)
            = some out)
      ∧ (∀ out, qat_ecdh_compute_key (envBusy 2 5) 3 sampleOut samplePub (some sampleKey)
            = some out →
          submissions out.trace = 2 + 1 ∧ enteredWait out.trace = true)
      ∧ qat_ecdsa_do_sign (envBusy 2 5) 3 [0xAB] 1 none none sampleKey
          = qat_ecdsa_do_sign_complete (envBusy 2 5) 3
              (qat_ecdsa_do_sign_build2 (envBusy 2 5) sampleGroup { x := 2, y := 3 } none none 3
                (qat_ecdsa_do_sign_build1 (envBusy 2 5) sampleGroup 5 [0xAB] 1)) evs1
      ∧ ((∃ d, d < 3 ∧ (envBusy 2 5).flag d = true) →
          ∃ out, qat_ecdsa_do_sign (envBusy 2 5) 3 [0xAB] 1 none none sampleKey = some out)
      ∧ (∀ out, qat_ecdsa_do_sign (envBusy 2 5) 3 [0xAB] 1 none none sampleKey = some out →
          submissions out.trace = 2 + 1 ∧ enteredWait out.trace = true) :=
  ⟨by decide, by decide,
    C5_busy_then_success (envBusy 2 5) 3 2 rfl (fun _ => rfl) (by decide) (by decide)
      (Or.inr (by decide)) (by decide)
      sampleOut samplePub (some sampleKey)
      (qat_ecdh_compute_key_build (envBusy 2 5) sampleGroup 5 samplePub)
      ⟨sampleKey, 5, sampleGroup, rfl, rfl, rfl, by decide, rfl, rfl, by decide⟩
      [0xAB] 1 none none sampleKey
      (qat_ecdsa_do_sign_build2 (envBusy 2 5) sampleGroup { x := 2, y := 3 } none none 3
        (qat_ecdsa_do_sign_build1 (envBusy 2 5) sampleGroup 5 [0xAB] 1))
      ⟨sampleGroup, 5, samplePub, { x := 2, y := 3 }, 3, rfl, rfl, rfl, rfl, rfl,
        by decide, by decide, rfl, by decide⟩⟩

theorem C6_witness :
    ((envBusy 5 3).iMsgRetry ≠ (envBusy 5 3).QAT_INFINITE_MAX_NUM_RETRIES
      ∧ ∀ k, k < 5 → (envBusy 5 3).resp k = CpaStatus.RETRY)
    ∧ (∃ evs1, submitLoop (envBusy 5 3) 3 0 0 = some (LoopExit.status CpaStatus.RETRY, evs1)
      ∧ submissions evs1 = 3)
    ∧ (∃ out, qat_ecdh_compute_key (envBusy 5 3) 3 sampleOut samplePub (some sampleKey)
          = some out
        ∧ out.ret = -1 ∧ submissions out.trace = 3 ∧ enteredWait out.trace = false)
    ∧ (∃ out, qat_ecdsa_do_verify (envBusy 5 3) 3 [0xAB] 1 (some { r := 3, s := 5 })
          (some sampleKey) = some out
        ∧ out.ret = -1 ∧ submissions out.trace = 3 ∧ enteredWait out.trace = false)
    ∧ (∃ out, qat_ecdsa_do_sign (envBusy 5 3) 3 [0xAB] 1 none none sampleKey = some out
        ∧ out.ret = none ∧ submissions out.trace = 3 ∧ enteredWait out.trace = false) :=
  ⟨⟨by decide, by decide⟩,
    C6_retry_ceiling_abandons (envBusy 5 3) 3 5 3 rfl (fun _ => rfl) rfl (by decide)
      (by decide) (by decide) (by decide) (by decide) (by decide)
      sampleOut samplePub (some sampleKey)
      (qat_ecdh_compute_key_build (envBusy 5 3) sampleGroup 5 samplePub)
      ⟨sampleKey, 5, sampleGroup, rfl, rfl, rfl, by decide, rfl, rfl, by decide⟩
      [0xAB] 1 (some { r := 3, s := 5 }) (some sampleKey)
      (qat_ecdsa_do_verify_build (envBusy 5 3) sampleGroup samplePub { x := 2, y := 3 }
        [0xAB] 1 { r := 3, s := 5 })
      ⟨sampleKey, sampleGroup, samplePub, { r := 3, s := 5 }, { x := 2, y := 3 }, rfl, rfl,
        rfl, rfl, rfl, rfl, rfl, by decide⟩
      [0xAB] 1 none none sampleKey
      (qat_ecdsa_do_sign_build2 (envBusy 5 3) sampleGroup { x := 2, y := 3 } none none 3
        (qat_ecdsa_do_sign_build1 (envBusy 5 3) sampleGroup 5 [0xAB] 1))
      ⟨sampleGroup, 5, samplePub, { x := 2, y := 3 }, 3, rfl, rfl, rfl, rfl, rfl,
        by decide, by decide, rfl, by decide⟩⟩

/-! ## C7: the back-off sleeps -/

theorem usleep_arg (poll cn B : Nat) (hB : 0 < B) (hovf : (poll : Int) + B ≤ 4294967296) :
    toUInt32 ((poll : Int) + Int.tmod (cn : Int) (B : Int)) = poll + cn % B := by
  rw [← Int.ofNat_tmod]
  have hlt : cn % B < B := Nat.mod_lt _ hB
  unfold toUInt32
  generalize cn % B = r at hlt
  omega

/-- Blocking mode with a counter that does not overflow: the sleeps requested
while `n` busy answers are handled, starting from the counter value `cn`. -/
theorem submitLoop_sleeps (env : Env) (st : CpaStatus) (B : Nat)
    (hjob : env.job = false) (hinst : ∀ k, env.inst k = true) (hst : st ≠ CpaStatus.RETRY)
    (hB : env.QAT_RETRY_BACKOFF_MODULO_DIVISOR = (B : Int)) (hBpos : 0 < B)
    (hovf : (env.ulPollInterval : Int) + B ≤ 4294967296) :
    ∀ (n fuel k cn : Nat), n < fuel → (cn : Int) + n < 2147483648 →
      (∀ j, j < n → env.resp (k + j) = CpaStatus.RETRY) → env.resp (k + n) = st →
      (env.iMsgRetry = env.QAT_INFINITE_MAX_NUM_RETRIES
        ∨ ((cn : Int) + n < env.iMsgRetry)) →
      ∃ evs, submitLoop env fuel k (cn : Int) = some (LoopExit.status st, evs)
        ∧ sleeps evs = (List.range n).map (fun j => env.ulPollInterval + (cn + j) % B) := by
  intro n
  induction n with
  | zero =>
    intro fuel k cn hf _ _ hr _
    obtain ⟨fuel, rfl⟩ : ∃ f, fuel = f + 1 := ⟨fuel - 1, by omega⟩
    refine ⟨[Ev.get_next_inst true, Ev.submit st], ?_, rfl⟩
    unfold submitLoop
    simp only [Nat.add_zero] at hr
    simp [hinst, hr, hst]
  | succ n ih =>
    intro fuel k cn hf hcn hbusy hr hceil
    obtain ⟨fuel, rfl⟩ : ∃ f, fuel = f + 1 := ⟨fuel - 1, by omega⟩
    have hb0 : env.resp k = CpaStatus.RETRY := by simpa using hbusy 0 (by omega)
    push_cast at hcn
    have hw : wrapInt32 ((cn : Int) + 1) = ((cn + 1 : Nat) : Int) := by
      rewrite [@wrapInt32_of_range ((cn : Int) + 1) (by omega) (by omega)]
      omega
    have hstep : ¬ (env.iMsgRetry ≠ env.QAT_INFINITE_MAX_NUM_RETRIES
        ∧ wrapInt32 ((cn : Int) + 1) ≥ env.iMsgRetry) := by
      rcases hceil with h | h
      · exact fun hh => hh.1 h
      · rw [hw]
        intro hh
        have := hh.2
        push_cast at h this
        omega
    obtain ⟨evs, hevs, hs⟩ := ih fuel (k + 1) (cn + 1) (by omega)
      (by push_cast; omega)
      (fun j hj => by
        have := hbusy (j + 1) (by omega)
        rwa [show k + (j + 1) = k + 1 + j by omega] at this)
      (by
        have h2 : k + (n + 1) = k + 1 + n := by omega
        rw [h2] at hr
        exact hr)
      (by
        rcases hceil with h | h
        · exact Or.inl h
        · right
          push_cast at h ⊢
          omega)
    refine ⟨[Ev.get_next_inst true, Ev.submit CpaStatus.RETRY,
      Ev.usleep (env.ulPollInterval + cn % B)] ++ evs, ?_, ?_⟩
    · unfold submitLoop
      simp only [hinst, hb0, hjob, hstep, hB, usleep_arg _ _ _ hBpos hovf]
      simp only [hw, hevs]
      simp
    · show (env.ulPollInterval + cn % B) :: sleeps evs = _
      rewrite [hs, List.range_succ_eq_map, List.map_cons, List.map_map]
      refine congrArg₂ List.cons rfl (List.map_congr_left ?_)
      intro j _
      show env.ulPollInterval + (cn + 1 + j) % B = env.ulPollInterval + (cn + (j + 1)) % B
      rw [show cn + 1 + j = cn + (j + 1) by omega]

theorem sum_backoff_ge (poll B N : Nat) :
    N * poll ≤ ((List.range N).map (fun j => poll + j % B)).sum := by
  induction N with
  | zero => simp
  | succ N ih =>
    rw [List.range_succ, List.map_append, List.sum_append]
    simp only [List.map_cons, List.map_nil, List.sum_cons, List.sum_nil]
    have : (N + 1) * poll = N * poll + poll := by ring
    omega

/-- Sleeps in the trace of a builder are those of its submit loop. -/
theorem ecdh_run_sleeps (env : Env) (fuel : Nat) (o : OutParams)
    (l : Locals CpaCyEcPointMultiplyOpData) (hl : l.evs.all Ev.isMem = true) (out : EcdhOut)
    (h : qat_ecdh_compute_key_run env fuel o l = some out) :
    ∃ e evs1, submitLoop env fuel 0 0 = some (e, evs1) ∧ sleeps out.trace = sleeps evs1
      ∧ submissions out.trace = submissions evs1
      ∧ acquisitions out.trace = acquisitions evs1 := by
  unfold qat_ecdh_compute_key_run at h
  split at h
  · exact absurd h (by simp)
  · rename_i e evs1 hloop
    refine ⟨e, evs1, hloop, ?_⟩
    split_ifs at h
    · simp only [Option.some.injEq] at h
      subst h
      obtain ⟨c1, c2, c3, _⟩ := counts_of_abandoned env fuel 0 0 e l.evs evs1 _ hl hloop
        (ecdh_err_isMem l.pResult1 l.pResult2 l.opData)
      exact ⟨c3, c1, c2⟩
    · obtain ⟨evs2, tl, hw, htr, htl⟩ := ecdh_complete_trace env fuel o l evs1 out h
      obtain ⟨c1, c2, c3, _⟩ := counts_of_completed env fuel l.evs evs1 evs2 tl hl hw htl
      rw [htr]
      exact ⟨c3, c1, c2⟩

theorem sign_run_sleeps (env : Env) (fuel : Nat)
    (l : Locals CpaCyEcdsaSignRSOpData) (hl : l.evs.all Ev.isMem = true) (out : SignOut)
    (h : qat_ecdsa_do_sign_run env fuel l = some out) :
    ∃ e evs1, submitLoop env fuel 0 0 = some (e, evs1) ∧ sleeps out.trace = sleeps evs1
      ∧ submissions out.trace = submissions evs1
      ∧ acquisitions out.trace = acquisitions evs1 := by
  unfold qat_ecdsa_do_sign_run at h
  split at h
  · exact absurd h (by simp)
  · rename_i e evs1 hloop
    refine ⟨e, evs1, hloop, ?_⟩
    split_ifs at h
    · simp only [Option.some.injEq] at h
      subst h
      obtain ⟨c1, c2, c3, _⟩ := counts_of_abandoned env fuel 0 0 e l.evs evs1 _ hl hloop
        (sign_err_isMem l.pResult1 l.pResult2 l.opData)
      exact ⟨c3, c1, c2⟩
    · obtain ⟨evs2, tl, hw, htr, htl⟩ := sign_complete_trace env fuel l evs1 out h
      obtain ⟨c1, c2, c3, _⟩ := counts_of_completed env fuel l.evs evs1 evs2 tl hl hw htl
      rw [htr]
      exact ⟨c3, c1, c2⟩

/-- C7. Blocking mode, back-off modulus `B > 0`, no overflow (the sum
`ulPollInterval + B` fits 32 bits, `N` fits an `int`), an instance always
available, busy answers to the first `N` submissions and another answer to
the next, the ceiling infinite or above `N`: the submit loop ends, the sleeps
it requested are, in order, `ulPollInterval + j % B` for `j = 0, ..., N - 1`,
their sum is at least `N * ulPollInterval`, and these are all the sleeps in
the trace of `qat_ecdh_compute_key` and of `qat_ecdsa_do_sign` (on arguments
with which they reach the loop). -/
theorem C7_backoff_sleeps (env : Env) (fuel N B : Nat)
    (hjob : env.job = false) (hinst : ∀ k, env.inst k = true)
    (hbusy : ∀ k, k < N → env.resp k = CpaStatus.RETRY)
    (hnext : env.resp N ≠ CpaStatus.RETRY)
    (hB : env.QAT_RETRY_BACKOFF_MODULO_DIVISOR = (B : Int)) (hBpos : 0 < B)
    (hovf : env.ulPollInterval + B ≤ 4294967296) (hN : N < 2147483648)
    (hceil : env.iMsgRetry = env.QAT_INFINITE_MAX_NUM_RETRIES ∨ (N : Int) < env.iMsgRetry)
    (hfuel : N < fuel)
    (o : OutParams) (pub_key : EC_POINT) (ecdh : Option EC_KEY)
    (lE : Locals CpaCyEcPointMultiplyOpData) (hE : ecdhReachesSubmit env pub_key ecdh lE)
    (dgst : List Byte) (dgst_len : Int) (in_kinv in_r : Option BIGNUM) (eckey : EC_KEY)
    (lS : Locals CpaCyEcdsaSignRSOpData)
    (hS : signReachesSubmit env fuel dgst dgst_len in_kinv in_r eckey lS) :
    (∃ evs1, submitLoop env fuel 0 0 = some (LoopExit.status (env.resp N), evs1)
      ∧ sleeps evs1 = (List.range N).map (fun j => env.ulPollInterval + j % B)
      ∧ (∀ j, j < N → (sleeps evs1)[j]? = some (env.ulPollInterval + j % B))
      ∧ N * env.ulPollInterval ≤ (sleeps evs1).sum)
    ∧ (∀ out, qat_ecdh_compute_key env fuel o pub_key ecdh = some out →
        sleeps out.trace = (List.range N).map (fun j => env.ulPollInterval + j % B))
    ∧ (∀ out, qat_ecdsa_do_sign env fuel dgst dgst_len in_kinv in_r eckey = some out →
        sleeps out.trace = (List.range N).map (fun j => env.ulPollInterval + j % B)) := by
  obtain ⟨evs1, hloop, hsl⟩ := submitLoop_sleeps env (env.resp N) B hjob hinst hnext hB hBpos
    (by exact_mod_cast hovf) N fuel 0 0 hfuel (by push_cast; omega)
    (fun j hj => by simpa using hbusy j hj) (by simp)
    (by
      rcases hceil with h | h
      · exact Or.inl h
      · right
        push_cast
        omega)
  simp only [Nat.cast_zero, Nat.zero_add] at hloop hsl
  refine ⟨⟨evs1, hloop, hsl, ?_, ?_⟩, ?_, ?_⟩
  · intro j hj
    rw [hsl]
    simp [hj]
  · rw [hsl]
    exact sum_backoff_ge _ _ _
  · intro out hout
    rw [ecdh_of_reaches env fuel o pub_key ecdh lE hE] at hout
    obtain ⟨e, evs, hl, hs, _⟩ := ecdh_run_sleeps env fuel o lE
      (ecdh_reaches_evs env pub_key ecdh lE hE) out hout
    rw [hloop] at hl
    simp only [Option.some.injEq, Prod.mk.injEq] at hl
    rw [hs, ← hl.2, hsl]
  · intro out hout
    rw [sign_of_reaches env fuel dgst dgst_len in_kinv in_r eckey lS hS] at hout
    obtain ⟨e, evs, hl, hs, _⟩ := sign_run_sleeps env fuel lS
      (sign_reaches_evs env fuel dgst dgst_len in_kinv in_r eckey lS hS) out hout
    rw [hloop] at hl
    simp only [Option.some.injEq, Prod.mk.injEq] at hl
    rw [hs, ← hl.2, hsl]

theorem C7_witness :
    ((envBusy 2 5).QAT_RETRY_BACKOFF_MODULO_DIVISOR = ((8 : Nat) : Int) ∧ 0 < 8
      ∧ (envBusy 2 5).ulPollInterval + 8 ≤ 4294967296)
    ∧ (∃ evs1, submitLoop (envBusy 2 5) 3 0 0
          = some (LoopExit.status ((envBusy 2 5).resp 2), evs1)
      ∧ sleeps evs1 = (List.range 2).map (fun j => (envBusy 2 5).ulPollInterval + j % 8)
      ∧ (∀ j, j < 2 → (sleeps evs1)[j]? = some ((envBusy 2 5).ulPollInterval + j % 8))
      ∧ 2 * (envBusy 2 5).ulPollInterval ≤ (sleeps evs1).sum)
    ∧ (∀ out, qat_ecdh_compute_key (envBusy 2 5) 3 sampleOut samplePub (some sampleKey)
          = some out →
        sleeps out.trace
          = (List.range 2).map (fun j => (envBusy 2 5).ulPollInterval + j % 8))
    ∧ (∀ out, qat_ecdsa_do_sign (envBusy 2 5) 3 [0xAB] 1 none none sampleKey = some out →
        sleeps out.trace
          = (List.range 2).map (fun j => (envBusy 2 5).ulPollInterval + j % 8)) :=
  ⟨⟨rfl, by decide, by decide⟩,
    C7_backoff_sleeps (envBusy 2 5) 3 2 8 rfl (fun _ => rfl) (by decide) (by decide) rfl
      (by decide) (by decide) (by decide) (Or.inr (by decide)) (by decide)
      sampleOut samplePub (some sampleKey)
      (qat_ecdh_compute_key_build (envBusy 2 5) sampleGroup 5 samplePub)
      ⟨sampleKey, 5, sampleGroup, rfl, rfl, rfl, by decide, rfl, rfl, by decide⟩
      [0xAB] 1 none none sampleKey
      (qat_ecdsa_do_sign_build2 (envBusy 2 5) sampleGroup { x := 2, y := 3 } none none 3
        (qat_ecdsa_do_sign_build1 (envBusy 2 5) sampleGroup 5 [0xAB] 1))
      ⟨sampleGroup, 5, samplePub, { x := 2, y := 3 }, 3, rfl, rfl, rfl, rfl, rfl,
        by decide, by decide, rfl, by decide⟩⟩

/-! ## The shape of a run of `qat_ecdh_compute_key` and of `qat_ecdsa_do_sign` -/

theorem all_isEarly_of_isMem (l : List Ev) (h : l.all Ev.isMem = true) :
    l.all Ev.isEarly = true := by
  rw [List.all_eq_true] at h ⊢
  intro e he
  have := h e he
  cases e <;> simp_all [Ev.isEarly, Ev.isMem]

theorem all_isEarly_of_isSubmitLoop (l : List Ev) (h : l.all Ev.isSubmitLoop = true) :
    l.all Ev.isEarly = true := by
  rw [List.all_eq_true] at h ⊢
  intro e he
  have := h e he
  cases e <;> simp_all [Ev.isEarly, Ev.isSubmitLoop]

/-- Every run of `qat_ecdh_compute_key` that returns has one of two shapes.
Either it never entered the completion wait: its trace holds only events that
can precede the wait, and on a curve other than X25519 it returned -1 and left
the outputs alone.  Or it went through the wait: then a completion that
reports not verified gives -1, untouched outputs and, after the wait, releases
only; a completion that reports verified gives the outcome of the copy-out. -/
theorem ecdh_inversion (env : Env) (fuel : Nat) (o : OutParams) (pub_key : EC_POINT)
    (ecdh : Option EC_KEY) (out : EcdhOut)
    (h : qat_ecdh_compute_key env fuel o pub_key ecdh = some out) :
    (out.trace.all Ev.isEarly = true
      ∧ ((∀ key group, ecdh = some key → key.group = some group →
            group.curve_name ≠ NID_X25519) → out.ret = -1 ∧ out.out = o))
    ∨ (∃ pre evs2 tl, out.trace = pre ++ evs2 ++ tl ∧ pre.all Ev.isEarly = true
        ∧ waitLoop env fuel 0 = some evs2 ∧ tl.all Ev.isTail = true
        ∧ (env.verifyResult = false → out.ret = -1 ∧ out.out = o ∧ tl.all Ev.isMem = true)
        ∧ (env.verifyResult = true →
            out.ret = (if (qat_ecdh_compute_key_copy_out env o (resultBuffer env Buf.resX)
                (resultBuffer env Buf.resY)).ok
              then wrapInt32 (qat_ecdh_compute_key_copy_out env o (resultBuffer env Buf.resX)
                (resultBuffer env Buf.resY)).out.outlenX
              else -1)
            ∧ out.out = (qat_ecdh_compute_key_copy_out env o (resultBuffer env Buf.resX)
                (resultBuffer env Buf.resY)).out)) := by
  unfold qat_ecdh_compute_key at h
  split at h
  · simp only [Option.some.injEq] at h
    subst h
    exact Or.inl ⟨rfl, fun _ => ⟨rfl, rfl⟩⟩
  · rename_i key
    split at h
    · simp only [Option.some.injEq] at h
      subst h
      exact Or.inl ⟨rfl, fun _ => ⟨rfl, rfl⟩⟩
    · rename_i priv_key hpriv
      split at h
      · simp only [Option.some.injEq] at h
        subst h
        exact Or.inl ⟨rfl, fun _ => ⟨rfl, rfl⟩⟩
      · rename_i group hgroup
        split_ifs at h with hx hm hb
        · left
          split at h
          · simp only [Option.some.injEq] at h
            subst h
            exact ⟨rfl, fun _ => ⟨rfl, rfl⟩⟩
          · simp only [Option.some.injEq] at h
            subst h
            exact ⟨rfl, fun hsup => absurd hx (hsup key group rfl hgroup)⟩
        · simp only [Option.some.injEq] at h
          subst h
          exact Or.inl ⟨rfl, fun _ => ⟨rfl, rfl⟩⟩
        · simp only [Option.some.injEq] at h
          subst h
          refine Or.inl ⟨?_, fun _ => ⟨rfl, rfl⟩⟩
          rw [List.all_append, all_isEarly_of_isMem _ (ecdh_build_evs_isMem _ _ _ _),
            all_isEarly_of_isMem _ (ecdh_err_isMem _ _ _)]
          rfl
        · unfold qat_ecdh_compute_key_run at h
          split at h
          · exact absurd h (by simp)
          · rename_i e evs1 hloop
            have hl1 := all_isEarly_of_isSubmitLoop _ (submitLoop_evs env fuel 0 0 e evs1 hloop)
            have hb1 := all_isEarly_of_isMem _ (ecdh_build_evs_isMem env group priv_key pub_key)
            split_ifs at h with he
            · simp only [Option.some.injEq] at h
              subst h
              refine Or.inl ⟨?_, fun _ => ⟨rfl, rfl⟩⟩
              rw [List.all_append, List.all_append, hb1, hl1,
                all_isEarly_of_isMem _ (ecdh_err_isMem _ _ _)]
              rfl
            · right
              unfold qat_ecdh_compute_key_complete at h
              split at h
              · exact absurd h (by simp)
              · rename_i evs2 hw
                split_ifs at h with hv hc <;>
                  (simp only [Option.some.injEq] at h
                   subst h)
                · refine ⟨_ ++ evs1, evs2, _, rfl, ?_, hw,
                    all_isTail_of_isMem _ (ecdh_err_isMem _ _ _),
                    fun _ => ⟨rfl, rfl, ecdh_err_isMem _ _ _⟩, fun hv' => ?_⟩
                  · rw [List.all_append, hb1, hl1]
                    rfl
                  · simp [hv'] at hv
                · refine ⟨(qat_ecdh_compute_key_build env group priv_key pub_key).evs ++ evs1,
                    evs2,
                    (qat_ecdh_compute_key_copy_out env o (resultBuffer env Buf.resX)
                      (resultBuffer env Buf.resY)).evs
                    ++ qat_ecdh_compute_key_err (some (resultBuffer env Buf.resX))
                      (some (resultBuffer env Buf.resY))
                      (qat_ecdh_compute_key_build env group priv_key pub_key).opData,
                    by simp only [List.append_assoc], ?_, hw, ?_,
                    fun hv' => ?_, fun _ => ⟨by rw [if_pos hc], rfl⟩⟩
                  · rw [List.all_append, hb1, hl1]
                    rfl
                  · rw [List.all_append, copy_out_evs,
                      all_isTail_of_isMem _ (ecdh_err_isMem _ _ _)]
                    rfl
                  · simp [hv'] at hv
                · refine ⟨(qat_ecdh_compute_key_build env group priv_key pub_key).evs ++ evs1,
                    evs2,
                    (qat_ecdh_compute_key_copy_out env o (resultBuffer env Buf.resX)
                      (resultBuffer env Buf.resY)).evs
                    ++ qat_ecdh_compute_key_err (some (resultBuffer env Buf.resX))
                      (some (resultBuffer env Buf.resY))
                      (qat_ecdh_compute_key_build env group priv_key pub_key).opData,
                    by simp only [List.append_assoc], ?_, hw, ?_,
                    fun hv' => ?_, fun _ => ⟨by rw [if_neg hc], rfl⟩⟩
                  · rw [List.all_append, hb1, hl1]
                    rfl
                  · rw [List.all_append, copy_out_evs,
                      all_isTail_of_isMem _ (ecdh_err_isMem _ _ _)]
                    rfl
                  · simp [hv'] at hv

/-! ## C8: the output of a successful `qat_ecdh_compute_key` -/

theorem copy_out_requested (env : Env) (o : OutParams) (x y : CpaFlatBuffer)
    (v : Option (List Byte)) (hX : o.outX = some v)
    (hok : (qat_ecdh_compute_key_copy_out env o x y).ok = true) :
    (qat_ecdh_compute_key_copy_out env o x y).out.outlenX = x.dataLenInBytes
    ∧ (qat_ecdh_compute_key_copy_out env o x y).out.outX
        = some (some (memcpyFrom x.pData x.dataLenInBytes))
    ∧ (∀ w, o.outY = some w → o.outlenY = y.dataLenInBytes
        ∧ (qat_ecdh_compute_key_copy_out env o x y).out.outY
            = some (some (memcpyFrom y.pData y.dataLenInBytes))) := by
  unfold qat_ecdh_compute_key_copy_out qat_ecdh_compute_key_copy_outX at hok ⊢
  simp only [hX] at hok ⊢
  by_cases hz : env.ok Site.zalloc_outX = true
  · simp only [hz, Bool.not_true, Bool.false_eq_true, if_false] at hok ⊢
    cases hY : o.outY with
    | none => simp
    | some w =>
      simp only [hY] at hok ⊢
      by_cases hlen : o.outlenY = y.dataLenInBytes
      · simp only [hlen, ne_eq, not_true_eq_false, if_false] at hok ⊢
        by_cases hzy : env.ok Site.zalloc_outY = true
        · simp [hzy, hlen]
        · simp [hzy] at hok
      · simp [hlen] at hok
  · simp [hz] at hok

theorem ecdh_buflen_eq (group : EC_GROUP) (hd : (0 : Int) < group.degree)
    (hd2 : (group.degree : Int) + 7 < 2147483648) :
    (qat_ecdh_compute_key_buflen group : Int) = (group.degree + 7) / 8
    ∧ wrapInt32 (qat_ecdh_compute_key_buflen group : Int) = (group.degree + 7) / 8 := by
  unfold qat_ecdh_compute_key_buflen
  rw [@wrapInt32_of_range (group.degree + 7) (by omega) (by omega),
    Int.tdiv_eq_ediv (by omega) (by omega)]
  have h1 : (0 : Int) ≤ (group.degree + 7) / 8 := by omega
  have h2 : (group.degree + 7) / 8 < 2147483648 := by omega
  generalize (group.degree + 7) / 8 = q at h1 h2
  unfold toSizeT
  constructor
  · omega
  · rw [show (((q % 18446744073709551616).toNat : Nat) : Int) = q by omega]
    exact @wrapInt32_of_range q (by omega) (by omega)

/-- C8. For a call of `qat_ecdh_compute_key` on a curve other than X25519 of
positive degree `d` (with `d + 7` in the `int` range) that returns a value
other than -1, with `outX` requested and the accelerator leaving the declared
lengths of the result buffers at `buflen`: the return value and `*outlenX`
equal `(d + 7) / 8`, the least `n` with `d ≤ 8 * n`; `*outX` holds the first
`*outlenX` bytes of the X result buffer (all of it when the buffer is that
long); and when `outY` is requested `*outlenY` is that same length and `*outY`
holds as many bytes of the Y result buffer. -/
theorem C8_ecdh_output (env : Env) (fuel : Nat) (o : OutParams) (pub_key : EC_POINT)
    (key : EC_KEY) (group : EC_GROUP) (out : EcdhOut) (v : Option (List Byte))
    (hgroup : key.group = some group) (hsup : group.curve_name ≠ NID_X25519)
    (hd : (0 : Int) < group.degree) (hd2 : (group.degree : Int) + 7 < 2147483648)
    (hX : o.outX = some v)
    (hlenX : env.resultLen Buf.resX = qat_ecdh_compute_key_buflen group)
    (hlenY : env.resultLen Buf.resY = qat_ecdh_compute_key_buflen group)
    (hrun : qat_ecdh_compute_key env fuel o pub_key (some key) = some out)
    (hsucc : out.ret ≠ -1) :
    out.ret = (group.degree + 7) / 8
    ∧ (out.out.outlenX : Int) = (group.degree + 7) / 8
    ∧ 8 * (out.ret - 1) < group.degree ∧ (group.degree : Int) ≤ 8 * out.ret
    ∧ out.out.outX = some (some ((env.resultBytes Buf.resX).take out.out.outlenX))
    ∧ ((env.resultBytes Buf.resX).length = out.out.outlenX →
        out.out.outX = some (some (env.resultBytes Buf.resX)))
    ∧ (∀ w, o.outY = some w → o.outlenY = out.out.outlenX
        ∧ out.out.outY = some (some ((env.resultBytes Buf.resY).take out.out.outlenX))
        ∧ ((env.resultBytes Buf.resY).length = out.out.outlenX →
            out.out.outY = some (some (env.resultBytes Buf.resY)))) := by
  have hsup' : ∀ key' group', some key = some key' → key'.group = some group' →
      group'.curve_name ≠ NID_X25519 := by
    intro key' group' hk hg
    simp only [Option.some.injEq] at hk
    subst hk
    rw [hgroup] at hg
    simp only [Option.some.injEq] at hg
    subst hg
    exact hsup
  obtain ⟨hb1, hb2⟩ := ecdh_buflen_eq group hd hd2
  rcases ecdh_inversion env fuel o pub_key (some key) out hrun with ⟨_, h⟩ | h
  · exact absurd (h hsup').1 hsucc
  · obtain ⟨pre, evs2, tl, _, _, _, _, hnv, hv⟩ := h
    cases hver : env.verifyResult with
    | false => exact absurd (hnv hver).1 hsucc
    | true =>
      obtain ⟨hret, hout⟩ := hv hver
      by_cases hc : (qat_ecdh_compute_key_copy_out env o (resultBuffer env Buf.resX)
          (resultBuffer env Buf.resY)).ok = true
      · rw [if_pos hc] at hret
        obtain ⟨c1, c2, c3⟩ := copy_out_requested env o (resultBuffer env Buf.resX)
          (resultBuffer env Buf.resY) v hX hc
        simp only [resultBuffer, hlenX, hlenY, memcpyFrom, Option.getD_some] at c1 c2 c3
        simp only [resultBuffer, hlenX, hlenY] at hret hout
        rw [c1] at hret
        have hlen : out.out.outlenX = qat_ecdh_compute_key_buflen group := by rw [hout, c1]
        have hoX : out.out.outX
            = some (some ((env.resultBytes Buf.resX).take out.out.outlenX)) := by
          rw [hlen, hout, c2]
        refine ⟨by rw [hret, hb2], by rw [hlen, hb1], by rw [hret, hb2]; omega,
          by rw [hret, hb2]; omega, hoX, ?_, ?_⟩
        · intro hl
          rw [hoX, ← hl, List.take_length]
        · intro w hw
          obtain ⟨d1, d2⟩ := c3 w hw
          have hoY : out.out.outY
              = some (some ((env.resultBytes Buf.resY).take out.out.outlenX)) := by
            rw [hlen, hout, d2]
          refine ⟨by rw [d1, hlen], hoY, ?_⟩
          intro hl
          rw [hoY, ← hl, List.take_length]
      · rw [if_neg hc] at hret
        exact absurd hret hsucc

theorem C8_witness :
    ((0 : Int) < sampleGroup.degree
      ∧ (envAccept true).resultLen Buf.resX = qat_ecdh_compute_key_buflen sampleGroup)
    ∧ ∃ out, qat_ecdh_compute_key (envAccept true) 1 sampleOut samplePub (some sampleKey)
          = some out
      ∧ out.ret = (sampleGroup.degree + 7) / 8
      ∧ (out.out.outlenX : Int) = (sampleGroup.degree + 7) / 8
      ∧ 8 * (out.ret - 1) < sampleGroup.degree ∧ (sampleGroup.degree : Int) ≤ 8 * out.ret
      ∧ out.out.outX
          = some (some (((envAccept true).resultBytes Buf.resX).take out.out.outlenX))
      ∧ (((envAccept true).resultBytes Buf.resX).length = out.out.outlenX →
          out.out.outX = some (some ((envAccept true).resultBytes Buf.resX)))
      ∧ (∀ w, sampleOut.outY = some w → sampleOut.outlenY = out.out.outlenX
          ∧ out.out.outY
              = some (some (((envAccept true).resultBytes Buf.resY).take out.out.outlenX))
          ∧ (((envAccept true).resultBytes Buf.resY).length = out.out.outlenX →
              out.out.outY = some (some ((envAccept true).resultBytes Buf.resY)))) :=
  ⟨⟨by decide, by decide⟩,
    (qat_ecdh_compute_key (envAccept true) 1 sampleOut samplePub (some sampleKey)).get
      (by decide),
    (Option.some_get _).symm,
    C8_ecdh_output (envAccept true) 1 sampleOut samplePub sampleKey sampleGroup _ none
      rfl (by decide) (by decide) (by decide) rfl (by decide) (by decide)
      (Option.some_get _).symm (by decide)⟩

/-! ## C9: what a failing `qat_ecdh_compute_key` leaves in the outputs -/

theorem not_mem_of_all (p : Ev → Bool) (l : List Ev) (h : l.all p = true) (e : Ev)
    (he : p e = false) : e ∉ l := by
  intro hm
  have := List.all_eq_true.mp h e hm
  rw [he] at this
  exact Bool.noConfusion this

/-- C9, as stated, fails.  With every call succeeding, the completion verified,
both `outX` and `outY` requested and `*outlenY = 5` while the Y result buffer
has length 1, `qat_ecdh_compute_key` (curve not X25519) returns -1 at line 504
after it has set `*outlenX = 1` and stored a fresh copy of the X result in
`*outX`: the outputs differ from their values on entry. -/
theorem C9_counterexample :
    (qat_ecdh_compute_key (envAccept true) 1 outBoth samplePub (some sampleKey)).map
        (fun r => (r.ret, r.out))
      = some (-1, { outX := some (some [7]), outlenX := 1, outY := some none, outlenY := 5 })
    ∧ sampleGroup.curve_name ≠ NID_X25519
    ∧ ({ outX := some (some [7]), outlenX := 1, outY := some none, outlenY := 5 } : OutParams)
        ≠ outBoth := by
  decide

/-- C9, amended.  On a curve other than X25519, whenever
`qat_ecdh_compute_key` returns without having reached the copy-out step, that
is without having entered the completion wait or with a completion that
reports not verified, it returns -1 and `*outX`, `*outlenX`, `*outY` and
`*outlenY` are exactly as on entry. -/
theorem C9_no_output_before_copy_out (env : Env) (fuel : Nat) (o : OutParams)
    (pub_key : EC_POINT) (ecdh : Option EC_KEY) (out : EcdhOut)
    (hsup : ∀ key group, ecdh = some key → key.group = some group →
      group.curve_name ≠ NID_X25519)
    (hrun : qat_ecdh_compute_key env fuel o pub_key ecdh = some out)
    (hpre : enteredWait out.trace = false ∨ env.verifyResult = false) :
    out.ret = -1 ∧ out.out = o := by
  rcases ecdh_inversion env fuel o pub_key ecdh out hrun with ⟨_, h⟩ | h
  · exact h hsup
  · obtain ⟨pre, evs2, tl, htr, _, hw, _, hnv, _⟩ := h
    rcases hpre with hp | hp
    · obtain ⟨_, _, h3, _⟩ := waitLoop_evs env fuel 0 evs2 hw
      rw [htr, enteredWait_append, enteredWait_append, h3] at hp
      simp at hp
    · exact ⟨(hnv hp).1, (hnv hp).2.1⟩

theorem C9_witness :
    ((envAccept false).verifyResult = false)
    ∧ ∃ out, qat_ecdh_compute_key (envAccept false) 1 outBoth samplePub (some sampleKey)
          = some out
        ∧ out.ret = -1 ∧ out.out = outBoth :=
  ⟨rfl,
    (qat_ecdh_compute_key (envAccept false) 1 outBoth samplePub (some sampleKey)).get
      (by decide),
    (Option.some_get _).symm,
    C9_no_output_before_copy_out (envAccept false) 1 outBoth samplePub (some sampleKey) _
      (fun key group hk hg => by
        simp only [Option.some.injEq] at hk
        subst hk
        simp only [sampleKey, Option.some.injEq] at hg
        subst hg
        decide)
      (Option.some_get _).symm (Or.inr rfl)⟩

/-! ## C10: result buffers are read only after a verified completion -/

/-- Every run of `qat_ecdsa_do_sign` that returns has one of two shapes.
Either it never entered the completion wait: its trace holds only events that
can precede the wait and it returned NULL.  Or it went through the wait: then
a completion that reports not verified gives NULL and, after the wait,
releases only; a completion that reports verified gives the signature decoded
from the result buffers. -/
theorem sign_inversion (env : Env) (fuel : Nat) (dgst : List Byte) (dgst_len : Int)
    (in_kinv in_r : Option BIGNUM) (eckey : EC_KEY) (out : SignOut)
    (h : qat_ecdsa_do_sign env fuel dgst dgst_len in_kinv in_r eckey = some out) :
    (out.trace.all Ev.isEarly = true ∧ out.ret = none)
    ∨ (∃ pre evs2 tl, out.trace = pre ++ evs2 ++ tl ∧ pre.all Ev.isEarly = true
        ∧ waitLoop env fuel 0 = some evs2 ∧ tl.all Ev.isTail = true
        ∧ (env.verifyResult = false → out.ret = none ∧ tl.all Ev.isMem = true)
        ∧ (env.verifyResult = true →
            out.ret = some
              { r := BN_bin2bn (memcpyFrom (resultBuffer env Buf.resR).pData
                       (resultBuffer env Buf.resR).dataLenInBytes)
                s := BN_bin2bn (memcpyFrom (resultBuffer env Buf.resS).pData
                       (resultBuffer env Buf.resS).dataLenInBytes) })) := by
  unfold qat_ecdsa_do_sign at h
  split at h
  · simp only [Option.some.injEq] at h
    subst h
    exact Or.inl ⟨rfl, rfl⟩
  · rename_i group hgroup
    split at h
    · simp only [Option.some.injEq] at h
      subst h
      exact Or.inl ⟨rfl, rfl⟩
    · rename_i priv_key hpriv
      split at h
      · simp only [Option.some.injEq] at h
        subst h
        exact Or.inl ⟨rfl, rfl⟩
      · split at h
        · simp only [Option.some.injEq] at h
          subst h
          exact Or.inl ⟨rfl, rfl⟩
        · rename_i ec_point hgen
          have hb0 := all_isEarly_of_isMem _
            (sign_build1_evs_isMem env group priv_key dgst dgst_len)
          split_ifs at h with hm hb
          · simp only [Option.some.injEq] at h
            subst h
            exact Or.inl ⟨rfl, rfl⟩
          · simp only [Option.some.injEq] at h
            subst h
            refine Or.inl ⟨?_, rfl⟩
            rw [List.all_append, hb0, all_isEarly_of_isMem _ (sign_err_isMem _ _ _)]
            rfl
          · unfold qat_ecdsa_do_sign_from_draw at h
            split at h
            · exact absurd h (by simp)
            · simp only [Option.some.injEq] at h
              subst h
              refine Or.inl ⟨?_, rfl⟩
              rw [List.all_append, hb0, all_isEarly_of_isMem _ (sign_err_isMem _ _ _)]
              rfl
            · rename_i k hk
              have hb1 : (qat_ecdsa_do_sign_build2 env group ec_point in_kinv in_r k
                  (qat_ecdsa_do_sign_build1 env group priv_key dgst dgst_len)).evs.all
                  Ev.isEarly = true := by
                apply all_isEarly_of_isMem
                rw [sign_build2_evs_isMem]
                exact sign_build1_evs_isMem env group priv_key dgst dgst_len
              split_ifs at h with hb2
              · simp only [Option.some.injEq] at h
                subst h
                refine Or.inl ⟨?_, rfl⟩
                rw [List.all_append, hb1, all_isEarly_of_isMem _ (sign_err_isMem _ _ _)]
                rfl
              · unfold qat_ecdsa_do_sign_run at h
                split at h
                · exact absurd h (by simp)
                · rename_i e evs1 hloop
                  have hl1 := all_isEarly_of_isSubmitLoop _
                    (submitLoop_evs env fuel 0 0 e evs1 hloop)
                  split_ifs at h with he
                  · simp only [Option.some.injEq] at h
                    subst h
                    refine Or.inl ⟨?_, rfl⟩
                    rw [List.all_append, List.all_append, hb1, hl1,
                      all_isEarly_of_isMem _ (sign_err_isMem _ _ _)]
                    rfl
                  · right
                    unfold qat_ecdsa_do_sign_complete at h
                    split at h
                    · exact absurd h (by simp)
                    · rename_i evs2 hw
                      split_ifs at h with hv <;>
                        (simp only [Option.some.injEq] at h
                         subst h)
                      · refine ⟨(qat_ecdsa_do_sign_build2 env group ec_point in_kinv in_r k
                            (qat_ecdsa_do_sign_build1 env group priv_key dgst dgst_len)).evs
                            ++ evs1, evs2, _, rfl, ?_, hw,
                          all_isTail_of_isMem _ (sign_err_isMem _ _ _),
                          fun _ => ⟨rfl, sign_err_isMem _ _ _⟩, fun hv' => ?_⟩
                        · rw [List.all_append, hb1, hl1]
                          rfl
                        · simp [hv'] at hv
                      · refine ⟨(qat_ecdsa_do_sign_build2 env group ec_point in_kinv in_r k
                            (qat_ecdsa_do_sign_build1 env group priv_key dgst dgst_len)).evs
                            ++ evs1, evs2,
                          [Ev.readResult Buf.resR, Ev.readResult Buf.resS]
                            ++ qat_ecdsa_do_sign_err (some (resultBuffer env Buf.resR))
                              (some (resultBuffer env Buf.resS))
                              (qat_ecdsa_do_sign_build2 env group ec_point in_kinv in_r k
                                (qat_ecdsa_do_sign_build1 env group priv_key dgst
                                  dgst_len)).opData,
                          by simp only [List.append_assoc], ?_, hw, ?_,
                          fun hv' => ?_, fun _ => rfl⟩
                        · rw [List.all_append, hb1, hl1]
                          rfl
                        · rw [List.all_append,
                            all_isTail_of_isMem _ (sign_err_isMem _ _ _)]
                          rfl
                        · simp [hv'] at hv

/-- Reads of result buffers in a trace of the shape `pre ++ evs2 ++ tl`. -/
theorem readResult_in_shape (env : Env) (fuel : Nat) (pre evs2 tl : List Ev)
    (hpre : pre.all Ev.isEarly = true) (hw : waitLoop env fuel 0 = some evs2)
    (buf : Buf) (hmem : Ev.readResult buf ∈ pre ++ evs2 ++ tl) :
    Ev.readResult buf ∈ tl := by
  obtain ⟨h1, _, _, _⟩ := waitLoop_evs env fuel 0 evs2 hw
  rcases List.mem_append.mp hmem with h | h
  · rcases List.mem_append.mp h with h | h
    · exact absurd h (not_mem_of_all Ev.isEarly pre hpre _ rfl)
    · exact absurd h (not_mem_of_all Ev.isWait evs2 h1 _ rfl)
  · exact h

/-- C10. In every run of `qat_ecdh_compute_key` and of `qat_ecdsa_do_sign`
that returns: if a result buffer is read (copied out, or decoded into r and
s), then the flag `done` was read as true before and the completion reports
verified; and if the completion was observed and reports not verified, the
function returns its failure value (-1, NULL), no result buffer is read and,
for ECDH, the caller's outputs are untouched. -/
theorem C10_results_read_only_when_verified (env : Env) (fuel : Nat) :
    (∀ (o : OutParams) (pub_key : EC_POINT) (ecdh : Option EC_KEY) (out : EcdhOut),
      qat_ecdh_compute_key env fuel o pub_key ecdh = some out →
        ((∃ buf, Ev.readResult buf ∈ out.trace) →
          Ev.flag true ∈ out.trace ∧ env.verifyResult = true)
        ∧ (Ev.flag true ∈ out.trace → env.verifyResult = false →
            out.ret = -1 ∧ out.out = o ∧ ∀ buf, Ev.readResult buf ∉ out.trace))
    ∧ (∀ (dgst : List Byte) (dgst_len : Int) (in_kinv in_r : Option BIGNUM) (eckey : EC_KEY)
        (out : SignOut),
      qat_ecdsa_do_sign env fuel dgst dgst_len in_kinv in_r eckey = some out →
        ((∃ buf, Ev.readResult buf ∈ out.trace) →
          Ev.flag true ∈ out.trace ∧ env.verifyResult = true)
        ∧ (Ev.flag true ∈ out.trace → env.verifyResult = false →
            out.ret = none ∧ ∀ buf, Ev.readResult buf ∉ out.trace)) := by
  constructor
  · intro o pub_key ecdh out hrun
    rcases ecdh_inversion env fuel o pub_key ecdh out hrun with ⟨h1, _⟩ | h
    · exact ⟨fun ⟨buf, hb⟩ => absurd hb (not_mem_of_all Ev.isEarly _ h1 _ rfl),
        fun hf => absurd hf (not_mem_of_all Ev.isEarly _ h1 _ rfl)⟩
    · obtain ⟨pre, evs2, tl, htr, hpre, hw, _, hnv, _⟩ := h
      obtain ⟨_, hflag, _, _⟩ := waitLoop_evs env fuel 0 evs2 hw
      have hnone : env.verifyResult = false → ∀ buf, Ev.readResult buf ∉ out.trace := by
        intro hv buf hb
        rw [htr] at hb
        exact not_mem_of_all Ev.isMem tl (hnv hv).2.2 (Ev.readResult buf) rfl
          (readResult_in_shape env fuel pre evs2 tl hpre hw buf hb)
      refine ⟨fun ⟨buf, hb⟩ => ⟨?_, ?_⟩, fun _ hv => ⟨(hnv hv).1, (hnv hv).2.1, hnone hv⟩⟩
      · rw [htr]
        exact List.mem_append_left _ (List.mem_append_right _ hflag)
      · cases hv : env.verifyResult with
        | true => rfl
        | false => exact absurd hb (hnone hv buf)
  · intro dgst dgst_len in_kinv in_r eckey out hrun
    rcases sign_inversion env fuel dgst dgst_len in_kinv in_r eckey out hrun with ⟨h1, _⟩ | h
    · exact ⟨fun ⟨buf, hb⟩ => absurd hb (not_mem_of_all Ev.isEarly _ h1 _ rfl),
        fun hf => absurd hf (not_mem_of_all Ev.isEarly _ h1 _ rfl)⟩
    · obtain ⟨pre, evs2, tl, htr, hpre, hw, _, hnv, _⟩ := h
      obtain ⟨_, hflag, _, _⟩ := waitLoop_evs env fuel 0 evs2 hw
      have hnone : env.verifyResult = false → ∀ buf, Ev.readResult buf ∉ out.trace := by
        intro hv buf hb
        rw [htr] at hb
        exact not_mem_of_all Ev.isMem tl (hnv hv).2 (Ev.readResult buf) rfl
          (readResult_in_shape env fuel pre evs2 tl hpre hw buf hb)
      refine ⟨fun ⟨buf, hb⟩ => ⟨?_, ?_⟩, fun _ hv => ⟨(hnv hv).1, hnone hv⟩⟩
      · rw [htr]
        exact List.mem_append_left _ (List.mem_append_right _ hflag)
      · cases hv : env.verifyResult with
        | true => rfl
        | false => exact absurd hb (hnone hv buf)

theorem C10_witness :
    (∃ out, qat_ecdh_compute_key (envAccept false) 1 sampleOut samplePub (some sampleKey)
          = some out
        ∧ Ev.flag true ∈ out.trace
        ∧ out.ret = -1 ∧ out.out = sampleOut ∧ ∀ buf, Ev.readResult buf ∉ out.trace)
    ∧ (∃ out, qat_ecdsa_do_sign (envAccept false) 1 [0xAB] 1 none none sampleKey = some out
        ∧ Ev.flag true ∈ out.trace
        ∧ out.ret = none ∧ ∀ buf, Ev.readResult buf ∉ out.trace) :=
  ⟨⟨(qat_ecdh_compute_key (envAccept false) 1 sampleOut samplePub (some sampleKey)).get
        (by decide),
      (Option.some_get _).symm, by decide,
      ((C10_results_read_only_when_verified (envAccept false) 1).1 sampleOut samplePub
        (some sampleKey) _ (Option.some_get _).symm).2 (by decide) rfl⟩,
    ⟨(qat_ecdsa_do_sign (envAccept false) 1 [0xAB] 1 none none sampleKey).get (by decide),
      (Option.some_get _).symm, by decide,
      ((C10_results_read_only_when_verified (envAccept false) 1).2 [0xAB] 1 none none
        sampleKey _ (Option.some_get _).symm).2 (by decide) rfl⟩⟩

/-! ## C11: missing inputs -/

/-- C11: on a missing required input each of the four functions returns its
failure value at once, in every environment and with any fuel: no event is
emitted (no accelerator memory is allocated, no instance acquired, nothing
submitted), no submit loop is entered, and no fallible call is consulted (the
result does not depend on the environment, so the descriptor was not
allocated either).  `qat_ecdh_compute_key` returns -1 when the key, its
private scalar or its group is NULL; `qat_ecdh_generate_key` returns 0, with
the key untouched, when the key or its group is NULL; `qat_ecdsa_do_sign`
returns NULL when the group, the private key or the public key is NULL;
`qat_ecdsa_do_verify` returns -1 when the key, its group, its public key or
the signature is NULL. -/
theorem C11_missing_input_fails_fast (env : Env) (fuel : Nat) :
    (∀ o pub_key ecdh,
      (ecdh = none ∨ ∃ key, ecdh = some key ∧ (key.priv_key = none ∨ key.group = none)) →
      qat_ecdh_compute_key env fuel o pub_key ecdh
        = some { ret := -1, out := o, trace := [], submitted := none })
    ∧ (∀ ecdh, (ecdh = none ∨ ∃ key, ecdh = some key ∧ key.group = none) →
      qat_ecdh_generate_key env fuel ecdh = some { ret := 0, key := ecdh, trace := [] })
    ∧ (∀ dgst dgst_len in_kinv in_r (eckey : EC_KEY),
      (eckey.group = none ∨ eckey.priv_key = none ∨ eckey.pub_key = none) →
      qat_ecdsa_do_sign env fuel dgst dgst_len in_kinv in_r eckey
        = some { ret := none, trace := [], submitted := none })
    ∧ (∀ dgst dgst_len sig eckey,
      (eckey = none ∨ sig = none
        ∨ ∃ key, eckey = some key ∧ (key.group = none ∨ key.pub_key = none)) →
      qat_ecdsa_do_verify env fuel dgst dgst_len sig eckey
        = some { ret := -1, trace := [], submitted := none }) := by
  refine ⟨?_, ?_, ?_, ?_⟩
  · rintro o pub_key ecdh (rfl | ⟨key, rfl, h | h⟩)
    · rfl
    · simp only [qat_ecdh_compute_key, h]
    · cases hp : key.priv_key <;> simp only [qat_ecdh_compute_key, h, hp]
  · rintro ecdh (rfl | ⟨key, rfl, h⟩)
    · rfl
    · simp only [qat_ecdh_generate_key, h]
  · rintro dgst dgst_len in_kinv in_r eckey (h | h | h)
    · simp only [qat_ecdsa_do_sign, h]
    · cases hg : eckey.group <;> simp only [qat_ecdsa_do_sign, h, hg]
    · cases hg : eckey.group <;> cases hp : eckey.priv_key
        <;> simp only [qat_ecdsa_do_sign, h, hg, hp]
  · rintro dgst dgst_len sig eckey (rfl | rfl | ⟨key, rfl, h | h⟩)
    · rfl
    · cases eckey with
      | none => rfl
      | some key =>
        cases hg : key.group <;> cases hp : key.pub_key
          <;> simp only [qat_ecdsa_do_verify, hg, hp]
    · simp only [qat_ecdsa_do_verify, h]
    · cases hg : key.group <;> simp only [qat_ecdsa_do_verify, h, hg]

/-- C11, instance: a key without a group, in an environment where every call
would succeed. -/
theorem C11_witness :
    qat_ecdh_generate_key (envAccept true) 5 (some { sampleKey with group := none })
        = some { ret := 0, key := some { sampleKey with group := none }, trace := [] }
    ∧ qat_ecdsa_do_sign (envAccept true) 5 [1] 1 none none { sampleKey with priv_key := none }
        = some { ret := none, trace := [], submitted := none } :=
  ⟨(C11_missing_input_fails_fast (envAccept true) 5).2.1 _ (Or.inr ⟨_, rfl, rfl⟩),
   (C11_missing_input_fails_fast (envAccept true) 5).2.2.1 [1] 1 none none _
     (Or.inr (Or.inl rfl))⟩

/-! ## C12: range of the scalars drawn -/

/-- The installation step leaves the private key alone. -/
theorem generate_key_install_priv (env : Env) (group : EC_GROUP) (key : EC_KEY)
    (x y : BIGNUM) :
    (qat_ecdh_generate_key_install env group key x y).2.priv_key = key.priv_key := by
  unfold qat_ecdh_generate_key_install
  split_ifs <;> rfl

/-- Lines 617-737 leave the private key alone. -/
theorem generate_key_public_priv {env : Env} {fuel : Nat} {group : EC_GROUP} {key : EC_KEY}
    {out : GenOut} (h : qat_ecdh_generate_key_public env fuel group key = some out) :
    ∃ k, out.key = some k ∧ k.priv_key = key.priv_key := by
  unfold qat_ecdh_generate_key_public at h
  split at h
  · simp only [Option.some.injEq] at h; subst h; exact ⟨_, rfl, rfl⟩
  split at h
  · simp only [Option.some.injEq] at h; subst h; exact ⟨_, rfl, rfl⟩
  split at h
  · exact absurd h (by simp)
  split at h
  · exact absurd h (by simp)
  split at h
  · simp only [Option.some.injEq] at h; subst h; exact ⟨_, rfl, rfl⟩
  split at h
  · simp only [Option.some.injEq] at h; subst h; exact ⟨_, rfl, rfl⟩
  · simp only [Option.some.injEq] at h; subst h
    exact ⟨_, rfl, generate_key_install_priv _ _ _ _ _⟩

/-- A value with which the loop of lines 603-608 is left is a nonzero draw. -/
theorem generate_key_draw_accepts {env : Env} :
    ∀ {fuel j : Nat} {cur x : BIGNUM},
      qat_ecdh_generate_key_draw env fuel j cur = some (true, x) →
      ∃ i, env.rand i = some x ∧ x ≠ 0
  | 0, _, _, _, h => by simp [qat_ecdh_generate_key_draw] at h
  | fuel + 1, j, cur, x, h => by
    unfold qat_ecdh_generate_key_draw at h
    split at h
    · simp at h
    · rename_i v hv
      split_ifs at h with hz
      · exact generate_key_draw_accepts h
      · simp only [Option.some.injEq, Prod.mk.injEq, true_and] at h
        subst h
        exact ⟨j, hv, by simpa [BN_is_zero] using hz⟩

/-- A value with which the loop of lines 917-922 is left is a nonzero draw. -/
theorem drawNonzero_accepts {env : Env} :
    ∀ {fuel j : Nat} {x : BIGNUM}, drawNonzero env fuel j = some (some x) →
      ∃ i, env.rand i = some x ∧ x ≠ 0
  | 0, _, _, h => by simp [drawNonzero] at h
  | fuel + 1, j, x, h => by
    unfold drawNonzero at h
    split at h
    · simp at h
    · rename_i v hv
      split_ifs at h with hz
      · exact drawNonzero_accepts h
      · simp only [Option.some.injEq] at h
        subst h
        exact ⟨j, hv, by simpa [BN_is_zero] using hz⟩

/-- A run of `qat_ecdh_generate_key` on a supported curve that returns 1
leaves in the key a scalar with which the loop of lines 603-608 was left. -/
theorem generate_key_priv_of_ok {env : Env} {fuel : Nat} {key : EC_KEY} {group : EC_GROUP}
    {out : GenOut} (hg : key.group = some group) (hc : group.curve_name ≠ NID_X25519)
    (h : qat_ecdh_generate_key env fuel (some key) = some out) (hret : out.ret = 1) :
    ∃ x k, qat_ecdh_generate_key_draw env fuel 0 (key.priv_key.getD 0) = some (true, x)
      ∧ out.key = some k ∧ k.priv_key = some x := by
  simp only [qat_ecdh_generate_key, hg, hc, if_false] at h
  split at h
  · simp only [Option.some.injEq] at h; subst h; simp at hret
  split at h
  · simp only [Option.some.injEq] at h; subst h; simp at hret
  split at h
  · simp only [Option.some.injEq] at h; subst h; simp at hret
  split at h
  · exact absurd h (by simp)
  rename_i d hd
  split at h
  · simp only [Option.some.injEq] at h; subst h; simp at hret
  rename_i h4
  split at h
  · simp only [Option.some.injEq] at h; subst h; simp at hret
  obtain ⟨k, hk, hp⟩ := generate_key_public_priv h
  refine ⟨d.2, k, ?_, hk, hp⟩
  rw [hd]
  obtain ⟨d1, d2⟩ := d
  cases d1
  · simp at h4
  · rfl

/-- C12, the claim as written fails: with every draw in [0, order), order 11,
a draw of 10 = order - 1 is accepted, by `qat_ecdh_generate_key` (which returns
1 and leaves 10 as the private scalar) and by the loop of `qat_ecdsa_do_sign`,
and 10 < order - 1 does not hold. -/
theorem C12_counterexample :
    (∀ j v, envDrawLast.rand j = some v → 0 ≤ v ∧ v < sampleGroup.order)
    ∧ (qat_ecdh_generate_key envDrawLast 5 (some sampleKey)).map
        (fun o => (o.ret, o.key.bind (fun k => k.priv_key))) = some (1, some 10)
    ∧ drawNonzero envDrawLast 5 0 = some (some 10)
    ∧ ¬ ((10 : Int) < sampleGroup.order - 1) := by
  refine ⟨?_, by decide, by decide, by decide⟩
  intro j v h
  simp only [envDrawLast, Option.some.injEq] at h
  subst h
  decide

/-- C12 (amended): when every draw of the random source lies in [0, order),
the private scalar with which `qat_ecdh_generate_key` leaves its loop and the
nonce with which `qat_ecdsa_do_sign` leaves its loop satisfy 1 <= x and
x < order (so x <= order - 1, the bound being attained); a draw of zero is
not accepted: the loop goes on to the next draw.  At the level of the
functions: a run of `qat_ecdh_generate_key` that returns 1 leaves such a
scalar in the key, and a run of `qat_ecdsa_do_sign` that reaches its submit
loop built the descriptor from such a nonce. -/
theorem C12_accepted_scalar_range (env : Env) (group : EC_GROUP)
    (hrand : ∀ j v, env.rand j = some v → (0 : Int) ≤ v ∧ v < group.order) :
    (∀ fuel j cur x, qat_ecdh_generate_key_draw env fuel j cur = some (true, x) →
        (1 : Int) ≤ x ∧ x < group.order)
    ∧ (∀ fuel j x, drawNonzero env fuel j = some (some x) →
        (1 : Int) ≤ x ∧ x < group.order)
    ∧ (∀ fuel j cur, env.rand j = some 0 →
        qat_ecdh_generate_key_draw env (fuel + 1) j cur
          = qat_ecdh_generate_key_draw env fuel (j + 1) 0)
    ∧ (∀ fuel j, env.rand j = some 0 →
        drawNonzero env (fuel + 1) j = drawNonzero env fuel (j + 1))
    ∧ (∀ fuel key out, key.group = some group → group.curve_name ≠ NID_X25519 →
        qat_ecdh_generate_key env fuel (some key) = some out → out.ret = 1 →
        ∃ k x, out.key = some k ∧ k.priv_key = some x ∧ (1 : Int) ≤ x ∧ x < group.order)
    ∧ (∀ fuel dgst dgst_len in_kinv in_r eckey l, eckey.group = some group →
        signReachesSubmit env fuel dgst dgst_len in_kinv in_r eckey l →
        ∃ k g s, drawNonzero env fuel 0 = some (some k) ∧ (1 : Int) ≤ k ∧ k < group.order
          ∧ l = qat_ecdsa_do_sign_build2 env group g in_kinv in_r k s) := by
  have key1 : ∀ i (x : Int), env.rand i = some x → x ≠ 0 → 1 ≤ x ∧ x < group.order := by
    intro i x hi hx
    obtain ⟨h0, h1⟩ := hrand i x hi
    have h0' : (0 : Int) ≤ x := h0
    exact ⟨by omega, h1⟩
  refine ⟨?_, ?_, ?_, ?_, ?_, ?_⟩
  · intro fuel j cur x h
    obtain ⟨i, hi, hx⟩ := generate_key_draw_accepts h
    exact key1 i x hi hx
  · intro fuel j x h
    obtain ⟨i, hi, hx⟩ := drawNonzero_accepts h
    exact key1 i x hi hx
  · intro fuel j cur h
    simp [qat_ecdh_generate_key_draw, h, BN_is_zero]
  · intro fuel j h
    simp [drawNonzero, h, BN_is_zero]
  · intro fuel key out hg hc h hret
    obtain ⟨x, k, hd, hk, hp⟩ := generate_key_priv_of_ok hg hc h hret
    obtain ⟨i, hi, hx⟩ := generate_key_draw_accepts hd
    exact ⟨k, x, hk, hp, key1 i x hi hx⟩
  · intro fuel dgst dgst_len in_kinv in_r eckey l hg h
    obtain ⟨group1, priv_key, pub_key, ec_point, k, hg1, -, -, -, -, -, hd, hl, -⟩ := h
    rw [hg] at hg1
    simp only [Option.some.injEq] at hg1
    subst hg1
    obtain ⟨i, hi, hx⟩ := drawNonzero_accepts hd
    exact ⟨k, ec_point, _, hd, (key1 i k hi hx).1, (key1 i k hi hx).2, hl⟩

/-- C12 (amended), instance: every draw is 10 and the order is 11. -/
theorem C12_witness :
    (∀ j v, envDrawLast.rand j = some v → (0 : Int) ≤ v ∧ v < sampleGroup.order)
    ∧ ((1 : Int) ≤ 10 ∧ (10 : Int) < sampleGroup.order) :=
  have hrand : ∀ j v, envDrawLast.rand j = some v → (0 : Int) ≤ v ∧ v < sampleGroup.order := by
    intro j v h
    simp only [envDrawLast, Option.some.injEq] at h
    subst h
    decide
  ⟨hrand, (C12_accepted_scalar_range envDrawLast sampleGroup hrand).2.1 5 0 10 (by decide)⟩

/-! ## C13: the public key and the set/get round trip -/

/-- `BN_cmp` is zero exactly on equal arguments. -/
theorem BN_cmp_eq_zero_iff (a b : Int) : BN_cmp a b = 0 ↔ a = b := by
  unfold BN_cmp
  split_ifs with h1 h2
  · constructor
    · intro h; simp at h
    · intro h; subst h; exact absurd h1 (lt_irrefl _)
  · simp [h2]
  · simp [h2]

/-- Value returned by the installation step, and the key it leaves. -/
theorem generate_key_install_cases (env : Env) (group : EC_GROUP) (key : EC_KEY)
    (x y : Int) :
    ((qat_ecdh_generate_key_install env group key x y).1 = 1
      ∧ (env.set_affine group x y).x = x ∧ (env.set_affine group x y).y = y
      ∧ (qat_ecdh_generate_key_install env group key x y).2.pub_key
          = some (env.set_affine group x y))
    ∨ ((qat_ecdh_generate_key_install env group key x y).1 = 0
      ∧ (key.pub_key = none
          → (qat_ecdh_generate_key_install env group key x y).2.pub_key = none)
      ∧ ((group.field_type = NID_X9_62_prime_field
            ∨ group.field_type = NID_X9_62_characteristic_two_field) →
          env.ok Site.gen_set_affine = true → key.pub_key.isSome = true →
          (qat_ecdh_generate_key_install env group key x y).2.pub_key
            = some (env.set_affine group x y))) := by
  unfold qat_ecdh_generate_key_install
  split_ifs with h1 h2 h3 h4
  · refine Or.inr ⟨rfl, fun h => h, fun _ hs _ => ?_⟩
    simp [hs] at h2
  · refine Or.inr ⟨rfl, fun h => ?_, fun _ _ _ => rfl⟩
    simp [h] at h4
  · refine Or.inr ⟨rfl, fun h => h, fun _ _ hp => ?_⟩
    exact absurd hp h4
  · simp only [not_or, ne_eq, not_not, BN_cmp_eq_zero_iff] at h3
    exact Or.inl ⟨rfl, h3.2.1.symm, h3.2.2.1.symm, rfl⟩
  · refine Or.inr ⟨rfl, fun h => h, fun hf _ _ => absurd hf h1⟩

/-- A mismatch after the round trip makes the installation step fail. -/
theorem generate_key_install_mismatch (env : Env) (group : EC_GROUP) (key : EC_KEY)
    (x y : Int)
    (h : (env.set_affine group x y).x ≠ x ∨ (env.set_affine group x y).y ≠ y) :
    (qat_ecdh_generate_key_install env group key x y).1 = 0 := by
  rcases generate_key_install_cases env group key x y with ⟨-, hx, hy, -⟩ | ⟨h0, -⟩
  · rcases h with h | h
    · exact absurd hx h
    · exact absurd hy h
  · exact h0

/-- A run that reaches line 655 returns what the installation step yields. -/
theorem generate_key_of_reaches {env : Env} {fuel : Nat} {key : EC_KEY} {group : EC_GROUP}
    {x y : BIGNUM} (h : generateKeyReachesInstall env fuel key group x y) :
    ∃ k1 tr, k1.pub_key = key.pub_key ∧
      qat_ecdh_generate_key env fuel (some key)
        = some { ret := (qat_ecdh_generate_key_install env group k1 x y).1
                 key := some (qat_ecdh_generate_key_install env group k1 x y).2
                 trace := tr } := by
  obtain ⟨d, gen, r, hg, hc, h1, h2, h3, h4, hd, h5, h6, h7, hgen, hr, hpos, h8, h9, h10, h11,
    rfl, rfl⟩ := h
  refine ⟨{ key with priv_key := some d }, r.trace, rfl, ?_⟩
  have e3 : (key.priv_key.isNone && !env.ok Site.gen_priv_new) = false := by
    cases hp : key.priv_key
    · simp [h3 hp]
    · simp
  have e5 : (key.priv_key.isNone && !env.ok Site.gen_set_private_key) = false := by
    cases hp : key.priv_key
    · simp [h5 hp]
    · simp
  have e6 : (key.pub_key.isNone && !env.ok Site.gen_point_new) = false := by
    cases hp : key.pub_key
    · simp [h6 hp]
    · simp
  have e7 : ¬ group.degree ≤ 0 := not_le.mpr h7
  simp only [hg] at hr
  have e8 : ¬ r.ret ≤ 0 := not_le.mpr hpos
  simp only [qat_ecdh_generate_key, hg, hc, if_false, h1, h2, e3, h4, hd, e5,
    qat_ecdh_generate_key_public, e6, e7, hgen, hr, e8, h8, h9, h10, h11,
    Bool.not_true, Bool.or_self, Bool.false_eq_true]

/-- The public key after lines 617-737. -/
theorem generate_key_public_cases {env : Env} {fuel : Nat} {group : EC_GROUP} {key : EC_KEY}
    {out : GenOut} (h : qat_ecdh_generate_key_public env fuel group key = some out) :
    (out.ret = 0 ∧ out.key = some key)
    ∨ ∃ gen r, group.generator = some gen
        ∧ (key.pub_key = none → env.ok Site.gen_point_new = true) ∧ 0 < group.degree
        ∧ qat_ecdh_compute_key env fuel
            { outX := some none, outlenX := qat_ecdh_generate_key_field_len group
              outY := some none, outlenY := qat_ecdh_generate_key_field_len group }
            gen (some key) = some r
        ∧ 0 < r.ret
        ∧ env.ok Site.gen_x_new = true ∧ env.ok Site.gen_y_new = true
        ∧ env.ok Site.gen_tx_new = true ∧ env.ok Site.gen_ty_new = true
        ∧ out.ret = (qat_ecdh_generate_key_install env group key
            (BN_bin2bn (memcpyFrom r.out.outX.join r.out.outlenX))
            (BN_bin2bn (memcpyFrom r.out.outY.join r.out.outlenY))).1
        ∧ out.key = some (qat_ecdh_generate_key_install env group key
            (BN_bin2bn (memcpyFrom r.out.outX.join r.out.outlenX))
            (BN_bin2bn (memcpyFrom r.out.outY.join r.out.outlenY))).2 := by
  unfold qat_ecdh_generate_key_public at h
  split at h
  · simp only [Option.some.injEq] at h; subst h; exact Or.inl ⟨rfl, rfl⟩
  rename_i h1
  split at h
  · simp only [Option.some.injEq] at h; subst h; exact Or.inl ⟨rfl, rfl⟩
  rename_i h2
  split at h
  · exact absurd h (by simp)
  rename_i gen hgen
  split at h
  · exact absurd h (by simp)
  rename_i r hr
  split at h
  · simp only [Option.some.injEq] at h; subst h; exact Or.inl ⟨rfl, rfl⟩
  rename_i h3
  split at h
  · simp only [Option.some.injEq] at h; subst h; exact Or.inl ⟨rfl, rfl⟩
  rename_i h4
  simp only [Option.some.injEq] at h; subst h
  simp only [Bool.or_eq_true, Bool.not_eq_true', not_or, Bool.not_eq_false] at h4
  refine Or.inr ⟨gen, r, hgen, ?_, not_le.mp h2, hr, not_le.mp h3, h4.1.1.1, h4.1.1.2,
    h4.1.2, h4.2, rfl, rfl⟩
  intro hp
  simpa [hp] using h1

/-- Every returning run of `qat_ecdh_generate_key` on a supported curve either
fails with the public key of the key as it was, or reaches line 655 and
returns what the installation step yields. -/
theorem generate_key_cases {env : Env} {fuel : Nat} {key : EC_KEY} {group : EC_GROUP}
    {out : GenOut} (hg : key.group = some group) (hc : group.curve_name ≠ NID_X25519)
    (h : qat_ecdh_generate_key env fuel (some key) = some out) :
    (out.ret = 0 ∧ ∃ k, out.key = some k ∧ k.pub_key = key.pub_key)
    ∨ ∃ x y k1, generateKeyReachesInstall env fuel key group x y
        ∧ k1.pub_key = key.pub_key
        ∧ out.ret = (qat_ecdh_generate_key_install env group k1 x y).1
        ∧ out.key = some (qat_ecdh_generate_key_install env group k1 x y).2 := by
  simp only [qat_ecdh_generate_key, hg, hc, if_false] at h
  split at h
  · simp only [Option.some.injEq] at h; subst h; exact Or.inl ⟨rfl, _, rfl, rfl⟩
  rename_i h1
  split at h
  · simp only [Option.some.injEq] at h; subst h; exact Or.inl ⟨rfl, _, rfl, rfl⟩
  rename_i h2
  split at h
  · simp only [Option.some.injEq] at h; subst h; exact Or.inl ⟨rfl, _, rfl, rfl⟩
  rename_i h3
  split at h
  · exact absurd h (by simp)
  rename_i d hd
  split at h
  · simp only [Option.some.injEq] at h; subst h
    refine Or.inl ⟨rfl, _, rfl, ?_⟩
    split <;> rfl
  rename_i h4
  split at h
  · simp only [Option.some.injEq] at h; subst h; exact Or.inl ⟨rfl, _, rfl, rfl⟩
  rename_i h5
  obtain ⟨d1, d2⟩ := d
  have hd1 : d1 = true := by simpa using h4
  subst hd1
  simp only [Bool.or_eq_true, Bool.not_eq_true', not_or, Bool.not_eq_false] at h1
  simp only [Bool.not_eq_true', Bool.not_eq_false] at h3
  rcases generate_key_public_cases h with ⟨h0, hk⟩ | ⟨gen, r, hgen, h6, h7, hr, hpos, h8, h9,
    h10, h11, hret, hkey⟩
  · exact Or.inl ⟨h0, _, hk, rfl⟩
  · refine Or.inr ⟨_, _, { group := some group, priv_key := some d2, pub_key := key.pub_key },
      ⟨d2, gen, r, hg, hc, h1.1, h1.2, ?_, h3, hd, ?_, h6, h7, hgen, ?_, hpos, h8, h9, h10, h11,
        rfl, rfl⟩, rfl, hret, hkey⟩
    · intro hp; simpa [hp] using h2
    · intro hp; simpa [hp] using h5
    · simp only [hg]; exact hr

/-- C13, the claim as written fails: `sampleKey` has the public key (4, 6);
the accelerator returns 252 for each coordinate, which the library stores as
1 modulo the field prime 251; the coordinates read back differ,
`qat_ecdh_generate_key` returns 0, and the public key of the key is now
(1, 1): the point was set in place before the comparison. -/
theorem C13_counterexample :
    sampleKey.pub_key = some { x := 4, y := 6 }
    ∧ (qat_ecdh_generate_key envOutOfRange 5 (some sampleKey)).map
        (fun o => (o.ret, o.key.bind (fun k => k.pub_key)))
      = some (0, some { x := 1, y := 1 }) := by
  decide

/-- C13 (amended): on a supported curve (the two branches, prime field and
characteristic two, are one in the model), `qat_ecdh_generate_key` returns 1
only if the run reaches line 655 with coordinates x, y decoded from the
accelerator result for which the coordinates read back are equal to x and y,
and then the public key of the key is that point.  If a run reaches line 655
with coordinates of which one differs after the round trip, the function
returns 0; a key that had no public key still has none, while a key that
already had one holds the point as set (its point was overwritten in place),
when the field type is known and the set call succeeded.  In every returning
run the value is 1 or 0, and with 0 a key that had no public key has none. -/
theorem C13_public_key_round_trip (env : Env) (fuel : Nat) (key : EC_KEY) (group : EC_GROUP)
    (hg : key.group = some group) (hc : group.curve_name ≠ NID_X25519) :
    (∀ out, qat_ecdh_generate_key env fuel (some key) = some out → out.ret = 1 →
      ∃ x y, generateKeyReachesInstall env fuel key group x y
        ∧ (env.set_affine group x y).x = x ∧ (env.set_affine group x y).y = y
        ∧ out.key.bind (fun k => k.pub_key) = some (env.set_affine group x y))
    ∧ (∀ x y, generateKeyReachesInstall env fuel key group x y →
      ((env.set_affine group x y).x ≠ x ∨ (env.set_affine group x y).y ≠ y) →
      ∃ out, qat_ecdh_generate_key env fuel (some key) = some out ∧ out.ret = 0
        ∧ (key.pub_key = none → out.key.bind (fun k => k.pub_key) = none)
        ∧ ((group.field_type = NID_X9_62_prime_field
              ∨ group.field_type = NID_X9_62_characteristic_two_field) →
            env.ok Site.gen_set_affine = true → key.pub_key.isSome = true →
            out.key.bind (fun k => k.pub_key) = some (env.set_affine group x y)))
    ∧ (∀ out, qat_ecdh_generate_key env fuel (some key) = some out →
      out.ret = 1
      ∨ (out.ret = 0 ∧ (key.pub_key = none → out.key.bind (fun k => k.pub_key) = none))) := by
  refine ⟨?_, ?_, ?_⟩
  · intro out h hret
    rcases generate_key_cases hg hc h with ⟨h0, -⟩ | ⟨x, y, k1, hreach, hk1, hr, hkey⟩
    · rw [h0] at hret; exact absurd hret (by decide)
    · refine ⟨x, y, hreach, ?_⟩
      rcases generate_key_install_cases env group k1 x y with ⟨-, hx, hy, hp⟩ | ⟨h0, -⟩
      · refine ⟨hx, hy, ?_⟩
        rw [hkey]; exact hp
      · rw [hr, h0] at hret; exact absurd hret (by decide)
  · intro x y hreach hne
    obtain ⟨k1, tr, hk1, hrun⟩ := generate_key_of_reaches hreach
    refine ⟨_, hrun, generate_key_install_mismatch env group k1 x y hne, ?_, ?_⟩
    · intro hp
      rcases generate_key_install_cases env group k1 x y with ⟨-, hx, hy, -⟩ | ⟨-, hn, -⟩
      · rcases hne with h | h
        · exact absurd hx h
        · exact absurd hy h
      · exact hn (hk1.trans hp)
    · intro hf hs hp
      rcases generate_key_install_cases env group k1 x y with ⟨-, hx, hy, -⟩ | ⟨-, -, hn⟩
      · rcases hne with h | h
        · exact absurd hx h
        · exact absurd hy h
      · exact hn hf hs (by rw [hk1]; exact hp)
  · intro out h
    rcases generate_key_cases hg hc h with ⟨h0, k, hk, hp⟩ | ⟨x, y, k1, hreach, hk1, hr, hkey⟩
    · refine Or.inr ⟨h0, fun hn => ?_⟩
      rw [hk]; exact hp.trans hn
    · rcases generate_key_install_cases env group k1 x y with ⟨h1, -⟩ | ⟨h0, hn, -⟩
      · exact Or.inl (hr.trans h1)
      · refine Or.inr ⟨hr.trans h0, fun hp => ?_⟩
        rw [hkey]; exact hn (hk1.trans hp)

/-- C13 (amended), instance: `sampleKey` in `envAccept true`, where the
accelerator returns 7 for each coordinate and the round trip changes nothing:
the function returns 1 and the public key is (7, 7). -/
theorem C13_witness :
    sampleKey.group = some sampleGroup ∧ sampleGroup.curve_name ≠ NID_X25519
    ∧ ∃ x y, generateKeyReachesInstall (envAccept true) 5 sampleKey sampleGroup x y
        ∧ ((envAccept true).set_affine sampleGroup x y).x = x
        ∧ ((envAccept true).set_affine sampleGroup x y).y = y
        ∧ some ({ x := 7, y := 7 } : EC_POINT) = some ((envAccept true).set_affine sampleGroup x y) :=
  ⟨rfl, by decide,
   (C13_public_key_round_trip (envAccept true) 5 sampleKey sampleGroup rfl (by decide)).1
     { ret := 1, key := some { sampleKey with priv_key := some 3, pub_key := some { x := 7, y := 7 } },
       trace := ((qat_ecdh_generate_key (envAccept true) 5 (some sampleKey)).map
         (fun o => o.trace)).getD [] }
     (by decide) rfl⟩

/-! ## Descriptor fields at the submit loop -/

/-- An encoder call that succeeds yields the same buffer whatever the name
of the field and the answer of the allocator. -/
theorem qat_BN_to_FB_fb_of_ok {f : Bool} {buf : Buf} {bn : BIGNUM}
    (h : (qat_BN_to_FB f buf bn).ok = true) (buf1 : Buf) :
    (qat_BN_to_FB f buf bn).fb = (qat_BN_to_FB true buf1 bn).fb := by
  unfold qat_BN_to_FB at h ⊢
  split_ifs at h ⊢ <;> rfl

section Keeps

variable {Op : Type} (get : Op → CpaFlatBuffer) (V : CpaFlatBuffer)

theorem Locals.check_keeps (c : Bool) (s : Locals Op)
    (h : s.ok = true → get s.opData = V) :
    (s.check c).ok = true → get (s.check c).opData = V := by
  intro hok
  rw [Locals.check_ok, Bool.and_eq_true] at hok
  rw [Locals.check_opData]
  exact h hok.1

theorem Locals.encode_keeps (f : Bool) (buf : Buf) (bn : BIGNUM)
    (set : Op → CpaFlatBuffer → Op) (s : Locals Op)
    (hframe : ∀ op fb, get (set op fb) = get op)
    (h : s.ok = true → get s.opData = V) :
    (s.encode f buf bn set).ok = true → get (s.encode f buf bn set).opData = V := by
  unfold Locals.encode
  cases hs : s.ok
  · intro hok; simp [hs] at hok
  · intro _
    simp only [Bool.not_true, Bool.false_eq_true, if_false, hframe]
    exact h hs

theorem Locals.assign_keeps (g : Op → Op) (s : Locals Op)
    (hframe : ∀ op, get (g op) = get op)
    (h : s.ok = true → get s.opData = V) :
    (s.assign g).ok = true → get (s.assign g).opData = V := by
  unfold Locals.assign
  cases hs : s.ok
  · intro hok; simp [hs] at hok
  · intro _
    simp only [Bool.not_true, Bool.false_eq_true, if_false, hframe]
    exact h hs

theorem Locals.allocResult1_keeps (f g : Bool) (buf : Buf) (n : Nat) (s : Locals Op)
    (h : s.ok = true → get s.opData = V) :
    (s.allocResult1 f g buf n).ok = true → get (s.allocResult1 f g buf n).opData = V := by
  unfold Locals.allocResult1
  cases hs : s.ok
  · intro hok; simp [hs] at hok
  · intro hok
    split_ifs at hok ⊢ <;> exact h hs

theorem Locals.allocResult2_keeps (f g : Bool) (buf : Buf) (n : Nat) (s : Locals Op)
    (h : s.ok = true → get s.opData = V) :
    (s.allocResult2 f g buf n).ok = true → get (s.allocResult2 f g buf n).opData = V := by
  unfold Locals.allocResult2
  cases hs : s.ok
  · intro hok; simp [hs] at hok
  · intro hok
    split_ifs at hok ⊢ <;> exact h hs

/-- The field written by an encoder call that succeeds. -/
theorem Locals.encode_sets (f : Bool) (buf : Buf) (bn : BIGNUM)
    (set : Op → CpaFlatBuffer → Op) (s : Locals Op)
    (hgs : ∀ op fb, get (set op fb) = fb) :
    (s.encode f buf bn set).ok = true →
      get (s.encode f buf bn set).opData = (qat_BN_to_FB true buf bn).fb := by
  unfold Locals.encode
  cases hs : s.ok
  · intro hok; simp [hs] at hok
  · intro hok
    simp only [Bool.not_true, Bool.false_eq_true, if_false] at hok ⊢
    rw [hgs]
    exact qat_BN_to_FB_fb_of_ok hok buf

end Keeps

/-! ## C14: the fields k and n of the sign descriptor -/

/-- The fields `k` and `n` of a sign descriptor that was built without a
failure. -/
theorem sign_build2_k_n (env : Env) (group : EC_GROUP) (g : EC_POINT)
    (in_kinv in_r : Option BIGNUM) (k : BIGNUM) (s : Locals CpaCyEcdsaSignRSOpData)
    (hok : (qat_ecdsa_do_sign_build2 env group g in_kinv in_r k s).ok = true) :
    (qat_ecdsa_do_sign_build2 env group g in_kinv in_r k s).opData.k
        = (qat_BN_to_FB true Buf.k (qat_ecdsa_do_sign_kSrc in_kinv in_r k)).fb
    ∧ (qat_ecdsa_do_sign_build2 env group g in_kinv in_r k s).opData.n
        = (qat_BN_to_FB true Buf.n (qat_ecdsa_do_sign_nSrc in_kinv in_r group.order)).fb := by
  constructor
  · revert hok
    unfold qat_ecdsa_do_sign_build2
    refine Locals.check_keeps (fun op : CpaCyEcdsaSignRSOpData => op.k) _ _ _ ?_
    refine Locals.allocResult2_keeps (fun op : CpaCyEcdsaSignRSOpData => op.k) _ _ _ _ _ _ ?_
    refine Locals.allocResult1_keeps (fun op : CpaCyEcdsaSignRSOpData => op.k) _ _ _ _ _ _ ?_
    refine Locals.encode_keeps (fun op : CpaCyEcdsaSignRSOpData => op.k) _ _ _ _ _ _ (fun _ _ => rfl) ?_
    exact Locals.encode_sets (fun op : CpaCyEcdsaSignRSOpData => op.k) _ _ _ _ _ (fun _ _ => rfl)
  · revert hok
    unfold qat_ecdsa_do_sign_build2
    refine Locals.check_keeps (fun op : CpaCyEcdsaSignRSOpData => op.n) _ _ _ ?_
    refine Locals.allocResult2_keeps (fun op : CpaCyEcdsaSignRSOpData => op.n) _ _ _ _ _ _ ?_
    refine Locals.allocResult1_keeps (fun op : CpaCyEcdsaSignRSOpData => op.n) _ _ _ _ _ _ ?_
    exact Locals.encode_sets (fun op : CpaCyEcdsaSignRSOpData => op.n) _ _ _ _ _ (fun _ _ => rfl)

/-- The descriptor recorded by a run that entered the submit loop. -/
theorem sign_run_submitted {env : Env} {fuel : Nat} {l : Locals CpaCyEcdsaSignRSOpData}
    {out : SignOut} (h : qat_ecdsa_do_sign_run env fuel l = some out) :
    out.submitted = some l := by
  unfold qat_ecdsa_do_sign_run at h
  split at h
  · exact absurd h (by simp)
  split at h
  · simp only [Option.some.injEq] at h; subst h; rfl
  unfold qat_ecdsa_do_sign_complete at h
  split at h
  · exact absurd h (by simp)
  split at h <;> (simp only [Option.some.injEq] at h; subst h; rfl)

/-- C14: in a run of `qat_ecdsa_do_sign` that reaches its submit loop, with
the descriptor `l.opData` (the one every submission hands over), the field k
is the encoding of `in_kinv` and the field n the encoding of `in_r` when both
are supplied; when one of them is missing (neither, or only one supplied) the
field k is the encoding of the nonce drawn at lines 917-922 and the field n
the encoding of the group order.  "Encoding" is the buffer a successful
`qat_BN_to_FB` yields. -/
theorem C14_sign_k_and_n_source (env : Env) (fuel : Nat) (dgst : List Byte) (dgst_len : Int)
    (in_kinv in_r : Option BIGNUM) (eckey : EC_KEY) (l : Locals CpaCyEcdsaSignRSOpData)
    (h : signReachesSubmit env fuel dgst dgst_len in_kinv in_r eckey l) :
    (∀ kinv r, in_kinv = some kinv → in_r = some r →
      l.opData.k = (qat_BN_to_FB true Buf.k kinv).fb
      ∧ l.opData.n = (qat_BN_to_FB true Buf.n r).fb)
    ∧ ((in_kinv = none ∨ in_r = none) →
      ∃ k group, drawNonzero env fuel 0 = some (some k) ∧ eckey.group = some group
        ∧ l.opData.k = (qat_BN_to_FB true Buf.k k).fb
        ∧ l.opData.n = (qat_BN_to_FB true Buf.n group.order).fb)
    ∧ (∀ out, qat_ecdsa_do_sign env fuel dgst dgst_len in_kinv in_r eckey = some out →
        out.submitted = some l) := by
  have hrun := sign_of_reaches env fuel dgst dgst_len in_kinv in_r eckey l h
  obtain ⟨group, priv_key, pub_key, ec_point, k, hg, hp, hpub, hgen, hm, hb1, hd, hl, hok⟩ := h
  subst hl
  obtain ⟨hk, hn⟩ := sign_build2_k_n env group ec_point in_kinv in_r k _ hok
  refine ⟨?_, ?_, ?_⟩
  · rintro kinv r rfl rfl
    exact ⟨hk, hn⟩
  · intro hnone
    refine ⟨k, group, hd, hg, ?_, ?_⟩
    · rw [hk]
      rcases hnone with rfl | rfl
      · rfl
      · cases in_kinv <;> rfl
    · rw [hn]
      rcases hnone with rfl | rfl
      · rfl
      · cases in_kinv <;> rfl
  · intro out hout
    rw [hrun] at hout
    exact sign_run_submitted hout

/-- C14, instance: `in_kinv = 4` and `in_r = 9` are both supplied. -/
theorem C14_witness :
    signReachesSubmit (envAccept true) 5 [1] 1 (some 4) (some 9) sampleKey
      (sampleSignLocals (some 4) (some 9))
    ∧ (sampleSignLocals (some 4) (some 9)).opData.k = (qat_BN_to_FB true Buf.k 4).fb
    ∧ (sampleSignLocals (some 4) (some 9)).opData.n = (qat_BN_to_FB true Buf.n 9).fb :=
  have h : signReachesSubmit (envAccept true) 5 [1] 1 (some 4) (some 9) sampleKey
      (sampleSignLocals (some 4) (some 9)) :=
    ⟨sampleGroup, 5, { x := 4, y := 6 }, { x := 2, y := 3 }, 3, rfl, rfl, rfl, rfl, rfl,
      by decide, by decide, rfl, by decide⟩
  ⟨h, (C14_sign_k_and_n_source (envAccept true) 5 [1] 1 (some 4) (some 9) sampleKey _ h).1
    4 9 rfl rfl⟩

/-! ## C15: the coefficient a equal to zero -/

theorem BN_bn2bin_zero : BN_bn2bin 0 = [] := rfl

theorem BN_bn2bin_ne_nil {a : Int} (h : a ≠ 0) : BN_bn2bin a ≠ [] := by
  unfold BN_bn2bin
  obtain ⟨n, hn⟩ : ∃ n, a.natAbs = n + 1 :=
    Nat.exists_eq_succ_of_ne_zero (by simpa using h)
  rw [hn]
  simp [bytesBEAux]

/-- The encoding of zero is the null buffer of length zero. -/
theorem qat_BN_to_FB_zero (f : Bool) (buf : Buf) :
    (qat_BN_to_FB f buf 0).fb = nullFB ∧ (qat_BN_to_FB f buf 0).ok = true
      ∧ (qat_BN_to_FB f buf 0).evs = [] := by
  simp [qat_BN_to_FB, BN_bn2bin_zero]

/-- The encoding of a nonzero integer is a buffer with data. -/
theorem qat_BN_to_FB_nonzero (buf : Buf) {a : Int} (h : a ≠ 0) :
    (qat_BN_to_FB true buf a).fb
      = { pData := some (BN_bn2bin a), dataLenInBytes := (BN_bn2bin a).length }
    ∧ 1 ≤ (BN_bn2bin a).length := by
  have hne := BN_bn2bin_ne_nil h
  have hlen : (BN_bn2bin a).length ≠ 0 := by
    intro h0; exact hne (List.length_eq_zero.mp h0)
  constructor
  · simp [qat_BN_to_FB, hlen]
  · omega

section ZeroA

variable {Op : Type} (get : Op → CpaFlatBuffer)

/-- The field `a` after its encoding and the unchecked replacement of lines
956-962 and 1332-1338. -/
theorem Locals.zeroA_unchecked_after_encode (f fz : Bool) (bn : Int)
    (set : Op → CpaFlatBuffer → Op) (s : Locals Op)
    (hgs : ∀ op fb, get (set op fb) = fb) :
    ((s.encode f Buf.a bn set).zeroA_unchecked fz get set).ok = true →
      get ((s.encode f Buf.a bn set).zeroA_unchecked fz get set).opData
        = if bn = 0 then { pData := if fz then some [0] else none, dataLenInBytes := 1 }
          else (qat_BN_to_FB true Buf.a bn).fb := by
  intro hok
  cases hs : s.ok
  · rw [Locals.zeroA_unchecked_failed _ _ _ _ (by rw [Locals.encode_failed _ _ _ _ _ hs]; exact hs),
      Locals.encode_failed _ _ _ _ _ hs, hs] at hok
    exact absurd hok (by simp)
  · by_cases hz : bn = 0
    · subst hz
      cases fz <;>
        simp [Locals.zeroA_unchecked, Locals.encode, hs, qat_BN_to_FB, BN_bn2bin_zero, hgs,
          nullFB]
    · have hne := BN_bn2bin_ne_nil hz
      have hlen : (BN_bn2bin bn).length ≠ 0 := by
        intro h0; exact hne (List.length_eq_zero.mp h0)
      cases f
      · simp [Locals.zeroA_unchecked, Locals.encode, hs, qat_BN_to_FB, hlen] at hok
      · simp [Locals.zeroA_unchecked, Locals.encode, hs, qat_BN_to_FB, hlen, hgs, hz]

/-- The field `a` after its encoding and the checked replacement of lines
394-404. -/
theorem Locals.zeroA_checked_after_encode (f fz : Bool) (bn : Int)
    (set : Op → CpaFlatBuffer → Op) (s : Locals Op)
    (hgs : ∀ op fb, get (set op fb) = fb) :
    ((s.encode f Buf.a bn set).zeroA_checked fz get set).ok = true →
      get ((s.encode f Buf.a bn set).zeroA_checked fz get set).opData
        = if bn = 0 then { pData := some [0], dataLenInBytes := 1 }
          else (qat_BN_to_FB true Buf.a bn).fb := by
  intro hok
  cases hs : s.ok
  · rw [Locals.zeroA_checked_failed _ _ _ _ (by rw [Locals.encode_failed _ _ _ _ _ hs]; exact hs),
      Locals.encode_failed _ _ _ _ _ hs, hs] at hok
    exact absurd hok (by simp)
  · by_cases hz : bn = 0
    · subst hz
      cases fz
      · simp [Locals.zeroA_checked, Locals.encode, hs, qat_BN_to_FB, BN_bn2bin_zero, hgs,
          nullFB] at hok
      · simp [Locals.zeroA_checked, Locals.encode, hs, qat_BN_to_FB, BN_bn2bin_zero, hgs,
          nullFB]
    · have hne := BN_bn2bin_ne_nil hz
      have hlen : (BN_bn2bin bn).length ≠ 0 := by
        intro h0; exact hne (List.length_eq_zero.mp h0)
      cases f
      · simp [Locals.zeroA_checked, Locals.encode, hs, qat_BN_to_FB, hlen] at hok
      · simp [Locals.zeroA_checked, Locals.encode, hs, qat_BN_to_FB, hlen, hgs, hz]

end ZeroA

/-- The field `a` of an ECDH descriptor built without a failure. -/
theorem ecdh_build_a (env : Env) (group : EC_GROUP) (priv_key : BIGNUM) (pub_key : EC_POINT)
    (hok : (qat_ecdh_compute_key_build env group priv_key pub_key).ok = true) :
    (qat_ecdh_compute_key_build env group priv_key pub_key).opData.a
      = if (group.a : Int) = 0 then { pData := some [0], dataLenInBytes := 1 }
        else (qat_BN_to_FB true Buf.a group.a).fb := by
  revert hok
  unfold qat_ecdh_compute_key_build
  refine Locals.check_keeps (fun op : CpaCyEcPointMultiplyOpData => op.a) _ _ _ ?_
  refine Locals.encode_keeps (fun op : CpaCyEcPointMultiplyOpData => op.a) _ _ _ _ _ _
    (fun _ _ => rfl) ?_
  refine Locals.encode_keeps (fun op : CpaCyEcPointMultiplyOpData => op.a) _ _ _ _ _ _
    (fun _ _ => rfl) ?_
  exact Locals.zeroA_checked_after_encode (fun op : CpaCyEcPointMultiplyOpData => op.a)
    _ _ _ _ _ (fun _ _ => rfl)

/-- The field `a` of a sign descriptor built without a failure. -/
theorem sign_build2_a (env : Env) (group : EC_GROUP) (g : EC_POINT)
    (in_kinv in_r : Option BIGNUM) (k : BIGNUM) (s : Locals CpaCyEcdsaSignRSOpData)
    (hok : (qat_ecdsa_do_sign_build2 env group g in_kinv in_r k s).ok = true) :
    (qat_ecdsa_do_sign_build2 env group g in_kinv in_r k s).opData.a
      = if (group.a : Int) = 0 then
          { pData := if env.ok Site.qae_a_zero then some [0] else none, dataLenInBytes := 1 }
        else (qat_BN_to_FB true Buf.a group.a).fb := by
  revert hok
  unfold qat_ecdsa_do_sign_build2
  refine Locals.check_keeps (fun op : CpaCyEcdsaSignRSOpData => op.a) _ _ _ ?_
  refine Locals.allocResult2_keeps (fun op : CpaCyEcdsaSignRSOpData => op.a) _ _ _ _ _ _ ?_
  refine Locals.allocResult1_keeps (fun op : CpaCyEcdsaSignRSOpData => op.a) _ _ _ _ _ _ ?_
  iterate 4
    (refine Locals.encode_keeps (fun op : CpaCyEcdsaSignRSOpData => op.a) _ _ _ _ _ _
      (fun _ _ => rfl) ?_)
  exact Locals.zeroA_unchecked_after_encode (fun op : CpaCyEcdsaSignRSOpData => op.a)
    _ _ _ _ _ (fun _ _ => rfl)

/-- The field `a` of a verify descriptor built without a failure. -/
theorem verify_build_a (env : Env) (group : EC_GROUP) (pub_key ec_point : EC_POINT)
    (dgst : List Byte) (dgst_len : Int) (sig : ECDSA_SIG)
    (hok : (qat_ecdsa_do_verify_build env group pub_key ec_point dgst dgst_len sig).ok = true) :
    (qat_ecdsa_do_verify_build env group pub_key ec_point dgst dgst_len sig).opData.a
      = if (group.a : Int) = 0 then
          { pData := if env.ok Site.qae_a_zero then some [0] else none, dataLenInBytes := 1 }
        else (qat_BN_to_FB true Buf.a group.a).fb := by
  revert hok
  unfold qat_ecdsa_do_verify_build qat_ecdsa_do_verify_descriptor
  refine Locals.check_keeps (fun op : CpaCyEcdsaVerifyOpData => op.a) _ _ _ ?_
  iterate 7
    (refine Locals.encode_keeps (fun op : CpaCyEcdsaVerifyOpData => op.a) _ _ _ _ _ _
      (fun _ _ => rfl) ?_)
  exact Locals.zeroA_unchecked_after_encode (fun op : CpaCyEcdsaVerifyOpData => op.a)
    _ _ _ _ _ (fun _ _ => rfl)

theorem fieldAFor_of_eq {a : Int} {fb : CpaFlatBuffer}
    (h : fb = if a = 0 then { pData := some [0], dataLenInBytes := 1 }
              else (qat_BN_to_FB true Buf.a a).fb) : fieldAFor a fb := by
  constructor
  · intro h0
    rw [h, if_pos h0]
  · intro h0
    rw [h, if_neg h0]
    exact ⟨rfl, (qat_BN_to_FB_nonzero Buf.a h0).1, (qat_BN_to_FB_nonzero Buf.a h0).2⟩

/-- C15: the encoder yields the null buffer of length zero for the integer
zero; when the 1-byte allocation succeeds, the descriptor with which each of
the three builders enters its submit loop has a field `a` of length 1 holding
the byte 0x00 if the coefficient `a` of the curve is zero, and the encoding of
`a` (unchanged: its minimal big-endian bytes, at least one) otherwise. -/
theorem C15_zero_coefficient_a (env : Env) (hz : env.ok Site.qae_a_zero = true) :
    (∀ f buf, (qat_BN_to_FB f buf 0).fb = nullFB)
    ∧ (∀ pub_key ecdh l key group, ecdhReachesSubmit env pub_key ecdh l →
        ecdh = some key → key.group = some group → fieldAFor group.a l.opData.a)
    ∧ (∀ fuel dgst dgst_len in_kinv in_r eckey l group,
        signReachesSubmit env fuel dgst dgst_len in_kinv in_r eckey l →
        eckey.group = some group → fieldAFor group.a l.opData.a)
    ∧ (∀ dgst dgst_len sig eckey l key group,
        verifyReachesSubmit env dgst dgst_len sig eckey l →
        eckey = some key → key.group = some group → fieldAFor group.a l.opData.a) := by
  refine ⟨fun f buf => (qat_BN_to_FB_zero f buf).1, ?_, ?_, ?_⟩
  · rintro pub_key ecdh l key group ⟨key1, priv_key, group1, hk, hp, hg, -, -, rfl, hok⟩ rfl hg1
    simp only [Option.some.injEq] at hk
    subst hk
    rw [hg] at hg1
    simp only [Option.some.injEq] at hg1
    subst hg1
    exact fieldAFor_of_eq (ecdh_build_a env _ priv_key pub_key hok)
  · rintro fuel dgst dgst_len in_kinv in_r eckey l group
      ⟨group1, priv_key, pub_key, ec_point, k, hg, -, -, -, -, -, -, rfl, hok⟩ hg1
    rw [hg] at hg1
    simp only [Option.some.injEq] at hg1
    subst hg1
    refine fieldAFor_of_eq ?_
    rw [sign_build2_a env _ ec_point in_kinv in_r k _ hok, hz]
    rfl
  · rintro dgst dgst_len sig eckey l key group
      ⟨key1, group1, pub_key, sg, ec_point, hk, hg, -, -, -, -, rfl, hok⟩ rfl hg1
    simp only [Option.some.injEq] at hk
    subst hk
    rw [hg] at hg1
    simp only [Option.some.injEq] at hg1
    subst hg1
    refine fieldAFor_of_eq ?_
    rw [verify_build_a env _ pub_key ec_point dgst dgst_len sg hok, hz]
    rfl

/-- C15, instance: a signature on a curve with `a = 0`. -/
theorem C15_witness :
    (envAccept true).ok Site.qae_a_zero = true
    ∧ fieldAFor 0
        (qat_ecdsa_do_sign_build2 (envAccept true) { sampleGroup with a := 0 }
          { x := 2, y := 3 } none none 3
          (qat_ecdsa_do_sign_build1 (envAccept true) { sampleGroup with a := 0 } 5 [1] 1)).opData.a :=
  ⟨rfl, (C15_zero_coefficient_a (envAccept true) rfl).2.2.1 5 [1] 1 none none sampleKeyA0 _
    { sampleGroup with a := 0 }
    ⟨{ sampleGroup with a := 0 }, 5, { x := 4, y := 6 }, { x := 2, y := 3 }, 3, rfl, rfl, rfl,
      rfl, rfl, by decide, by decide, rfl, by decide⟩ rfl⟩

/-! ## Ways of returning -/

theorem copy_outX_evs_isReadResult (env : Env) (o : OutParams) (x : CpaFlatBuffer) :
    (qat_ecdh_compute_key_copy_outX env o x).evs.all Ev.isReadResult = true := by
  unfold qat_ecdh_compute_key_copy_outX
  split
  · rfl
  · split_ifs <;> rfl

theorem copy_out_evs_isReadResult (env : Env) (o : OutParams) (x y : CpaFlatBuffer) :
    (qat_ecdh_compute_key_copy_out env o x y).evs.all Ev.isReadResult = true := by
  unfold qat_ecdh_compute_key_copy_out
  simp only []
  split_ifs <;> (try split) <;>
    first
      | exact copy_outX_evs_isReadResult env o x
      | (simp only [List.all_append, copy_outX_evs_isReadResult, Bool.true_and]
         rfl)

theorem ecdh_exit_shape {env : Env} {fuel : Nat} {o : OutParams} {pub_key : EC_POINT}
    {ecdh : Option EC_KEY} {out : EcdhOut}
    (h : qat_ecdh_compute_key env fuel o pub_key ecdh = some out) :
    ExitShape env fuel (ecdhBuilt env) (fun _ => True) qat_ecdh_compute_key_err
      Buf.resX Buf.resY (out.ret = -1) out.trace := by
  unfold qat_ecdh_compute_key at h
  split at h
  · simp only [Option.some.injEq] at h; subst h; exact Or.inl rfl
  split at h
  · simp only [Option.some.injEq] at h; subst h; exact Or.inl rfl
  rename_i key priv_key hp
  split at h
  · simp only [Option.some.injEq] at h; subst h; exact Or.inl rfl
  rename_i group hg
  split at h
  · split at h
    · simp only [Option.some.injEq] at h; subst h; exact Or.inl rfl
    · simp only [Option.some.injEq] at h; subst h; exact Or.inr (Or.inl rfl)
  split at h
  · simp only [Option.some.injEq] at h; subst h; exact Or.inl rfl
  split at h
  · simp only [Option.some.injEq] at h; subst h
    exact Or.inr (Or.inr (Or.inl ⟨_, ⟨group, priv_key, pub_key, rfl⟩, rfl⟩))
  rename_i hok0
  have hok : (qat_ecdh_compute_key_build env group priv_key pub_key).ok = true := by
    simpa using hok0
  unfold qat_ecdh_compute_key_run at h
  split at h
  · exact absurd h (by simp)
  rename_i e evs1 hloop
  split at h
  · rename_i he
    simp only [Option.some.injEq] at h; subst h
    exact Or.inr (Or.inr (Or.inr (Or.inl
      ⟨_, e, evs1, ⟨group, priv_key, pub_key, rfl⟩, trivial, hok, hloop, he, rfl, rfl⟩)))
  rename_i he
  simp only [ne_eq, not_not] at he
  subst he
  unfold qat_ecdh_compute_key_complete at h
  split at h
  · exact absurd h (by simp)
  rename_i evs2 hwait
  split at h
  · simp only [Option.some.injEq] at h; subst h
    refine Or.inr (Or.inr (Or.inr (Or.inr
      ⟨_, evs1, evs2, [], ⟨group, priv_key, pub_key, rfl⟩, trivial, hok, hloop, hwait, rfl,
        ?_⟩)))
    simp only [List.append_nil]
  · simp only [Option.some.injEq] at h; subst h
    refine Or.inr (Or.inr (Or.inr (Or.inr
      ⟨_, evs1, evs2, _, ⟨group, priv_key, pub_key, rfl⟩, trivial, hok, hloop, hwait,
        copy_out_evs_isReadResult _ _ _ _, rfl⟩)))

theorem sign_exit_shape {env : Env} {fuel : Nat} {dgst : List Byte} {dgst_len : Int}
    {in_kinv in_r : Option BIGNUM} {eckey : EC_KEY} {out : SignOut}
    (h : qat_ecdsa_do_sign env fuel dgst dgst_len in_kinv in_r eckey = some out) :
    ExitShape env fuel (signBuilt env) (signSubmits env) qat_ecdsa_do_sign_err
      Buf.resR Buf.resS (out.ret = none) out.trace := by
  unfold qat_ecdsa_do_sign at h
  split at h
  · simp only [Option.some.injEq] at h; subst h; exact Or.inl rfl
  rename_i group hg
  split at h
  · simp only [Option.some.injEq] at h; subst h; exact Or.inl rfl
  rename_i priv_key hp
  split at h
  · simp only [Option.some.injEq] at h; subst h; exact Or.inl rfl
  split at h
  · simp only [Option.some.injEq] at h; subst h; exact Or.inl rfl
  rename_i ec_point hgen
  split at h
  · simp only [Option.some.injEq] at h; subst h; exact Or.inl rfl
  split at h
  · simp only [Option.some.injEq] at h; subst h
    exact Or.inr (Or.inr (Or.inl ⟨_, ⟨group, priv_key, dgst, dgst_len, Or.inl rfl⟩, rfl⟩))
  unfold qat_ecdsa_do_sign_from_draw at h
  split at h
  · exact absurd h (by simp)
  · simp only [Option.some.injEq] at h; subst h
    exact Or.inr (Or.inr (Or.inl ⟨_, ⟨group, priv_key, dgst, dgst_len, Or.inl rfl⟩, rfl⟩))
  rename_i k hk
  have hG : signBuilt env (qat_ecdsa_do_sign_build2 env group ec_point in_kinv in_r k
      (qat_ecdsa_do_sign_build1 env group priv_key dgst dgst_len)) :=
    ⟨group, priv_key, dgst, dgst_len, Or.inr ⟨ec_point, in_kinv, in_r, k, rfl⟩⟩
  have hR : signSubmits env (qat_ecdsa_do_sign_build2 env group ec_point in_kinv in_r k
      (qat_ecdsa_do_sign_build1 env group priv_key dgst dgst_len)) :=
    ⟨group, ec_point, in_kinv, in_r, k, _, rfl⟩
  split at h
  · simp only [Option.some.injEq] at h; subst h
    exact Or.inr (Or.inr (Or.inl ⟨_, hG, rfl⟩))
  rename_i hok0
  have hok : (qat_ecdsa_do_sign_build2 env group ec_point in_kinv in_r k
      (qat_ecdsa_do_sign_build1 env group priv_key dgst dgst_len)).ok = true := by
    simpa using hok0
  unfold qat_ecdsa_do_sign_run at h
  split at h
  · exact absurd h (by simp)
  rename_i e evs1 hloop
  split at h
  · rename_i he
    simp only [Option.some.injEq] at h; subst h
    exact Or.inr (Or.inr (Or.inr (Or.inl ⟨_, e, evs1, hG, hR, hok, hloop, he, rfl, rfl⟩)))
  rename_i he
  simp only [ne_eq, not_not] at he
  subst he
  unfold qat_ecdsa_do_sign_complete at h
  split at h
  · exact absurd h (by simp)
  rename_i evs2 hwait
  split at h
  · simp only [Option.some.injEq] at h; subst h
    refine Or.inr (Or.inr (Or.inr (Or.inr
      ⟨_, evs1, evs2, [], hG, hR, hok, hloop, hwait, rfl, ?_⟩)))
    simp only [List.append_nil]
  · simp only [Option.some.injEq] at h; subst h
    exact Or.inr (Or.inr (Or.inr (Or.inr
      ⟨_, evs1, evs2, [Ev.readResult Buf.resR, Ev.readResult Buf.resS], hG, hR, hok, hloop,
        hwait, rfl, rfl⟩)))

theorem verify_exit_shape {env : Env} {fuel : Nat} {dgst : List Byte} {dgst_len : Int}
    {sig : Option ECDSA_SIG} {eckey : Option EC_KEY} {out : VerifyOut}
    (h : qat_ecdsa_do_verify env fuel dgst dgst_len sig eckey = some out) :
    ExitShape env fuel (verifyBuilt env) (fun _ => True) qat_ecdsa_do_verify_err3
      Buf.resR Buf.resS (out.ret = -1) out.trace := by
  unfold qat_ecdsa_do_verify at h
  split at h
  · simp only [Option.some.injEq] at h; subst h; exact Or.inl rfl
  rename_i key
  split at h
  · simp only [Option.some.injEq] at h; subst h; exact Or.inl rfl
  rename_i group hg
  split at h
  · simp only [Option.some.injEq] at h; subst h; exact Or.inl rfl
  rename_i pub_key hp
  split at h
  · simp only [Option.some.injEq] at h; subst h; exact Or.inl rfl
  rename_i sg
  split at h
  · simp only [Option.some.injEq] at h; subst h; exact Or.inl rfl
  rename_i ec_point hgen
  split at h
  · simp only [Option.some.injEq] at h; subst h; exact Or.inl rfl
  have hG : verifyBuilt env
      (qat_ecdsa_do_verify_build env group pub_key ec_point dgst dgst_len sg) :=
    ⟨group, pub_key, ec_point, dgst, dgst_len, sg, rfl⟩
  split at h
  · simp only [Option.some.injEq] at h; subst h
    exact Or.inr (Or.inr (Or.inl ⟨_, hG, rfl⟩))
  rename_i hok0
  have hok : (qat_ecdsa_do_verify_build env group pub_key ec_point dgst dgst_len sg).ok
      = true := by
    simpa using hok0
  unfold qat_ecdsa_do_verify_run at h
  split at h
  · exact absurd h (by simp)
  rename_i e evs1 hloop
  split at h
  · rename_i he
    simp only [Option.some.injEq] at h; subst h
    exact Or.inr (Or.inr (Or.inr (Or.inl ⟨_, e, evs1, hG, trivial, hok, hloop, he,
      verify_build_ok_ret env group pub_key ec_point dgst dgst_len sg hok, rfl⟩)))
  rename_i he
  simp only [ne_eq, not_not] at he
  subst he
  unfold qat_ecdsa_do_verify_complete at h
  split at h
  · exact absurd h (by simp)
  rename_i evs2 hwait
  simp only [Option.some.injEq] at h; subst h
  refine Or.inr (Or.inr (Or.inr (Or.inr
    ⟨_, evs1, evs2, [], hG, trivial, hok, hloop, hwait, rfl, ?_⟩)))
  simp only [List.append_nil, qat_ecdsa_do_verify_err3]

/-! ## Counting allocations and releases -/

theorem allocsOf_append (bf : Buf) (l1 l2 : List Ev) :
    allocsOf bf (l1 ++ l2) = allocsOf bf l1 + allocsOf bf l2 := by
  simp [allocsOf, List.countP_append]

theorem freesOf_append (bf : Buf) (l1 l2 : List Ev) :
    freesOf bf (l1 ++ l2) = freesOf bf l1 + freesOf bf l2 := by
  simp [freesOf, List.countP_append]

theorem cleanseFreesOf_append (bf : Buf) (l1 l2 : List Ev) :
    cleanseFreesOf bf (l1 ++ l2) = cleanseFreesOf bf l1 + cleanseFreesOf bf l2 := by
  simp [cleanseFreesOf, List.countP_append]

theorem releasesOf_append (bf : Buf) (l1 l2 : List Ev) :
    releasesOf bf (l1 ++ l2) = releasesOf bf l1 + releasesOf bf l2 := by
  simp only [releasesOf, freesOf_append, cleanseFreesOf_append]
  omega

/-- A count is zero on a list whose events all lie in a class disjoint from
the events counted. -/
theorem countP_eq_zero_of_all {p q : Ev → Bool} (hpq : ∀ e, q e = true → p e = false) :
    ∀ {l : List Ev}, l.all q = true → l.countP p = 0
  | [], _ => rfl
  | e :: t, h => by
    simp only [List.all_cons, Bool.and_eq_true] at h
    rw [List.countP_cons, countP_eq_zero_of_all hpq h.2, hpq e h.1]
    rfl

theorem allocsOf_of_isSubmitLoop (bf : Buf) {l : List Ev} (h : l.all Ev.isSubmitLoop = true) :
    allocsOf bf l = 0 :=
  countP_eq_zero_of_all (fun e he => by cases e <;> simp_all [Ev.isSubmitLoop, Ev.isAllocOf]) h

theorem releasesOf_of_isSubmitLoop (bf : Buf) {l : List Ev}
    (h : l.all Ev.isSubmitLoop = true) : releasesOf bf l = 0 := by
  unfold releasesOf freesOf cleanseFreesOf
  rw [countP_eq_zero_of_all
      (fun e he => by cases e <;> simp_all [Ev.isSubmitLoop, Ev.isFreeOf]) h,
    countP_eq_zero_of_all
      (fun e he => by cases e <;> simp_all [Ev.isSubmitLoop, Ev.isCleanseFreeOf]) h]

theorem allocsOf_of_isWait (bf : Buf) {l : List Ev} (h : l.all Ev.isWait = true) :
    allocsOf bf l = 0 :=
  countP_eq_zero_of_all (fun e he => by cases e <;> simp_all [Ev.isWait, Ev.isAllocOf]) h

theorem releasesOf_of_isWait (bf : Buf) {l : List Ev} (h : l.all Ev.isWait = true) :
    releasesOf bf l = 0 := by
  unfold releasesOf freesOf cleanseFreesOf
  rw [countP_eq_zero_of_all (fun e he => by cases e <;> simp_all [Ev.isWait, Ev.isFreeOf]) h,
    countP_eq_zero_of_all
      (fun e he => by cases e <;> simp_all [Ev.isWait, Ev.isCleanseFreeOf]) h]

theorem allocsOf_of_isReadResult (bf : Buf) {l : List Ev}
    (h : l.all Ev.isReadResult = true) : allocsOf bf l = 0 :=
  countP_eq_zero_of_all
    (fun e he => by cases e <;> simp_all [Ev.isReadResult, Ev.isAllocOf]) h

theorem releasesOf_of_isReadResult (bf : Buf) {l : List Ev}
    (h : l.all Ev.isReadResult = true) : releasesOf bf l = 0 := by
  unfold releasesOf freesOf cleanseFreesOf
  rw [countP_eq_zero_of_all
      (fun e he => by cases e <;> simp_all [Ev.isReadResult, Ev.isFreeOf]) h,
    countP_eq_zero_of_all
      (fun e he => by cases e <;> simp_all [Ev.isReadResult, Ev.isCleanseFreeOf]) h]

/-- Events of the encoder: one allocation when the buffer has data. -/
theorem qat_BN_to_FB_counts (f : Bool) (buf : Buf) (bn : BIGNUM) (bf : Buf) :
    allocsOf bf (qat_BN_to_FB f buf bn).evs
        = (if buf = bf ∧ (qat_BN_to_FB f buf bn).fb.pData.isSome = true then 1 else 0)
    ∧ releasesOf bf (qat_BN_to_FB f buf bn).evs = 0 := by
  unfold qat_BN_to_FB
  split_ifs <;>
    simp_all [allocsOf, releasesOf, freesOf, cleanseFreesOf, Ev.isAllocOf, Ev.isFreeOf,
      Ev.isCleanseFreeOf, nullFB]

/-- Events of the plain release of a field. -/
theorem QMFREE_counts (buf : Buf) (fb : CpaFlatBuffer) (bf : Buf) :
    allocsOf bf (QAT_CHK_QMFREE_FLATBUFF buf fb) = 0
    ∧ freesOf bf (QAT_CHK_QMFREE_FLATBUFF buf fb)
        = (if buf = bf ∧ fb.pData.isSome = true then 1 else 0)
    ∧ cleanseFreesOf bf (QAT_CHK_QMFREE_FLATBUFF buf fb) = 0 := by
  unfold QAT_CHK_QMFREE_FLATBUFF
  split_ifs <;>
    simp_all [allocsOf, freesOf, cleanseFreesOf, Ev.isAllocOf, Ev.isFreeOf, Ev.isCleanseFreeOf]

/-- Events of the clearing release of a field. -/
theorem CLNSE_QMFREE_counts (buf : Buf) (fb : CpaFlatBuffer) (bf : Buf) :
    allocsOf bf (QAT_CHK_CLNSE_QMFREE_FLATBUFF buf fb) = 0
    ∧ freesOf bf (QAT_CHK_CLNSE_QMFREE_FLATBUFF buf fb) = 0
    ∧ cleanseFreesOf bf (QAT_CHK_CLNSE_QMFREE_FLATBUFF buf fb)
        = (if buf = bf ∧ fb.pData.isSome = true then 1 else 0) := by
  unfold QAT_CHK_CLNSE_QMFREE_FLATBUFF
  split_ifs <;>
    simp_all [allocsOf, freesOf, cleanseFreesOf, Ev.isAllocOf, Ev.isFreeOf, Ev.isCleanseFreeOf]

section Balance

variable {Op : Type}
  {held : Buf → Op → Option CpaFlatBuffer → Option CpaFlatBuffer → Bool}

theorem Balanced.mono {D1 D2 : List Buf} {s : Locals Op} (hsub : ∀ bf, bf ∈ D1 → bf ∈ D2)
    (h : Balanced held D1 s) : Balanced held D2 s :=
  ⟨h.1, fun bf hb => h.2.1 bf (fun hm => hb (hsub bf hm)), h.2.2⟩

theorem Balanced.check {D : List Buf} {c : Bool} {s : Locals Op}
    (h : Balanced held D s) : Balanced held D (s.check c) := by
  unfold Locals.check
  split_ifs
  · exact h
  · exact h

theorem Balanced.assign {D : List Buf} {g : Op → Op} {s : Locals Op}
    (hg : ∀ bf op p1 p2, held bf (g op) p1 p2 = held bf op p1 p2)
    (h : Balanced held D s) : Balanced held D (s.assign g) := by
  unfold Locals.assign
  split_ifs
  · exact h
  · exact ⟨fun bf => by simp only [hg]; exact h.1 bf,
      fun bf hb => by simp only [hg]; exact h.2.1 bf hb, h.2.2⟩

theorem Balanced.encode {D : List Buf} {f : Bool} {buf : Buf} {bn : BIGNUM}
    {set : Op → CpaFlatBuffer → Op} {s : Locals Op}
    (hother : ∀ bf op fb p1 p2, bf ≠ buf → held bf (set op fb) p1 p2 = held bf op p1 p2)
    (hthis : ∀ op fb p1 p2, held buf (set op fb) p1 p2 = fb.pData.isSome)
    (hfresh : buf ∉ D)
    (h : Balanced held D s) : Balanced held (buf :: D) (s.encode f buf bn set) := by
  unfold Locals.encode
  split_ifs
  · exact h.mono (fun bf hb => List.mem_cons_of_mem _ hb)
  · refine ⟨fun bf => ?_, fun bf hb => ?_, fun bf => ?_⟩
    · simp only [allocsOf_append, (qat_BN_to_FB_counts f buf bn bf).1]
      by_cases hbf : bf = buf
      · subst hbf
        rw [h.1 bf, h.2.1 bf hfresh, hthis]
        simp
      · have e1 : (if buf = bf ∧ (qat_BN_to_FB f buf bn).fb.pData.isSome = true then 1 else 0)
            = 0 := if_neg (fun hc => hbf hc.1.symm)
        rw [e1, h.1 bf, hother _ _ _ _ _ hbf]
        rfl
    · simp only [List.mem_cons, not_or] at hb
      simp only [hother _ _ _ _ _ hb.1]
      exact h.2.1 bf hb.2
    · simp only [releasesOf_append, (qat_BN_to_FB_counts f buf bn bf).2, h.2.2 bf]

theorem Balanced.allocResult1 {D : List Buf} {f g : Bool} {buf : Buf} {n : Nat}
    {s : Locals Op}
    (hother : ∀ bf op p1 q1 p2, bf ≠ buf → held bf op q1 p2 = held bf op p1 p2)
    (hthis : ∀ op p1 p2, held buf op p1 p2 = resultHeld p1)
    (hfresh : buf ∉ D)
    (h : Balanced held D s) : Balanced held (buf :: D) (s.allocResult1 f g buf n) := by
  unfold Locals.allocResult1
  split_ifs
  · exact h.mono (fun bf hb => List.mem_cons_of_mem _ hb)
  · exact h.mono (fun bf hb => List.mem_cons_of_mem _ hb)
  · refine ⟨fun bf => ?_, fun bf hb => ?_, h.2.2⟩
    · by_cases hbf : bf = buf
      · subst hbf
        simp only [h.1 bf, h.2.1 bf hfresh, hthis]
        rfl
      · simp only [hother bf s.opData s.pResult1 _ s.pResult2 hbf]
        exact h.1 bf
    · simp only [List.mem_cons, not_or] at hb
      simp only [hother bf s.opData s.pResult1 _ s.pResult2 hb.1]
      exact h.2.1 bf hb.2
  · refine ⟨fun bf => ?_, fun bf hb => ?_, fun bf => ?_⟩
    · simp only [allocsOf_append]
      by_cases hbf : bf = buf
      · subst hbf
        simp only [h.1 bf, h.2.1 bf hfresh, hthis]
        simp [allocsOf, Ev.isAllocOf, resultHeld]
      · simp only [hother bf s.opData s.pResult1 _ s.pResult2 hbf, h.1 bf]
        have : allocsOf bf [Ev.qaeAlloc buf n] = 0 := by
          simp [allocsOf, Ev.isAllocOf, Ne.symm hbf]
        omega
    · simp only [List.mem_cons, not_or] at hb
      simp only [hother bf s.opData s.pResult1 _ s.pResult2 hb.1]
      exact h.2.1 bf hb.2
    · simp only [releasesOf_append, h.2.2 bf]
      simp [releasesOf, freesOf, cleanseFreesOf, Ev.isFreeOf, Ev.isCleanseFreeOf]

theorem Balanced.allocResult2 {D : List Buf} {f g : Bool} {buf : Buf} {n : Nat}
    {s : Locals Op}
    (hother : ∀ bf op p1 p2 q2, bf ≠ buf → held bf op p1 q2 = held bf op p1 p2)
    (hthis : ∀ op p1 p2, held buf op p1 p2 = resultHeld p2)
    (hfresh : buf ∉ D)
    (h : Balanced held D s) : Balanced held (buf :: D) (s.allocResult2 f g buf n) := by
  unfold Locals.allocResult2
  split_ifs
  · exact h.mono (fun bf hb => List.mem_cons_of_mem _ hb)
  · exact h.mono (fun bf hb => List.mem_cons_of_mem _ hb)
  · refine ⟨fun bf => ?_, fun bf hb => ?_, h.2.2⟩
    · by_cases hbf : bf = buf
      · subst hbf
        simp only [h.1 bf, h.2.1 bf hfresh, hthis]
        rfl
      · simp only [hother bf s.opData s.pResult1 s.pResult2 _ hbf]
        exact h.1 bf
    · simp only [List.mem_cons, not_or] at hb
      simp only [hother bf s.opData s.pResult1 s.pResult2 _ hb.1]
      exact h.2.1 bf hb.2
  · refine ⟨fun bf => ?_, fun bf hb => ?_, fun bf => ?_⟩
    · simp only [allocsOf_append]
      by_cases hbf : bf = buf
      · subst hbf
        simp only [h.1 bf, h.2.1 bf hfresh, hthis]
        simp [allocsOf, Ev.isAllocOf, resultHeld]
      · simp only [hother bf s.opData s.pResult1 s.pResult2 _ hbf, h.1 bf]
        have : allocsOf bf [Ev.qaeAlloc buf n] = 0 := by
          simp [allocsOf, Ev.isAllocOf, Ne.symm hbf]
        omega
    · simp only [List.mem_cons, not_or] at hb
      simp only [hother bf s.opData s.pResult1 s.pResult2 _ hb.1]
      exact h.2.1 bf hb.2
    · simp only [releasesOf_append, h.2.2 bf]
      simp [releasesOf, freesOf, cleanseFreesOf, Ev.isFreeOf, Ev.isCleanseFreeOf]

theorem Balanced.zeroA_unchecked {D : List Buf} {f : Bool} {get : Op → CpaFlatBuffer}
    {set : Op → CpaFlatBuffer → Op} {s : Locals Op}
    (hother : ∀ bf op fb p1 p2, bf ≠ Buf.a → held bf (set op fb) p1 p2 = held bf op p1 p2)
    (hthis : ∀ op fb p1 p2, held Buf.a (set op fb) p1 p2 = fb.pData.isSome)
    (hget : ∀ op p1 p2, held Buf.a op p1 p2 = (get op).pData.isSome)
    (ha : Buf.a ∈ D)
    (h : Balanced held D s) : Balanced held D (s.zeroA_unchecked f get set) := by
  unfold Locals.zeroA_unchecked
  split_ifs with h1 h2 h3
  · exact h
  · have hnone : held Buf.a s.opData s.pResult1 s.pResult2 = false := by
      rw [hget]
      simp only [Bool.and_eq_true, Option.isNone_iff_eq_none] at h2
      rw [h2.1]; rfl
    refine ⟨fun bf => ?_, fun bf hb => ?_, h.2.2⟩
    · by_cases hbf : bf = Buf.a
      · subst hbf
        simp only [h.1, hnone, hthis]
        rfl
      · simp only [hother _ _ _ _ _ hbf]
        exact h.1 bf
    · by_cases hbf : bf = Buf.a
      · subst hbf
        simp only [hthis]
        rfl
      · simp only [hother _ _ _ _ _ hbf]
        exact h.2.1 bf hb
  · have hnone : held Buf.a s.opData s.pResult1 s.pResult2 = false := by
      rw [hget]
      simp only [Bool.and_eq_true, Option.isNone_iff_eq_none] at h2
      rw [h2.1]; rfl
    refine ⟨fun bf => ?_, fun bf hb => ?_, fun bf => ?_⟩
    · simp only [allocsOf_append]
      by_cases hbf : bf = Buf.a
      · subst hbf
        simp only [h.1, hnone, hthis]
        simp [allocsOf, Ev.isAllocOf]
      · simp only [hother _ _ _ _ _ hbf, h.1 bf]
        have : allocsOf bf [Ev.qaeAlloc Buf.a 1] = 0 := by
          simp [allocsOf, Ev.isAllocOf, Ne.symm hbf]
        omega
    · by_cases hbf : bf = Buf.a
      · subst hbf
        exact absurd ha hb
      · simp only [hother _ _ _ _ _ hbf]
        exact h.2.1 bf hb
    · simp only [releasesOf_append, h.2.2 bf]
      simp [releasesOf, freesOf, cleanseFreesOf, Ev.isFreeOf, Ev.isCleanseFreeOf]
  · exact h

theorem Balanced.zeroA_checked {D : List Buf} {f : Bool} {get : Op → CpaFlatBuffer}
    {set : Op → CpaFlatBuffer → Op} {s : Locals Op}
    (hother : ∀ bf op fb p1 p2, bf ≠ Buf.a → held bf (set op fb) p1 p2 = held bf op p1 p2)
    (hthis : ∀ op fb p1 p2, held Buf.a (set op fb) p1 p2 = fb.pData.isSome)
    (hget : ∀ op p1 p2, held Buf.a op p1 p2 = (get op).pData.isSome)
    (ha : Buf.a ∈ D)
    (h : Balanced held D s) : Balanced held D (s.zeroA_checked f get set) := by
  unfold Locals.zeroA_checked
  split_ifs with h1 h2 h3
  · exact h
  · exact h
  · have hnone : held Buf.a s.opData s.pResult1 s.pResult2 = false := by
      rw [hget]
      simp only [Bool.and_eq_true, Option.isNone_iff_eq_none] at h2
      rw [h2.1]; rfl
    refine ⟨fun bf => ?_, fun bf hb => ?_, fun bf => ?_⟩
    · simp only [allocsOf_append]
      by_cases hbf : bf = Buf.a
      · subst hbf
        simp only [h.1, hnone, hthis]
        simp [allocsOf, Ev.isAllocOf]
      · simp only [hother _ _ _ _ _ hbf, h.1 bf]
        have : allocsOf bf [Ev.qaeAlloc Buf.a 1] = 0 := by
          simp [allocsOf, Ev.isAllocOf, Ne.symm hbf]
        omega
    · by_cases hbf : bf = Buf.a
      · subst hbf
        exact absurd ha hb
      · simp only [hother _ _ _ _ _ hbf]
        exact h.2.1 bf hb
    · simp only [releasesOf_append, h.2.2 bf]
      simp [releasesOf, freesOf, cleanseFreesOf, Ev.isFreeOf, Ev.isCleanseFreeOf]
  · exact h

end Balance

/-! ## The builds keep the account balanced -/

theorem ecdh_build_balanced (env : Env) (group : EC_GROUP) (priv_key : BIGNUM)
    (pub_key : EC_POINT) :
    Balanced ecdhHeld [Buf.q, Buf.b, Buf.a, Buf.yg, Buf.xg, Buf.k, Buf.resY, Buf.resX]
      (qat_ecdh_compute_key_build env group priv_key pub_key) := by
  have hinit : Balanced ecdhHeld [] qat_ecdh_compute_key_init :=
    ⟨fun bf => by cases bf <;> rfl, fun bf _ => by cases bf <;> rfl, fun _ => rfl⟩
  unfold qat_ecdh_compute_key_build
  repeat (first
    | exact hinit
    | refine Balanced.check ?_
    | refine Balanced.assign (fun bf _ _ _ => by cases bf <;> rfl) ?_
    | refine Balanced.encode
        (fun bf _ _ _ _ hb => by cases bf <;> first | rfl | exact absurd rfl hb)
        (fun _ _ _ _ => rfl) (by decide) ?_
    | refine Balanced.zeroA_checked
        (fun bf _ _ _ _ hb => by cases bf <;> first | rfl | exact absurd rfl hb)
        (fun _ _ _ _ => rfl) (fun _ _ _ => rfl) (by decide) ?_
    | refine Balanced.allocResult1
        (fun bf _ _ _ _ hb => by cases bf <;> first | rfl | exact absurd rfl hb)
        (fun _ _ _ => rfl) (by decide) ?_
    | refine Balanced.allocResult2
        (fun bf _ _ _ _ hb => by cases bf <;> first | rfl | exact absurd rfl hb)
        (fun _ _ _ => rfl) (by decide) ?_)

theorem sign_build1_balanced (env : Env) (group : EC_GROUP) (priv_key : BIGNUM)
    (dgst : List Byte) (dgst_len : Int) :
    Balanced signHeld [Buf.m, Buf.d]
      (qat_ecdsa_do_sign_build1 env group priv_key dgst dgst_len) := by
  have hinit : Balanced signHeld [] qat_ecdsa_do_sign_init :=
    ⟨fun bf => by cases bf <;> rfl, fun bf _ => by cases bf <;> rfl, fun _ => rfl⟩
  unfold qat_ecdsa_do_sign_build1 qat_ecdsa_do_sign_m
  split
  · refine Balanced.mono (fun bf hb => List.mem_cons_of_mem _ hb) ?_
    repeat (first
      | exact hinit
      | refine Balanced.check ?_
      | refine Balanced.encode
          (fun bf _ _ _ _ hb => by cases bf <;> first | rfl | exact absurd rfl hb)
          (fun _ _ _ _ => rfl) (by decide) ?_)
  · repeat (first
      | exact hinit
      | refine Balanced.check ?_
      | refine Balanced.encode
          (fun bf _ _ _ _ hb => by cases bf <;> first | rfl | exact absurd rfl hb)
          (fun _ _ _ _ => rfl) (by decide) ?_)

theorem sign_build2_balanced (env : Env) (group : EC_GROUP) (g : EC_POINT)
    (in_kinv in_r : Option BIGNUM) (k : BIGNUM) (s : Locals CpaCyEcdsaSignRSOpData)
    (hs : Balanced signHeld [Buf.m, Buf.d] s) :
    Balanced signHeld [Buf.resS, Buf.resR, Buf.n, Buf.k, Buf.q, Buf.b, Buf.a, Buf.yg, Buf.xg,
        Buf.m, Buf.d]
      (qat_ecdsa_do_sign_build2 env group g in_kinv in_r k s) := by
  unfold qat_ecdsa_do_sign_build2
  repeat (first
    | exact hs
    | refine Balanced.check ?_
    | refine Balanced.assign (fun bf _ _ _ => by cases bf <;> rfl) ?_
    | refine Balanced.encode
        (fun bf _ _ _ _ hb => by cases bf <;> first | rfl | exact absurd rfl hb)
        (fun _ _ _ _ => rfl) (by decide) ?_
    | refine Balanced.zeroA_unchecked
        (fun bf _ _ _ _ hb => by cases bf <;> first | rfl | exact absurd rfl hb)
        (fun _ _ _ _ => rfl) (fun _ _ _ => rfl) (by decide) ?_
    | refine Balanced.allocResult1
        (fun bf _ _ _ _ hb => by cases bf <;> first | rfl | exact absurd rfl hb)
        (fun _ _ _ => rfl) (by decide) ?_
    | refine Balanced.allocResult2
        (fun bf _ _ _ _ hb => by cases bf <;> first | rfl | exact absurd rfl hb)
        (fun _ _ _ => rfl) (by decide) ?_)

theorem verify_build_balanced (env : Env) (group : EC_GROUP) (pub_key ec_point : EC_POINT)
    (dgst : List Byte) (dgst_len : Int) (sig : ECDSA_SIG) :
    Balanced verifyHeld [Buf.yp, Buf.xp, Buf.s, Buf.r, Buf.n, Buf.q, Buf.b, Buf.a, Buf.yg,
        Buf.xg, Buf.m]
      (qat_ecdsa_do_verify_build env group pub_key ec_point dgst dgst_len sig) := by
  have hinit : Balanced verifyHeld [] qat_ecdsa_do_verify_init :=
    ⟨fun bf => by cases bf <;> rfl, fun bf _ => by cases bf <;> rfl, fun _ => rfl⟩
  have hpre : Balanced verifyHeld []
      (qat_ecdsa_do_verify_range_check sig group.order (qat_ecdsa_do_verify_preamble env)) := by
    unfold qat_ecdsa_do_verify_range_check qat_ecdsa_do_verify_preamble
    split_ifs
    · refine ⟨?_, ?_, ?_⟩ <;>
        simp only [Locals.check_evs, Locals.check_opData, Locals.check_pResult1,
          Locals.check_pResult2]
      · exact hinit.1
      · exact hinit.2.1
      · exact hinit.2.2
    · repeat (first
        | exact hinit
        | refine Balanced.check ?_)
  have hm : Balanced verifyHeld [Buf.m]
      (qat_ecdsa_do_verify_m env dgst dgst_len group.order
        (qat_ecdsa_do_verify_range_check sig group.order (qat_ecdsa_do_verify_preamble env))) := by
    unfold qat_ecdsa_do_verify_m
    split
    · exact Balanced.mono (fun bf hb => List.mem_cons_of_mem _ hb) (Balanced.check hpre)
    · exact Balanced.encode
        (fun bf _ _ _ _ hb => by cases bf <;> first | rfl | exact absurd rfl hb)
        (fun _ _ _ _ => rfl) (by decide) hpre
  unfold qat_ecdsa_do_verify_build qat_ecdsa_do_verify_descriptor
  repeat (first
    | exact hm
    | refine Balanced.check ?_
    | refine Balanced.assign (fun bf _ _ _ => by cases bf <;> rfl) ?_
    | refine Balanced.encode
        (fun bf _ _ _ _ hb => by cases bf <;> first | rfl | exact absurd rfl hb)
        (fun _ _ _ _ => rfl) (by decide) ?_
    | refine Balanced.zeroA_unchecked
        (fun bf _ _ _ _ hb => by cases bf <;> first | rfl | exact absurd rfl hb)
        (fun _ _ _ _ => rfl) (fun _ _ _ => rfl) (by decide) ?_)

/-! ## Result buffers of a build that succeeded -/

section ResultKeeps

variable {Op : Type} (P : Option CpaFlatBuffer → Option CpaFlatBuffer → Prop)

theorem Locals.check_keeps_res (c : Bool) (s : Locals Op)
    (h : s.ok = true → P s.pResult1 s.pResult2) :
    (s.check c).ok = true → P (s.check c).pResult1 (s.check c).pResult2 := by
  intro hok
  rw [Locals.check_ok, Bool.and_eq_true] at hok
  rw [Locals.check_pResult1, Locals.check_pResult2]
  exact h hok.1

theorem Locals.encode_keeps_res (f : Bool) (buf : Buf) (bn : BIGNUM)
    (set : Op → CpaFlatBuffer → Op) (s : Locals Op)
    (h : s.ok = true → P s.pResult1 s.pResult2) :
    (s.encode f buf bn set).ok = true →
      P (s.encode f buf bn set).pResult1 (s.encode f buf bn set).pResult2 := by
  rw [Locals.encode_pResult1, Locals.encode_pResult2]
  unfold Locals.encode
  cases hs : s.ok
  · intro hok; simp [hs] at hok
  · intro _; exact h hs

theorem Locals.assign_keeps_res (g : Op → Op) (s : Locals Op)
    (h : s.ok = true → P s.pResult1 s.pResult2) :
    (s.assign g).ok = true → P (s.assign g).pResult1 (s.assign g).pResult2 := by
  rw [Locals.assign_pResult1, Locals.assign_pResult2]
  unfold Locals.assign
  cases hs : s.ok
  · intro hok; simp [hs] at hok
  · intro _; exact h hs

theorem Locals.zeroA_checked_keeps_res (f : Bool) (get : Op → CpaFlatBuffer)
    (set : Op → CpaFlatBuffer → Op) (s : Locals Op)
    (h : s.ok = true → P s.pResult1 s.pResult2) :
    (s.zeroA_checked f get set).ok = true →
      P (s.zeroA_checked f get set).pResult1 (s.zeroA_checked f get set).pResult2 := by
  unfold Locals.zeroA_checked
  cases hs : s.ok
  · intro hok; simp [hs] at hok
  · intro hok
    split_ifs at hok ⊢ <;> exact h hs

end ResultKeeps

/-- After the two allocations of lines 332-353 and 995-1016 have succeeded,
both result buffers have data. -/
theorem Locals.allocResults_set {Op : Type} (f1 g1 f2 g2 : Bool) (b1 b2 : Buf) (n1 n2 : Nat)
    (s : Locals Op) :
    ((s.allocResult1 f1 g1 b1 n1).allocResult2 f2 g2 b2 n2).ok = true →
      resultHeld ((s.allocResult1 f1 g1 b1 n1).allocResult2 f2 g2 b2 n2).pResult1 = true
      ∧ resultHeld ((s.allocResult1 f1 g1 b1 n1).allocResult2 f2 g2 b2 n2).pResult2 = true := by
  unfold Locals.allocResult2 Locals.allocResult1
  cases hs : s.ok <;> cases f1 <;> cases g1 <;> cases f2 <;> cases g2 <;>
    simp [hs, resultHeld]

theorem ecdh_build_results (env : Env) (group : EC_GROUP) (priv_key : BIGNUM)
    (pub_key : EC_POINT) :
    (qat_ecdh_compute_key_build env group priv_key pub_key).ok = true →
      resultHeld (qat_ecdh_compute_key_build env group priv_key pub_key).pResult1 = true
      ∧ resultHeld (qat_ecdh_compute_key_build env group priv_key pub_key).pResult2 = true := by
  unfold qat_ecdh_compute_key_build
  refine Locals.check_keeps_res
    (fun p1 p2 => resultHeld p1 = true ∧ resultHeld p2 = true) _ _ ?_
  iterate 2
    (refine Locals.encode_keeps_res
      (fun p1 p2 => resultHeld p1 = true ∧ resultHeld p2 = true) _ _ _ _ _ ?_)
  refine Locals.zeroA_checked_keeps_res
    (fun p1 p2 => resultHeld p1 = true ∧ resultHeld p2 = true) _ _ _ _ ?_
  iterate 3
    (refine Locals.encode_keeps_res
      (fun p1 p2 => resultHeld p1 = true ∧ resultHeld p2 = true) _ _ _ _ _ ?_)
  refine Locals.assign_keeps_res
    (fun p1 p2 => resultHeld p1 = true ∧ resultHeld p2 = true) _ _ ?_
  iterate 2
    (refine Locals.check_keeps_res
      (fun p1 p2 => resultHeld p1 = true ∧ resultHeld p2 = true) _ _ ?_)
  refine Locals.encode_keeps_res
    (fun p1 p2 => resultHeld p1 = true ∧ resultHeld p2 = true) _ _ _ _ _ ?_
  exact Locals.allocResults_set _ _ _ _ _ _ _ _ _

theorem sign_build2_results (env : Env) (group : EC_GROUP) (g : EC_POINT)
    (in_kinv in_r : Option BIGNUM) (k : BIGNUM) (s : Locals CpaCyEcdsaSignRSOpData) :
    (qat_ecdsa_do_sign_build2 env group g in_kinv in_r k s).ok = true →
      resultHeld (qat_ecdsa_do_sign_build2 env group g in_kinv in_r k s).pResult1 = true
      ∧ resultHeld (qat_ecdsa_do_sign_build2 env group g in_kinv in_r k s).pResult2 = true := by
  unfold qat_ecdsa_do_sign_build2
  refine Locals.check_keeps_res
    (fun p1 p2 => resultHeld p1 = true ∧ resultHeld p2 = true) _ _ ?_
  exact Locals.allocResults_set _ _ _ _ _ _ _ _ _

/-! ## What the `err` labels release -/

theorem ecdh_err_counts (bf : Buf) (p1 p2 : Option CpaFlatBuffer)
    (op : CpaCyEcPointMultiplyOpData) :
    allocsOf bf (qat_ecdh_compute_key_err p1 p2 op) = 0
    ∧ releasesOf bf (qat_ecdh_compute_key_err p1 p2 op)
        = if ecdhHeld bf op p1 p2 then 1 else 0 := by
  unfold qat_ecdh_compute_key_err releasesOf
  cases p1 <;> cases p2 <;>
    simp only [allocsOf_append, freesOf_append, cleanseFreesOf_append, QMFREE_counts,
      CLNSE_QMFREE_counts] <;>
    cases bf <;> simp [ecdhHeld, resultHeld, allocsOf, freesOf, cleanseFreesOf]

theorem sign_err_counts (bf : Buf) (p1 p2 : Option CpaFlatBuffer)
    (op : CpaCyEcdsaSignRSOpData) :
    allocsOf bf (qat_ecdsa_do_sign_err p1 p2 op) = 0
    ∧ releasesOf bf (qat_ecdsa_do_sign_err p1 p2 op)
        = if signHeld bf op p1 p2 then 1 else 0 := by
  unfold qat_ecdsa_do_sign_err releasesOf
  cases p1 <;> cases p2 <;>
    simp only [allocsOf_append, freesOf_append, cleanseFreesOf_append, QMFREE_counts,
      CLNSE_QMFREE_counts] <;>
    cases bf <;> simp [signHeld, resultHeld, allocsOf, freesOf, cleanseFreesOf]

theorem verify_err_counts (bf : Buf) (p1 p2 : Option CpaFlatBuffer)
    (op : CpaCyEcdsaVerifyOpData) :
    allocsOf bf (qat_ecdsa_do_verify_err3 p1 p2 op) = 0
    ∧ releasesOf bf (qat_ecdsa_do_verify_err3 p1 p2 op)
        = if verifyHeld bf op p1 p2 then 1 else 0 := by
  unfold qat_ecdsa_do_verify_err3 qat_ecdsa_do_verify_err releasesOf
  simp only [allocsOf_append, freesOf_append, cleanseFreesOf_append, QMFREE_counts,
    CLNSE_QMFREE_counts]
  cases bf <;> simp [verifyHeld]

/-! ## The account of a whole run -/

theorem allocations_eq_sum (tr : List Ev) :
    allocations tr = (allBufs.map (fun bf => allocsOf bf tr)).sum := by
  induction tr with
  | nil => rfl
  | cons e t ih =>
    have ht : allocations (e :: t)
        = allocations t + (match e with | Ev.qaeAlloc _ _ => 1 | _ => 0) := by
      cases e <;> simp [allocations, List.countP_cons]
    rw [ht, ih]
    cases e with
    | qaeAlloc b1 n =>
      cases b1 <;> simp [allBufs, allocsOf, List.countP_cons, Ev.isAllocOf] <;> omega
    | _ => simp [allBufs, allocsOf, List.countP_cons, Ev.isAllocOf]

theorem releases_eq_sum (tr : List Ev) :
    releases tr = (allBufs.map (fun bf => releasesOf bf tr)).sum := by
  induction tr with
  | nil => rfl
  | cons e t ih =>
    have ht : releases (e :: t)
        = releases t + (match e with
            | Ev.qaeFree _ => 1
            | Ev.qaeCleanseFree _ => 1
            | _ => 0) := by
      cases e <;> simp [releases, List.countP_cons]
    rw [ht, ih]
    cases e with
    | qaeFree b1 =>
      cases b1 <;>
        simp [allBufs, releasesOf, freesOf, cleanseFreesOf, List.countP_cons, Ev.isFreeOf,
          Ev.isCleanseFreeOf] <;> omega
    | qaeCleanseFree b1 =>
      cases b1 <;>
        simp [allBufs, releasesOf, freesOf, cleanseFreesOf, List.countP_cons, Ev.isFreeOf,
          Ev.isCleanseFreeOf] <;> omega
    | _ =>
      simp [allBufs, releasesOf, freesOf, cleanseFreesOf, List.countP_cons, Ev.isFreeOf,
        Ev.isCleanseFreeOf]

/-- A trace in which every buffer is released as often as it is allocated
has as many releases as allocations. -/
theorem totals_of_balance {tr : List Ev}
    (h : ∀ bf, allocsOf bf tr = releasesOf bf tr) : allocations tr = releases tr := by
  rw [allocations_eq_sum, releases_eq_sum]
  congr 1
  exact List.map_congr_left (fun bf _ => h bf)

/-- Every way of returning leaves the account balanced, when the build does
and when the result buffers are held once the submit loop is entered. -/
theorem balance_of_shape {Op : Type} {env : Env} {fuel : Nat} {G R : Locals Op → Prop}
    {err : Option CpaFlatBuffer → Option CpaFlatBuffer → Op → List Ev} {r1 r2 : Buf}
    {failed : Prop} {trace : List Ev}
    {held : Buf → Op → Option CpaFlatBuffer → Option CpaFlatBuffer → Bool} {D : List Buf}
    (hErr : ∀ bf p1 p2 op, allocsOf bf (err p1 p2 op) = 0
      ∧ releasesOf bf (err p1 p2 op) = if held bf op p1 p2 then 1 else 0)
    (hG : ∀ s, G s → Balanced held D s)
    (hR : ∀ s, G s → R s → s.ok = true → ∀ bf, held bf s.opData (some (resultBuffer env r1))
            (some (resultBuffer env r2)) = held bf s.opData s.pResult1 s.pResult2)
    (h : ExitShape env fuel G R err r1 r2 failed trace) (bf : Buf) :
    allocsOf bf trace = releasesOf bf trace ∧ allocsOf bf trace ≤ 1 := by
  rcases h with rfl | rfl | ⟨s, hs, rfl⟩ | ⟨l, e, evs1, hl, -, hok, hloop, -, -, rfl⟩
    | ⟨l, evs1, evs2, mid, hl, hr, hok, hloop, hwait, hmid, rfl⟩
  · exact ⟨rfl, Nat.zero_le _⟩
  · exact ⟨rfl, Nat.zero_le _⟩
  · have hb := hG s hs
    simp only [allocsOf_append, releasesOf_append, (hErr bf _ _ _).1, (hErr bf _ _ _).2,
      hb.1 bf, hb.2.2 bf]
    split_ifs <;> simp
  · have hb := hG l hl
    have h1 := submitLoop_evs env fuel 0 0 e evs1 hloop
    simp only [allocsOf_append, releasesOf_append, (hErr bf _ _ _).1, (hErr bf _ _ _).2,
      hb.1 bf, hb.2.2 bf, allocsOf_of_isSubmitLoop bf h1, releasesOf_of_isSubmitLoop bf h1]
    split_ifs <;> simp
  · have hb := hG l hl
    have h1 := submitLoop_evs env fuel 0 0 _ evs1 hloop
    have h2 := (waitLoop_evs env fuel 0 evs2 hwait).1
    simp only [allocsOf_append, releasesOf_append, (hErr bf _ _ _).1, (hErr bf _ _ _).2,
      hb.1 bf, hb.2.2 bf, allocsOf_of_isSubmitLoop bf h1, releasesOf_of_isSubmitLoop bf h1,
      allocsOf_of_isWait bf h2, releasesOf_of_isWait bf h2, allocsOf_of_isReadResult bf hmid,
      releasesOf_of_isReadResult bf hmid, hR l hl hr hok bf]
    split_ifs <;> simp

theorem ecdhBuilt_balanced (env : Env) (s : Locals CpaCyEcPointMultiplyOpData)
    (h : ecdhBuilt env s) :
    Balanced ecdhHeld [Buf.q, Buf.b, Buf.a, Buf.yg, Buf.xg, Buf.k, Buf.resY, Buf.resX] s := by
  obtain ⟨group, priv_key, pub_key, rfl⟩ := h
  exact ecdh_build_balanced env group priv_key pub_key

theorem ecdhHeld_results (op : CpaCyEcPointMultiplyOpData) (p1 p2 : Option CpaFlatBuffer)
    (rb1 rb2 : CpaFlatBuffer) (h1 : resultHeld p1 = true) (h2 : resultHeld p2 = true)
    (hr1 : rb1.pData.isSome = true) (hr2 : rb2.pData.isSome = true) (bf : Buf) :
    ecdhHeld bf op (some rb1) (some rb2) = ecdhHeld bf op p1 p2 := by
  cases bf <;> simp only [ecdhHeld] <;>
    first | (rw [h1]; exact hr1) | (rw [h2]; exact hr2)

theorem signHeld_results (op : CpaCyEcdsaSignRSOpData) (p1 p2 : Option CpaFlatBuffer)
    (rb1 rb2 : CpaFlatBuffer) (h1 : resultHeld p1 = true) (h2 : resultHeld p2 = true)
    (hr1 : rb1.pData.isSome = true) (hr2 : rb2.pData.isSome = true) (bf : Buf) :
    signHeld bf op (some rb1) (some rb2) = signHeld bf op p1 p2 := by
  cases bf <;> simp only [signHeld] <;>
    first | (rw [h1]; exact hr1) | (rw [h2]; exact hr2)

theorem ecdhBuilt_results (env : Env) (s : Locals CpaCyEcPointMultiplyOpData)
    (h : ecdhBuilt env s) (hok : s.ok = true) (bf : Buf) :
    ecdhHeld bf s.opData (some (resultBuffer env Buf.resX)) (some (resultBuffer env Buf.resY))
      = ecdhHeld bf s.opData s.pResult1 s.pResult2 := by
  obtain ⟨group, priv_key, pub_key, rfl⟩ := h
  obtain ⟨h1, h2⟩ := ecdh_build_results env group priv_key pub_key hok
  exact ecdhHeld_results _ _ _ (resultBuffer env Buf.resX) (resultBuffer env Buf.resY)
    h1 h2 rfl rfl bf

theorem signBuilt_balanced (env : Env) (s : Locals CpaCyEcdsaSignRSOpData)
    (h : signBuilt env s) :
    Balanced signHeld [Buf.resS, Buf.resR, Buf.n, Buf.k, Buf.q, Buf.b, Buf.a, Buf.yg, Buf.xg,
        Buf.m, Buf.d] s := by
  obtain ⟨group, priv_key, dgst, dgst_len, rfl | ⟨g, in_kinv, in_r, k, rfl⟩⟩ := h
  · exact (sign_build1_balanced env group priv_key dgst dgst_len).mono (by decide)
  · exact sign_build2_balanced env group g in_kinv in_r k _
      (sign_build1_balanced env group priv_key dgst dgst_len)

theorem signSubmits_results (env : Env) (s : Locals CpaCyEcdsaSignRSOpData)
    (h : signSubmits env s) (hok : s.ok = true) (bf : Buf) :
    signHeld bf s.opData (some (resultBuffer env Buf.resR)) (some (resultBuffer env Buf.resS))
      = signHeld bf s.opData s.pResult1 s.pResult2 := by
  obtain ⟨group, g, in_kinv, in_r, k, s1, rfl⟩ := h
  obtain ⟨h1, h2⟩ := sign_build2_results env group g in_kinv in_r k s1 hok
  exact signHeld_results _ _ _ (resultBuffer env Buf.resR) (resultBuffer env Buf.resS)
    h1 h2 rfl rfl bf

theorem verifyBuilt_balanced (env : Env) (s : Locals CpaCyEcdsaVerifyOpData)
    (h : verifyBuilt env s) :
    Balanced verifyHeld [Buf.yp, Buf.xp, Buf.s, Buf.r, Buf.n, Buf.q, Buf.b, Buf.a, Buf.yg,
        Buf.xg, Buf.m] s := by
  obtain ⟨group, pub_key, ec_point, dgst, dgst_len, sig, rfl⟩ := h
  exact verify_build_balanced env group pub_key ec_point dgst dgst_len sig

/-! ## C16: allocations and releases -/

/-- C16: in every returning run of `qat_ecdh_compute_key`, `qat_ecdsa_do_sign`
and `qat_ecdsa_do_verify` (whatever the exit: success, a failure while the
descriptor is built, no instance, a submission that fails, retries exhausted,
a completion that reports not verified), each accelerator buffer, descriptor
field or result buffer, is allocated at most once and released exactly as
often as it is allocated; so the trace has as many releases as allocations. -/
theorem C16_allocations_released_once (env : Env) (fuel : Nat) :
    (∀ o pub_key ecdh out, qat_ecdh_compute_key env fuel o pub_key ecdh = some out →
      (∀ bf, allocsOf bf out.trace = releasesOf bf out.trace ∧ allocsOf bf out.trace ≤ 1)
      ∧ allocations out.trace = releases out.trace)
    ∧ (∀ dgst dgst_len in_kinv in_r eckey out,
      qat_ecdsa_do_sign env fuel dgst dgst_len in_kinv in_r eckey = some out →
      (∀ bf, allocsOf bf out.trace = releasesOf bf out.trace ∧ allocsOf bf out.trace ≤ 1)
      ∧ allocations out.trace = releases out.trace)
    ∧ (∀ dgst dgst_len sig eckey out,
      qat_ecdsa_do_verify env fuel dgst dgst_len sig eckey = some out →
      (∀ bf, allocsOf bf out.trace = releasesOf bf out.trace ∧ allocsOf bf out.trace ≤ 1)
      ∧ allocations out.trace = releases out.trace) := by
  refine ⟨?_, ?_, ?_⟩
  · intro o pub_key ecdh out h
    have hb := balance_of_shape ecdh_err_counts (ecdhBuilt_balanced env)
      (fun s hg _ hok => ecdhBuilt_results env s hg hok) (ecdh_exit_shape h)
    exact ⟨hb, totals_of_balance (fun bf => (hb bf).1)⟩
  · intro dgst dgst_len in_kinv in_r eckey out h
    have hb := balance_of_shape sign_err_counts (signBuilt_balanced env)
      (fun s _ hr hok => signSubmits_results env s hr hok) (sign_exit_shape h)
    exact ⟨hb, totals_of_balance (fun bf => (hb bf).1)⟩
  · intro dgst dgst_len sig eckey out h
    have hb := balance_of_shape verify_err_counts (verifyBuilt_balanced env)
      (fun _ _ _ _ bf => by cases bf <;> rfl) (verify_exit_shape h)
    exact ⟨hb, totals_of_balance (fun bf => (hb bf).1)⟩

/-- C16, instance: a run of `qat_ecdh_compute_key` that succeeds, and a
signature whose completion reports not verified. -/
theorem C16_witness :
    (∃ out, qat_ecdh_compute_key (envAccept true) 1 sampleOut samplePub (some sampleKey)
          = some out
        ∧ allocations out.trace = releases out.trace ∧ allocations out.trace = 8)
    ∧ (∃ out, qat_ecdsa_do_sign (envAccept false) 1 [0xAB] 1 none none sampleKey = some out
        ∧ allocations out.trace = releases out.trace ∧ allocations out.trace = 11) :=
  ⟨⟨(qat_ecdh_compute_key (envAccept true) 1 sampleOut samplePub (some sampleKey)).get
        (by decide),
      (Option.some_get _).symm,
      ((C16_allocations_released_once (envAccept true) 1).1 sampleOut samplePub
        (some sampleKey) _ (Option.some_get _).symm).2, by decide⟩,
    ⟨(qat_ecdsa_do_sign (envAccept false) 1 [0xAB] 1 none none sampleKey).get (by decide),
      (Option.some_get _).symm,
      ((C16_allocations_released_once (envAccept false) 1).2.1 [0xAB] 1 none none
        sampleKey _ (Option.some_get _).symm).2, by decide⟩⟩

/-! ## C17: the release of secrets -/

theorem freesOf_le_releasesOf (bf : Buf) (tr : List Ev) : freesOf bf tr ≤ releasesOf bf tr :=
  Nat.le_add_right _ _

/-- A buffer that the `err` label never releases through the plain path is
not released through the plain path in any run. -/
theorem frees_of_shape {Op : Type} {env : Env} {fuel : Nat} {G R : Locals Op → Prop}
    {err : Option CpaFlatBuffer → Option CpaFlatBuffer → Op → List Ev} {r1 r2 : Buf}
    {failed : Prop} {trace : List Ev}
    {held : Buf → Op → Option CpaFlatBuffer → Option CpaFlatBuffer → Bool} {D : List Buf}
    {bf : Buf}
    (hPlain : ∀ p1 p2 op, freesOf bf (err p1 p2 op) = 0)
    (hG : ∀ s, G s → Balanced held D s)
    (h : ExitShape env fuel G R err r1 r2 failed trace) :
    freesOf bf trace = 0 := by
  have hz : ∀ {l : List Ev}, releasesOf bf l = 0 → freesOf bf l = 0 := fun hl =>
    Nat.le_zero.mp (hl ▸ freesOf_le_releasesOf bf _)
  rcases h with rfl | rfl | ⟨s, hs, rfl⟩ | ⟨l, e, evs1, hl, -, hok, hloop, -, -, rfl⟩
    | ⟨l, evs1, evs2, mid, hl, hr, hok, hloop, hwait, hmid, rfl⟩
  · rfl
  · rfl
  · simp only [freesOf_append, hPlain, hz ((hG s hs).2.2 bf)]
  · have h1 := submitLoop_evs env fuel 0 0 e evs1 hloop
    simp only [freesOf_append, hPlain, hz ((hG l hl).2.2 bf),
      hz (releasesOf_of_isSubmitLoop bf h1)]
  · have h1 := submitLoop_evs env fuel 0 0 _ evs1 hloop
    have h2 := (waitLoop_evs env fuel 0 evs2 hwait).1
    simp only [freesOf_append, hPlain, hz ((hG l hl).2.2 bf),
      hz (releasesOf_of_isSubmitLoop bf h1), hz (releasesOf_of_isWait bf h2),
      hz (releasesOf_of_isReadResult bf hmid)]

/-- The `err` label of `qat_ecdh_compute_key` does not hand the private
scalar or a result buffer to the plain release. -/
theorem ecdh_err_frees (p1 p2 : Option CpaFlatBuffer) (op : CpaCyEcPointMultiplyOpData)
    (bf : Buf) (hbf : bf = Buf.k ∨ bf = Buf.resX ∨ bf = Buf.resY) :
    freesOf bf (qat_ecdh_compute_key_err p1 p2 op) = 0 := by
  unfold qat_ecdh_compute_key_err
  rcases hbf with rfl | rfl | rfl <;> cases p1 <;> cases p2 <;>
    simp only [freesOf_append, QMFREE_counts, CLNSE_QMFREE_counts] <;> simp [freesOf]

/-- The `err` label of `qat_ecdsa_do_sign` does not hand the nonce or the
private key to the plain release. -/
theorem sign_err_frees (p1 p2 : Option CpaFlatBuffer) (op : CpaCyEcdsaSignRSOpData)
    (bf : Buf) (hbf : bf = Buf.k ∨ bf = Buf.d) :
    freesOf bf (qat_ecdsa_do_sign_err p1 p2 op) = 0 := by
  unfold qat_ecdsa_do_sign_err
  rcases hbf with rfl | rfl <;> cases p1 <;> cases p2 <;>
    simp only [freesOf_append, QMFREE_counts, CLNSE_QMFREE_counts] <;> simp [freesOf]

/-- C17: in every returning run of `qat_ecdh_compute_key`, the buffer of the
private scalar (field k) and the two result buffers X and Y are never released
through the plain path, and are released through the clearing path exactly as
often as they were allocated; in every returning run of `qat_ecdsa_do_sign`
the same holds of the nonce (field k, whether it carries the nonce drawn or a
caller-supplied k-inverse) and of the private key (field d). -/
theorem C17_secrets_cleared_on_release (env : Env) (fuel : Nat) :
    (∀ o pub_key ecdh out, qat_ecdh_compute_key env fuel o pub_key ecdh = some out →
      ∀ bf, bf = Buf.k ∨ bf = Buf.resX ∨ bf = Buf.resY →
        freesOf bf out.trace = 0 ∧ Ev.qaeFree bf ∉ out.trace
        ∧ cleanseFreesOf bf out.trace = allocsOf bf out.trace)
    ∧ (∀ dgst dgst_len in_kinv in_r eckey out,
      qat_ecdsa_do_sign env fuel dgst dgst_len in_kinv in_r eckey = some out →
      ∀ bf, bf = Buf.k ∨ bf = Buf.d →
        freesOf bf out.trace = 0 ∧ Ev.qaeFree bf ∉ out.trace
        ∧ cleanseFreesOf bf out.trace = allocsOf bf out.trace) := by
  have hmem : ∀ (bf : Buf) (tr : List Ev), freesOf bf tr = 0 → Ev.qaeFree bf ∉ tr := by
    intro bf tr h hm
    have hpos : 0 < freesOf bf tr :=
      List.countP_pos_iff.mpr ⟨_, hm, by simp [Ev.isFreeOf]⟩
    omega
  refine ⟨?_, ?_⟩
  · intro o pub_key ecdh out h bf hbf
    have hb := balance_of_shape ecdh_err_counts (ecdhBuilt_balanced env)
      (fun s hg _ hok => ecdhBuilt_results env s hg hok) (ecdh_exit_shape h) bf
    have hf := frees_of_shape (fun p1 p2 op => ecdh_err_frees p1 p2 op bf hbf)
      (ecdhBuilt_balanced env) (ecdh_exit_shape h)
    refine ⟨hf, hmem bf _ hf, ?_⟩
    have := hb.1
    unfold releasesOf at this
    omega
  · intro dgst dgst_len in_kinv in_r eckey out h bf hbf
    have hb := balance_of_shape sign_err_counts (signBuilt_balanced env)
      (fun s _ hr hok => signSubmits_results env s hr hok) (sign_exit_shape h) bf
    have hf := frees_of_shape (fun p1 p2 op => sign_err_frees p1 p2 op bf hbf)
      (signBuilt_balanced env) (sign_exit_shape h)
    refine ⟨hf, hmem bf _ hf, ?_⟩
    have := hb.1
    unfold releasesOf at this
    omega

/-- C17, instance: a signature with a caller-supplied k-inverse and r, whose
completion reports not verified: the nonce buffer is allocated once and
released once, through the clearing path. -/
theorem C17_witness :
    ∃ out, qat_ecdsa_do_sign (envAccept false) 1 [0xAB] 1 (some 4) (some 9) sampleKey = some out
      ∧ freesOf Buf.k out.trace = 0 ∧ Ev.qaeFree Buf.k ∉ out.trace
      ∧ cleanseFreesOf Buf.k out.trace = allocsOf Buf.k out.trace
      ∧ allocsOf Buf.k out.trace = 1 :=
  ⟨(qat_ecdsa_do_sign (envAccept false) 1 [0xAB] 1 (some 4) (some 9) sampleKey).get
      (by decide),
    (Option.some_get _).symm,
    ((C17_secrets_cleared_on_release (envAccept false) 1).2 [0xAB] 1 (some 4) (some 9)
      sampleKey _ (Option.some_get _).symm Buf.k (Or.inl rfl)).1,
    ((C17_secrets_cleared_on_release (envAccept false) 1).2 [0xAB] 1 (some 4) (some 9)
      sampleKey _ (Option.some_get _).symm Buf.k (Or.inl rfl)).2.1,
    ((C17_secrets_cleared_on_release (envAccept false) 1).2 [0xAB] 1 (some 4) (some 9)
      sampleKey _ (Option.some_get _).symm Buf.k (Or.inl rfl)).2.2, by decide⟩

/-! ## Runs that leave the submit loop without an accepted submission -/

theorem ecdh_abandons {env : Env} {fuel : Nat} {pub_key : EC_POINT} {ecdh : Option EC_KEY}
    {l : Locals CpaCyEcPointMultiplyOpData} {e : LoopExit} {evs1 : List Ev}
    (o : OutParams) (hl : ecdhReachesSubmit env pub_key ecdh l)
    (hloop : submitLoop env fuel 0 0 = some (e, evs1))
    (he : e ≠ LoopExit.status CpaStatus.SUCCESS) :
    qat_ecdh_compute_key env fuel o pub_key ecdh
      = some { ret := -1, out := o, submitted := some l,
               trace := l.evs ++ evs1
                 ++ qat_ecdh_compute_key_err l.pResult1 l.pResult2 l.opData } := by
  rw [ecdh_of_reaches env fuel o pub_key ecdh l hl]
  unfold qat_ecdh_compute_key_run
  simp [hloop, he]

theorem sign_abandons {env : Env} {fuel : Nat} {dgst : List Byte} {dgst_len : Int}
    {in_kinv in_r : Option BIGNUM} {eckey : EC_KEY}
    {l : Locals CpaCyEcdsaSignRSOpData} {e : LoopExit} {evs1 : List Ev}
    (hl : signReachesSubmit env fuel dgst dgst_len in_kinv in_r eckey l)
    (hloop : submitLoop env fuel 0 0 = some (e, evs1))
    (he : e ≠ LoopExit.status CpaStatus.SUCCESS) :
    qat_ecdsa_do_sign env fuel dgst dgst_len in_kinv in_r eckey
      = some { ret := none, submitted := some l,
               trace := l.evs ++ evs1
                 ++ qat_ecdsa_do_sign_err l.pResult1 l.pResult2 l.opData } := by
  rw [sign_of_reaches env fuel dgst dgst_len in_kinv in_r eckey l hl]
  unfold qat_ecdsa_do_sign_run
  simp [hloop, he]

theorem verify_abandons {env : Env} {fuel : Nat} {dgst : List Byte} {dgst_len : Int}
    {sig : Option ECDSA_SIG} {eckey : Option EC_KEY}
    {l : Locals CpaCyEcdsaVerifyOpData} {e : LoopExit} {evs1 : List Ev}
    (hl : verifyReachesSubmit env dgst dgst_len sig eckey l)
    (hloop : submitLoop env fuel 0 0 = some (e, evs1))
    (he : e ≠ LoopExit.status CpaStatus.SUCCESS) :
    qat_ecdsa_do_verify env fuel dgst dgst_len sig eckey
      = some { ret := -1, submitted := some l,
               trace := l.evs ++ evs1 ++ qat_ecdsa_do_verify_err l.opData } := by
  rw [verify_of_reaches env fuel dgst dgst_len sig eckey l hl]
  unfold qat_ecdsa_do_verify_run
  simp [hloop, he, verify_reaches_ret env dgst dgst_len sig eckey l hl]

/-! ## The submit loop in fiber mode -/

theorem submissions_fiberRounds (n : Nat) : submissions (fiberRounds n) = n := by
  induction n with
  | zero => rfl
  | succ n ih =>
    rw [fiberRounds, submissions_append, ih]
    simp [fiberRound, submissions]
    omega

/-- What a submit loop in fiber mode that ends has done: some rounds that
met a busy accelerator and woke and paused the job, then a last round that
found no instance, or got a response other than busy, or met a busy
accelerator and failed to wake the job (no pause then), or woke it and failed
to pause it; in the last two cases the status is a hard failure.  Nothing
follows the last round, and there is no sleep. -/
theorem submitLoop_fiber_inv (env : Env) (hjob : env.job = true) :
    ∀ (fuel k : Nat) (c : Int) (e : LoopExit) (evs : List Ev),
      submitLoop env fuel k c = some (e, evs) →
      sleeps evs = [] ∧ ∃ n,
        (∀ i, i < n → env.inst (k + i) = true ∧ env.resp (k + i) = CpaStatus.RETRY
            ∧ env.wake (k + i) = true ∧ env.pause (k + i) = true)
        ∧ ((env.inst (k + n) = false ∧ e = LoopExit.noInstance
              ∧ evs = fiberRounds n ++ [Ev.get_next_inst false])
          ∨ (env.inst (k + n) = true ∧ env.resp (k + n) ≠ CpaStatus.RETRY
              ∧ e = LoopExit.status (env.resp (k + n))
              ∧ evs = fiberRounds n ++ [Ev.get_next_inst true, Ev.submit (env.resp (k + n))])
          ∨ (env.inst (k + n) = true ∧ env.resp (k + n) = CpaStatus.RETRY
              ∧ (env.wake (k + n) = false ∨ env.pause (k + n) = false)
              ∧ e = LoopExit.status CpaStatus.FAIL
              ∧ evs = fiberRounds n ++ fiberLastRound (env.wake (k + n)))) := by
  intro fuel
  induction fuel with
  | zero => intro k c e evs h; simp [submitLoop] at h
  | succ fuel ih =>
    intro k c e evs h
    unfold submitLoop at h
    by_cases hi : env.inst k = true
    · by_cases hr : env.resp k = CpaStatus.RETRY
      · by_cases hw : env.wake k = true
        · by_cases hp : env.pause k = true
          · simp only [hi, hr, hjob, hw, hp, Bool.not_true, Bool.false_eq_true, if_false,
              if_true] at h
            split at h
            · exact absurd h (by simp)
            · rename_i e1 evs1 hrec
              simp only [Option.some.injEq, Prod.mk.injEq] at h
              obtain ⟨rfl, rfl⟩ := h
              obtain ⟨hs, n, hall, hlast⟩ := ih (k + 1) c e1 evs1 hrec
              refine ⟨?_, n + 1, ?_, ?_⟩
              · rw [sleeps_append, hs]; rfl
              · intro i hlt
                cases i with
                | zero => exact ⟨hi, hr, hw, hp⟩
                | succ j =>
                  have := hall j (by omega)
                  rw [show k + (j + 1) = k + 1 + j by omega]
                  exact this
              · rw [show k + (n + 1) = k + 1 + n by omega]
                rcases hlast with ⟨h1, h2, h3⟩ | ⟨h1, h2, h3, h4⟩ | ⟨h1, h2, h3, h4, h5⟩
                · exact Or.inl ⟨h1, h2, by rw [h3]; rfl⟩
                · exact Or.inr (Or.inl ⟨h1, h2, h3, by rw [h4]; rfl⟩)
                · exact Or.inr (Or.inr ⟨h1, h2, h3, h4, by rw [h5]; rfl⟩)
          · simp only [hi, hr, hjob, hw, hp, Bool.not_true, Bool.false_eq_true, if_false,
              if_true, Bool.not_eq_true, Bool.not_false, Option.some.injEq,
              Prod.mk.injEq] at h
            obtain ⟨rfl, rfl⟩ := h
            refine ⟨rfl, 0, fun i hlt => absurd hlt (Nat.not_lt_zero i), Or.inr (Or.inr
              ⟨hi, hr, Or.inr (by simpa using hp), rfl, ?_⟩)⟩
            simp [fiberRounds, fiberLastRound, hw]
        · simp only [hi, hr, hjob, hw, Bool.not_true, Bool.false_eq_true, if_false,
            if_true, Bool.not_eq_true, Bool.not_false, Option.some.injEq, Prod.mk.injEq] at h
          obtain ⟨rfl, rfl⟩ := h
          refine ⟨rfl, 0, fun i hlt => absurd hlt (Nat.not_lt_zero i), Or.inr (Or.inr
            ⟨hi, hr, Or.inl (by simpa using hw), rfl, ?_⟩)⟩
          simp [fiberRounds, fiberLastRound, hw]
      · simp only [hi, hr, Bool.not_true, Bool.false_eq_true, if_false, Option.some.injEq,
          Prod.mk.injEq] at h
        obtain ⟨rfl, rfl⟩ := h
        exact ⟨rfl, 0, fun i hlt => absurd hlt (Nat.not_lt_zero i),
          Or.inr (Or.inl ⟨hi, hr, rfl, rfl⟩)⟩
    · simp only [hi, Bool.not_false, if_true, Option.some.injEq, Prod.mk.injEq,
        Bool.not_eq_true] at h
      obtain ⟨rfl, rfl⟩ := h
      exact ⟨rfl, 0, fun i hlt => absurd hlt (Nat.not_lt_zero i),
        Or.inl ⟨by simpa using hi, rfl, rfl⟩⟩

/-- In fiber mode, after `n` busy rounds in which wake and pause succeed, a
busy round in which the wake or the pause fails ends the loop with a hard
failure, given fuel for `n + 1` rounds. -/
theorem submitLoop_fiber_fail (env : Env) (hjob : env.job = true) :
    ∀ (n fuel k : Nat) (c : Int), n < fuel →
      (∀ i, i < n → env.inst (k + i) = true ∧ env.resp (k + i) = CpaStatus.RETRY
          ∧ env.wake (k + i) = true ∧ env.pause (k + i) = true) →
      env.inst (k + n) = true → env.resp (k + n) = CpaStatus.RETRY →
      (env.wake (k + n) = false ∨ env.pause (k + n) = false) →
      submitLoop env fuel k c
        = some (LoopExit.status CpaStatus.FAIL,
            fiberRounds n ++ fiberLastRound (env.wake (k + n))) := by
  intro n
  induction n with
  | zero =>
    intro fuel k c hf _ hi hr hwp
    obtain ⟨fuel, rfl⟩ : ∃ f, fuel = f + 1 := ⟨fuel - 1, by omega⟩
    simp only [Nat.add_zero] at hi hr hwp ⊢
    unfold submitLoop
    cases hw : env.wake k
    · simp [hi, hr, hjob, hw, fiberRounds, fiberLastRound]
    · rw [hw] at hwp
      have hp : env.pause k = false := by simpa using hwp
      simp [hi, hr, hjob, hw, hp, fiberRounds, fiberLastRound]
  | succ n ih =>
    intro fuel k c hf hall hi hr hwp
    obtain ⟨fuel, rfl⟩ : ∃ f, fuel = f + 1 := ⟨fuel - 1, by omega⟩
    obtain ⟨h0i, h0r, h0w, h0p⟩ := hall 0 (by omega)
    simp only [Nat.add_zero] at h0i h0r h0w h0p
    have hrec := ih fuel (k + 1) c (by omega)
      (fun i hlt => by
        have := hall (i + 1) (by omega)
        rw [show k + (i + 1) = k + 1 + i by omega] at this
        exact this)
      (by rw [show k + 1 + n = k + (n + 1) by omega]; exact hi)
      (by rw [show k + 1 + n = k + (n + 1) by omega]; exact hr)
      (by rw [show k + 1 + n = k + (n + 1) by omega]; exact hwp)
    unfold submitLoop
    simp only [h0i, h0r, hjob, h0w, h0p, Bool.not_true, Bool.false_eq_true, if_false,
      if_true, hrec]
    rw [show k + 1 + n = k + (n + 1) by omega]
    rfl

/-- In blocking mode the submit loop neither wakes nor pauses a job. -/
theorem submitLoop_blocking_no_job (env : Env) (hjob : env.job = false) :
    ∀ (fuel k : Nat) (c : Int) (e : LoopExit) (evs : List Ev),
      submitLoop env fuel k c = some (e, evs) →
      ∀ okay, Ev.wake okay ∉ evs ∧ Ev.pause okay ∉ evs := by
  intro fuel
  induction fuel with
  | zero => intro k c e evs h; simp [submitLoop] at h
  | succ fuel ih =>
    intro k c e evs h okay
    unfold submitLoop at h
    simp only [hjob, Bool.not_false, if_true] at h
    split_ifs at h with h1 h2 h3
    · simp only [Option.some.injEq, Prod.mk.injEq] at h
      obtain ⟨-, rfl⟩ := h
      simp
    · simp only [Option.some.injEq, Prod.mk.injEq] at h
      obtain ⟨-, rfl⟩ := h
      simp
    · split at h
      · exact absurd h (by simp)
      · rename_i e1 evs1 hrec
        simp only [Option.some.injEq, Prod.mk.injEq] at h
        obtain ⟨-, rfl⟩ := h
        have := ih _ _ _ _ hrec okay
        simp [this.1, this.2]
    · simp only [Option.some.injEq, Prod.mk.injEq] at h
      obtain ⟨-, rfl⟩ := h
      simp

/-- C18.  Fiber mode (`env.job = true`): a submit loop that ends has made
`n` rounds on a busy accelerator, each with a wake followed by a pause, both
successful, and a last round: no instance; or a response other than busy; or
a busy response with a failing wake, after which no pause is attempted; or a
busy response with a wake and a failing pause; in the last two cases the loop
is left with status FAIL; nothing is submitted after the last round, and the
loop never sleeps.  Such a failure does occur (with fuel for the rounds), and
each builder that reached the loop then returns its failure value (-1, NULL,
-1) with `n + 1` submissions and without entering the completion wait.
Blocking mode (`env.job = false`): the submit loop never wakes or pauses. -/
theorem C18_fiber_wake_then_pause (env : Env) (fuel : Nat) :
    (env.job = true → ∀ k c e evs, submitLoop env fuel k c = some (e, evs) →
      sleeps evs = [] ∧ ∃ n,
        (∀ i, i < n → env.inst (k + i) = true ∧ env.resp (k + i) = CpaStatus.RETRY
            ∧ env.wake (k + i) = true ∧ env.pause (k + i) = true)
        ∧ ((env.inst (k + n) = false ∧ e = LoopExit.noInstance
              ∧ evs = fiberRounds n ++ [Ev.get_next_inst false])
          ∨ (env.inst (k + n) = true ∧ env.resp (k + n) ≠ CpaStatus.RETRY
              ∧ e = LoopExit.status (env.resp (k + n))
              ∧ evs = fiberRounds n ++ [Ev.get_next_inst true, Ev.submit (env.resp (k + n))])
          ∨ (env.inst (k + n) = true ∧ env.resp (k + n) = CpaStatus.RETRY
              ∧ (env.wake (k + n) = false ∨ env.pause (k + n) = false)
              ∧ e = LoopExit.status CpaStatus.FAIL
              ∧ evs = fiberRounds n ++ fiberLastRound (env.wake (k + n)))))
    ∧ (env.job = true → ∀ n, n < fuel →
        (∀ i, i < n → env.inst i = true ∧ env.resp i = CpaStatus.RETRY
            ∧ env.wake i = true ∧ env.pause i = true) →
        env.inst n = true → env.resp n = CpaStatus.RETRY →
        (env.wake n = false ∨ env.pause n = false) →
        submitLoop env fuel 0 0
          = some (LoopExit.status CpaStatus.FAIL, fiberRounds n ++ fiberLastRound (env.wake n))
        ∧ submissions (fiberRounds n ++ fiberLastRound (env.wake n)) = n + 1
        ∧ (∀ o pub_key ecdh l, ecdhReachesSubmit env pub_key ecdh l →
            ∃ out, qat_ecdh_compute_key env fuel o pub_key ecdh = some out ∧ out.ret = -1
              ∧ out.trace = l.evs ++ (fiberRounds n ++ fiberLastRound (env.wake n))
                  ++ qat_ecdh_compute_key_err l.pResult1 l.pResult2 l.opData
              ∧ submissions out.trace = n + 1 ∧ enteredWait out.trace = false)
        ∧ (∀ dgst dgst_len in_kinv in_r eckey l,
            signReachesSubmit env fuel dgst dgst_len in_kinv in_r eckey l →
            ∃ out, qat_ecdsa_do_sign env fuel dgst dgst_len in_kinv in_r eckey = some out
              ∧ out.ret = none
              ∧ out.trace = l.evs ++ (fiberRounds n ++ fiberLastRound (env.wake n))
                  ++ qat_ecdsa_do_sign_err l.pResult1 l.pResult2 l.opData
              ∧ submissions out.trace = n + 1 ∧ enteredWait out.trace = false)
        ∧ (∀ dgst dgst_len sig eckey l, verifyReachesSubmit env dgst dgst_len sig eckey l →
            ∃ out, qat_ecdsa_do_verify env fuel dgst dgst_len sig eckey = some out
              ∧ out.ret = -1
              ∧ out.trace = l.evs ++ (fiberRounds n ++ fiberLastRound (env.wake n))
                  ++ qat_ecdsa_do_verify_err l.opData
              ∧ submissions out.trace = n + 1 ∧ enteredWait out.trace = false))
    ∧ (env.job = false → ∀ k c e evs, submitLoop env fuel k c = some (e, evs) →
        ∀ okay, Ev.wake okay ∉ evs ∧ Ev.pause okay ∉ evs) := by
  refine ⟨fun hjob => submitLoop_fiber_inv env hjob fuel, ?_,
    fun hjob => submitLoop_blocking_no_job env hjob fuel⟩
  intro hjob n hfuel hall hi hr hwp
  have hloop := submitLoop_fiber_fail env hjob n fuel 0 0 hfuel
    (fun i hlt => by simpa using hall i hlt) (by simpa using hi) (by simpa using hr)
    (by simpa using hwp)
  simp only [Nat.zero_add] at hloop
  have hsub : submissions (fiberRounds n ++ fiberLastRound (env.wake n)) = n + 1 := by
    rw [submissions_append, submissions_fiberRounds]
    cases env.wake n <;> simp [fiberLastRound, submissions]
  have hne : LoopExit.status CpaStatus.FAIL ≠ LoopExit.status CpaStatus.SUCCESS := by decide
  refine ⟨hloop, hsub, ?_, ?_, ?_⟩
  · intro o pub_key ecdh l hl
    obtain ⟨c1, _, _, c4⟩ := counts_of_abandoned env fuel 0 0 _ l.evs _
      (qat_ecdh_compute_key_err l.pResult1 l.pResult2 l.opData)
      (ecdh_reaches_evs env pub_key ecdh l hl) hloop (ecdh_err_isMem _ _ _)
    exact ⟨_, ecdh_abandons o hl hloop hne, rfl, rfl, by rw [c1, hsub], c4⟩
  · intro dgst dgst_len in_kinv in_r eckey l hl
    obtain ⟨c1, _, _, c4⟩ := counts_of_abandoned env fuel 0 0 _ l.evs _
      (qat_ecdsa_do_sign_err l.pResult1 l.pResult2 l.opData)
      (sign_reaches_evs env fuel dgst dgst_len in_kinv in_r eckey l hl) hloop
      (sign_err_isMem _ _ _)
    exact ⟨_, sign_abandons hl hloop hne, rfl, rfl, by rw [c1, hsub], c4⟩
  · intro dgst dgst_len sig eckey l hl
    obtain ⟨c1, _, _, c4⟩ := counts_of_abandoned env fuel 0 0 _ l.evs _
      (qat_ecdsa_do_verify_err l.opData)
      (verify_reaches_evs env dgst dgst_len sig eckey l hl) hloop (verify_err_isMem _)
    exact ⟨_, verify_abandons hl hloop hne, rfl, rfl, by rw [c1, hsub], c4⟩

/-- C18, instance: fiber mode, the accelerator always busy, the wake fails
in the second round: two submissions, one wake that succeeds and its pause,
one wake that fails and no pause after it, status FAIL. -/
theorem C18_witness :
    envFiberWakeFails.job = true
    ∧ submitLoop envFiberWakeFails 5 0 0
        = some (LoopExit.status CpaStatus.FAIL,
            [Ev.get_next_inst true, Ev.submit CpaStatus.RETRY, Ev.wake true, Ev.pause true,
             Ev.get_next_inst true, Ev.submit CpaStatus.RETRY, Ev.wake false]) :=
  ⟨rfl, ((C18_fiber_wake_then_pause envFiberWakeFails 5).2.1 rfl 1 (by decide)
    (fun i hi => by
      have h0 : i = 0 := by omega
      subst h0
      decide)
    rfl rfl (Or.inl rfl)).1⟩

/-! ## C19: one acquisition before each submission -/

theorem acqRun_append (s : AcqState) (l1 l2 : List Ev) :
    acqRun s (l1 ++ l2) = (acqRun s l1).bind (fun s1 => acqRun s1 l2) := by
  induction l1 generalizing s with
  | nil => rfl
  | cons e t ih =>
    simp only [List.cons_append, acqRun]
    cases acqStep s e with
    | none => rfl
    | some s1 => exact ih s1

/-- Events other than acquisitions, submissions and reads of the flag leave
the state as it is. -/
theorem acqRun_of_all (p : Ev → Bool) (h1 : ∀ g, p (Ev.get_next_inst g) = false)
    (h2 : ∀ st, p (Ev.submit st) = false) (h3 : ∀ d, p (Ev.flag d) = false)
    (s : AcqState) : ∀ (l : List Ev), l.all p = true → acqRun s l = some s
  | [], _ => rfl
  | e :: t, h => by
    simp only [List.all_cons, Bool.and_eq_true] at h
    have ht := acqRun_of_all p h1 h2 h3 s t h.2
    cases e with
    | get_next_inst g => rw [h1 g] at h; exact absurd h.1 (by simp)
    | submit st => rw [h2 st] at h; exact absurd h.1 (by simp)
    | flag d => rw [h3 d] at h; exact absurd h.1 (by simp)
    | _ => cases s <;> simpa [acqRun, acqStep] using ht

/-- The events of the completion wait leave the state as it is, unless the
run was abandoned. -/
theorem acqRun_of_isWait (s : AcqState) (hs : s ≠ AcqState.abandoned) :
    ∀ (l : List Ev), l.all Ev.isWait = true → acqRun s l = some s
  | [], _ => rfl
  | e :: t, h => by
    simp only [List.all_cons, Bool.and_eq_true] at h
    have ht := acqRun_of_isWait s hs t h.2
    cases e with
    | pause okay => cases s <;> first | exact absurd rfl hs | simpa [acqRun, acqStep] using ht
    | yield => cases s <;> first | exact absurd rfl hs | simpa [acqRun, acqStep] using ht
    | flag d => cases s <;> first | exact absurd rfl hs | simpa [acqRun, acqStep] using ht
    | _ => exact absurd h.1 (by simp [Ev.isWait])

/-- The submit loop keeps the discipline: every round acquires once and, if
it got an instance, submits once; the loop ends with the first acquisition
that yields no instance. -/
theorem submitLoop_acq (env : Env) :
    ∀ (fuel k : Nat) (c : Int) (e : LoopExit) (evs : List Ev),
      submitLoop env fuel k c = some (e, evs) →
      acqRun AcqState.idle evs = some (acqAfter e)
      ∧ acquisitions evs = submissions evs + (if e = LoopExit.noInstance then 1 else 0)
      ∧ (e = LoopExit.noInstance ↔ Ev.get_next_inst false ∈ evs) := by
  intro fuel
  induction fuel with
  | zero => intro k c e evs h; simp [submitLoop] at h
  | succ fuel ih =>
    intro k c e evs h
    unfold submitLoop at h
    simp only [] at h
    split_ifs at h <;>
      first
        | (simp only [Option.some.injEq, Prod.mk.injEq] at h
           obtain ⟨rfl, rfl⟩ := h
           simp [acqRun, acqStep, acqAfter, acquisitions, submissions])
        | (split at h
           · exact absurd h (by simp)
           · rename_i e1 evs1 hrec
             simp only [Option.some.injEq, Prod.mk.injEq] at h
             obtain ⟨rfl, rfl⟩ := h
             obtain ⟨h1, h2, h3⟩ := ih _ _ _ _ hrec
             refine ⟨?_, ?_, ?_⟩
             · rw [acqRun_append]
               simpa [acqRun, acqStep] using h1
             · rw [acquisitions_append, submissions_append, h2]
               simp [acquisitions, submissions]
               omega
             · rw [h3]
               simp)

/-- Every way of returning keeps the discipline; a run in which an
acquisition yielded no instance ends abandoned: it has failed and has not
entered the completion wait. -/
theorem acq_of_shape {Op : Type} {env : Env} {fuel : Nat} {G R : Locals Op → Prop}
    {err : Option CpaFlatBuffer → Option CpaFlatBuffer → Op → List Ev} {r1 r2 : Buf}
    {failed : Prop} {trace : List Ev}
    (hG : ∀ s, G s → s.evs.all Ev.isMem = true)
    (hErr : ∀ p1 p2 op, (err p1 p2 op).all Ev.isMem = true)
    (h : ExitShape env fuel G R err r1 r2 failed trace) :
    (Ev.get_next_inst false ∉ trace ∧ acqRun AcqState.idle trace = some AcqState.idle)
    ∨ (Ev.get_next_inst false ∈ trace ∧ acqRun AcqState.idle trace = some AcqState.abandoned
        ∧ failed ∧ enteredWait trace = false) := by
  have memRun : ∀ (s : AcqState) (l : List Ev), l.all Ev.isMem = true → acqRun s l = some s :=
    fun s l hl => acqRun_of_all Ev.isMem (fun _ => rfl) (fun _ => rfl) (fun _ => rfl) s l hl
  have memNot : ∀ (l : List Ev), l.all Ev.isMem = true → Ev.get_next_inst false ∉ l :=
    fun l hl => not_mem_of_all Ev.isMem l hl (Ev.get_next_inst false) rfl
  rcases h with rfl | rfl | ⟨s, hs, rfl⟩ | ⟨l, e, evs1, hl, -, hok, hloop, he, hf, rfl⟩
    | ⟨l, evs1, evs2, mid, hl, hr, hok, hloop, hwait, hmid, rfl⟩
  · exact Or.inl ⟨by simp, rfl⟩
  · exact Or.inl ⟨by simp, rfl⟩
  · refine Or.inl ⟨?_, ?_⟩
    · simp only [List.mem_append, not_or]
      exact ⟨memNot _ (hG s hs), memNot _ (hErr _ _ _)⟩
    · rw [acqRun_append, memRun _ _ (hG s hs)]
      exact memRun _ _ (hErr _ _ _)
  · obtain ⟨a1, -, a3⟩ := submitLoop_acq env fuel 0 0 e evs1 hloop
    have hrun : acqRun AcqState.idle
        (l.evs ++ evs1 ++ err l.pResult1 l.pResult2 l.opData) = some (acqAfter e) := by
      rw [acqRun_append, acqRun_append, memRun _ _ (hG l hl)]
      simp only [Option.some_bind, a1]
      exact memRun _ _ (hErr _ _ _)
    by_cases hn : e = LoopExit.noInstance
    · refine Or.inr ⟨?_, ?_, hf, ?_⟩
      · simp only [List.mem_append]
        exact Or.inl (Or.inr (a3.mp hn))
      · rw [hrun, hn]; rfl
      · exact (counts_of_abandoned env fuel 0 0 e l.evs evs1 _ (hG l hl) hloop
          (hErr _ _ _)).2.2.2
    · refine Or.inl ⟨?_, ?_⟩
      · simp only [List.mem_append, not_or]
        exact ⟨⟨memNot _ (hG l hl), fun hm => hn (a3.mpr hm)⟩, memNot _ (hErr _ _ _)⟩
      · rw [hrun]
        cases e with
        | noInstance => exact absurd rfl hn
        | status st => rfl
  · obtain ⟨a1, -, a3⟩ := submitLoop_acq env fuel 0 0 _ evs1 hloop
    have hw := (waitLoop_evs env fuel 0 evs2 hwait).1
    refine Or.inl ⟨?_, ?_⟩
    · simp only [List.mem_append, not_or]
      exact ⟨⟨⟨⟨memNot _ (hG l hl), fun hm => absurd (a3.mpr hm) (by simp)⟩,
        not_mem_of_all Ev.isWait evs2 hw _ rfl⟩,
        not_mem_of_all Ev.isReadResult mid hmid _ rfl⟩, memNot _ (hErr _ _ _)⟩
    · rw [acqRun_append, acqRun_append, acqRun_append, acqRun_append, memRun _ _ (hG l hl)]
      simp only [Option.some_bind, a1, acqAfter,
        acqRun_of_isWait AcqState.idle (by decide) evs2 hw,
        acqRun_of_all Ev.isReadResult (fun _ => rfl) (fun _ => rfl) (fun _ => rfl)
          AcqState.idle mid hmid]
      exact memRun _ _ (hErr _ _ _)

theorem ecdhBuilt_isMem (env : Env) (s : Locals CpaCyEcPointMultiplyOpData)
    (h : ecdhBuilt env s) : s.evs.all Ev.isMem = true := by
  obtain ⟨group, priv_key, pub_key, rfl⟩ := h
  exact ecdh_build_evs_isMem env group priv_key pub_key

theorem signBuilt_isMem (env : Env) (s : Locals CpaCyEcdsaSignRSOpData)
    (h : signBuilt env s) : s.evs.all Ev.isMem = true := by
  obtain ⟨group, priv_key, dgst, dgst_len, rfl | ⟨g, in_kinv, in_r, k, rfl⟩⟩ := h
  · exact sign_build1_evs_isMem env group priv_key dgst dgst_len
  · rw [sign_build2_evs_isMem]
    exact sign_build1_evs_isMem env group priv_key dgst dgst_len

theorem verifyBuilt_isMem (env : Env) (s : Locals CpaCyEcdsaVerifyOpData)
    (h : verifyBuilt env s) : s.evs.all Ev.isMem = true := by
  obtain ⟨group, pub_key, ec_point, dgst, dgst_len, sig, rfl⟩ := h
  exact verify_build_evs_isMem env group pub_key ec_point dgst dgst_len sig

theorem verify_err3_isMem (p1 p2 : Option CpaFlatBuffer) (op : CpaCyEcdsaVerifyOpData) :
    (qat_ecdsa_do_verify_err3 p1 p2 op).all Ev.isMem = true :=
  verify_err_isMem op

/-- C19.  In the submit loop every round acquires an instance once and, if it
got one, submits once on it: the events follow the discipline of `acqStep`
(a submission only right after one acquisition that succeeded, an
acquisition only when none is pending), and there are as many acquisitions
as submissions, plus one if the loop ends for want of an instance.  An
acquisition that yields no instance ends the loop at once, in any round and
whatever the retry count and ceiling.  In every returning run of the three
builders the whole trace follows the discipline, and if an acquisition yielded
no instance the run ends abandoned (no acquisition, submission or read of the
completion flag after it), returns the failure value (-1, NULL, -1) and has
not entered the completion wait. -/
theorem C19_acquisition_before_submission (env : Env) (fuel : Nat) :
    (∀ k c e evs, submitLoop env fuel k c = some (e, evs) →
      acqRun AcqState.idle evs = some (acqAfter e)
      ∧ acquisitions evs = submissions evs + (if e = LoopExit.noInstance then 1 else 0)
      ∧ (e = LoopExit.noInstance ↔ Ev.get_next_inst false ∈ evs))
    ∧ (∀ k c, env.inst k = false →
        submitLoop env (fuel + 1) k c = some (LoopExit.noInstance, [Ev.get_next_inst false]))
    ∧ (∀ o pub_key ecdh out, qat_ecdh_compute_key env fuel o pub_key ecdh = some out →
        (Ev.get_next_inst false ∉ out.trace
          ∧ acqRun AcqState.idle out.trace = some AcqState.idle)
        ∨ (Ev.get_next_inst false ∈ out.trace
          ∧ acqRun AcqState.idle out.trace = some AcqState.abandoned
          ∧ out.ret = -1 ∧ enteredWait out.trace = false))
    ∧ (∀ dgst dgst_len in_kinv in_r eckey out,
        qat_ecdsa_do_sign env fuel dgst dgst_len in_kinv in_r eckey = some out →
        (Ev.get_next_inst false ∉ out.trace
          ∧ acqRun AcqState.idle out.trace = some AcqState.idle)
        ∨ (Ev.get_next_inst false ∈ out.trace
          ∧ acqRun AcqState.idle out.trace = some AcqState.abandoned
          ∧ out.ret = none ∧ enteredWait out.trace = false))
    ∧ (∀ dgst dgst_len sig eckey out,
        qat_ecdsa_do_verify env fuel dgst dgst_len sig eckey = some out →
        (Ev.get_next_inst false ∉ out.trace
          ∧ acqRun AcqState.idle out.trace = some AcqState.idle)
        ∨ (Ev.get_next_inst false ∈ out.trace
          ∧ acqRun AcqState.idle out.trace = some AcqState.abandoned
          ∧ out.ret = -1 ∧ enteredWait out.trace = false)) := by
  refine ⟨submitLoop_acq env fuel, ?_, ?_, ?_, ?_⟩
  · intro k c hi
    unfold submitLoop
    simp [hi]
  · intro o pub_key ecdh out h
    exact acq_of_shape (ecdhBuilt_isMem env) ecdh_err_isMem (ecdh_exit_shape h)
  · intro dgst dgst_len in_kinv in_r eckey out h
    exact acq_of_shape (signBuilt_isMem env) sign_err_isMem (sign_exit_shape h)
  · intro dgst dgst_len sig eckey out h
    exact acq_of_shape (verifyBuilt_isMem env) verify_err3_isMem (verify_exit_shape h)

/-- C19, instance: blocking mode, the accelerator always busy, no retry
ceiling, no instance at the third acquisition: three acquisitions, two
submissions, and the loop is left for want of an instance. -/
theorem C19_witness :
    submitLoop envNoInstance 5 0 0
      = some (LoopExit.noInstance,
          [Ev.get_next_inst true, Ev.submit CpaStatus.RETRY, Ev.usleep 10,
           Ev.get_next_inst true, Ev.submit CpaStatus.RETRY, Ev.usleep 11,
           Ev.get_next_inst false])
    ∧ acquisitions [Ev.get_next_inst true, Ev.submit CpaStatus.RETRY, Ev.usleep 10,
           Ev.get_next_inst true, Ev.submit CpaStatus.RETRY, Ev.usleep 11,
           Ev.get_next_inst false]
        = submissions [Ev.get_next_inst true, Ev.submit CpaStatus.RETRY, Ev.usleep 10,
           Ev.get_next_inst true, Ev.submit CpaStatus.RETRY, Ev.usleep 11,
           Ev.get_next_inst false] + 1 :=
  ⟨by decide,
   ((C19_acquisition_before_submission envNoInstance 5).1 0 0 LoopExit.noInstance _
      (by decide)).2.1⟩

/-! ## C20: nothing is released while a request is in flight -/

theorem flightRun_append (s : Bool) (l1 l2 : List Ev) :
    flightRun s (l1 ++ l2) = (flightRun s l1).bind (fun s1 => flightRun s1 l2) := by
  induction l1 generalizing s with
  | nil => rfl
  | cons e t ih =>
    simp only [List.cons_append, flightRun]
    cases flightStep s e with
    | none => rfl
    | some s1 => exact ih s1

/-- With no request in flight, events other than submissions leave it so. -/
theorem flightRun_false_of_all (p : Ev → Bool) (hp : ∀ st, p (Ev.submit st) = false) :
    ∀ (l : List Ev), l.all p = true → flightRun false l = some false
  | [], _ => rfl
  | e :: t, h => by
    simp only [List.all_cons, Bool.and_eq_true] at h
    have ht := flightRun_false_of_all p hp t h.2
    cases e with
    | submit st => rw [hp st] at h; exact absurd h.1 (by simp)
    | _ => simpa [flightRun, flightStep] using ht

/-- After the submit loop a request is in flight exactly when the loop was
left with status success. -/
theorem submitLoop_flight (env : Env) :
    ∀ (fuel k : Nat) (c : Int) (e : LoopExit) (evs : List Ev),
      submitLoop env fuel k c = some (e, evs) →
      flightRun false evs = some (decide (e = LoopExit.status CpaStatus.SUCCESS)) := by
  intro fuel
  induction fuel with
  | zero => intro k c e evs h; simp [submitLoop] at h
  | succ fuel ih =>
    intro k c e evs h
    unfold submitLoop at h
    simp only [] at h
    split_ifs at h with h1 h2 h3 h4 h5 h6
    · simp only [Option.some.injEq, Prod.mk.injEq] at h
      obtain ⟨rfl, rfl⟩ := h
      rfl
    · simp only [Option.some.injEq, Prod.mk.injEq] at h
      obtain ⟨rfl, rfl⟩ := h
      rw [h2]; rfl
    · split at h
      · exact absurd h (by simp)
      · rename_i e1 evs1 hrec
        simp only [Option.some.injEq, Prod.mk.injEq] at h
        obtain ⟨rfl, rfl⟩ := h
        rw [flightRun_append, h2]
        exact ih _ _ _ _ hrec
    · simp only [Option.some.injEq, Prod.mk.injEq] at h
      obtain ⟨rfl, rfl⟩ := h
      rw [h2]; rfl
    · simp only [Option.some.injEq, Prod.mk.injEq] at h
      obtain ⟨rfl, rfl⟩ := h
      rw [h2]; rfl
    · split at h
      · exact absurd h (by simp)
      · rename_i e1 evs1 hrec
        simp only [Option.some.injEq, Prod.mk.injEq] at h
        obtain ⟨rfl, rfl⟩ := h
        rw [flightRun_append, h2]
        exact ih _ _ _ _ hrec
    · simp only [Option.some.injEq, Prod.mk.injEq] at h
      obtain ⟨rfl, rfl⟩ := h
      cases hst : env.resp k <;> first | exact absurd hst h2 | simp [flightRun, flightStep]

/-- The completion wait ends the flight and releases nothing. -/
theorem waitLoop_flight (env : Env) :
    ∀ (fuel j : Nat) (evs : List Ev), waitLoop env fuel j = some evs →
      flightRun true evs = some false := by
  intro fuel
  induction fuel with
  | zero => intro j evs h; simp [waitLoop] at h
  | succ fuel ih =>
    intro j evs h
    unfold waitLoop at h
    simp only [] at h
    split_ifs at h <;>
      first
        | (simp only [Option.some.injEq] at h
           subst h
           rfl)
        | (split at h
           · exact absurd h (by simp)
           · rename_i rest hrec
             simp only [Option.some.injEq] at h
             subst h
             rw [flightRun_append]
             simpa [flightRun, flightStep] using ih _ _ hrec)

/-- The completion wait reads the flag once a round and ends with the first
read that finds it set, whatever the pauses do. -/
theorem waitLoop_inv (env : Env) :
    ∀ (fuel j : Nat) (evs : List Ev), waitLoop env fuel j = some evs →
      ∃ n, n < fuel ∧ env.flag (j + n) = true ∧ (∀ i, i < n → env.flag (j + i) = false)
        ∧ flagReads evs = List.replicate n false ++ [true] := by
  intro fuel
  induction fuel with
  | zero => intro j evs h; simp [waitLoop] at h
  | succ fuel ih =>
    intro j evs h
    unfold waitLoop at h
    simp only [] at h
    by_cases hf : env.flag j = true
    · simp only [hf, if_true, Option.some.injEq] at h
      subst h
      refine ⟨0, Nat.succ_pos _, hf, fun i hi => absurd hi (Nat.not_lt_zero i), ?_⟩
      split_ifs <;> rfl
    · simp only [hf, Bool.false_eq_true, if_false] at h
      split at h
      · exact absurd h (by simp)
      · rename_i rest hrec
        simp only [Option.some.injEq] at h
        subst h
        obtain ⟨n, hn, hflag, hall, hreads⟩ := ih _ _ hrec
        refine ⟨n + 1, by omega, ?_, ?_, ?_⟩
        · rw [show j + (n + 1) = j + 1 + n by omega]; exact hflag
        · intro i hi
          cases i with
          | zero => simpa using hf
          | succ i =>
            rw [show j + (i + 1) = j + 1 + i by omega]
            exact hall i (by omega)
        · have : ∀ (a b : List Ev), flagReads (a ++ b) = flagReads a ++ flagReads b := by
            intro a b
            induction a with
            | nil => rfl
            | cons e t iht => cases e <;> simp [flagReads, iht]
          rw [this, this, hreads]
          split_ifs <;> simp [flagReads, List.replicate_succ]

/-- Every way of returning ends with no request in flight and releases
nothing while one is. -/
theorem flight_of_shape {Op : Type} {env : Env} {fuel : Nat} {G R : Locals Op → Prop}
    {err : Option CpaFlatBuffer → Option CpaFlatBuffer → Op → List Ev} {r1 r2 : Buf}
    {failed : Prop} {trace : List Ev}
    (hG : ∀ s, G s → s.evs.all Ev.isMem = true)
    (hErr : ∀ p1 p2 op, (err p1 p2 op).all Ev.isMem = true)
    (h : ExitShape env fuel G R err r1 r2 failed trace) :
    flightRun false trace = some false := by
  have memRun : ∀ (l : List Ev), l.all Ev.isMem = true → flightRun false l = some false :=
    fun l hl => flightRun_false_of_all Ev.isMem (fun _ => rfl) l hl
  rcases h with rfl | rfl | ⟨s, hs, rfl⟩ | ⟨l, e, evs1, hl, -, hok, hloop, he, hf, rfl⟩
    | ⟨l, evs1, evs2, mid, hl, hr, hok, hloop, hwait, hmid, rfl⟩
  · rfl
  · rfl
  · rw [flightRun_append, memRun _ (hG s hs)]
    exact memRun _ (hErr _ _ _)
  · rw [flightRun_append, flightRun_append, memRun _ (hG l hl)]
    simp only [Option.some_bind, submitLoop_flight env fuel 0 0 e evs1 hloop, he,
      decide_False]
    exact memRun _ (hErr _ _ _)
  · rw [flightRun_append, flightRun_append, flightRun_append, flightRun_append,
      memRun _ (hG l hl)]
    simp only [Option.some_bind, submitLoop_flight env fuel 0 0 _ evs1 hloop, decide_True,
      waitLoop_flight env fuel 0 evs2 hwait,
      flightRun_false_of_all Ev.isReadResult (fun _ => rfl) mid hmid]
    exact memRun _ (hErr _ _ _)

/-! ## The pauses of the completion wait do not matter -/

theorem submitLoop_waitPause (env : Env) (w : Nat → Bool) :
    ∀ (fuel k : Nat) (c : Int),
      submitLoop { env with waitPause := w } fuel k c = submitLoop env fuel k c := by
  intro fuel
  induction fuel with
  | zero => intro k c; rfl
  | succ fuel ih =>
    intro k c
    unfold submitLoop
    simp only [ih]

theorem waitLoop_waitPause (env : Env) (w : Nat → Bool) :
    ∀ (fuel j : Nat),
      (waitLoop { env with waitPause := w } fuel j).map flagReads
        = (waitLoop env fuel j).map flagReads := by
  have happ : ∀ (a b : List Ev), flagReads (a ++ b) = flagReads a ++ flagReads b := by
    intro a b
    induction a with
    | nil => rfl
    | cons e t iht => cases e <;> simp [flagReads, iht]
  intro fuel
  induction fuel with
  | zero => intro j; rfl
  | succ fuel ih =>
    intro j
    unfold waitLoop
    simp only []
    by_cases hf : env.flag j = true
    · simp only [hf, if_true, Option.map_some', happ]
      congr 2
      split_ifs <;> rfl
    · simp only [hf, Bool.false_eq_true, if_false]
      have := ih (j + 1)
      cases h1 : waitLoop { env with waitPause := w } fuel (j + 1) <;>
        cases h2 : waitLoop env fuel (j + 1) <;> rw [h1, h2] at this <;>
        simp only [Option.map_some', Option.map_none', Option.some.injEq] at this ⊢
      · exact absurd this (by simp)
      · exact absurd this (by simp)
      · rw [happ, happ, happ, happ, this]
        congr 2
        split_ifs <;> rfl

/-- Whether the wait ends does not depend on the pauses. -/
theorem waitLoop_waitPause_isSome (env : Env) (w : Nat → Bool) (fuel j : Nat) :
    (waitLoop { env with waitPause := w } fuel j).isSome = (waitLoop env fuel j).isSome := by
  have := waitLoop_waitPause env w fuel j
  cases h1 : waitLoop { env with waitPause := w } fuel j <;>
    cases h2 : waitLoop env fuel j <;> rw [h1, h2] at this <;> simp at this ⊢

theorem resultBuffer_waitPause (env : Env) (w : Nat → Bool) (buf : Buf) :
    resultBuffer { env with waitPause := w } buf = resultBuffer env buf := rfl

theorem copy_out_waitPause (env : Env) (w : Nat → Bool) (o : OutParams)
    (x y : CpaFlatBuffer) :
    qat_ecdh_compute_key_copy_out { env with waitPause := w } o x y
      = qat_ecdh_compute_key_copy_out env o x y := by
  simp only [qat_ecdh_compute_key_copy_out, qat_ecdh_compute_key_copy_outX]

theorem drawNonzero_waitPause (env : Env) (w : Nat → Bool) :
    ∀ (fuel j : Nat), drawNonzero { env with waitPause := w } fuel j = drawNonzero env fuel j := by
  intro fuel
  induction fuel with
  | zero => intro j; rfl
  | succ fuel ih =>
    intro j
    unfold drawNonzero
    simp only [ih]

theorem ecdh_run_waitPause (env : Env) (w : Nat → Bool) (fuel : Nat) (o : OutParams)
    (l : Locals CpaCyEcPointMultiplyOpData) :
    (qat_ecdh_compute_key_run { env with waitPause := w } fuel o l).map
        (fun r => (r.ret, r.out))
      = (qat_ecdh_compute_key_run env fuel o l).map (fun r => (r.ret, r.out)) := by
  unfold qat_ecdh_compute_key_run
  rw [submitLoop_waitPause]
  cases submitLoop env fuel 0 0 with
  | none => rfl
  | some p =>
    obtain ⟨e, evs1⟩ := p
    simp only []
    split_ifs
    · rfl
    · unfold qat_ecdh_compute_key_complete
      simp only [resultBuffer_waitPause, copy_out_waitPause]
      have := waitLoop_waitPause_isSome env w fuel 0
      cases h1 : waitLoop { env with waitPause := w } fuel 0 with
      | none =>
        cases h2 : waitLoop env fuel 0 with
        | none => rfl
        | some b => rw [h1, h2] at this; simp at this
      | some a =>
        cases h2 : waitLoop env fuel 0 with
        | none => rw [h1, h2] at this; simp at this
        | some b =>
          simp only []
          split_ifs <;> rfl

theorem sign_run_waitPause (env : Env) (w : Nat → Bool) (fuel : Nat)
    (l : Locals CpaCyEcdsaSignRSOpData) :
    (qat_ecdsa_do_sign_run { env with waitPause := w } fuel l).map (fun r => r.ret)
      = (qat_ecdsa_do_sign_run env fuel l).map (fun r => r.ret) := by
  unfold qat_ecdsa_do_sign_run
  rw [submitLoop_waitPause]
  cases submitLoop env fuel 0 0 with
  | none => rfl
  | some p =>
    obtain ⟨e, evs1⟩ := p
    simp only []
    split_ifs
    · rfl
    · unfold qat_ecdsa_do_sign_complete
      simp only [resultBuffer_waitPause]
      have := waitLoop_waitPause_isSome env w fuel 0
      cases h1 : waitLoop { env with waitPause := w } fuel 0 with
      | none =>
        cases h2 : waitLoop env fuel 0 with
        | none => rfl
        | some b => rw [h1, h2] at this; simp at this
      | some a =>
        cases h2 : waitLoop env fuel 0 with
        | none => rw [h1, h2] at this; simp at this
        | some b =>
          simp only []
          split_ifs <;> rfl

theorem verify_run_waitPause (env : Env) (w : Nat → Bool) (fuel : Nat)
    (l : Locals CpaCyEcdsaVerifyOpData) :
    (qat_ecdsa_do_verify_run { env with waitPause := w } fuel l).map (fun r => r.ret)
      = (qat_ecdsa_do_verify_run env fuel l).map (fun r => r.ret) := by
  unfold qat_ecdsa_do_verify_run
  rw [submitLoop_waitPause]
  cases submitLoop env fuel 0 0 with
  | none => rfl
  | some p =>
    obtain ⟨e, evs1⟩ := p
    simp only []
    split_ifs
    · rfl
    · unfold qat_ecdsa_do_verify_complete
      have := waitLoop_waitPause_isSome env w fuel 0
      cases h1 : waitLoop { env with waitPause := w } fuel 0 with
      | none =>
        cases h2 : waitLoop env fuel 0 with
        | none => rfl
        | some b => rw [h1, h2] at this; simp at this
      | some a =>
        cases h2 : waitLoop env fuel 0 with
        | none => rw [h1, h2] at this; simp at this
        | some b =>
          rfl

/-- C20.  In every returning run of the three builders no accelerator buffer
is released between an accepted submission and a read of the completion flag
that finds it set, and the run does not end in between (`flightRun`).  The
completion wait reads the flag once a round and ends exactly with the first
read that finds it set.  The pauses of the wait have no influence: with any
other outcomes `w` of the pauses, the wait makes the same reads of the flag
and ends or not alike, and a builder that reaches its submit loop returns the
same value (and, for ECDH, the same outputs). -/
theorem C20_no_release_before_done (env : Env) (fuel : Nat) :
    (∀ o pub_key ecdh out, qat_ecdh_compute_key env fuel o pub_key ecdh = some out →
      flightRun false out.trace = some false)
    ∧ (∀ dgst dgst_len in_kinv in_r eckey out,
      qat_ecdsa_do_sign env fuel dgst dgst_len in_kinv in_r eckey = some out →
      flightRun false out.trace = some false)
    ∧ (∀ dgst dgst_len sig eckey out,
      qat_ecdsa_do_verify env fuel dgst dgst_len sig eckey = some out →
      flightRun false out.trace = some false)
    ∧ (∀ j evs, waitLoop env fuel j = some evs →
      ∃ n, n < fuel ∧ env.flag (j + n) = true ∧ (∀ i, i < n → env.flag (j + i) = false)
        ∧ flagReads evs = List.replicate n false ++ [true])
    ∧ (∀ (w : Nat → Bool) j,
      (waitLoop { env with waitPause := w } fuel j).map flagReads
        = (waitLoop env fuel j).map flagReads)
    ∧ (∀ (w : Nat → Bool) o pub_key ecdh l, ecdhReachesSubmit env pub_key ecdh l →
      (qat_ecdh_compute_key { env with waitPause := w } fuel o pub_key ecdh).map
          (fun r => (r.ret, r.out))
        = (qat_ecdh_compute_key env fuel o pub_key ecdh).map (fun r => (r.ret, r.out)))
    ∧ (∀ (w : Nat → Bool) dgst dgst_len in_kinv in_r eckey l,
      signReachesSubmit env fuel dgst dgst_len in_kinv in_r eckey l →
      (qat_ecdsa_do_sign { env with waitPause := w } fuel dgst dgst_len in_kinv in_r
          eckey).map (fun r => r.ret)
        = (qat_ecdsa_do_sign env fuel dgst dgst_len in_kinv in_r eckey).map (fun r => r.ret))
    ∧ (∀ (w : Nat → Bool) dgst dgst_len sig eckey l,
      verifyReachesSubmit env dgst dgst_len sig eckey l →
      (qat_ecdsa_do_verify { env with waitPause := w } fuel dgst dgst_len sig eckey).map
          (fun r => r.ret)
        = (qat_ecdsa_do_verify env fuel dgst dgst_len sig eckey).map (fun r => r.ret)) := by
  refine ⟨?_, ?_, ?_, waitLoop_inv env fuel, fun w j => waitLoop_waitPause env w fuel j,
    ?_, ?_, ?_⟩
  · intro o pub_key ecdh out h
    exact flight_of_shape (ecdhBuilt_isMem env) ecdh_err_isMem (ecdh_exit_shape h)
  · intro dgst dgst_len in_kinv in_r eckey out h
    exact flight_of_shape (signBuilt_isMem env) sign_err_isMem (sign_exit_shape h)
  · intro dgst dgst_len sig eckey out h
    exact flight_of_shape (verifyBuilt_isMem env) verify_err3_isMem (verify_exit_shape h)
  · intro w o pub_key ecdh l hl
    have hl1 : ecdhReachesSubmit { env with waitPause := w } pub_key ecdh l := hl
    rw [ecdh_of_reaches _ fuel o pub_key ecdh l hl1, ecdh_of_reaches env fuel o pub_key ecdh l hl]
    exact ecdh_run_waitPause env w fuel o l
  · intro w dgst dgst_len in_kinv in_r eckey l hl
    have hl1 : signReachesSubmit { env with waitPause := w } fuel dgst dgst_len in_kinv in_r
        eckey l := by
      obtain ⟨group, priv_key, pub_key, ec_point, k, h1, h2, h3, h4, h5, h6, h7, h8, h9⟩ := hl
      exact ⟨group, priv_key, pub_key, ec_point, k, h1, h2, h3, h4, h5, h6,
        (drawNonzero_waitPause env w fuel 0).trans h7, h8, h9⟩
    rw [sign_of_reaches _ fuel dgst dgst_len in_kinv in_r eckey l hl1,
      sign_of_reaches env fuel dgst dgst_len in_kinv in_r eckey l hl]
    exact sign_run_waitPause env w fuel l
  · intro w dgst dgst_len sig eckey l hl
    have hl1 : verifyReachesSubmit { env with waitPause := w } dgst dgst_len sig eckey l := hl
    rw [verify_of_reaches _ fuel dgst dgst_len sig eckey l hl1,
      verify_of_reaches env fuel dgst dgst_len sig eckey l hl]
    exact verify_run_waitPause env w fuel l

/-- C20, instance: fiber mode, every pause of the wait fails and completion
is observed in the third round: the run returns the verified result 1, after
three reads of the flag, and nothing was released before the third. -/
theorem C20_witness :
    ∃ out, qat_ecdsa_do_verify envFiberSlow 5 [0xAB] 1 (some { r := 3, s := 5 })
          (some sampleKey) = some out
      ∧ out.ret = 1 ∧ flagReads out.trace = [false, false, true]
      ∧ Ev.pause false ∈ out.trace
      ∧ flightRun false out.trace = some false :=
  ⟨(qat_ecdsa_do_verify envFiberSlow 5 [0xAB] 1 (some { r := 3, s := 5 })
      (some sampleKey)).get (by decide),
    (Option.some_get _).symm, by decide, by decide, by decide,
    (C20_no_release_before_done envFiberSlow 5).2.2.1 [0xAB] 1 (some { r := 3, s := 5 })
      (some sampleKey) _ (Option.some_get _).symm⟩

/-! ## C21: a failed allocation of the zero byte -/

/-- The checked replacement of lines 394-404 fails when the coefficient is
zero and the allocation fails. -/
theorem Locals.zeroA_checked_alloc_fails {Op : Type} (f : Bool) (get : Op → CpaFlatBuffer)
    (set : Op → CpaFlatBuffer → Op) (s : Locals Op) (hgs : ∀ op fb, get (set op fb) = fb) :
    ((s.encode f Buf.a 0 set).zeroA_checked false get set).ok = false := by
  cases hs : s.ok <;>
    simp [Locals.zeroA_checked, Locals.encode, hs, qat_BN_to_FB, BN_bn2bin_zero, hgs, nullFB]

/-- In `qat_ecdh_compute_key` a zero coefficient `a` whose one-byte buffer
cannot be allocated makes the build fail (lines 394-404). -/
theorem ecdh_build_zero_a_alloc_fails (env : Env) (group : EC_GROUP) (priv_key : BIGNUM)
    (pub_key : EC_POINT) (ha : group.a = 0) (hz : env.ok Site.qae_a_zero = false) :
    (qat_ecdh_compute_key_build env group priv_key pub_key).ok = false := by
  have h : (qat_ecdh_compute_key_build env group priv_key pub_key).ok = true → False := by
    unfold qat_ecdh_compute_key_build
    rw [ha, hz]
    refine Locals.check_keeps_res (fun _ _ => False) _ _ ?_
    iterate 2 (refine Locals.encode_keeps_res (fun _ _ => False) _ _ _ _ _ ?_)
    intro hok
    rw [Locals.zeroA_checked_alloc_fails _ (fun op : CpaCyEcPointMultiplyOpData => op.a) _ _
      (fun _ _ => rfl)] at hok
    exact Bool.noConfusion hok
  cases hb : (qat_ecdh_compute_key_build env group priv_key pub_key).ok
  · rfl
  · exact absurd hb h

/-- `qat_ecdh_compute_key` on a supported curve with `a = 0`, when the
one-byte buffer cannot be allocated: -1, no submission, whatever else
happens. -/
theorem ecdh_zero_a_alloc_fails (env : Env) (fuel : Nat) (o : OutParams) (pub_key : EC_POINT)
    (key : EC_KEY) (group : EC_GROUP) (priv_key : BIGNUM)
    (hk : key.priv_key = some priv_key) (hg : key.group = some group)
    (hc : group.curve_name ≠ NID_X25519) (ha : group.a = 0)
    (hz : env.ok Site.qae_a_zero = false) :
    ∃ out, qat_ecdh_compute_key env fuel o pub_key (some key) = some out ∧ out.ret = -1
      ∧ submissions out.trace = 0 ∧ out.submitted = none := by
  have hb := ecdh_build_zero_a_alloc_fails env group priv_key pub_key ha hz
  simp only [qat_ecdh_compute_key, hk, hg, hc, if_false, hb, Bool.not_false, if_true]
  split_ifs
  · exact ⟨_, rfl, rfl, rfl, rfl⟩
  · refine ⟨_, rfl, rfl, ?_, rfl⟩
    have h1 := ecdh_build_evs_isMem env group priv_key pub_key
    have h2 := ecdh_err_isMem
      (qat_ecdh_compute_key_build env group priv_key pub_key).pResult1
      (qat_ecdh_compute_key_build env group priv_key pub_key).pResult2
      (qat_ecdh_compute_key_build env group priv_key pub_key).opData
    show submissions (_ ++ _) = 0
    rw [submissions_append, submissions_of_isMem _ h1, submissions_of_isMem _ h2]

/-- C21, the code at the failing input.  The curve has `a = 0` and the
allocation of the one-byte buffer fails, everything else succeeds.
`qat_ecdh_compute_key` returns -1 without a submission, as claimed.
`qat_ecdsa_do_sign` and `qat_ecdsa_do_verify` do not test the allocation
(lines 956-962, 1332-1338): each makes one submission, of a descriptor whose
field `a` has length 1 and a NULL data pointer, and returns the result of
the accelerator (the signature (7, 7), the value 1). -/
theorem C21_zero_byte_allocation_unchecked :
    (qat_ecdh_compute_key (envAZeroFails true) 1 sampleOut samplePub (some sampleKeyA0)).map
        (fun o => (o.ret, submissions o.trace)) = some (-1, 0)
    ∧ (qat_ecdsa_do_sign (envAZeroFails true) 1 [0xAB] 1 none none sampleKeyA0).map
        (fun o => (o.ret, submissions o.trace, o.submitted.map (fun l => l.opData.a)))
      = some (some { r := 7, s := 7 }, 1, some { pData := none, dataLenInBytes := 1 })
    ∧ (qat_ecdsa_do_verify (envAZeroFails true) 1 [0xAB] 1 (some { r := 3, s := 5 })
          (some sampleKeyA0)).map
        (fun o => (o.ret, submissions o.trace, o.submitted.map (fun l => l.opData.a)))
      = some (1, 1, some { pData := none, dataLenInBytes := 1 }) := by
  refine ⟨by decide, by decide, by decide⟩

/-! ## C22: capacity of the result buffers -/

/-- After the two allocations of lines 332-353 and 995-1016 have succeeded,
both result buffers have `buflen` bytes and the declared length
`(Cpa32U) buflen`. -/
theorem Locals.allocResults_values {Op : Type} (f1 g1 f2 g2 : Bool) (b1 b2 : Buf) (n : Nat)
    (s : Locals Op) :
    ((s.allocResult1 f1 g1 b1 n).allocResult2 f2 g2 b2 n).ok = true →
      ((s.allocResult1 f1 g1 b1 n).allocResult2 f2 g2 b2 n).pResult1
          = some { pData := some (List.replicate n 0), dataLenInBytes := toUInt32 n }
      ∧ ((s.allocResult1 f1 g1 b1 n).allocResult2 f2 g2 b2 n).pResult2
          = some { pData := some (List.replicate n 0), dataLenInBytes := toUInt32 n } := by
  unfold Locals.allocResult2 Locals.allocResult1
  cases hs : s.ok <;> cases f1 <;> cases g1 <;> cases f2 <;> cases g2 <;> simp [hs]

/-- The result buffers of `qat_ecdh_compute_key` at the submit loop:
`(degree + 7) / 8` bytes each. -/
theorem ecdh_build_result_buffers (env : Env) (group : EC_GROUP) (priv_key : BIGNUM)
    (pub_key : EC_POINT) :
    (qat_ecdh_compute_key_build env group priv_key pub_key).ok = true →
      (qat_ecdh_compute_key_build env group priv_key pub_key).pResult1
          = some { pData := some (List.replicate (qat_ecdh_compute_key_buflen group) 0)
                   dataLenInBytes := toUInt32 (qat_ecdh_compute_key_buflen group) }
      ∧ (qat_ecdh_compute_key_build env group priv_key pub_key).pResult2
          = some { pData := some (List.replicate (qat_ecdh_compute_key_buflen group) 0)
                   dataLenInBytes := toUInt32 (qat_ecdh_compute_key_buflen group) } := by
  unfold qat_ecdh_compute_key_build
  refine Locals.check_keeps_res (fun p1 p2 => p1 = some _ ∧ p2 = some _) _ _ ?_
  iterate 2 (refine Locals.encode_keeps_res (fun p1 p2 => p1 = some _ ∧ p2 = some _) _ _ _ _ _ ?_)
  refine Locals.zeroA_checked_keeps_res (fun p1 p2 => p1 = some _ ∧ p2 = some _) _ _ _ _ ?_
  iterate 3 (refine Locals.encode_keeps_res (fun p1 p2 => p1 = some _ ∧ p2 = some _) _ _ _ _ _ ?_)
  refine Locals.assign_keeps_res (fun p1 p2 => p1 = some _ ∧ p2 = some _) _ _ ?_
  iterate 2 (refine Locals.check_keeps_res (fun p1 p2 => p1 = some _ ∧ p2 = some _) _ _ ?_)
  refine Locals.encode_keeps_res (fun p1 p2 => p1 = some _ ∧ p2 = some _) _ _ _ _ _ ?_
  exact Locals.allocResults_values _ _ _ _ _ _ _ _

/-- The result buffers of `qat_ecdsa_do_sign` at the submit loop: `degree`
bytes each (line 994 takes the degree, a number of bits, as the length). -/
theorem sign_build2_result_buffers (env : Env) (group : EC_GROUP) (g : EC_POINT)
    (in_kinv in_r : Option BIGNUM) (k : BIGNUM) (s : Locals CpaCyEcdsaSignRSOpData) :
    (qat_ecdsa_do_sign_build2 env group g in_kinv in_r k s).ok = true →
      (qat_ecdsa_do_sign_build2 env group g in_kinv in_r k s).pResult1
          = some { pData := some (List.replicate (toSizeT group.degree) 0)
                   dataLenInBytes := toUInt32 (toSizeT group.degree) }
      ∧ (qat_ecdsa_do_sign_build2 env group g in_kinv in_r k s).pResult2
          = some { pData := some (List.replicate (toSizeT group.degree) 0)
                   dataLenInBytes := toUInt32 (toSizeT group.degree) } := by
  unfold qat_ecdsa_do_sign_build2 qat_ecdsa_do_sign_buflen
  refine Locals.check_keeps_res (fun p1 p2 => p1 = some _ ∧ p2 = some _) _ _ ?_
  exact Locals.allocResults_values _ _ _ _ _ _ _ _

/-- C22, the code at the failing input.  On a curve of degree 8 bits (field
size 1 byte) `qat_ecdh_compute_key` submits result buffers X and Y of 1 byte,
declared length 1, as claimed; `qat_ecdsa_do_sign` submits result buffers R
and S of 8 bytes, declared length 8: line 994 takes the degree in bits as the
number of bytes. -/
theorem C22_sign_result_buffers_in_bits :
    sampleGroup.degree = 8 ∧ qat_ecdh_compute_key_buflen sampleGroup = 1
    ∧ (qat_ecdh_compute_key (envAccept true) 1 sampleOut samplePub (some sampleKey)).map
        (fun o => (o.submitted.map (fun l => (l.pResult1, l.pResult2)),
          decide (Ev.qaeAlloc Buf.resX 1 ∈ o.trace ∧ Ev.qaeAlloc Buf.resY 1 ∈ o.trace)))
      = some (some (some { pData := some [0], dataLenInBytes := 1 },
                    some { pData := some [0], dataLenInBytes := 1 }), true)
    ∧ (qat_ecdsa_do_sign (envAccept true) 1 [0xAB] 1 none none sampleKey).map
        (fun o => (o.submitted.map (fun l => (l.pResult1, l.pResult2)),
          decide (Ev.qaeAlloc Buf.resR 8 ∈ o.trace ∧ Ev.qaeAlloc Buf.resS 8 ∈ o.trace)))
      = some (some (some { pData := some [0, 0, 0, 0, 0, 0, 0, 0], dataLenInBytes := 8 },
                    some { pData := some [0, 0, 0, 0, 0, 0, 0, 0], dataLenInBytes := 8 }),
              true) := by
  refine ⟨rfl, by decide, by decide, by decide⟩

/-! ## C23: delegation for the unsupported curve -/

/-- C23, counterexample.  The curve is X25519 and the fallback table has a
`compute_key` that returns 32, but the key holds no private scalar: the test
of line 263 comes before the test of the curve, `qat_ecdh_compute_key`
returns -1 and the fallback function is not called. -/
theorem C23_counterexample :
    sampleKeyX25519NoPriv.group = some sampleGroupX25519
    ∧ sampleGroupX25519.curve_name = NID_X25519
    ∧ (envFallback.sw_compute_key.map
        (fun f => (f sampleOut.outX sampleOut.outlenX samplePub sampleKeyX25519NoPriv).ret))
      = some 32
    ∧ (qat_ecdh_compute_key envFallback 1 sampleOut samplePub (some sampleKeyX25519NoPriv)).map
        (fun out => (out.ret, out.out, out.trace)) = some (-1, sampleOut, []) := by
  refine ⟨rfl, rfl, rfl, rfl⟩

/-- C23, amended.  When the group of the key is X25519, `qat_ecdh_generate_key`
and, provided the key holds a private scalar, `qat_ecdh_compute_key` delegate
wholesale, whatever the fuel and whatever the environment: the outcome is the
one the specification words (`spec_delegate_compute_key`,
`spec_delegate_generate_key`).  With a function in the fallback table the
value returned is the one the function returns on the caller's arguments
(`outX`, `outlenX`, `pub_key`, `ecdh`; `outY` and `outlenY` are left as they
were), the trace is the one call of the fallback; without a function the
operation returns -1, respectively 0, with an empty trace and the caller's
data untouched.  In both cases no descriptor reaches the submit loop, no
accelerator memory is allocated, no instance is acquired and nothing is
submitted. -/
theorem C23_unsupported_curve_delegates (env : Env) (fuel : Nat) (o : OutParams)
    (pub_key : EC_POINT) (key : EC_KEY) (group : EC_GROUP)
    (hg : key.group = some group) (hc : group.curve_name = NID_X25519) :
    (key.priv_key.isSome →
      qat_ecdh_compute_key env fuel o pub_key (some key)
        = some (spec_delegate_compute_key env o pub_key key))
    ∧ qat_ecdh_generate_key env fuel (some key) = some (spec_delegate_generate_key env key)
    ∧ (∀ f, env.sw_compute_key = some f →
        (spec_delegate_compute_key env o pub_key key).ret = (f o.outX o.outlenX pub_key key).ret
        ∧ (spec_delegate_compute_key env o pub_key key).out.outX
            = (f o.outX o.outlenX pub_key key).outX
        ∧ (spec_delegate_compute_key env o pub_key key).out.outlenX
            = (f o.outX o.outlenX pub_key key).outlenX
        ∧ (spec_delegate_compute_key env o pub_key key).out.outY = o.outY
        ∧ (spec_delegate_compute_key env o pub_key key).out.outlenY = o.outlenY
        ∧ (spec_delegate_compute_key env o pub_key key).trace = [Ev.sw_fallback])
    ∧ (env.sw_compute_key = none →
        (spec_delegate_compute_key env o pub_key key).ret = -1
        ∧ (spec_delegate_compute_key env o pub_key key).out = o
        ∧ (spec_delegate_compute_key env o pub_key key).trace = [])
    ∧ (∀ f, env.sw_generate_key = some f →
        (spec_delegate_generate_key env key).ret = (f key).1
        ∧ (spec_delegate_generate_key env key).key = some (f key).2
        ∧ (spec_delegate_generate_key env key).trace = [Ev.sw_fallback])
    ∧ (env.sw_generate_key = none →
        (spec_delegate_generate_key env key).ret = 0
        ∧ (spec_delegate_generate_key env key).key = some key
        ∧ (spec_delegate_generate_key env key).trace = [])
    ∧ (spec_delegate_compute_key env o pub_key key).submitted = none
    ∧ submissions (spec_delegate_compute_key env o pub_key key).trace = 0
    ∧ acquisitions (spec_delegate_compute_key env o pub_key key).trace = 0
    ∧ allocations (spec_delegate_compute_key env o pub_key key).trace = 0
    ∧ submissions (spec_delegate_generate_key env key).trace = 0
    ∧ acquisitions (spec_delegate_generate_key env key).trace = 0
    ∧ allocations (spec_delegate_generate_key env key).trace = 0 := by
  refine ⟨?_, ?_, ?_, ?_, ?_, ?_, ?_, ?_, ?_, ?_, ?_, ?_, ?_⟩
  · intro hk
    obtain ⟨priv_key, hk⟩ := Option.isSome_iff_exists.mp hk
    simp only [qat_ecdh_compute_key, spec_delegate_compute_key, hk, hg, hc, if_true]
    cases env.sw_compute_key <;> rfl
  · simp only [qat_ecdh_generate_key, spec_delegate_generate_key, hg, hc, if_true]
    cases env.sw_generate_key <;> rfl
  · intro f hf
    simp only [spec_delegate_compute_key, hf, and_self]
  · intro hf
    simp only [spec_delegate_compute_key, hf, and_self]
  · intro f hf
    simp only [spec_delegate_generate_key, hf, and_self]
  · intro hf
    simp only [spec_delegate_generate_key, hf, and_self]
  all_goals first
    | (simp only [spec_delegate_compute_key]; cases env.sw_compute_key <;> rfl)
    | (simp only [spec_delegate_generate_key]; cases env.sw_generate_key <;> rfl)

/-- C23, witness: the key `sampleKeyX25519` with the fallback table of
`envFallback`. -/
theorem C23_witness :
    sampleKeyX25519.group = some sampleGroupX25519
    ∧ sampleGroupX25519.curve_name = NID_X25519
    ∧ (qat_ecdh_compute_key envFallback 0 sampleOut samplePub (some sampleKeyX25519)).map
        (fun out => (out.ret, out.out, out.trace))
      = some (32, { outX := some (some [9]), outlenX := 1, outY := none, outlenY := 0 },
              [Ev.sw_fallback])
    ∧ qat_ecdh_generate_key envFallback 0 (some sampleKeyX25519)
      = some { ret := 1, trace := [Ev.sw_fallback]
               key := some { sampleKeyX25519 with
                 priv_key := some 9, pub_key := some { x := 9, y := 9 } } } := by
  have h := C23_unsupported_curve_delegates envFallback 0 sampleOut samplePub sampleKeyX25519
    sampleGroupX25519 rfl rfl
  refine ⟨rfl, rfl, ?_, ?_⟩
  · rw [h.1 rfl]; rfl
  · rw [h.2.1]; rfl

/-! ## C24: the retry ceiling in fiber mode -/

/-- Fiber mode, from round `k` on: an instance for the next `n + 1` rounds,
busy answers to the next `n` submissions with a successful wake and pause
after each, then success.  The loop runs `n` full rounds and one last
submission and is left with status success, whatever the counter `c` and
whatever the ceiling `iMsgRetry`. -/
theorem submitLoop_fiber_busy_then (env : Env) (hjob : env.job = true) :
    ∀ (n fuel k : Nat) (c : Int), n < fuel →
      (∀ j, j ≤ n → env.inst (k + j) = true) →
      (∀ j, j < n → env.resp (k + j) = CpaStatus.RETRY) →
      env.resp (k + n) = CpaStatus.SUCCESS →
      (∀ j, j < n → env.wake (k + j) = true) →
      (∀ j, j < n → env.pause (k + j) = true) →
      submitLoop env fuel k c
        = some (LoopExit.status CpaStatus.SUCCESS,
            fiberRounds n ++ [Ev.get_next_inst true, Ev.submit CpaStatus.SUCCESS]) := by
  intro n
  induction n with
  | zero =>
    intro fuel k c hf hinst _ hr _ _
    obtain ⟨fuel, rfl⟩ : ∃ f, fuel = f + 1 := ⟨fuel - 1, by omega⟩
    have hi : env.inst k = true := by simpa using hinst 0 (le_refl 0)
    simp only [Nat.add_zero] at hr
    unfold submitLoop
    simp [hi, hr, fiberRounds]
  | succ n ih =>
    intro fuel k c hf hinst hbusy hr hwake hpause
    obtain ⟨fuel, rfl⟩ : ∃ f, fuel = f + 1 := ⟨fuel - 1, by omega⟩
    have hi : env.inst k = true := by simpa using hinst 0 (by omega)
    have hb0 : env.resp k = CpaStatus.RETRY := by simpa using hbusy 0 (by omega)
    have hw0 : env.wake k = true := by simpa using hwake 0 (by omega)
    have hp0 : env.pause k = true := by simpa using hpause 0 (by omega)
    have hrec := ih fuel (k + 1) c (by omega)
      (fun j hj => by
        have := hinst (j + 1) (by omega)
        rwa [show k + (j + 1) = k + 1 + j by omega] at this)
      (fun j hj => by
        have := hbusy (j + 1) (by omega)
        rwa [show k + (j + 1) = k + 1 + j by omega] at this)
      (by rwa [show k + (n + 1) = k + 1 + n by omega] at hr)
      (fun j hj => by
        have := hwake (j + 1) (by omega)
        rwa [show k + (j + 1) = k + 1 + j by omega] at this)
      (fun j hj => by
        have := hpause (j + 1) (by omega)
        rwa [show k + (j + 1) = k + 1 + j by omega] at this)
    unfold submitLoop
    simp only [hi, hb0, hjob, hw0, hp0, hrec]
    simp [fiberRounds, fiberRound]

/-- The rounds of the submit loop in fiber mode hold one acquisition each. -/
theorem acquisitions_fiberRounds (n : Nat) : acquisitions (fiberRounds n) = n := by
  induction n with
  | zero => rfl
  | succ n ih =>
    show acquisitions (fiberRounds n) + 1 = n + 1
    rw [ih]

/-- The rounds of the submit loop in fiber mode hold no sleep. -/
theorem sleeps_fiberRounds (n : Nat) : sleeps (fiberRounds n) = [] := by
  induction n with
  | zero => rfl
  | succ n ih =>
    show sleeps (fiberRounds n) = []
    exact ih

/-- C24.  Fiber mode (a current job), an instance for each of the first
`N + 1` rounds, busy answers to the first `N` submissions, each followed by a
successful wake and pause, then success; fuel for `N + 1` rounds.  Nothing is
assumed of the retry ceiling `iMsgRetry`, which may be any finite `M`, also
`M ≤ N`.  The submit loop makes `N` full rounds and one last submission,
exactly `N + 1` submissions, without a sleep, and is left with status
success; changing the ceiling to any value `M` changes nothing.  Each of
`qat_ecdh_compute_key`, `qat_ecdsa_do_sign` and `qat_ecdsa_do_verify` (on
arguments with which it reaches the loop) goes on to the completion wait: it
equals its continuation from there, it returns whenever the completion is
observed within the fuel, and whenever it returns its trace holds exactly
`N + 1` submissions and the wait. -/
theorem C24_fiber_ignores_retry_ceiling (env : Env) (fuel N : Nat)
    (hjob : env.job = true) (hinst : ∀ k, k ≤ N → env.inst k = true)
    (hbusy : ∀ k, k < N → env.resp k = CpaStatus.RETRY)
    (hsucc : env.resp N = CpaStatus.SUCCESS)
    (hwake : ∀ k, k < N → env.wake k = true) (hpause : ∀ k, k < N → env.pause k = true)
    (hfuel : N < fuel)
    (o : OutParams) (pub_key : EC_POINT) (ecdh : Option EC_KEY)
    (lE : Locals CpaCyEcPointMultiplyOpData) (hE : ecdhReachesSubmit env pub_key ecdh lE)
    (dgst : List Byte) (dgst_len : Int) (in_kinv in_r : Option BIGNUM) (eckey : EC_KEY)
    (lS : Locals CpaCyEcdsaSignRSOpData)
    (hS : signReachesSubmit env fuel dgst dgst_len in_kinv in_r eckey lS)
    (dgstV : List Byte) (dgst_lenV : Int) (sig : Option ECDSA_SIG) (eckeyV : Option EC_KEY)
    (lV : Locals CpaCyEcdsaVerifyOpData)
    (hV : verifyReachesSubmit env dgstV dgst_lenV sig eckeyV lV) :
    submitLoop env fuel 0 0
        = some (LoopExit.status CpaStatus.SUCCESS,
            fiberRounds N ++ [Ev.get_next_inst true, Ev.submit CpaStatus.SUCCESS])
    ∧ (∀ M : Int, submitLoop { env with iMsgRetry := M } fuel 0 0 = submitLoop env fuel 0 0)
    ∧ submissions (fiberRounds N ++ [Ev.get_next_inst true, Ev.submit CpaStatus.SUCCESS])
        = N + 1
    ∧ sleeps (fiberRounds N ++ [Ev.get_next_inst true, Ev.submit CpaStatus.SUCCESS]) = []
    ∧ qat_ecdh_compute_key env fuel o pub_key ecdh
        = qat_ecdh_compute_key_complete env fuel o lE
            (fiberRounds N ++ [Ev.get_next_inst true, Ev.submit CpaStatus.SUCCESS])
    ∧ ((∃ d, d < fuel ∧ env.flag d = true) →
        ∃ out, qat_ecdh_compute_key env fuel o pub_key ecdh = some out)
    ∧ (∀ out, qat_ecdh_compute_key env fuel o pub_key ecdh = some out →
        submissions out.trace = N + 1 ∧ enteredWait out.trace = true)
    ∧ qat_ecdsa_do_sign env fuel dgst dgst_len in_kinv in_r eckey
        = qat_ecdsa_do_sign_complete env fuel lS
            (fiberRounds N ++ [Ev.get_next_inst true, Ev.submit CpaStatus.SUCCESS])
    ∧ ((∃ d, d < fuel ∧ env.flag d = true) →
        ∃ out, qat_ecdsa_do_sign env fuel dgst dgst_len in_kinv in_r eckey = some out)
    ∧ (∀ out, qat_ecdsa_do_sign env fuel dgst dgst_len in_kinv in_r eckey = some out →
        submissions out.trace = N + 1 ∧ enteredWait out.trace = true)
    ∧ qat_ecdsa_do_verify env fuel dgstV dgst_lenV sig eckeyV
        = qat_ecdsa_do_verify_complete env fuel lV
            (fiberRounds N ++ [Ev.get_next_inst true, Ev.submit CpaStatus.SUCCESS])
    ∧ ((∃ d, d < fuel ∧ env.flag d = true) →
        ∃ out, qat_ecdsa_do_verify env fuel dgstV dgst_lenV sig eckeyV = some out)
    ∧ (∀ out, qat_ecdsa_do_verify env fuel dgstV dgst_lenV sig eckeyV = some out →
        submissions out.trace = N + 1 ∧ enteredWait out.trace = true) := by
  have hloop := submitLoop_fiber_busy_then env hjob N fuel 0 0 hfuel
    (fun j hj => by simpa using hinst j hj) (fun j hj => by simpa using hbusy j hj)
    (by simpa using hsucc) (fun j hj => by simpa using hwake j hj)
    (fun j hj => by simpa using hpause j hj)
  have hloopM : ∀ M : Int, submitLoop { env with iMsgRetry := M } fuel 0 0
      = submitLoop env fuel 0 0 := by
    intro M
    rw [hloop]
    exact submitLoop_fiber_busy_then { env with iMsgRetry := M } hjob N fuel 0 0 hfuel
      (fun j hj => by simpa using hinst j hj) (fun j hj => by simpa using hbusy j hj)
      (by simpa using hsucc) (fun j hj => by simpa using hwake j hj)
      (fun j hj => by simpa using hpause j hj)
  have hsub : submissions
      (fiberRounds N ++ [Ev.get_next_inst true, Ev.submit CpaStatus.SUCCESS]) = N + 1 := by
    rw [submissions_append, submissions_fiberRounds]
    rfl
  have hsl : sleeps
      (fiberRounds N ++ [Ev.get_next_inst true, Ev.submit CpaStatus.SUCCESS]) = [] := by
    rw [sleeps_append, sleeps_fiberRounds]
    rfl
  have hEq : qat_ecdh_compute_key env fuel o pub_key ecdh
      = qat_ecdh_compute_key_complete env fuel o lE
          (fiberRounds N ++ [Ev.get_next_inst true, Ev.submit CpaStatus.SUCCESS]) := by
    rw [ecdh_of_reaches env fuel o pub_key ecdh lE hE]
    unfold qat_ecdh_compute_key_run
    simp [hloop]
  have hSq : qat_ecdsa_do_sign env fuel dgst dgst_len in_kinv in_r eckey
      = qat_ecdsa_do_sign_complete env fuel lS
          (fiberRounds N ++ [Ev.get_next_inst true, Ev.submit CpaStatus.SUCCESS]) := by
    rw [sign_of_reaches env fuel dgst dgst_len in_kinv in_r eckey lS hS]
    unfold qat_ecdsa_do_sign_run
    simp [hloop]
  have hVq : qat_ecdsa_do_verify env fuel dgstV dgst_lenV sig eckeyV
      = qat_ecdsa_do_verify_complete env fuel lV
          (fiberRounds N ++ [Ev.get_next_inst true, Ev.submit CpaStatus.SUCCESS]) := by
    rw [verify_of_reaches env fuel dgstV dgst_lenV sig eckeyV lV hV]
    unfold qat_ecdsa_do_verify_run
    simp [hloop]
  refine ⟨hloop, hloopM, hsub, hsl, hEq, ?_, ?_, hSq, ?_, ?_, hVq, ?_, ?_⟩
  · intro hd
    rw [hEq]
    exact ecdh_complete_returns env fuel o lE _ hd
  · intro out hout
    rw [hEq] at hout
    obtain ⟨evs2, tl, hw, htr, htl⟩ := ecdh_complete_trace env fuel o lE _ out hout
    obtain ⟨c1, _, _, c4⟩ := counts_of_completed env fuel lE.evs _ evs2 tl
      (ecdh_reaches_evs env pub_key ecdh lE hE) hw htl
    rw [htr, c1, c4, hsub]
    exact ⟨rfl, rfl⟩
  · intro hd
    rw [hSq]
    exact sign_complete_returns env fuel lS _ hd
  · intro out hout
    rw [hSq] at hout
    obtain ⟨evs2, tl, hw, htr, htl⟩ := sign_complete_trace env fuel lS _ out hout
    obtain ⟨c1, _, _, c4⟩ := counts_of_completed env fuel lS.evs _ evs2 tl
      (sign_reaches_evs env fuel dgst dgst_len in_kinv in_r eckey lS hS) hw htl
    rw [htr, c1, c4, hsub]
    exact ⟨rfl, rfl⟩
  · intro hd
    rw [hVq]
    exact verify_complete_returns env fuel lV _ hd
  · intro out hout
    rw [hVq] at hout
    obtain ⟨evs2, tl, hw, htr, htl⟩ := verify_complete_trace env fuel lV _ out hout
    obtain ⟨c1, _, _, c4⟩ := counts_of_completed env fuel lV.evs _ evs2 tl
      (verify_reaches_evs env dgstV dgst_lenV sig eckeyV lV hV) hw htl
    rw [htr, c1, c4, hsub]
    exact ⟨rfl, rfl⟩

/-- C24, witness: a fiber-mode accelerator that is busy three times, with the
retry ceiling 2. -/
theorem C24_witness :
    (envFiberBusy 3 2).job = true ∧ (envFiberBusy 3 2).iMsgRetry = 2
    ∧ (envFiberBusy 3 2).iMsgRetry ≠ (envFiberBusy 3 2).QAT_INFINITE_MAX_NUM_RETRIES
    ∧ (∀ k, k < 3 → (envFiberBusy 3 2).resp k = CpaStatus.RETRY)
    ∧ (envFiberBusy 3 2).resp 3 = CpaStatus.SUCCESS
    ∧ submitLoop (envFiberBusy 3 2) 4 0 0
        = some (LoopExit.status CpaStatus.SUCCESS,
            fiberRounds 3 ++ [Ev.get_next_inst true, Ev.submit CpaStatus.SUCCESS])
    ∧ submissions (fiberRounds 3 ++ [Ev.get_next_inst true, Ev.submit CpaStatus.SUCCESS])
        = 3 + 1
    ∧ (∃ out, qat_ecdh_compute_key (envFiberBusy 3 2) 4 sampleOut samplePub (some sampleKey)
        = some out)
    ∧ (∀ out, qat_ecdh_compute_key (envFiberBusy 3 2) 4 sampleOut samplePub (some sampleKey)
          = some out →
        submissions out.trace = 3 + 1 ∧ enteredWait out.trace = true)
    ∧ (∃ out, qat_ecdsa_do_sign (envFiberBusy 3 2) 4 [0xAB] 1 none none sampleKey = some out)
    ∧ (∀ out, qat_ecdsa_do_sign (envFiberBusy 3 2) 4 [0xAB] 1 none none sampleKey = some out →
        submissions out.trace = 3 + 1 ∧ enteredWait out.trace = true)
    ∧ (∃ out, qat_ecdsa_do_verify (envFiberBusy 3 2) 4 [0xAB] 1 (some { r := 3, s := 5 })
        (some sampleKey) = some out)
    ∧ (∀ out, qat_ecdsa_do_verify (envFiberBusy 3 2) 4 [0xAB] 1 (some { r := 3, s := 5 })
          (some sampleKey) = some out →
        submissions out.trace = 3 + 1 ∧ enteredWait out.trace = true) := by
  have h := C24_fiber_ignores_retry_ceiling (envFiberBusy 3 2) 4 3 rfl (fun _ _ => rfl)
    (by decide) (by decide) (fun _ _ => rfl) (fun _ _ => rfl) (by decide)
    sampleOut samplePub (some sampleKey)
    (qat_ecdh_compute_key_build (envFiberBusy 3 2) sampleGroup 5 samplePub)
    ⟨sampleKey, 5, sampleGroup, rfl, rfl, rfl, by decide, rfl, rfl, by decide⟩
    [0xAB] 1 none none sampleKey
    (qat_ecdsa_do_sign_build2 (envFiberBusy 3 2) sampleGroup { x := 2, y := 3 } none none 3
      (qat_ecdsa_do_sign_build1 (envFiberBusy 3 2) sampleGroup 5 [0xAB] 1))
    ⟨sampleGroup, 5, samplePub, { x := 2, y := 3 }, 3, rfl, rfl, rfl, rfl, rfl,
      by decide, by decide, rfl, by decide⟩
    [0xAB] 1 (some { r := 3, s := 5 }) (some sampleKey)
    (qat_ecdsa_do_verify_build (envFiberBusy 3 2) sampleGroup samplePub { x := 2, y := 3 }
      [0xAB] 1 { r := 3, s := 5 })
    ⟨sampleKey, sampleGroup, samplePub, { r := 3, s := 5 }, { x := 2, y := 3 }, rfl, rfl,
      rfl, rfl, rfl, rfl, rfl, by decide⟩
  obtain ⟨h1, _, h3, _, _, h6, h7, _, h9, h10, _, h12, h13⟩ := h
  exact ⟨rfl, rfl, by decide, by decide, by decide, h1, h3, h6 ⟨0, by decide, rfl⟩, h7,
    h9 ⟨0, by decide, rfl⟩, h10, h12 ⟨0, by decide, rfl⟩, h13⟩

/-! ## C25: the key after a failure of `qat_ecdh_generate_key` -/

/-- Once the scalar is drawn the run is that of lines 617-737 on the key
holding the scalar. -/
theorem generate_key_of_drawn {env : Env} {fuel : Nat} {key : EC_KEY} {group : EC_GROUP}
    {x : BIGNUM} (hg : key.group = some group) (hc : group.curve_name ≠ NID_X25519)
    (hd : generateKeyScalarDrawn env fuel key x) :
    qat_ecdh_generate_key env fuel (some key)
      = qat_ecdh_generate_key_public env fuel group { key with priv_key := some x } := by
  obtain ⟨h1, h2, h3, h4, hdraw, h5⟩ := hd
  have e3 : (key.priv_key.isNone && !env.ok Site.gen_priv_new) = false := by
    cases hp : key.priv_key
    · simp [h3 hp]
    · simp
  have e5 : (key.priv_key.isNone && !env.ok Site.gen_set_private_key) = false := by
    cases hp : key.priv_key
    · simp [h5 hp]
    · simp
  simp only [qat_ecdh_generate_key, hg, hc, if_false, h1, h2, e3, h4, hdraw, e5,
    Bool.not_true, Bool.or_self, Bool.false_eq_true]

/-- The installation step leaves the group alone. -/
theorem generate_key_install_group (env : Env) (group : EC_GROUP) (key : EC_KEY)
    (x y : BIGNUM) :
    (qat_ecdh_generate_key_install env group key x y).2.group = key.group := by
  unfold qat_ecdh_generate_key_install
  split_ifs <;> rfl

/-- After the installation step the public key is the one the key had, or
the point as set. -/
theorem generate_key_install_pub (env : Env) (group : EC_GROUP) (key : EC_KEY)
    (x y : BIGNUM) :
    (qat_ecdh_generate_key_install env group key x y).2.pub_key = key.pub_key
    ∨ (qat_ecdh_generate_key_install env group key x y).2.pub_key
        = some (env.set_affine group x y) := by
  unfold qat_ecdh_generate_key_install
  split_ifs <;> first | exact Or.inl rfl | exact Or.inr rfl

/-- The installation step returns 0 or 1. -/
theorem generate_key_install_ret (env : Env) (group : EC_GROUP) (key : EC_KEY)
    (x y : BIGNUM) :
    (qat_ecdh_generate_key_install env group key x y).1 = 0
    ∨ (qat_ecdh_generate_key_install env group key x y).1 = 1 := by
  unfold qat_ecdh_generate_key_install
  split_ifs <;> first | exact Or.inl rfl | exact Or.inr rfl

/-- C25, counterexample.  `sampleKey` has the private scalar 5 and the public
key (4, 6); the scalar 3 is drawn, the accelerator returns 252 for each
coordinate, which the library stores as 1 modulo the field prime 251, so the
comparison of line 674 fails: `qat_ecdh_generate_key` returns 0, the private
scalar is 3, and the public key is not unchanged: it is (1, 1). -/
theorem C25_counterexample :
    sampleKey.priv_key = some 5 ∧ sampleKey.pub_key = some { x := 4, y := 6 }
    ∧ (qat_ecdh_generate_key envOutOfRange 5 (some sampleKey)).map
        (fun o => (o.ret, o.key.bind (fun k => k.priv_key), o.key.bind (fun k => k.pub_key)))
      = some (0, some 3, some { x := 1, y := 1 }) := by
  decide

/-- C25 (amended).  On a supported curve, let a call of `qat_ecdh_generate_key`
get past line 615 with the scalar `x` drawn.
(1) Every run that then returns a value other than 1 returns 0, and the key
holds `x` as its private scalar (a pre-existing scalar was overwritten in
place), on the same group; a key that had no public key still has none, and
if the public key differs from the one the key had, the run reached line 655
and the public key is the point as set there: a pre-existing point overwritten
in place.
(2) Accelerator failure or not-verified result: if `qat_ecdh_compute_key` on
the generator returns a value `≤ 0`, the function returns 0 and the key is
the caller's key with the private scalar replaced by `x`, the public key
unchanged.
(3) Coordinate mismatch: if the run reaches line 655 with coordinates of
which one differs after the round trip, the function returns 0 and the key
holds the private scalar `x`; a key that had no public key has none, a key
that had one holds the point as set (when the field type is known and the
set call succeeded). -/
theorem C25_failure_after_draw (env : Env) (fuel : Nat) (key : EC_KEY) (group : EC_GROUP)
    (x : BIGNUM) (hg : key.group = some group) (hc : group.curve_name ≠ NID_X25519)
    (hd : generateKeyScalarDrawn env fuel key x) :
    (∀ out, qat_ecdh_generate_key env fuel (some key) = some out → out.ret ≠ 1 →
      out.ret = 0 ∧ ∃ k, out.key = some k ∧ k.priv_key = some x ∧ k.group = key.group
        ∧ (key.pub_key = none → k.pub_key = none)
        ∧ (k.pub_key ≠ key.pub_key →
            ∃ xx yy, generateKeyReachesInstall env fuel key group xx yy
              ∧ k.pub_key = some (env.set_affine group xx yy)))
    ∧ (∀ gen r, group.generator = some gen →
        (key.pub_key = none → env.ok Site.gen_point_new = true) → 0 < group.degree →
        qat_ecdh_compute_key env fuel
          { outX := some none, outlenX := qat_ecdh_generate_key_field_len group
            outY := some none, outlenY := qat_ecdh_generate_key_field_len group }
          gen (some { key with priv_key := some x }) = some r →
        r.ret ≤ 0 →
        qat_ecdh_generate_key env fuel (some key)
          = some { ret := 0, key := some { key with priv_key := some x }, trace := r.trace })
    ∧ (∀ xx yy, generateKeyReachesInstall env fuel key group xx yy →
        ((env.set_affine group xx yy).x ≠ xx ∨ (env.set_affine group xx yy).y ≠ yy) →
        ∃ out k, qat_ecdh_generate_key env fuel (some key) = some out ∧ out.ret = 0
          ∧ out.key = some k ∧ k.priv_key = some x
          ∧ (key.pub_key = none → k.pub_key = none)
          ∧ ((group.field_type = NID_X9_62_prime_field
                ∨ group.field_type = NID_X9_62_characteristic_two_field) →
              env.ok Site.gen_set_affine = true → key.pub_key.isSome = true →
              k.pub_key = some (env.set_affine group xx yy))) := by
  have hrun := generate_key_of_drawn hg hc hd
  refine ⟨?_, ?_, ?_⟩
  · intro out h hret
    rw [hrun] at h
    rcases generate_key_public_cases h with ⟨h0, hk⟩ | ⟨gen, r, hgen, h6, h7, hr, hpos, h8,
      h9, h10, h11, hr1, hkey⟩
    · exact ⟨h0, _, hk, rfl, rfl, fun hp => hp, fun hne => absurd rfl hne⟩
    · refine ⟨?_, _, hkey, ?_, ?_, ?_, ?_⟩
      · rcases generate_key_install_ret env group { key with priv_key := some x }
          (BN_bin2bn (memcpyFrom r.out.outX.join r.out.outlenX))
          (BN_bin2bn (memcpyFrom r.out.outY.join r.out.outlenY)) with h0 | h1
        · exact hr1.trans h0
        · exact absurd (hr1.trans h1) hret
      · rw [generate_key_install_priv]
      · rw [generate_key_install_group]
      · intro hp
        rcases generate_key_install_cases env group { key with priv_key := some x }
          (BN_bin2bn (memcpyFrom r.out.outX.join r.out.outlenX))
          (BN_bin2bn (memcpyFrom r.out.outY.join r.out.outlenY)) with ⟨h1, -⟩ | ⟨-, hn, -⟩
        · exact absurd (hr1.trans h1) hret
        · exact hn hp
      · intro hne
        obtain ⟨h1, h2, h3, h4, hdraw, h5⟩ := hd
        refine ⟨_, _, ⟨x, gen, r, hg, hc, h1, h2, h3, h4, hdraw, h5, h6, h7, hgen, ?_, hpos,
          h8, h9, h10, h11, rfl, rfl⟩, ?_⟩
        · simpa only [hg] using hr
        · rcases generate_key_install_pub env group { key with priv_key := some x }
            (BN_bin2bn (memcpyFrom r.out.outX.join r.out.outlenX))
            (BN_bin2bn (memcpyFrom r.out.outY.join r.out.outlenY)) with hp | hp
          · exact absurd hp hne
          · exact hp
  · intro gen r hgen h6 h7 hr hneg
    rw [hrun]
    have e6 : (key.pub_key.isNone && !env.ok Site.gen_point_new) = false := by
      cases hp : key.pub_key
      · simp [h6 hp]
      · simp
    have e7 : ¬ group.degree ≤ 0 := not_le.mpr h7
    simp only [qat_ecdh_generate_key_public, e6, e7, hgen, hr, hneg, if_true, if_false,
      Bool.false_eq_true]
  · intro xx yy hreach hne
    obtain ⟨k1, tr, hk1, hout⟩ := generate_key_of_reaches hreach
    have hreach2 := hreach
    obtain ⟨d, gen, r, -, -, -, -, -, -, hdraw2, -, -, -, hgen, hr, hpos, h8, h9, h10, h11,
      hx, hy⟩ := hreach2
    have hdx : d = x := by
      have := hd.2.2.2.2.1
      rw [hdraw2] at this
      simpa using this
    subst hdx
    have hrun2 := hrun
    rw [hout] at hrun2
    obtain ⟨k, hk, hkp⟩ := generate_key_public_priv hrun2.symm
    simp only [Option.some.injEq] at hk
    refine ⟨_, _, hout, generate_key_install_mismatch env group k1 xx yy hne, rfl, ?_, ?_, ?_⟩
    · rw [hk]; exact hkp
    · intro hp
      rcases generate_key_install_cases env group k1 xx yy with ⟨-, hx1, hy1, -⟩ | ⟨-, hn, -⟩
      · rcases hne with h | h
        · exact absurd hx1 h
        · exact absurd hy1 h
      · exact hn (hk1.trans hp)
    · intro hf hs hp
      rcases generate_key_install_cases env group k1 xx yy with ⟨-, hx1, hy1, -⟩ | ⟨-, -, hn⟩
      · rcases hne with h | h
        · exact absurd hx1 h
        · exact absurd hy1 h
      · exact hn hf hs (by rw [hk1]; exact hp)

/-- C25 (amended), instance: `sampleKey` (private scalar 5, public key (4, 6))
with an accelerator that answers every submission with a hard failure: the
scalar 3 is drawn, the function returns 0, and the key holds the private
scalar 3 and the public key it had. -/
theorem C25_witness :
    sampleKey.group = some sampleGroup ∧ sampleGroup.curve_name ≠ NID_X25519
    ∧ generateKeyScalarDrawn envAccelFails 5 sampleKey 3
    ∧ sampleKey.priv_key = some 5
    ∧ (qat_ecdh_generate_key envAccelFails 5 (some sampleKey)).map (fun o => (o.ret, o.key))
        = some (0, some { sampleKey with priv_key := some 3 })
    ∧ ((0 : Int) = 0 ∧ ∃ k, some ({ sampleKey with priv_key := some 3 } : EC_KEY) = some k
        ∧ k.priv_key = some 3 ∧ k.group = sampleKey.group
        ∧ (sampleKey.pub_key = none → k.pub_key = none)
        ∧ (k.pub_key ≠ sampleKey.pub_key →
            ∃ xx yy, generateKeyReachesInstall envAccelFails 5 sampleKey sampleGroup xx yy
              ∧ k.pub_key = some (envAccelFails.set_affine sampleGroup xx yy))) :=
  ⟨rfl, by decide, ⟨rfl, rfl, fun _ => rfl, rfl, by decide, fun _ => rfl⟩, rfl, by decide,
   (C25_failure_after_draw envAccelFails 5 sampleKey sampleGroup 3 rfl (by decide)
      ⟨rfl, rfl, fun _ => rfl, rfl, by decide, fun _ => rfl⟩).1
     { ret := 0, key := some { sampleKey with priv_key := some 3 },
       trace := ((qat_ecdh_generate_key envAccelFails 5 (some sampleKey)).map
         (fun o => o.trace)).getD [] }
     (by decide) (by decide)⟩

end QatEc
